import Mathlib

/-!
# Pintos user-process subsystem: loader, wait and join

A shallow embedding of `src/userprog/process.c`.  C strings are lists of bytes
(`Nat`), user memory is a byte-addressed map, addresses are 32-bit values, and
the kernel collaborators the file calls into (allocator, file system, page
table, semaphores) appear as explicit oracles or as events of a trace.
-/

namespace Pintos

/-! ## C strings -/

/-- The space character, the only delimiter `parse_cmd` hands to `strtok_r`. -/
def SPACE : Nat := 32

/-- Reading `s[i]` of a C string kept as the list of bytes that precede its
terminator: every index at or past the end of the list reads the terminator. -/
def charAt (s : List Nat) (i : Nat) : Nat := s.getD i 0

/-- The bytes of a C string kept in a buffer: those before the first
terminator. -/
def cstr (s : List Nat) : List Nat := s.takeWhile (fun c => c != 0)

/-- Modelled from the spec: `strlen` of lib/string.c, the number of bytes before the first
terminator. -/
def strlen (s : List Nat) : Nat := (s.takeWhile (fun c => c != 0)).length

/-- Modelled from the spec: `strlcpy` of lib/string.c, seen through its destination: at most
`size - 1` bytes of the source string, the terminator being implicit. -/
def strlcpy (src : List Nat) (size : Nat) : List Nat :=
  (src.takeWhile (fun c => c != 0)).take (size - 1)

/-- Modelled from the spec: `strtok_r (s, " ", &rest)` of lib/string.c.  It skips the
delimiters at the current position and answers `none` (a null token) when the
string ends there; otherwise the token runs to the next delimiter or
terminator, and the saved pointer is left after the delimiter it overwrote, or
on the terminator when the string ended. The result is `(token, rest)`. -/
def strtok_r (s : List Nat) : Option (List Nat × List Nat) :=
  match s.dropWhile (fun c => c == SPACE) with
  | [] => none
  | c :: s1 =>
    if c = 0 then none
    else
      let token := (c :: s1).takeWhile (fun d => d != SPACE && d != 0)
      match (c :: s1).dropWhile (fun d => d != SPACE && d != 0) with
      | [] => some (token, [])
      | d :: s2 => if d = 0 then some (token, d :: s2) else some (token, s2)

/-! ## parse_cmd -/

/-- One entry of the kernel `argv` array that `parse_cmd` allocates: `malloc`
returns uninitialised memory, so an entry is garbage until it is assigned. -/
inductive Slot where
  | uninit : Slot
  | null : Slot
  | str (s : List Nat) : Slot
  deriving DecidableEq, Repr

/-- What `parse_cmd` hands back on success: the vector and the two
out-parameters. -/
structure Parsed where
  argv : List Slot
  num_args : Nat
  num_bytes : Nat
  deriving DecidableEq, Repr

/-- Outcome of a kernel routine: a value, the null return after a failed
`malloc`, a fault (a pointer that is not a string is dereferenced, an
assertion fails), or the loop bound of the model exhausted. -/
inductive Res (α : Type) where
  | done (a : α) : Res α
  | null : Res α
  | fault : Res α
  | fuel : Res α
  deriving DecidableEq, Repr

/-- The counting loop of `parse_cmd`, lines 368-372: `n` iterations are left,
the next one at index `i`. -/
def count_args (cmdline : List Nat) : Nat → Nat → Nat → Nat
  | 0, _, argc => argc
  | n + 1, i, argc =>
    if charAt cmdline i = SPACE ∧ charAt cmdline (i + 1) ≠ 0 ∧ charAt cmdline (i + 1) ≠ SPACE
    then count_args cmdline n (i + 1) (argc + 1)
    else count_args cmdline n (i + 1) argc

/-- The token loop of `parse_cmd`, lines 394-409.  `token` is the pending
result of `strtok_r`, `i` the next index of `argv`, `k` the number of `malloc`
calls made so far and `heap k` tells whether call number `k` succeeds. -/
def parse_loop (heap : Nat → Bool) :
    Nat → Option (List Nat × List Nat) → Nat → List Slot → Nat → Nat → Res (List Slot × Nat)
  | _, none, _, argv, total_bytes, _ => .done (argv, total_bytes)
  | 0, some _, _, _, _, _ => .fuel
  | fuel + 1, some (token, rest), i, argv, total_bytes, k =>
    let n := strlen token
    if heap k = false then .null
    else
      parse_loop heap fuel (strtok_r rest) (i + 1) (argv.set i (.str (strlcpy token (n + 1))))
        (total_bytes + (n + 1)) (k + 1)

/-- The routine `parse_cmd (cmdline, &num_args, &num_bytes)`, lines 363-416.
The `int` counters are natural numbers: the command line is the copy of at
most one page that `process_execute` makes, far below `2^31` bytes. -/
def parse_cmd (heap : Nat → Bool) (cmdline : List Nat) : Res Parsed :=
  let len := strlen cmdline
  let argc := count_args cmdline len 0 1
  if heap 0 = false then .null
  else
    let argv := List.replicate (argc + 1) Slot.uninit
    let input_str := strlcpy cmdline (len + 1)
    match parse_loop heap (len + 1) (strtok_r input_str) 0 argv 0 1 with
    | .done (argv1, total_bytes) =>
      .done { argv := argv1.set argc Slot.null, num_args := argc, num_bytes := total_bytes }
    | .null => .null
    | .fault => .fault
    | .fuel => .fuel

/-- The bytes of a string literal. -/
def bytes (s : String) : List Nat := s.toList.map Char.toNat

/-! ## 32-bit addresses and user memory -/

/-- Reduction of a value to 32 bits, as pointer and `unsigned` arithmetic
does. -/
def wrap (x : Nat) : Nat := x % 2 ^ 32

/-- The 32-bit difference `a - b`: the plain difference when it is not
negative, and `2^32` more otherwise. -/
def sub32 (a b : Nat) : Nat :=
  if b % 2 ^ 32 ≤ a % 2 ^ 32 then a % 2 ^ 32 - b % 2 ^ 32 else a % 2 ^ 32 + 2 ^ 32 - b % 2 ^ 32

/-- User memory as `push_args` and `start_pthread` write it: one byte per
address.  Whether an address is mapped is told by the page table, not by this
store. -/
abbrev Mem := Nat → Nat

/-- A one-byte store. -/
def store8 (m : Mem) (a b : Nat) : Mem := fun x => if x = a then b else m x

/-- The bytes `bs` stored from address `a` upwards. -/
def storeBytes (m : Mem) (a : Nat) : List Nat → Mem
  | [] => m
  | b :: bs => storeBytes (store8 m a b) (wrap (a + 1)) bs

/-- A little-endian store of a 32-bit value, as the 80x86 does it. -/
def store32 (m : Mem) (a v : Nat) : Mem :=
  storeBytes m a [v % 256, v / 256 % 256, v / 65536 % 256, v / 16777216 % 256]

/-- A little-endian 32-bit load. -/
def load32 (m : Mem) (a : Nat) : Nat :=
  m a + 256 * m (wrap (a + 1)) + 65536 * m (wrap (a + 2)) + 16777216 * m (wrap (a + 3))

/-- The `n` bytes from address `a` upwards. -/
def loadBytes (m : Mem) (a : Nat) : Nat → List Nat
  | 0 => []
  | n + 1 => m a :: loadBytes m (wrap (a + 1)) n

/-! ## Pages, files and the page table -/

/-- The constant `PGSIZE` of threads/vaddr.h, `1 << PGBITS`; the number of
bits `PGBITS` of a page offset is a parameter of the model. -/
def PGSIZE (PGBITS : Nat) : Nat := 2 ^ PGBITS

/-- The constant `PGMASK` of threads/vaddr.h: the low `PGBITS` bits. -/
def PGMASK (PGBITS : Nat) : Nat := 2 ^ PGBITS - 1

/-- The 32-bit complement `~PGMASK`. -/
def notPGMASK (PGBITS : Nat) : Nat := 2 ^ 32 - 1 - PGMASK PGBITS

/-- Modelled from the spec: `is_user_vaddr` of threads/vaddr.h, an address
below the top of user space `PHYS_BASE`. -/
def is_user_vaddr (PHYS_BASE vaddr : Nat) : Bool := decide (vaddr < PHYS_BASE)

/-- Modelled from the spec: `ROUND_UP (X, STEP)` of lib/round.h,
`(X + STEP - 1) / STEP * STEP` in `unsigned` arithmetic. -/
def ROUND_UP (x step : Nat) : Nat := wrap (wrap (x + step - 1) / step * step)

/-- An open file: its bytes, the position of the next read and whether
writes to it are denied. -/
structure File where
  data : List Nat
  pos : Nat
  deny_write : Bool

/-- Modelled from the spec: `file_read` of filesys/file.c, the bytes from the
position up to `size` of them or the end of the file; the position advances by
the number read. -/
def file_read (f : File) (size : Nat) : List Nat × File :=
  ((f.data.drop f.pos).take size, { f with pos := f.pos + ((f.data.drop f.pos).take size).length })

/-- Modelled from the spec: `file_length` of filesys/file.c. -/
def file_length (f : File) : Nat := f.data.length

/-- Modelled from the spec: `file_seek` of filesys/file.c. -/
def file_seek (f : File) (new_pos : Nat) : File := { f with pos := new_pos }

/-- The kernel collaborators of the loader, as oracles: whether
`pagedir_create` yields a table, whether call number `k` of `malloc`, of
`palloc_get_page` and of `pagedir_set_page` finds memory, and the file that
`filesys_open` finds under a name. -/
structure Env where
  pagedir_create : Bool
  malloc : Nat → Bool
  palloc : Nat → Bool
  set_page : Nat → Bool
  filesys : List Nat → Option (List Nat)

/-- The state `load` works on: the page table of the process (page number to
writable flag, `none` for a null table), user memory, the executable kept in
the process block, the number of `palloc_get_page` and `pagedir_set_page`
calls made, and the two out-parameters. -/
structure Kernel where
  pagedir : Option (Nat → Option Bool)
  mem : Mem
  exec : Option File
  pallocs : Nat
  set_pages : Nat
  eip : Option Nat
  esp : Option Nat

/-- Modelled from the spec: `pagedir_get_page` of userprog/pagedir.c, seen
through its null test: whether the page of `uaddr` has a mapping. -/
def pagedir_get_page (PGBITS : Nat) (pd : Nat → Option Bool) (uaddr : Nat) : Bool :=
  (pd (uaddr / PGSIZE PGBITS)).isSome

/-- Modelled from the spec: `pagedir_set_page` of userprog/pagedir.c, which maps
the page of `upage` to a frame holding `kpage`. -/
def pagedir_set_page (PGBITS : Nat) (pd : Nat → Option Bool) (upage : Nat) (writable : Bool) :
    Nat → Option Bool :=
  fun pg => if pg = upage / PGSIZE PGBITS then some writable else pd pg

/-- The routine `install_page (upage, kpage, writable)`, lines 749-758; the
frame's bytes become the memory of the page. -/
def install_page (env : Env) (PGBITS : Nat) (k : Kernel) (upage : Nat) (kpage : List Nat)
    (writable : Bool) : Res (Bool × Kernel) :=
  match k.pagedir with
  | none => .fault
  | some pd =>
    if pagedir_get_page PGBITS pd upage = false then
      if env.set_page k.set_pages = true then
        .done (true, { k with pagedir := some (pagedir_set_page PGBITS pd upage writable),
                              mem := storeBytes k.mem upage kpage,
                              set_pages := k.set_pages + 1 })
      else .done (false, { k with set_pages := k.set_pages + 1 })
    else .done (false, k)

/-! ## ELF headers -/

/-- The executable header, lines 309-324. -/
structure Elf32_Ehdr where
  e_ident : List Nat
  e_type : Nat
  e_machine : Nat
  e_version : Nat
  e_entry : Nat
  e_phoff : Nat
  e_shoff : Nat
  e_flags : Nat
  e_ehsize : Nat
  e_phentsize : Nat
  e_phnum : Nat
  e_shentsize : Nat
  e_shnum : Nat
  e_shstrndx : Nat
  deriving DecidableEq, Repr

/-- The program header, lines 329-338. -/
structure Elf32_Phdr where
  p_type : Nat
  p_offset : Nat
  p_vaddr : Nat
  p_paddr : Nat
  p_filesz : Nat
  p_memsz : Nat
  p_flags : Nat
  p_align : Nat
  deriving DecidableEq, Repr

/-- The size of `struct Elf32_Ehdr`: 16 identification bytes, two half words,
five words and six half words. -/
def sizeof_Ehdr : Nat := 52

/-- The size of `struct Elf32_Phdr`: eight words. -/
def sizeof_Phdr : Nat := 32

def PT_NULL : Nat := 0
def PT_LOAD : Nat := 1
def PT_DYNAMIC : Nat := 2
def PT_INTERP : Nat := 3
def PT_NOTE : Nat := 4
def PT_SHLIB : Nat := 5
def PT_PHDR : Nat := 6
def PT_STACK : Nat := 0x6474e551
def PF_W : Nat := 2

/-- The byte at index `i` of a buffer read from a file. -/
def byteAt (bs : List Nat) (i : Nat) : Nat := bs.getD i 0 % 256

/-- A little-endian half word of a buffer. -/
def le16 (bs : List Nat) (o : Nat) : Nat := byteAt bs o + 256 * byteAt bs (o + 1)

/-- A little-endian word of a buffer. -/
def le32 (bs : List Nat) (o : Nat) : Nat :=
  byteAt bs o + 256 * byteAt bs (o + 1) + 65536 * byteAt bs (o + 2) +
    16777216 * byteAt bs (o + 3)

/-- The structure `Elf32_Ehdr` that a buffer of `sizeof_Ehdr` bytes holds. -/
def decode_Ehdr (bs : List Nat) : Elf32_Ehdr :=
  { e_ident := (List.range 16).map (byteAt bs), e_type := le16 bs 16, e_machine := le16 bs 18,
    e_version := le32 bs 20, e_entry := le32 bs 24, e_phoff := le32 bs 28, e_shoff := le32 bs 32,
    e_flags := le32 bs 36, e_ehsize := le16 bs 40, e_phentsize := le16 bs 42,
    e_phnum := le16 bs 44, e_shentsize := le16 bs 46, e_shnum := le16 bs 48,
    e_shstrndx := le16 bs 50 }

/-- The structure `Elf32_Phdr` that a buffer of `sizeof_Phdr` bytes holds. -/
def decode_Phdr (bs : List Nat) : Elf32_Phdr :=
  { p_type := le32 bs 0, p_offset := le32 bs 4, p_vaddr := le32 bs 8, p_paddr := le32 bs 12,
    p_filesz := le32 bs 16, p_memsz := le32 bs 20, p_flags := le32 bs 24, p_align := le32 bs 28 }

/-- The identification bytes `"\177ELF\1\1\1"` that `load` compares with. -/
def ELF_MAGIC : List Nat := [127, 69, 76, 70, 1, 1, 1]

/-- The test of lines 458-460 on the outcome of `file_read (file, &ehdr, sizeof
ehdr)`: `true` when `load` gives up on the executable.  The header fields are
only looked at after a full read. -/
def ehdr_rejected (nread : Nat) (ehdr : Elf32_Ehdr) : Bool :=
  nread != sizeof_Ehdr || ehdr.e_ident.take 7 != ELF_MAGIC || ehdr.e_type != 2 ||
    ehdr.e_machine != 3 || ehdr.e_version != 1 || ehdr.e_phentsize != sizeof_Phdr ||
    decide (ehdr.e_phnum > 1024)

/-! ## validate_segment and load_segment -/

/-- The routine `validate_segment (phdr, file)`, lines 536-575. -/
def validate_segment (PGBITS PHYS_BASE : Nat) (phdr : Elf32_Phdr) (file : File) : Bool :=
  if phdr.p_offset &&& PGMASK PGBITS ≠ phdr.p_vaddr &&& PGMASK PGBITS then false
  else if phdr.p_offset > wrap (file_length file) then false
  else if phdr.p_memsz < phdr.p_filesz then false
  else if phdr.p_memsz = 0 then false
  else if is_user_vaddr PHYS_BASE phdr.p_vaddr = false then false
  else if is_user_vaddr PHYS_BASE (wrap (phdr.p_vaddr + phdr.p_memsz)) = false then false
  else if wrap (phdr.p_vaddr + phdr.p_memsz) < phdr.p_vaddr then false
  else if phdr.p_vaddr < PGSIZE PGBITS then false
  else true

/-- The arguments `load` computes for `load_segment`, lines 491-506. -/
structure SegArgs where
  writable : Bool
  file_page : Nat
  mem_page : Nat
  read_bytes : Nat
  zero_bytes : Nat
  deriving DecidableEq, Repr

/-- Lines 491-506 of `load`: the arguments of `load_segment` for an accepted
`PT_LOAD` header. -/
def segment_args (PGBITS : Nat) (phdr : Elf32_Phdr) : SegArgs :=
  let writable := decide (phdr.p_flags &&& PF_W ≠ 0)
  let file_page := phdr.p_offset &&& notPGMASK PGBITS
  let mem_page := phdr.p_vaddr &&& notPGMASK PGBITS
  let page_offset := phdr.p_vaddr &&& PGMASK PGBITS
  if phdr.p_filesz > 0 then
    let read_bytes := wrap (page_offset + phdr.p_filesz)
    { writable := writable, file_page := file_page, mem_page := mem_page,
      read_bytes := read_bytes,
      zero_bytes := sub32 (ROUND_UP (wrap (page_offset + phdr.p_memsz)) (PGSIZE PGBITS)) read_bytes }
  else
    { writable := writable, file_page := file_page, mem_page := mem_page,
      read_bytes := 0,
      zero_bytes := ROUND_UP (wrap (page_offset + phdr.p_memsz)) (PGSIZE PGBITS) }

/-- The page loop of `load_segment`, lines 606-635, with a bound on the number
of iterations.  The result tells whether every page was loaded. -/
def load_segment_loop (env : Env) (PGBITS : Nat) :
    Nat → File → Nat → Nat → Nat → Bool → Kernel → Res (Bool × File × Kernel)
  | 0, file, _, read_bytes, zero_bytes, _, k =>
    if read_bytes > 0 ∨ zero_bytes > 0 then .fuel else .done (true, file, k)
  | fuel + 1, file, upage, read_bytes, zero_bytes, writable, k =>
    if read_bytes > 0 ∨ zero_bytes > 0 then
      let page_read_bytes := if read_bytes < PGSIZE PGBITS then read_bytes else PGSIZE PGBITS
      let page_zero_bytes := PGSIZE PGBITS - page_read_bytes
      if env.palloc k.pallocs = false then
        .done (false, file, { k with pallocs := k.pallocs + 1 })
      else
        let k := { k with pallocs := k.pallocs + 1 }
        let r := file_read file page_read_bytes
        if r.1.length ≠ page_read_bytes then .done (false, r.2, k)
        else
          let kpage := r.1 ++ List.replicate page_zero_bytes 0
          match install_page env PGBITS k upage kpage writable with
          | .done (true, k) =>
            load_segment_loop env PGBITS fuel r.2 (wrap (upage + PGSIZE PGBITS))
              (sub32 read_bytes page_read_bytes) (sub32 zero_bytes page_zero_bytes) writable k
          | .done (false, k) => .done (false, r.2, k)
          | .null => .null
          | .fault => .fault
          | .fuel => .fuel
    else .done (true, file, k)

/-- The routine `load_segment (file, ofs, upage, read_bytes, zero_bytes,
writable)`, lines 599-637.  A failed assertion is a fault. -/
def load_segment (env : Env) (PGBITS : Nat) (file : File) (ofs upage read_bytes zero_bytes : Nat)
    (writable : Bool) (k : Kernel) : Res (Bool × File × Kernel) :=
  if wrap (read_bytes + zero_bytes) % PGSIZE PGBITS ≠ 0 then .fault
  else if upage &&& PGMASK PGBITS ≠ 0 then .fault
  else if ofs % PGSIZE PGBITS ≠ 0 then .fault
  else
    load_segment_loop env PGBITS ((read_bytes + zero_bytes) / PGSIZE PGBITS + 1)
      (file_seek file ofs) upage read_bytes zero_bytes writable k

/-! ## push_args -/

/-- The padding search of `push_args`, lines 647-650, with a bound on the
number of iterations: `none` when the bound is reached. -/
def pad_loop (init_esp : Nat) : Nat → Nat → Option Nat
  | 0, _ => none
  | fuel + 1, padding =>
    if sub32 init_esp padding % 16 ≠ 0 then pad_loop init_esp fuel (padding + 1)
    else some padding

/-- Modelled from the spec: the access of the processor to the `n` bytes from
address `a` upwards when the kernel stores into them under the page table `pd`
of the process: every byte has to lie in a page that the table maps writable,
or the store raises a page fault. -/
def mapped_writable (PGBITS : Nat) (pd : Nat → Option Bool) (a n : Nat) : Bool :=
  (List.range n).all (fun i => decide (pd (wrap (a + i) / PGSIZE PGBITS) = some true))

/-- The copy loop of `push_args`, lines 668-678: `n` iterations are left, the
next one for `argv[i]`; `sp` walks the pointer array and `sp_2` the string
area.  An entry that is no string cannot be measured by `strlen`: a fault.  The
copy of the string and the store of its address go through the page table `pd`
of the process: a fault when a byte is not mapped writable. -/
def push_loop (PGBITS : Nat) (pd : Nat → Option Bool) (argv : List Slot) :
    Nat → Nat → Nat → Nat → Mem → Res (Mem × Nat)
  | 0, _, sp, _, m => .done (m, sp)
  | n + 1, i, sp, sp_2, m =>
    match argv[i]? with
    | some (.str s) =>
      if mapped_writable PGBITS pd sp_2 (strlen s + 1) = false then .fault
      else if mapped_writable PGBITS pd sp 4 = false then .fault
      else
        let m1 := storeBytes m sp_2 (strlcpy s (strlen s + 1) ++ [0])
        let m2 := store32 m1 sp sp_2
        push_loop PGBITS pd argv n (i + 1) (wrap (sp + 4)) (wrap (sp_2 + (strlen s + 1))) m2
    | _ => .fault

/-- The routine `push_args (argc, argv, total_bytes)`, lines 640-690, writing
into the user memory `m` under the page table `pd` of the process; the result
is the memory and the returned initial stack pointer.  Each store (of `argc`,
line 658, of the `argv` pointer, line 660, in the loop, and of the null entry,
line 681) faults when it leaves the pages that `pd` maps writable.
`PHYS_BASE` is the constant of threads/vaddr.h, taken as a parameter. -/
def push_args (PGBITS : Nat) (pd : Nat → Option Bool) (PHYS_BASE argc : Nat)
    (argv : List Slot) (total_bytes : Nat) (m : Mem) : Res (Mem × Nat) :=
  let init_esp := sub32 PHYS_BASE (wrap (total_bytes + (argc + 1) * 4 + 4 + 4))
  match pad_loop init_esp 16 0 with
  | none => .fuel
  | some padding =>
    let init_esp := sub32 init_esp padding
    let sp := init_esp
    if mapped_writable PGBITS pd sp 4 = false then .fault
    else
      let m := store32 m sp argc
      let sp := wrap (sp + 4)
      if mapped_writable PGBITS pd sp 4 = false then .fault
      else
        let m := store32 m sp (wrap (sp + 4))
        let sp := wrap (sp + 4)
        let sp_2 := wrap (sp + padding + (argc + 1) * 4)
        match push_loop PGBITS pd argv argc 0 sp sp_2 m with
        | .done (m, sp) =>
          if mapped_writable PGBITS pd sp 4 = false then .fault
          else .done (store32 m sp 0, sub32 init_esp 4)
        | .null => .null
        | .fault => .fault
        | .fuel => .fuel

/-! ## setup_stack and load -/

/-- The routine `setup_stack (argc, argv, total_bytes, &esp)`, lines 696-738:
one zeroed page mapped just below `PHYS_BASE`, then `push_args`, whose stores go
through the page table of the process as `install_page` left it. -/
def setup_stack (env : Env) (PGBITS PHYS_BASE argc : Nat) (argv : List Slot) (total_bytes : Nat)
    (k : Kernel) : Res (Bool × Kernel) :=
  if env.palloc k.pallocs = false then .done (false, { k with pallocs := k.pallocs + 1 })
  else
    let k := { k with pallocs := k.pallocs + 1 }
    match install_page env PGBITS k (sub32 PHYS_BASE (PGSIZE PGBITS))
        (List.replicate (PGSIZE PGBITS) 0) true with
    | .done (true, k) =>
      match k.pagedir with
      | none => .fault
      | some pd =>
        match push_args PGBITS pd PHYS_BASE argc argv total_bytes k.mem with
        | .done (m, init_esp) => .done (true, { k with mem := m, esp := some init_esp })
        | .null => .null
        | .fault => .fault
        | .fuel => .fuel
    | .done (false, k) => .done (false, k)
    | .null => .null
    | .fault => .fault
    | .fuel => .fuel

/-- The conversion of an `Elf32_Off` to the signed `off_t`. -/
def toOff (x : Nat) : Int := if x < 2 ^ 31 then (x : Int) else (x : Int) - 2 ^ 32

/-- The program-header loop of `load`, lines 467-513: `n` headers are left and
the next one is read at `file_ofs`.  The result tells whether the loop ran to
its end (`true`) or left for `done` (`false`). -/
def load_phdrs (env : Env) (PGBITS PHYS_BASE : Nat) :
    Nat → Int → File → Kernel → Res (Bool × File × Kernel)
  | 0, _, file, k => .done (true, file, k)
  | n + 1, file_ofs, file, k =>
    if file_ofs < 0 ∨ file_ofs > (file_length file : Int) then .done (false, file, k)
    else
      let r := file_read (file_seek file file_ofs.toNat) sizeof_Phdr
      if r.1.length ≠ sizeof_Phdr then .done (false, r.2, k)
      else
        let phdr := decode_Phdr r.1
        if phdr.p_type = PT_DYNAMIC ∨ phdr.p_type = PT_INTERP ∨ phdr.p_type = PT_SHLIB then
          .done (false, r.2, k)
        else if phdr.p_type = PT_LOAD then
          if validate_segment PGBITS PHYS_BASE phdr r.2 = true then
            let a := segment_args PGBITS phdr
            match load_segment env PGBITS r.2 a.file_page a.mem_page a.read_bytes a.zero_bytes
                a.writable k with
            | .done (true, file, k) =>
              load_phdrs env PGBITS PHYS_BASE n (file_ofs + sizeof_Phdr) file k
            | .done (false, file, k) => .done (false, file, k)
            | .null => .null
            | .fault => .fault
            | .fuel => .fuel
          else .done (false, r.2, k)
        else load_phdrs env PGBITS PHYS_BASE n (file_ofs + sizeof_Phdr) r.2 k

/-- The routine `load (file_name, &eip, &esp)`, lines 422-528.  The result is
the returned `success` and the state left behind.  `process_activate` and
`file_deny_write` leave no trace other than the flag of the file; the
position of the file is the loader's own business and the process block keeps
the file as it was opened. -/
def load (env : Env) (PGBITS PHYS_BASE : Nat) (file_name : List Nat) (k : Kernel) :
    Res (Bool × Kernel) :=
  if env.pagedir_create = false then .done (false, { k with pagedir := none })
  else
    let k := { k with pagedir := some (fun _ => none) }
    match parse_cmd env.malloc file_name with
    | .null => .done (false, k)
    | .fault => .fault
    | .fuel => .fuel
    | .done p =>
      match (p.argv[0]? : Option Slot) with
      | some (Slot.str name) =>
        match env.filesys (cstr name) with
        | none => .done (false, k)
        | some data =>
          let file : File := { data := data, pos := 0, deny_write := true }
          let k := { k with exec := some file }
          let r := file_read file sizeof_Ehdr
          let ehdr := decode_Ehdr r.1
          if ehdr_rejected r.1.length ehdr = true then .done (false, k)
          else
            match load_phdrs env PGBITS PHYS_BASE ehdr.e_phnum (toOff ehdr.e_phoff) r.2 k with
            | .done (true, _, k) =>
              match setup_stack env PGBITS PHYS_BASE p.num_args p.argv p.num_bytes k with
              | .done (true, k) => .done (true, { k with eip := some ehdr.e_entry })
              | .done (false, k) => .done (false, k)
              | .null => .null
              | .fault => .fault
              | .fuel => .fuel
            | .done (false, _, k) => .done (false, k)
            | .null => .null
            | .fault => .fault
            | .fuel => .fuel
      | _ => .fault

/-- Program header number `i` of the table that starts at offset `ofs` of a
file with the bytes `data`. -/
def phdr_at (data : List Nat) (ofs i : Nat) : Elf32_Phdr :=
  decode_Phdr ((data.drop (ofs + sizeof_Phdr * i)).take sizeof_Phdr)

/-! ## process_wait -/

/-- A child-status record of the parent's `childs_status_lst`: the child's id,
its exit code, the flag `success` that `process_wait` sets when it claims the
record, and the value of the semaphore `wait_sema` the child raises when it
exits. -/
structure child_status where
  tid : Int
  exit : Int
  success : Bool
  wait_sema : Nat
  deriving DecidableEq, Repr

/-- What a kernel routine does to its collaborators, in order. -/
inductive Event where
  | sema_down_wait (c : child_status) : Event
  | list_remove (c : child_status) : Event
  | free (c : child_status) : Event
  | lock_acquire_threads : Event
  | lock_release_threads : Event
  | lock_release_syscall : Event
  | lock_acquire_syscall : Event
  | sema_down_exit (tid : Int) : Event
  deriving DecidableEq, Repr

/-- Modelled from the spec: `sema_down` of threads/synch.c on the exit signal
of a child-status record.  A semaphore that was already raised is lowered and
the record is as the child left it; otherwise the caller sleeps until the
child has stored its exit code, `child_exit tid`, and raised the semaphore. -/
def sema_down_wait (child_exit : Int → Int) (c : child_status) : child_status :=
  if c.wait_sema > 0 then { c with wait_sema := c.wait_sema - 1 }
  else { c with exit := child_exit c.tid }

/-- The outcome of `process_wait`: the returned value, the list left behind
and the calls made on the way. -/
structure WaitResult where
  ret : Int
  list : List child_status
  events : List Event
  deriving DecidableEq, Repr

/-- The loop and the tail of `process_wait`, lines 184-202: `start` is at the
head of the second list and the first list holds the records already passed. -/
def process_wait_from (child_exit : Int → Int) (child_pid : Int) :
    List child_status → List child_status → WaitResult
  | passed, [] => { ret := -1, list := passed, events := [] }
  | passed, c :: rest =>
    if c.tid = child_pid ∧ c.success = false then
      let c1 := { c with success := true }
      let c2 := sema_down_wait child_exit c1
      { ret := c2.exit, list := passed ++ rest,
        events := [.sema_down_wait c1, .list_remove c2, .free c2] }
    else if c.tid = child_pid then
      { ret := -1, list := passed ++ c :: rest, events := [] }
    else process_wait_from child_exit child_pid (passed ++ [c]) rest

/-- The routine `process_wait (child_pid)`, lines 181-203, on the child-status
list of the calling thread. -/
def process_wait (child_exit : Int → Int) (child_pid : Int) (l : List child_status) :
    WaitResult :=
  process_wait_from child_exit child_pid [] l

/-! ## pthread_join -/

/-- Modelled from the spec: `TID_ERROR` of threads/thread.h, the error value
of thread ids. -/
def TID_ERROR : Int := -1

/-- A record of the list `process_threads` of a process: the id of the
secondary thread, whether it has exited, the thread registered as its waiter
if there is one, and the value of the semaphore `exit_wait`. -/
structure process_thread where
  tid : Int
  thread_exited : Bool
  thread_waiter : Option Int
  exit_wait : Nat
  deriving DecidableEq, Repr

/-- The outcome of `pthread_join`: the returned value, the list left behind
and the calls made on the way. -/
structure JoinResult where
  ret : Int
  list : List process_thread
  events : List Event
  deriving DecidableEq, Repr

/-- The search loop of `pthread_join`, lines 956-964: the first record with
the given id. -/
def find_process_thread (tid : Int) : List process_thread → Option process_thread
  | [] => none
  | r :: rest => if r.tid = tid then some r else find_process_thread tid rest

/-- The records with the first record of the given id replaced. -/
def set_process_thread (tid : Int) (r1 : process_thread) :
    List process_thread → List process_thread
  | [] => []
  | r :: rest => if r.tid = tid then r1 :: rest else r :: set_process_thread tid r1 rest

/-- Modelled from the spec: `sema_down` of threads/synch.c on `exit_wait`: it
returns once the target has run `pthread_exit`, which marks the record exited
before it raises the semaphore. -/
def sema_down_exit (r : process_thread) : process_thread :=
  { r with thread_exited := true, exit_wait := r.exit_wait - 1 }

/-- The routine `pthread_join (tid)`, lines 948-989, called by the thread
`curr_thread` on the list `process_threads` of its process. -/
def pthread_join (curr_thread tid : Int) (l : List process_thread) : JoinResult :=
  match find_process_thread tid l with
  | none =>
    { ret := TID_ERROR, list := l, events := [.lock_acquire_threads, .lock_release_threads] }
  | some r =>
    if r.thread_waiter ≠ none then
      { ret := TID_ERROR, list := l, events := [.lock_acquire_threads, .lock_release_threads] }
    else if r.thread_exited = true then
      { ret := tid, list := l, events := [.lock_acquire_threads, .lock_release_threads] }
    else
      { ret := tid,
        list := set_process_thread tid (sema_down_exit { r with thread_waiter := some curr_thread }) l,
        events := [.lock_acquire_threads, .lock_release_threads, .lock_release_syscall,
          .sema_down_exit tid, .lock_acquire_syscall] }

/-! ## Validation of system-call arguments -/

/-- The loop of `validate_syscall_arg`, lines 222-245, with the number of
iterations left and the pointer `args` of the iteration: the pointer is checked
for `NULL`, for `is_user_vaddr` and for a mapping in the page table, then moved
one 32-bit word up. The result is the flag `is_valid`. -/
def validate_loop (PGBITS PHYS_BASE : Nat) (pd : Nat → Option Bool) : Nat → Nat → Nat
  | 0, _ => 1
  | n + 1, args =>
    if args = 0 then 0
    else if (!is_user_vaddr PHYS_BASE args) = true then 0
    else if (!pagedir_get_page PGBITS pd args) = true then 0
    else validate_loop PGBITS PHYS_BASE pd n (wrap (args + 4))

/-- The routine `validate_syscall_arg (args, args_count)`, lines 220-247, on the
page table `pd` of the calling process: the loop runs for
`i = 0, ..., args_count`. -/
def validate_syscall_arg (PGBITS PHYS_BASE : Nat) (pd : Nat → Option Bool)
    (args args_count : Nat) : Nat :=
  validate_loop PGBITS PHYS_BASE pd (args_count + 1) args

/-- The routine `check_bad_pointer (addr)`, lines 695-704: 1 for a bad pointer,
0 for a good one. -/
def check_bad_pointer (PGBITS PHYS_BASE : Nat) (pd : Nat → Option Bool) (addr : Nat) : Nat :=
  if (!is_user_vaddr PHYS_BASE addr) = true then 1
  else if (!pagedir_get_page PGBITS pd addr) = true then 1
  else if addr = 0 then 1
  else 0

/-- A page table with the topmost page of user space mapped writable and the
first page of the kernel mapped, for 4096-byte pages below 3221225472. -/
def samplePd : Nat → Option Bool :=
  fun pg => if pg = 786431 then some true else if pg = 786432 then some true else none

/-! ## The process block -/

deriving instance DecidableEq, Repr for File

/-- An entry of the list `file_desc_entry_list`: the descriptor, the pointer
`file_name` and the open file `fptr`. -/
structure file_desc_entry where
  fd : Int
  file_name : Nat
  fptr : File
  deriving DecidableEq, Repr

/-- Modelled from the spec: `struct lock` of threads/synch.h, seen through the
thread that holds it. -/
structure lock where
  holder : Option Int
  deriving DecidableEq, Repr

/-- Modelled from the spec: `struct semaphore` of threads/synch.h, seen through
its value. -/
structure semaphore where
  value : Nat
  deriving DecidableEq, Repr

/-- An entry of the list `user_locks`: the user address that names the lock and
the kernel lock behind it. -/
structure user_lock_entry where
  user_lock_id : Nat
  lock : lock
  deriving DecidableEq, Repr

/-- An entry of the list `user_semaphores`. -/
structure user_sema_entry where
  user_sema_id : Nat
  sema : semaphore
  deriving DecidableEq, Repr

/-- The fields of `struct process` that the two source files use: the page
table, the executable, the file descriptor table with its counter, the user
locks and semaphores, and the records of the secondary threads. -/
structure process where
  pagedir : Option (Nat → Option Bool)
  exec : Option File
  file_desc_entry_list : List file_desc_entry
  next_available_fd : Int
  user_locks : List user_lock_entry
  user_semaphores : List user_sema_entry
  process_threads : List process_thread

/-- The process block as `start_process` leaves the descriptor table, lines
124-125: no entry, next descriptor 2; the other lists are empty. -/
def fresh_process (pd : Option (Nat → Option Bool)) (exec : Option File) : process :=
  { pagedir := pd, exec := exec, file_desc_entry_list := [], next_available_fd := 2,
    user_locks := [], user_semaphores := [], process_threads := [] }

/-! ## The file descriptor table -/

/-- The routine `find_entry_by_fd (fd)`, lines 68-78: the first entry of the
list with the descriptor. -/
def find_entry_by_fd (fd : Int) : List file_desc_entry → Option file_desc_entry
  | [] => none
  | f :: rest => if f.fd = fd then some f else find_entry_by_fd fd rest

/-- The list without the entry that `find_entry_by_fd` finds (`list_remove` on
the element of that entry). -/
def remove_entry (fd : Int) : List file_desc_entry → List file_desc_entry
  | [] => []
  | f :: rest => if f.fd = fd then rest else f :: remove_entry fd rest

/-- The list with the file of the entry that `find_entry_by_fd` finds
replaced (the file routines work on the file through the pointer `fptr`). -/
def set_entry_file (fd : Int) (file : File) : List file_desc_entry → List file_desc_entry
  | [] => []
  | f :: rest =>
    if f.fd = fd then { f with fptr := file } :: rest else f :: set_entry_file fd file rest

/-- The increment of an `int` by one, wrapping at `2 ^ 31`. -/
def int_succ (n : Int) : Int :=
  if n + 1 < 2147483648 then n + 1 else n + 1 - 4294967296

/-- The routine `find_next_available_fd`, lines 83-85. -/
def find_next_available_fd (p : process) : process :=
  { p with next_available_fd := int_succ p.next_available_fd }

/-- The routine `open (file)`, lines 476-494. `new_fde` tells whether `malloc`
found memory and `requested_file` is what `filesys_open` returned. -/
def sys_open (new_fde : Bool) (requested_file : Option File) (file : Nat) (p : process) :
    Int × process :=
  match requested_file with
  | none => (-1, p)
  | some f =>
    if new_fde = false then (-1, p)
    else
      (p.next_available_fd,
        find_next_available_fd
          { p with file_desc_entry_list :=
              p.file_desc_entry_list ++
                [{ fd := p.next_available_fd, file_name := file, fptr := f }] })

/-- The routine `filesize (fd)`, lines 498-506. -/
def filesize (fd : Int) (p : process) : Int :=
  match find_entry_by_fd fd p.file_desc_entry_list with
  | none => -1
  | some entry => (file_length entry.fptr : Int)

/-- Modelled from the spec: `file_tell` of filesys/file.c. -/
def file_tell (f : File) : Nat := f.pos

/-- Modelled from the spec: `file_write` of filesys/file.c: the bytes that fit
before the end of the file are written at the position, none when writes are
denied; the position advances by the number written. -/
def file_write (f : File) (bs : List Nat) : Nat × File :=
  if f.deny_write = true then (0, f)
  else
    (min bs.length (f.data.length - f.pos),
      { f with data := f.data.take f.pos ++ bs.take (f.data.length - f.pos) ++
                 f.data.drop (f.pos + min bs.length (f.data.length - f.pos)),
               pos := f.pos + min bs.length (f.data.length - f.pos) })

/-- The routine `seek (fd, position)`, lines 561-568. -/
def seek (fd : Int) (position : Nat) (p : process) : process :=
  match find_entry_by_fd fd p.file_desc_entry_list with
  | none => p
  | some entry =>
    { p with file_desc_entry_list :=
        set_entry_file fd (file_seek entry.fptr position) p.file_desc_entry_list }

/-- The routine `tell (fd)`, lines 573-581; the result is `unsigned`, so that
`-1` is returned as `2 ^ 32 - 1`. -/
def tell (fd : Int) (p : process) : Nat :=
  match find_entry_by_fd fd p.file_desc_entry_list with
  | none => 4294967295
  | some entry => wrap (file_tell entry.fptr)

/-- The routine `close (fd)`, lines 587-597: the returned value, the process
block left behind and the entry whose file was passed to `file_close`. -/
def close (fd : Int) (p : process) : Int × process × Option file_desc_entry :=
  match find_entry_by_fd fd p.file_desc_entry_list with
  | none => (-1, p, none)
  | some entry =>
    (0, { p with file_desc_entry_list := remove_entry fd p.file_desc_entry_list }, some entry)

/-- The value of a 32-bit word read as an `int`. -/
def to_int (w : Nat) : Int :=
  if w % 4294967296 < 2147483648 then (w % 4294967296 : Nat) else (w % 4294967296 : Nat) - 4294967296

/-- The loop of `read` on `STDIN_FILENO`, lines 517-522, with the number of
iterations allowed, the number `n` of characters taken from the console so far
and user memory. Character `k` of the console is `input k`. The body stores the
character at index `i`, leaves the loop when the byte at index `i + 1` is a
newline, and does not change `i`. The result is `i`, the number of characters
taken and memory. -/
def read_stdin_loop (input : Nat → Nat) (buffer size i : Nat) :
    Nat → Nat → Mem → Res (Nat × Nat × Mem)
  | 0, n, m => if i < size then .fuel else .done (i, n, m)
  | fuel + 1, n, m =>
    if i < size then
      if store8 m (wrap (buffer + i)) (input n % 256) (wrap (buffer + (i + 1))) = 10 then
        .done (i, n + 1, store8 m (wrap (buffer + i)) (input n % 256))
      else
        read_stdin_loop input buffer size i fuel (n + 1)
          (store8 m (wrap (buffer + i)) (input n % 256))
    else .done (i, n, m)

/-- The routine `read (fd, buffer, size)`, lines 513-532: the returned value,
the number of console characters taken, memory and the process block. -/
def read (input : Nat → Nat) (fuel : Nat) (fd : Int) (buffer size n : Nat) (m : Mem)
    (p : process) : Res (Int × Nat × Mem × process) :=
  if fd = 0 then
    match read_stdin_loop input buffer size 0 fuel n m with
    | .done (i, n1, m1) => .done (to_int i, n1, m1, p)
    | .null => .null
    | .fault => .fault
    | .fuel => .fuel
  else
    match find_entry_by_fd fd p.file_desc_entry_list with
    | none => .done (-1, n, m, p)
    | some entry =>
      .done (((file_read entry.fptr size).1.length : Int), n,
        storeBytes m buffer (file_read entry.fptr size).1,
        { p with file_desc_entry_list :=
            set_entry_file fd (file_read entry.fptr size).2 p.file_desc_entry_list })

/-- The routine `write (fd, buffer, size)`, lines 539-556: the returned value,
the process block and the bytes passed to `putbuf`, if it was called. -/
def write (fd : Int) (buffer size : Nat) (m : Mem) (p : process) :
    Int × process × Option (List Nat) :=
  if buffer = 0 then (-1, p, none)
  else if fd = 1 then (0, p, some (loadBytes m buffer size))
  else
    match find_entry_by_fd fd p.file_desc_entry_list with
    | none => (-1, p, none)
    | some entry =>
      (((file_write entry.fptr (loadBytes m buffer size)).1 : Int),
        { p with file_desc_entry_list :=
            (set_entry_file fd (file_write entry.fptr (loadBytes m buffer size)).2
              p.file_desc_entry_list) },
        none)

/-- A call of `open` with what `malloc` and `filesys_open` answer, or a call of
`close`. -/
inductive FdCall where
  | sys_open (new_fde : Bool) (requested_file : Option File) (file : Nat)
  | close (fd : Int)

/-- The process block after a sequence of `open` and `close` calls. -/
def run_calls : List FdCall → process → process
  | [], p => p
  | .sys_open a f n :: cs, p => run_calls cs (sys_open a f n p).2
  | .close fd :: cs, p => run_calls cs (close fd p).2.1

/-- The number of calls of `open` in a sequence that succeed. -/
def successful_opens : List FdCall → Nat
  | [] => 0
  | .sys_open a f _ :: cs =>
    (if a = true ∧ f.isSome = true then 1 else 0) + successful_opens cs
  | .close _ :: cs => successful_opens cs

/-! ## process_exit -/

/-- The steps of `process_exit`, lines 206-276: the calls it makes and the
two assignments of `NULL`. -/
inductive ExitEvent where
  | file_close_exec
  | file_close (f : file_desc_entry)
  | free_file_desc_entry (f : file_desc_entry)
  | free_user_lock (e : user_lock_entry)
  | free_user_sema (e : user_sema_entry)
  | set_pagedir_null
  | pagedir_activate_null
  | pagedir_destroy
  | free_process_thread (r : process_thread)
  | set_pcb_null
  | free_pcb
  | thread_exit
  deriving DecidableEq, Repr

/-- The loop of lines 220-225 on the entries still in the list: each entry is
popped, its file closed and the entry freed. Each step comes with the process
block after it. -/
def close_files (p : process) : List file_desc_entry → List (ExitEvent × process)
  | [] => []
  | f :: rest =>
    (.file_close f, { p with file_desc_entry_list := rest }) ::
    (.free_file_desc_entry f, { p with file_desc_entry_list := rest }) ::
    close_files p rest

/-- The loop of lines 228-232 on the user locks. -/
def free_user_locks (p : process) : List user_lock_entry → List (ExitEvent × process)
  | [] => []
  | e :: rest => (.free_user_lock e, { p with user_locks := rest }) :: free_user_locks p rest

/-- The loop of lines 234-238 on the user semaphores. -/
def free_user_semaphores (p : process) : List user_sema_entry → List (ExitEvent × process)
  | [] => []
  | e :: rest =>
    (.free_user_sema e, { p with user_semaphores := rest }) :: free_user_semaphores p rest

/-- The loop of lines 255-265 on the records of the secondary threads. -/
def free_process_threads (p : process) : List process_thread → List (ExitEvent × process)
  | [] => []
  | r :: rest =>
    (.free_process_thread r, { p with process_threads := rest }) :: free_process_threads p rest

/-- The steps of `process_exit` on a thread with a process block, lines
216-272, up to the assignment of `NULL` to the pointer of the thread, each with
the content of the process block after the step. -/
def process_exit_steps (p : process) : List (ExitEvent × process) :=
  (.file_close_exec, p) ::
  (close_files p p.file_desc_entry_list ++
   (free_user_locks { p with file_desc_entry_list := [] } p.user_locks ++
   (free_user_semaphores { p with file_desc_entry_list := [], user_locks := [] }
      p.user_semaphores ++
   ((match p.pagedir with
     | none => []
     | some _ =>
       [(.set_pagedir_null,
          { p with file_desc_entry_list := [], user_locks := [], user_semaphores := [],
                   pagedir := none }),
        (.pagedir_activate_null,
          { p with file_desc_entry_list := [], user_locks := [], user_semaphores := [],
                   pagedir := none }),
        (.pagedir_destroy,
          { p with file_desc_entry_list := [], user_locks := [], user_semaphores := [],
                   pagedir := none })]) ++
   (free_process_threads
      { p with file_desc_entry_list := [], user_locks := [], user_semaphores := [],
               pagedir := none } p.process_threads ++
    [(.set_pcb_null,
        { p with file_desc_entry_list := [], user_locks := [], user_semaphores := [],
                 pagedir := none, process_threads := [] })])))))

/-- The routine `process_exit`, lines 206-276, on the process block of the
current thread (`none` for a thread without one): its steps in order, each with
the content of the process block after the step, `none` once it is freed. -/
def process_exit (pcb : Option process) : List (ExitEvent × Option process) :=
  match pcb with
  | none => [(.thread_exit, none)]
  | some p =>
    (process_exit_steps p).map (fun s => (s.1, some s.2)) ++
      [(.free_pcb, none), (.thread_exit, none)]

/-- The entries whose file a sequence of steps of `process_exit` passes to
`file_close`, in order. -/
def closed_files (steps : List (ExitEvent × Option process)) : List file_desc_entry :=
  steps.filterMap (fun s => match s.1 with
    | .file_close f => some f
    | _ => none)

/-- An open file of three bytes. -/
def sampleFile : File := { data := [1, 2, 3], pos := 0, deny_write := false }

/-- Two successful calls of `open`, a call of `close` on descriptor 2 and a
call of `open` for which `malloc` finds no memory. -/
def sampleCalls : List FdCall :=
  [.sys_open true (some sampleFile) 100, .sys_open true (some sampleFile) 104, .close 2,
   .sys_open false (some sampleFile) 108]

/-! ## User locks and semaphores -/

/-- Modelled from the spec: `lock_held_by_current_thread` of threads/synch.c,
for the current thread `cur`. -/
def lock_held_by_current_thread (cur : Int) (l : lock) : Bool :=
  decide (l.holder = some cur)

/-- Modelled from the spec: `lock_init` of threads/synch.c: a lock without
holder. -/
def lock_init : lock := { holder := none }

/-- Modelled from the spec: `lock_acquire` of threads/synch.c: it returns, after
waiting for the holder to release the lock if there is one, with the current
thread as the holder. -/
def lock_acquire (cur : Int) (_l : lock) : lock := { holder := some cur }

/-- Modelled from the spec: `lock_release` of threads/synch.c. -/
def lock_release (_l : lock) : lock := { holder := none }

/-- Modelled from the spec: `sema_init` of threads/synch.c. -/
def sema_init (value : Nat) : semaphore := { value := value }

/-- Modelled from the spec: `sema_up` of threads/synch.c. -/
def sema_up (s : semaphore) : semaphore := { value := s.value + 1 }

/-- Modelled from the spec: `sema_down` of threads/synch.c: it returns, after
waiting for the value to become positive, with the value one lower. -/
def sema_down (s : semaphore) : semaphore := { value := s.value - 1 }

/-- The routine `sys_lock_init (lock)`, lines 600-612. `new_user_lock` tells
whether `malloc` found memory. -/
def sys_lock_init (new_user_lock : Bool) (lock : Nat) (p : process) : Int × process :=
  if lock = 0 then (0, p)
  else if new_user_lock = false then (0, p)
  else (1, { p with user_locks := p.user_locks ++ [{ user_lock_id := lock, lock := lock_init }] })

/-- The loop of `sys_lock_acquire`, lines 617-623, on the entries from the
current one on: the entries after the loop when it acquired a lock, `none` when
it fell through. -/
def sys_lock_acquire_loop (cur : Int) (lock : Nat) :
    List user_lock_entry → Option (List user_lock_entry)
  | [] => none
  | entry :: rest =>
    if entry.user_lock_id = lock ∧ lock_held_by_current_thread cur entry.lock = false then
      some ({ entry with lock := lock_acquire cur entry.lock } :: rest)
    else
      match sys_lock_acquire_loop cur lock rest with
      | none => none
      | some rest1 => some (entry :: rest1)

/-- The routine `sys_lock_acquire (lock)`, lines 615-625, called by the thread
`cur`. -/
def sys_lock_acquire (cur : Int) (lock : Nat) (p : process) : Int × process :=
  match sys_lock_acquire_loop cur lock p.user_locks with
  | none => (0, p)
  | some l => (1, { p with user_locks := l })

/-- The loop of `sys_lock_release`, lines 630-636. -/
def sys_lock_release_loop (cur : Int) (lock : Nat) :
    List user_lock_entry → Option (List user_lock_entry)
  | [] => none
  | entry :: rest =>
    if entry.user_lock_id = lock ∧ lock_held_by_current_thread cur entry.lock = true then
      some ({ entry with lock := lock_release entry.lock } :: rest)
    else
      match sys_lock_release_loop cur lock rest with
      | none => none
      | some rest1 => some (entry :: rest1)

/-- The routine `sys_lock_release (lock)`, lines 628-638. -/
def sys_lock_release (cur : Int) (lock : Nat) (p : process) : Int × process :=
  match sys_lock_release_loop cur lock p.user_locks with
  | none => (0, p)
  | some l => (1, { p with user_locks := l })

/-- The routine `sys_sema_init (sema, val)`, lines 641-653. `new_user_sema`
tells whether `malloc` found memory. -/
def sys_sema_init (new_user_sema : Bool) (sema : Nat) (val : Int) (p : process) :
    Int × process :=
  if sema = 0 ∨ val < 0 then (0, p)
  else if new_user_sema = false then (0, p)
  else
    (1, { p with user_semaphores :=
            p.user_semaphores ++ [{ user_sema_id := sema, sema := sema_init val.toNat }] })

/-- The loop of `sys_sema_up` and of `sys_sema_down`, lines 658-664 and
671-677, with the routine `op` that is called on the semaphore found. -/
def sys_sema_loop (op : semaphore → semaphore) (sema : Nat) :
    List user_sema_entry → Option (List user_sema_entry)
  | [] => none
  | entry :: rest =>
    if entry.user_sema_id = sema then some ({ entry with sema := op entry.sema } :: rest)
    else
      match sys_sema_loop op sema rest with
      | none => none
      | some rest1 => some (entry :: rest1)

/-- The routine `sys_sema_up (sema)`, lines 656-666. -/
def sys_sema_up (sema : Nat) (p : process) : Int × process :=
  match sys_sema_loop sema_up sema p.user_semaphores with
  | none => (0, p)
  | some l => (1, { p with user_semaphores := l })

/-- The routine `sys_sema_down (sema)`, lines 669-679. -/
def sys_sema_down (sema : Nat) (p : process) : Int × process :=
  match sys_sema_loop sema_down sema p.user_semaphores with
  | none => (0, p)
  | some l => (1, { p with user_semaphores := l })

/-! ## Secondary threads -/

/-- The loop of `setup_thread`, lines 799-805, with the number of iterations
allowed and the address `vaddr` of the iteration. `kpage` is the zeroed frame of
`palloc_get_page`, `none` for `NULL`, which the routine passes on unchecked:
`pagedir_set_page` stops the kernel on it (Modelled from the spec: its
assertion on the frame). The stack pointer goes to the field `esp`. -/
def setup_thread_loop (env : Env) (PGBITS : Nat) (kpage : Option (List Nat)) :
    Nat → Nat → Kernel → Res (Bool × Kernel)
  | 0, vaddr, k => if 0 < vaddr then .fuel else .done (false, k)
  | fuel + 1, vaddr, k =>
    if 0 < vaddr then
      match kpage with
      | some frame =>
        match install_page env PGBITS k vaddr frame true with
        | .done (true, k1) =>
          .done (true, { k1 with esp := some (wrap (vaddr + PGSIZE PGBITS)) })
        | .done (false, k1) =>
          setup_thread_loop env PGBITS kpage fuel (sub32 vaddr (PGSIZE PGBITS)) k1
        | .null => .null
        | .fault => .fault
        | .fuel => .fuel
      | none =>
        match k.pagedir with
        | none => .fault
        | some pd =>
          if pagedir_get_page PGBITS pd vaddr = false then .fault
          else setup_thread_loop env PGBITS kpage fuel (sub32 vaddr (PGSIZE PGBITS)) k
    else .done (false, k)

/-- The routine `setup_thread (esp, thread_id)`, lines 774-812. The loop starts
one page below `PHYS_BASE` and is given as many iterations as there are pages
below `PHYS_BASE`. -/
def setup_thread (env : Env) (PGBITS PHYS_BASE : Nat) (thread_id : Int) (k : Kernel) :
    Res (Bool × Kernel) :=
  if thread_id ≤ 0 then .fault
  else
    setup_thread_loop env PGBITS
      (if env.palloc k.pallocs = true then some (List.replicate (PGSIZE PGBITS) 0) else none)
      (PHYS_BASE / PGSIZE PGBITS) (sub32 PHYS_BASE (PGSIZE PGBITS))
      { k with pallocs := k.pallocs + 1 }

/-- The record `struct start_pthread_args`, lines 814-821, without the pointer
to the process block: the stub, the function and its argument, the flag
`setup_failed` (`none` while nothing has been written into the allocated
record) and the semaphore `process_thread_setup_wait`. -/
structure start_pthread_args where
  sf : Nat
  tf : Nat
  arg : Nat
  setup_failed : Option Bool
  process_thread_setup_wait : semaphore
  deriving DecidableEq, Repr

/-- What `start_pthread` leaves behind: the record it was given, the list
`process_threads`, the page table and memory with the registers `eip` and `esp`
of the interrupt frame, the field `process_thread_id` of the thread, and
whether the thread went on to user mode (it called `thread_exit` otherwise). -/
structure StartResult where
  args : start_pthread_args
  process_threads : List process_thread
  k : Kernel
  process_thread_id : Option Int
  user_mode : Bool

/-- The routine `start_pthread (args_)`, lines 866-939, run by the new thread
`tid`. `record_ok` tells whether `malloc` found memory for the record. On
a failed stack setup the record is freed while it is still linked in the list.
 -/
def start_pthread (env : Env) (PGBITS PHYS_BASE : Nat) (tid : Int) (record_ok : Bool)
    (args : start_pthread_args) (threads : List process_thread) (k : Kernel) :
    Res StartResult :=
  if record_ok = false then
    .done { args := { args with setup_failed := some true,
                                process_thread_setup_wait :=
                                  sema_up args.process_thread_setup_wait },
            process_threads := threads, k := k, process_thread_id := none,
            user_mode := false }
  else
    match setup_thread env PGBITS PHYS_BASE ((threads.length : Int) + 1)
        { k with eip := some args.sf } with
    | .done (false, k1) =>
      .done { args := { args with setup_failed := some true,
                                  process_thread_setup_wait :=
                                    sema_up args.process_thread_setup_wait },
              process_threads :=
                threads ++ [{ tid := tid, thread_exited := false, thread_waiter := none,
                              exit_wait := 0 }],
              k := k1, process_thread_id := some ((threads.length : Int) + 1),
              user_mode := false }
    | .done (true, k1) =>
      match k1.esp with
      | none => .fault
      | some esp =>
        .done { args := { args with setup_failed := some false,
                                    process_thread_setup_wait :=
                                      sema_up args.process_thread_setup_wait },
                process_threads :=
                  threads ++ [{ tid := tid, thread_exited := false, thread_waiter := none,
                                exit_wait := 0 }],
                k := { k1 with
                  mem :=
                    store32
                      (store32
                        (store32
                          (store32 (store32 k1.mem (sub32 esp 4) 0) (sub32 (sub32 esp 4) 4) 0)
                          (sub32 (sub32 (sub32 esp 4) 4) 4) args.arg)
                        (sub32 (sub32 (sub32 (sub32 esp 4) 4) 4) 4) args.tf)
                      (sub32 (sub32 (sub32 (sub32 (sub32 esp 4) 4) 4) 4) 4) 0,
                  esp := some (sub32 (sub32 (sub32 (sub32 (sub32 esp 4) 4) 4) 4) 4) },
                process_thread_id := some ((threads.length : Int) + 1),
                user_mode := true }
    | .null => .null
    | .fault => .fault
    | .fuel => .fuel

/-- What `pthread_execute` leaves behind: the returned value (`none` when the
call does not return), the record at the time it is freed, the list
`process_threads` and the page table and memory. -/
structure ExecuteResult where
  ret : Option Int
  args : Option start_pthread_args
  process_threads : List process_thread
  k : Kernel

/-- The routine `pthread_execute (sf, tf, arg)`, lines 833-858.
`args_ok` tells whether `malloc` found memory for the record, `record_ok`
whether it finds memory in `start_pthread`, and
`tid` is what `thread_create` returned: an id, in which case the new thread
runs `start_pthread` on the record and raises the semaphore that the caller
waits on, or `TID_ERROR`, in which case no thread runs `start_pthread` and the
wait on the semaphore does not end. -/
def pthread_execute (env : Env) (PGBITS PHYS_BASE : Nat) (args_ok : Bool)
    (tid : Int) (record_ok : Bool) (sf tf arg : Nat) (threads : List process_thread)
    (k : Kernel) : Res ExecuteResult :=
  if args_ok = false then
    .done { ret := some TID_ERROR, args := none, process_threads := threads, k := k }
  else if tid = TID_ERROR then
    .done { ret := none,
            args := some { sf := sf, tf := tf, arg := arg, setup_failed := none,
                           process_thread_setup_wait := sema_init 0 },
            process_threads := threads, k := k }
  else
    match start_pthread env PGBITS PHYS_BASE tid record_ok
        { sf := sf, tf := tf, arg := arg, setup_failed := none,
          process_thread_setup_wait := sema_init 0 } threads k with
    | .done s =>
      .done { ret := some tid,
              args := some { s.args with
                process_thread_setup_wait := sema_down s.args.process_thread_setup_wait },
              process_threads := s.process_threads, k := s.k }
    | .null => .null
    | .fault => .fault
    | .fuel => .fuel

/-- The value `pthread_execute` returned, if it returned. -/
def returned_tid (r : Res ExecuteResult) : Option Int :=
  match r with
  | .done x => x.ret
  | _ => none

/-- The flag `setup_failed` of the record at the time `pthread_execute` frees
it, if it was written. -/
def reported_failure (r : Res ExecuteResult) : Option Bool :=
  match r with
  | .done x => x.args.bind (fun a => a.setup_failed)
  | _ => none

/-! ## The system-call handler -/

/-- The case labels of the `switch` of `syscall_handler`, lines 122-215. -/
inductive Call where
  | SYS_HALT | SYS_EXIT | SYS_EXEC | SYS_WAIT | SYS_PRACTICE
  | SYS_PT_CREATE | SYS_PT_JOIN | SYS_PT_EXIT
  | SYS_CREATE | SYS_REMOVE | SYS_OPEN | SYS_FILESIZE | SYS_READ | SYS_WRITE
  | SYS_SEEK | SYS_TELL | SYS_CLOSE
  | SYS_COMPUTE_E
  | SYS_LOCK_INIT | SYS_LOCK_ACQUIRE | SYS_LOCK_RELEASE
  | SYS_SEMA_INIT | SYS_SEMA_UP | SYS_SEMA_DOWN
  deriving DecidableEq, Repr

/-- What the handler does that can be observed from outside: the locks it takes
and releases, the line `<name>: exit(<code>)` it prints, the call of
`process_exit`, the operation of a call entered with its argument words (for
`SYS_EXEC` it is `process_execute`, for `SYS_OPEN` it is `open`, and so on),
the bytes passed to `putbuf` and the entry whose file is closed. -/
inductive SysEvent where
  | lock_acquire_syscall
  | lock_release_syscall
  | lock_acquire_file
  | lock_release_file
  | printf_exit (code : Int)
  | process_exit
  | invoke (c : Call) (a : List Nat)
  | putbuf (bs : List Nat)
  | file_close (f : file_desc_entry)
  deriving DecidableEq, Repr

/-- How a run of the handler ends: it returns to the user program, the process
is ended by `process_exit`, the thread is ended by `pthread_exit`, the machine
is powered off, the kernel touches an address without mapping, or the
iterations allowed to a loop are used up. -/
inductive Stop where
  | returned | exited | thread_exited | halted | fault | fuel
  deriving DecidableEq, Repr

/-- What the handler depends on outside the two files: the page geometry, the
call that a number of lib/syscall-nr.h designates, whether the thread is named
`sc-boundary-3`, the id of the thread, whether `malloc` finds memory, the file
`filesys_open` finds at a name, the characters of the console, the iterations
allowed to a loop, the exit codes of the children, and the values returned by
the operations that are not part of the two files or are described on their
own (`process_execute`, `filesys_create`, `filesys_remove`, `pthread_execute`,
`sys_sum_to_e`). -/
structure Sys where
  PGBITS : Nat
  PHYS_BASE : Nat
  number : Nat → Option Call
  sc_boundary_3 : Bool
  cur : Int
  malloc : Bool
  filesys_open : Nat → Option File
  input : Nat → Nat
  fuel : Nat
  child_exit : Int → Int
  returns : Call → List Nat → Nat

/-- The state the handler works on: the process block, memory, the field
`exit` of the thread, its list of children, whether the thread holds
`file_global_lock`, and the number of console characters taken. -/
structure SysState where
  pcb : process
  mem : Mem
  exit : Int
  childs_status_lst : List child_status
  file_global_lock : Bool
  consumed : Nat

/-- The outcome of a run of the handler: how it ended, the value written to
`f->eax` if one was written, the state and the events in order. -/
structure SysResult where
  stop : Stop
  eax : Option Nat
  st : SysState
  events : List SysEvent

/-- The 32-bit word of an `int`. -/
def of_int (i : Int) : Nat := (i % 4294967296).toNat

/-- The address of `args[i]`. -/
def slot (args i : Nat) : Nat := wrap (args + 4 * i)

/-- Modelled from the spec: a 32-bit load by the kernel, which needs a mapping
for the first and the last byte of the word in the active page table (the table
of the process, which holds the kernel mappings as well). -/
def peek (PGBITS : Nat) (pd : Nat → Option Bool) (m : Mem) (a : Nat) : Option Nat :=
  if pagedir_get_page PGBITS pd a = true ∧ pagedir_get_page PGBITS pd (wrap (a + 3)) = true
  then some (load32 m a) else none

/-- Modelled from the spec: a 32-bit store by the kernel, which needs a
writable mapping for the first and the last byte of the word. -/
def poke (PGBITS : Nat) (pd : Nat → Option Bool) (m : Mem) (a v : Nat) : Option Mem :=
  if pd (a / PGSIZE PGBITS) = some true ∧ pd (wrap (a + 3) / PGSIZE PGBITS) = some true
  then some (store32 m a v) else none

/-- The kernel stopped on an address without mapping. -/
def sys_fault (s : SysState) (ev : List SysEvent) : SysResult :=
  { stop := .fault, eax := none, st := s, events := ev }

/-- The three statements `thread_current()->exit = -1; printf (...);
process_exit ();` of lines 103-105, 109-111, 265-267, 282-284 and 287-289. -/
def fatal (s : SysState) (ev : List SysEvent) : SysResult :=
  { stop := .exited, eax := none, st := { s with exit := -1 },
    events := ev ++ [.printf_exit (-1), .process_exit] }

/-- The routine `syscall_exit (args, eax)`, lines 263-278. -/
def syscall_exit (env : Sys) (pd : Nat → Option Bool) (s : SysState) (args : Nat)
    (ev : List SysEvent) : SysResult :=
  if validate_syscall_arg env.PGBITS env.PHYS_BASE pd args 1 = 0 then fatal s ev
  else
    match peek env.PGBITS pd s.mem (slot args 1) with
    | none => sys_fault s ev
    | some v =>
      { stop := .exited, eax := some v,
        st := { s with exit := to_int v, file_global_lock := false },
        events := ev ++ [.printf_exit (to_int v)] ++
          (if s.file_global_lock = true then [.lock_release_file] else []) ++ [.process_exit] }

/-- The two statements `args[1] = -1; syscall_exit (args, eax);` with which the
routines from `syscall_wait` on leave on an argument they reject. -/
def bail (env : Sys) (pd : Nat → Option Bool) (s : SysState) (args : Nat)
    (ev : List SysEvent) : SysResult :=
  match poke env.PGBITS pd s.mem (slot args 1) 4294967295 with
  | none => sys_fault s ev
  | some m => syscall_exit env pd { s with mem := m } args ev

/-- The routine `syscall_halt`, lines 259-261. -/
def syscall_halt (s : SysState) (ev : List SysEvent) : SysResult :=
  { stop := .halted, eax := none, st := s, events := ev ++ [.invoke .SYS_HALT []] }

/-- The routine `syscall_exec (args, eax)`, lines 280-294. -/
def syscall_exec (env : Sys) (pd : Nat → Option Bool) (s : SysState) (args : Nat)
    (ev : List SysEvent) : SysResult :=
  if slot args 1 / PGSIZE env.PGBITS ≠ slot args 2 / PGSIZE env.PGBITS then fatal s ev
  else
    match peek env.PGBITS pd s.mem (slot args 1), peek env.PGBITS pd s.mem (slot args 2) with
    | some v1, some v2 =>
      if v1 / PGSIZE env.PGBITS ≠ v2 / PGSIZE env.PGBITS ∧ v1 = 134541311 then fatal s ev
      else if validate_syscall_arg env.PGBITS env.PHYS_BASE pd args 1 = 0
          ∨ validate_syscall_arg env.PGBITS env.PHYS_BASE pd v1 1 = 0 ∨ v1 = 0 then
        fatal s ev
      else
        { stop := .returned, eax := some (env.returns .SYS_EXEC [v1]), st := s,
          events := ev ++ [.lock_acquire_file, .invoke .SYS_EXEC [v1], .lock_release_file] }
    | _, _ => sys_fault s ev

/-- The routine `syscall_wait (args, eax)`, lines 296-310. -/
def syscall_wait (env : Sys) (pd : Nat → Option Bool) (s : SysState) (args : Nat)
    (ev : List SysEvent) : SysResult :=
  if validate_syscall_arg env.PGBITS env.PHYS_BASE pd args 1 = 0 then
    match poke env.PGBITS pd s.mem (slot args 1) 4294967295 with
    | none => sys_fault s ev
    | some m => syscall_exit env pd { s with mem := m, exit := -1 } args ev
  else
    match peek env.PGBITS pd s.mem (slot args 1) with
    | none => sys_fault s ev
    | some v =>
      { stop := .returned,
        eax := some (of_int (process_wait env.child_exit (to_int v) s.childs_status_lst).ret),
        st := { s with childs_status_lst :=
                  (process_wait env.child_exit (to_int v) s.childs_status_lst).list },
        events := ev ++ (if s.file_global_lock = true then [.lock_release_file] else []) ++
          [.invoke .SYS_WAIT [v]] ++
          (if s.file_global_lock = true then [.lock_acquire_file] else []) }

/-- The routine `syscall_practice (args, eax)`, lines 312-320. -/
def syscall_practice (env : Sys) (pd : Nat → Option Bool) (s : SysState) (args : Nat)
    (ev : List SysEvent) : SysResult :=
  if validate_syscall_arg env.PGBITS env.PHYS_BASE pd args 1 = 0 then
    match poke env.PGBITS pd s.mem (slot args 1) 4294967295 with
    | none => sys_fault s ev
    | some m => syscall_exit env pd { s with mem := m, exit := -1 } args ev
  else
    match peek env.PGBITS pd s.mem (slot args 1) with
    | none => sys_fault s ev
    | some v =>
      { stop := .returned, eax := some (wrap (v + 1)), st := s,
        events := ev ++ [.invoke .SYS_PRACTICE [v]] }

/-- The routine `pthread_exit`, lines 1000-1031 of process.c, on the list
`process_threads`, called by the thread `cur`: its record is marked exited and
its semaphore raised; `none` when the list holds no record of the thread (the
assertion of line 1018 fails). The thread does not return from the call. -/
def pthread_exit (cur : Int) (l : List process_thread) : Option (List process_thread) :=
  match find_process_thread cur l with
  | none => none
  | some r =>
    some (set_process_thread cur { r with thread_exited := true, exit_wait := r.exit_wait + 1 } l)

/-- The routine `syscall_pthread_create (args)`, lines 681-683, with the
assignment of its result to `f->eax`, line 139. -/
def syscall_pthread_create (env : Sys) (pd : Nat → Option Bool) (s : SysState) (args : Nat)
    (ev : List SysEvent) : SysResult :=
  match peek env.PGBITS pd s.mem (slot args 1), peek env.PGBITS pd s.mem (slot args 2),
      peek env.PGBITS pd s.mem (slot args 3) with
  | some v1, some v2, some v3 =>
    { stop := .returned, eax := some (env.returns .SYS_PT_CREATE [v1, v2, v3]), st := s,
      events := ev ++ [.invoke .SYS_PT_CREATE [v1, v2, v3]] }
  | _, _, _ => sys_fault s ev

/-- The routine `syscall_pthread_join (args)`, lines 685-687, with the
assignment of its result to `f->eax`, line 142. -/
def syscall_pthread_join (env : Sys) (pd : Nat → Option Bool) (s : SysState) (args : Nat)
    (ev : List SysEvent) : SysResult :=
  match peek env.PGBITS pd s.mem (slot args 1) with
  | none => sys_fault s ev
  | some v =>
    { stop := .returned,
      eax := some (of_int (pthread_join env.cur (to_int v) s.pcb.process_threads).ret),
      st := { s with pcb := { s.pcb with process_threads :=
                (pthread_join env.cur (to_int v) s.pcb.process_threads).list } },
      events := ev ++ [.invoke .SYS_PT_JOIN [v]] }

/-- The routine `syscall_pthread_exit`, lines 689-691. -/
def syscall_pthread_exit (env : Sys) (s : SysState) (ev : List SysEvent) : SysResult :=
  match pthread_exit env.cur s.pcb.process_threads with
  | none => sys_fault s (ev ++ [.invoke .SYS_PT_EXIT []])
  | some l =>
    { stop := .thread_exited, eax := none,
      st := { s with pcb := { s.pcb with process_threads := l } },
      events := ev ++ [.invoke .SYS_PT_EXIT [], .lock_release_syscall] }

/-- The routine `syscall_create (args, eax)`, lines 324-331. -/
def syscall_create (env : Sys) (pd : Nat → Option Bool) (s : SysState) (args : Nat)
    (ev : List SysEvent) : SysResult :=
  match peek env.PGBITS pd s.mem (slot args 1) with
  | none => sys_fault s ev
  | some v1 =>
    if v1 = 0 ∨ check_bad_pointer env.PGBITS env.PHYS_BASE pd (slot args 1) ≠ 0
        ∨ check_bad_pointer env.PGBITS env.PHYS_BASE pd v1 ≠ 0 then
      bail env pd s args ev
    else
      match peek env.PGBITS pd s.mem (slot args 2) with
      | none => sys_fault s ev
      | some v2 =>
        { stop := .returned, eax := some (env.returns .SYS_CREATE [v1, v2]), st := s,
          events := ev ++ [.invoke .SYS_CREATE [v1, v2]] }

/-- The routine `syscall_remove (args, eax)`, lines 333-340. -/
def syscall_remove (env : Sys) (pd : Nat → Option Bool) (s : SysState) (args : Nat)
    (ev : List SysEvent) : SysResult :=
  match peek env.PGBITS pd s.mem (slot args 1) with
  | none => sys_fault s ev
  | some v1 =>
    if v1 = 0 ∨ check_bad_pointer env.PGBITS env.PHYS_BASE pd (slot args 1) ≠ 0
        ∨ check_bad_pointer env.PGBITS env.PHYS_BASE pd v1 ≠ 0 then
      bail env pd s args ev
    else
      { stop := .returned, eax := some (env.returns .SYS_REMOVE [v1]), st := s,
        events := ev ++ [.invoke .SYS_REMOVE [v1]] }

/-- The routine `syscall_open (args, eax)`, lines 342-349. -/
def syscall_open (env : Sys) (pd : Nat → Option Bool) (s : SysState) (args : Nat)
    (ev : List SysEvent) : SysResult :=
  match peek env.PGBITS pd s.mem (slot args 1) with
  | none => sys_fault s ev
  | some v1 =>
    if v1 = 0 ∨ check_bad_pointer env.PGBITS env.PHYS_BASE pd (slot args 1) ≠ 0
        ∨ check_bad_pointer env.PGBITS env.PHYS_BASE pd v1 ≠ 0 then
      bail env pd s args ev
    else
      { stop := .returned,
        eax := some (of_int (sys_open env.malloc (env.filesys_open v1) v1 s.pcb).1),
        st := { s with pcb := (sys_open env.malloc (env.filesys_open v1) v1 s.pcb).2 },
        events := ev ++ [.invoke .SYS_OPEN [v1]] }

/-- The routine `syscall_filesize (args, eax)`, lines 351-358. -/
def syscall_filesize (env : Sys) (pd : Nat → Option Bool) (s : SysState) (args : Nat)
    (ev : List SysEvent) : SysResult :=
  if validate_syscall_arg env.PGBITS env.PHYS_BASE pd args 2 = 0 then bail env pd s args ev
  else
    match peek env.PGBITS pd s.mem (slot args 1) with
    | none => sys_fault s ev
    | some v1 =>
      if v1 = 0 then bail env pd s args ev
      else
        { stop := .returned, eax := some (of_int (filesize (to_int v1) s.pcb)), st := s,
          events := ev ++ [.invoke .SYS_FILESIZE [v1]] }

/-- The test of `syscall_read` and `syscall_write`, lines 361 and 370, after
`validate_syscall_arg`: the three calls of `check_bad_pointer`, with the
argument words read on the way; `none` when a word cannot be read. -/
def bad_buffer (env : Sys) (pd : Nat → Option Bool) (s : SysState) (args : Nat) :
    Option Bool :=
  if check_bad_pointer env.PGBITS env.PHYS_BASE pd (slot args 2) ≠ 0 then some true
  else
    match peek env.PGBITS pd s.mem (slot args 2) with
    | none => none
    | some v2 =>
      if check_bad_pointer env.PGBITS env.PHYS_BASE pd v2 ≠ 0 then some true
      else
        match peek env.PGBITS pd s.mem (slot args 3) with
        | none => none
        | some v3 =>
          if check_bad_pointer env.PGBITS env.PHYS_BASE pd (wrap (v2 + v3)) ≠ 0 then some true
          else some false

/-- The routine `syscall_read (args, eax)`, lines 360-367. -/
def syscall_read (env : Sys) (pd : Nat → Option Bool) (s : SysState) (args : Nat)
    (ev : List SysEvent) : SysResult :=
  if validate_syscall_arg env.PGBITS env.PHYS_BASE pd args 4 = 0 then bail env pd s args ev
  else
    match bad_buffer env pd s args with
    | none => sys_fault s ev
    | some true => bail env pd s args ev
    | some false =>
      match peek env.PGBITS pd s.mem (slot args 1), peek env.PGBITS pd s.mem (slot args 2),
          peek env.PGBITS pd s.mem (slot args 3) with
      | some v1, some v2, some v3 =>
        match read env.input env.fuel (to_int v1) v2 v3 s.consumed s.mem s.pcb with
        | .done (r, n, m, p) =>
          { stop := .returned, eax := some (of_int r),
            st := { s with pcb := p, mem := m, consumed := n },
            events := ev ++ [.invoke .SYS_READ [v1, v2, v3]] }
        | .fuel =>
          { stop := .fuel, eax := none, st := s, events := ev ++ [.invoke .SYS_READ [v1, v2, v3]] }
        | .null => sys_fault s (ev ++ [.invoke .SYS_READ [v1, v2, v3]])
        | .fault => sys_fault s (ev ++ [.invoke .SYS_READ [v1, v2, v3]])
      | _, _, _ => sys_fault s ev

/-- The routine `syscall_write (args, eax)`, lines 369-376. -/
def syscall_write (env : Sys) (pd : Nat → Option Bool) (s : SysState) (args : Nat)
    (ev : List SysEvent) : SysResult :=
  if validate_syscall_arg env.PGBITS env.PHYS_BASE pd args 4 = 0 then bail env pd s args ev
  else
    match bad_buffer env pd s args with
    | none => sys_fault s ev
    | some true => bail env pd s args ev
    | some false =>
      match peek env.PGBITS pd s.mem (slot args 1), peek env.PGBITS pd s.mem (slot args 2),
          peek env.PGBITS pd s.mem (slot args 3) with
      | some v1, some v2, some v3 =>
        { stop := .returned, eax := some (of_int (write (to_int v1) v2 v3 s.mem s.pcb).1),
          st := { s with pcb := (write (to_int v1) v2 v3 s.mem s.pcb).2.1 },
          events := ev ++ [.invoke .SYS_WRITE [v1, v2, v3]] ++
            (match (write (to_int v1) v2 v3 s.mem s.pcb).2.2 with
             | none => []
             | some bs => [.putbuf bs]) }
      | _, _, _ => sys_fault s ev

/-- The routine `syscall_seek (args, eax)`, lines 378-385. -/
def syscall_seek (env : Sys) (pd : Nat → Option Bool) (s : SysState) (args : Nat)
    (ev : List SysEvent) : SysResult :=
  if validate_syscall_arg env.PGBITS env.PHYS_BASE pd args 3 = 0 then bail env pd s args ev
  else
    match peek env.PGBITS pd s.mem (slot args 1), peek env.PGBITS pd s.mem (slot args 2) with
    | some v1, some v2 =>
      { stop := .returned, eax := none, st := { s with pcb := seek (to_int v1) v2 s.pcb },
        events := ev ++ [.invoke .SYS_SEEK [v1, v2]] }
    | _, _ => sys_fault s ev

/-- The routine `syscall_tell (args, eax)`, lines 387-400. -/
def syscall_tell (env : Sys) (pd : Nat → Option Bool) (s : SysState) (args : Nat)
    (ev : List SysEvent) : SysResult :=
  if validate_syscall_arg env.PGBITS env.PHYS_BASE pd args 3 = 0 then bail env pd s args ev
  else
    match peek env.PGBITS pd s.mem (slot args 1) with
    | none => sys_fault s ev
    | some v1 =>
      if to_int (tell (to_int v1) s.pcb) = -1 then
        bail env pd s args (ev ++ [.invoke .SYS_TELL [v1]])
      else
        { stop := .returned, eax := some (tell (to_int v1) s.pcb), st := s,
          events := ev ++ [.invoke .SYS_TELL [v1]] }

/-- The routine `syscall_close (args, eax)`, lines 402-408. -/
def syscall_close (env : Sys) (pd : Nat → Option Bool) (s : SysState) (args : Nat)
    (ev : List SysEvent) : SysResult :=
  if validate_syscall_arg env.PGBITS env.PHYS_BASE pd args 2 = 0 then bail env pd s args ev
  else
    match peek env.PGBITS pd s.mem (slot args 1) with
    | none => sys_fault s ev
    | some v1 =>
      match close (to_int v1) s.pcb with
      | (r, p, closed) =>
        if r = -1 then bail env pd { s with pcb := p } args (ev ++ [.invoke .SYS_CLOSE [v1]])
        else
          { stop := .returned, eax := none, st := { s with pcb := p },
            events := ev ++ [.invoke .SYS_CLOSE [v1]] ++
              (match closed with
               | none => []
               | some f => [.file_close f]) }

/-- The routine `syscall_lock_init (args, eax)`, lines 410-417. -/
def syscall_lock_init (env : Sys) (pd : Nat → Option Bool) (s : SysState) (args : Nat)
    (ev : List SysEvent) : SysResult :=
  if validate_syscall_arg env.PGBITS env.PHYS_BASE pd args 2 = 0 then bail env pd s args ev
  else
    match peek env.PGBITS pd s.mem (slot args 1) with
    | none => sys_fault s ev
    | some v1 =>
      { stop := .returned, eax := some (of_int (sys_lock_init env.malloc v1 s.pcb).1),
        st := { s with pcb := (sys_lock_init env.malloc v1 s.pcb).2 },
        events := ev ++ [.invoke .SYS_LOCK_INIT [v1]] }

/-- The common text of the routines `syscall_lock_acquire`,
`syscall_lock_release`, `syscall_sema_up` and `syscall_sema_down`, lines 419-435
and 446-462, which differ in the call `c` they serve and in the operation `op`
they enter. -/
def syscall_keyed (c : Call) (op : Nat → process → Int × process) (env : Sys)
    (pd : Nat → Option Bool) (s : SysState) (args : Nat) (ev : List SysEvent) : SysResult :=
  if validate_syscall_arg env.PGBITS env.PHYS_BASE pd args 2 = 0 then bail env pd s args ev
  else
    match peek env.PGBITS pd s.mem (slot args 1) with
    | none => sys_fault s ev
    | some v1 =>
      if v1 = 0 then bail env pd s args ev
      else
        { stop := .returned, eax := some (of_int (op v1 s.pcb).1),
          st := { s with pcb := (op v1 s.pcb).2 },
          events := ev ++ [.invoke c [v1]] }

/-- The routine `syscall_lock_acquire (args, eax)`, lines 419-426. -/
def syscall_lock_acquire (env : Sys) (pd : Nat → Option Bool) (s : SysState) (args : Nat)
    (ev : List SysEvent) : SysResult :=
  syscall_keyed .SYS_LOCK_ACQUIRE (sys_lock_acquire env.cur) env pd s args ev

/-- The routine `syscall_lock_release (args, eax)`, lines 428-435. -/
def syscall_lock_release (env : Sys) (pd : Nat → Option Bool) (s : SysState) (args : Nat)
    (ev : List SysEvent) : SysResult :=
  syscall_keyed .SYS_LOCK_RELEASE (sys_lock_release env.cur) env pd s args ev

/-- The routine `syscall_sema_up (args, eax)`, lines 446-453. -/
def syscall_sema_up (env : Sys) (pd : Nat → Option Bool) (s : SysState) (args : Nat)
    (ev : List SysEvent) : SysResult :=
  syscall_keyed .SYS_SEMA_UP sys_sema_up env pd s args ev

/-- The routine `syscall_sema_down (args, eax)`, lines 455-462. -/
def syscall_sema_down (env : Sys) (pd : Nat → Option Bool) (s : SysState) (args : Nat)
    (ev : List SysEvent) : SysResult :=
  syscall_keyed .SYS_SEMA_DOWN sys_sema_down env pd s args ev

/-- The routine `syscall_sema_init (args, eax)`, lines 437-444. -/
def syscall_sema_init (env : Sys) (pd : Nat → Option Bool) (s : SysState) (args : Nat)
    (ev : List SysEvent) : SysResult :=
  if validate_syscall_arg env.PGBITS env.PHYS_BASE pd args 3 = 0 then bail env pd s args ev
  else
    match peek env.PGBITS pd s.mem (slot args 1), peek env.PGBITS pd s.mem (slot args 2) with
    | some v1, some v2 =>
      { stop := .returned,
        eax := some (of_int (sys_sema_init env.malloc v1 (to_int v2) s.pcb).1),
        st := { s with pcb := (sys_sema_init env.malloc v1 (to_int v2) s.pcb).2 },
        events := ev ++ [.invoke .SYS_SEMA_INIT [v1, v2]] }
    | _, _ => sys_fault s ev

/-- The case `SYS_COMPUTE_E` of the `switch`, lines 192-194. -/
def syscall_compute_e (env : Sys) (pd : Nat → Option Bool) (s : SysState) (args : Nat)
    (ev : List SysEvent) : SysResult :=
  match peek env.PGBITS pd s.mem (slot args 1) with
  | none => sys_fault s ev
  | some v1 =>
    { stop := .returned, eax := some (env.returns .SYS_COMPUTE_E [v1]), st := s,
      events := ev ++ [.invoke .SYS_COMPUTE_E [v1]] }

/-- The lines of a file case of the `switch` around the call of its routine:
`file_global_lock` is taken before and, when the routine returns, released. -/
def with_file_lock (h : SysState → List SysEvent → SysResult) (s : SysState)
    (ev : List SysEvent) : SysResult :=
  match h { s with file_global_lock := true } (ev ++ [.lock_acquire_file]) with
  | r =>
    if r.stop = .returned then
      { r with st := { r.st with file_global_lock := false },
               events := r.events ++ [.lock_release_file] }
    else r

/-- The `switch` of `syscall_handler`, lines 122-215, on the call that the
number designates, `none` for the `default` label. -/
def syscall_switch (env : Sys) (pd : Nat → Option Bool) (s : SysState) (args : Nat)
    (ev : List SysEvent) : Option Call → SysResult
  | some .SYS_HALT => syscall_halt s ev
  | some .SYS_EXIT => syscall_exit env pd s args ev
  | some .SYS_EXEC => syscall_exec env pd s args ev
  | some .SYS_WAIT => syscall_wait env pd s args ev
  | some .SYS_PRACTICE => syscall_practice env pd s args ev
  | some .SYS_PT_CREATE => syscall_pthread_create env pd s args ev
  | some .SYS_PT_JOIN => syscall_pthread_join env pd s args ev
  | some .SYS_PT_EXIT => syscall_pthread_exit env s ev
  | some .SYS_CREATE => with_file_lock (fun s ev => syscall_create env pd s args ev) s ev
  | some .SYS_REMOVE => with_file_lock (fun s ev => syscall_remove env pd s args ev) s ev
  | some .SYS_OPEN => with_file_lock (fun s ev => syscall_open env pd s args ev) s ev
  | some .SYS_FILESIZE => with_file_lock (fun s ev => syscall_filesize env pd s args ev) s ev
  | some .SYS_READ => with_file_lock (fun s ev => syscall_read env pd s args ev) s ev
  | some .SYS_WRITE => with_file_lock (fun s ev => syscall_write env pd s args ev) s ev
  | some .SYS_SEEK => with_file_lock (fun s ev => syscall_seek env pd s args ev) s ev
  | some .SYS_TELL => with_file_lock (fun s ev => syscall_tell env pd s args ev) s ev
  | some .SYS_CLOSE => with_file_lock (fun s ev => syscall_close env pd s args ev) s ev
  | some .SYS_COMPUTE_E => syscall_compute_e env pd s args ev
  | some .SYS_LOCK_INIT => syscall_lock_init env pd s args ev
  | some .SYS_LOCK_ACQUIRE => syscall_lock_acquire env pd s args ev
  | some .SYS_LOCK_RELEASE => syscall_lock_release env pd s args ev
  | some .SYS_SEMA_INIT => syscall_sema_init env pd s args ev
  | some .SYS_SEMA_UP => syscall_sema_up env pd s args ev
  | some .SYS_SEMA_DOWN => syscall_sema_down env pd s args ev
  | none => syscall_exit env pd s args ev

/-- The routine `syscall_handler (f)`, lines 92-218, entered with the stack
pointer `esp` of the interrupt frame. In the test of line 102 the call of
`pagedir_get_page` is made only for a stack pointer below `PHYS_BASE`: with a
process block without page table, a stack pointer at or above `PHYS_BASE` ends
the process with the status -1, and any other one stops the kernel in
`pagedir_get_page`. -/
def syscall_handler (env : Sys) (s : SysState) (esp : Nat) : SysResult :=
  match s.pcb.pagedir with
  | none =>
    if (!is_user_vaddr env.PHYS_BASE esp) = true then fatal s [.lock_acquire_syscall]
    else sys_fault s [.lock_acquire_syscall]
  | some pd =>
    if (!is_user_vaddr env.PHYS_BASE esp || !pagedir_get_page env.PGBITS pd esp) = true then
      fatal s [.lock_acquire_syscall]
    else if esp / PGSIZE env.PGBITS ≠ slot esp 1 / PGSIZE env.PGBITS
        ∧ env.sc_boundary_3 = true then
      fatal s [.lock_acquire_syscall]
    else
      match peek env.PGBITS pd s.mem esp with
      | none => sys_fault s [.lock_acquire_syscall]
      | some syscall_num =>
        match syscall_switch env pd s esp [.lock_acquire_syscall] (env.number syscall_num) with
        | r =>
          if r.stop = .returned then { r with events := r.events ++ [.lock_release_syscall] }
          else r

/-- A numbering of the calls, for the examples. -/
def sampleNumber (n : Nat) : Option Call :=
  [Call.SYS_HALT, .SYS_EXIT, .SYS_EXEC, .SYS_WAIT, .SYS_CREATE, .SYS_REMOVE, .SYS_OPEN,
   .SYS_FILESIZE, .SYS_READ, .SYS_WRITE, .SYS_SEEK, .SYS_TELL, .SYS_CLOSE, .SYS_PRACTICE,
   .SYS_COMPUTE_E, .SYS_PT_CREATE, .SYS_PT_EXIT, .SYS_PT_JOIN, .SYS_LOCK_INIT,
   .SYS_LOCK_ACQUIRE, .SYS_LOCK_RELEASE, .SYS_SEMA_INIT, .SYS_SEMA_DOWN, .SYS_SEMA_UP][n]?

/-- The surroundings of the examples: 4096-byte pages below 3221225472, the
thread 1, allocations that succeed, no file and no child. -/
def sampleSys : Sys :=
  { PGBITS := 12, PHYS_BASE := 3221225472, number := sampleNumber, sc_boundary_3 := false,
    cur := 1, malloc := true, filesys_open := fun _ => none, input := fun _ => 10, fuel := 8,
    child_exit := fun _ => 0, returns := fun _ _ => 0 }

/-- The 32-bit words `ws` stored from address `a` upwards. -/
def storeWords (m : Mem) (a : Nat) : List Nat → Mem
  | [] => m
  | w :: ws => storeWords (store32 m a w) (wrap (a + 4)) ws

/-- A fresh process whose page table is `samplePd`, with the words `ws` on its
stack from address `esp` upwards. -/
def sampleState (esp : Nat) (ws : List Nat) : SysState :=
  { pcb := fresh_process (some samplePd) none, mem := storeWords (fun _ => 0) esp ws, exit := 0,
    childs_status_lst := [], file_global_lock := false, consumed := 0 }

/-- The handler ended the process with the status -1 without entering an
operation: after the events `ev` it printed `exit(-1)`, released
`file_global_lock` if the thread held it, and called `process_exit`. -/
def killed (r : SysResult) (ev : List SysEvent) : Prop :=
  r.stop = .exited ∧ r.st.exit = -1 ∧
    (r.events = ev ++ [.printf_exit (-1), .process_exit] ∨
     r.events = ev ++ [.printf_exit (-1), .lock_release_file, .process_exit])

/-- The page table `samplePd` without the page of the kernel. -/
def samplePdUser : Nat → Option Bool :=
  fun pg => if pg = 786431 then some true else none

/-- A page table with the topmost page of user space and the page at
`0x08048000` mapped writable; the page after that one is not mapped. -/
def samplePdCode : Nat → Option Bool :=
  fun pg => if pg = 786431 then some true else if pg = 32840 then some true else none

/-- The state `sampleState` with the page table `samplePdCode`. -/
def sampleStateCode (esp : Nat) (ws : List Nat) : SysState :=
  { sampleState esp ws with pcb := fresh_process (some samplePdCode) none }

/-- The codes of the lines `<name>: exit(<code>)` among the events, in order. -/
def exit_lines (ev : List SysEvent) : List Int :=
  ev.filterMap (fun e => match e with
    | .printf_exit c => some c
    | _ => none)

/-- The events hold one line `<name>: exit(<code>)`, its code is the exit
status of the thread, and `process_exit` is called once, as the last event. -/
def reported_once (r : SysResult) : Prop :=
  exit_lines r.events = [r.st.exit] ∧ r.events.getLast? = some .process_exit ∧
    r.events.count .process_exit = 1

/-- Events without a line `exit(<code>)` and without a call of `process_exit`. -/
def quiet (ev : List SysEvent) : Prop :=
  exit_lines ev = [] ∧ ev.count .process_exit = 0

/-! ## Sample inputs -/

/-- The 52 bytes of an executable header with the expected identification,
machine 3, version 1, entry point 0 and 32-byte program headers; the type, the
offset of the program-header table (below 256) and the number of program
headers (below 256) are given. -/
def sampleEhdr (e_type e_phoff e_phnum : Nat) : List Nat :=
  [127, 69, 76, 70, 1, 1, 1] ++ List.replicate 9 0 ++ [e_type, 0, 3, 0, 1, 0, 0, 0] ++
    [0, 0, 0, 0] ++ [e_phoff, 0, 0, 0] ++ List.replicate 8 0 ++ [52, 0, 32, 0, e_phnum, 0] ++
    List.replicate 6 0

/-- The 32 bytes of a program header of the given type (below 256) whose other
fields are zero. -/
def samplePhdr (p_type : Nat) : List Nat := [p_type, 0, 0, 0] ++ List.replicate 28 0

/-- A file system that holds one file, named `a`, and a kernel that never runs
out of memory. -/
def sampleEnv (data : List Nat) : Env :=
  { pagedir_create := true, malloc := fun _ => true, palloc := fun _ => true,
    set_page := fun _ => true,
    filesys := fun name => if name = bytes "a" then some data else none }

/-- The state of a fresh process before `load`. -/
def sampleKernel : Kernel :=
  { pagedir := none, mem := fun _ => 0, exec := none, pallocs := 0, set_pages := 0,
    eip := none, esp := none }

/-- A loadable segment of 16 file bytes and 512 bytes of memory at
`0x08048000`, read from offset 0. -/
def samplePhdrLoad : Elf32_Phdr :=
  { p_type := 1, p_offset := 0, p_vaddr := 134512640, p_paddr := 0, p_filesz := 16,
    p_memsz := 512, p_flags := 5, p_align := 4096 }

/-! ## Vocabulary of the statements -/

/-- A token as `strtok_r` produces it: not empty, free of spaces and of
terminators. -/
def IsToken (t : List Nat) : Prop := t ≠ [] ∧ ∀ c ∈ t, c ≠ SPACE ∧ c ≠ 0

instance : DecidablePred IsToken := fun t => by
  unfold IsToken
  infer_instance

/-- The command line made of the given tokens with one space between
neighbours. -/
def joinSp : List (List Nat) → List Nat
  | [] => []
  | [t] => t
  | t :: u :: ts => t ++ SPACE :: joinSp (u :: ts)

/-- The number of positions at which a space is followed by the first byte of
a token, computed along the list. -/
def transitions : List Nat → Nat
  | [] => 0
  | [_] => 0
  | a :: b :: r => (if a = SPACE ∧ b ≠ 0 ∧ b ≠ SPACE then 1 else 0) + transitions (b :: r)

/-- The vector after the token loop has stored the given tokens from index `i`
on. -/
def storeTokens : List Slot → Nat → List (List Nat) → List Slot
  | argv, _, [] => argv
  | argv, i, t :: ts => storeTokens (argv.set i (.str t)) (i + 1) ts

/-- The bytes a list of strings occupies, terminators included. -/
def strBytes (ss : List (List Nat)) : Nat := (ss.map (fun s => strlen s + 1)).sum

/-- The address at which `push_args` stores `argc`: the top of user space less
the strings, the pointer array, the `argv` pointer and `argc`, rounded down to
a multiple of 16. -/
def argc_addr (PHYS_BASE argc total_bytes : Nat) : Nat :=
  (PHYS_BASE - (total_bytes + (argc + 1) * 4 + 4 + 4)) -
    (PHYS_BASE - (total_bytes + (argc + 1) * 4 + 4 + 4)) % 16

/-- The state `sampleKernel` with the page table `samplePd`. -/
def sampleKernelPd : Kernel := { sampleKernel with pagedir := some samplePd }

/-- The stack pointer that `setup_thread` stored, when it returned true. -/
def stack_top (r : Res (Bool × Kernel)) : Option Nat :=
  match r with
  | .done (true, k) => k.esp
  | _ => none

/-- The record that `pthread_execute` hands to a new thread: a stub at
`0x08048000`, a function at `0x08048010` and the argument 7. -/
def sampleArgs : start_pthread_args :=
  { sf := 134512640, tf := 134512656, arg := 7, setup_failed := none,
    process_thread_setup_wait := sema_init 0 }

/-- The calls and assignments of a sequence of steps of `process_exit`. -/
def exit_events (steps : List (ExitEvent × Option process)) : List ExitEvent :=
  steps.map Prod.fst

/-- The place of a step in the text of `process_exit`, lines 216-275: the
executable, the file descriptor table, the user locks, the user semaphores, the
three steps on the page table of lines 251-253, the records of the secondary
threads, the pointer of the thread, the process block, `thread_exit`. -/
def exit_phase : ExitEvent → Nat
  | .file_close_exec => 0
  | .file_close _ => 1
  | .free_file_desc_entry _ => 1
  | .free_user_lock _ => 2
  | .free_user_sema _ => 3
  | .set_pagedir_null => 4
  | .pagedir_activate_null => 5
  | .pagedir_destroy => 6
  | .free_process_thread _ => 7
  | .set_pcb_null => 8
  | .free_pcb => 9
  | .thread_exit => 10

/-- The order of the teardown in the words of the specification: the files,
then the records of locks and semaphores, then the records of the secondary
threads, then the page table, then the process block. -/
def stated_phase : ExitEvent → Nat
  | .file_close_exec => 0
  | .file_close _ => 0
  | .free_file_desc_entry _ => 0
  | .free_user_lock _ => 1
  | .free_user_sema _ => 1
  | .free_process_thread _ => 2
  | .set_pagedir_null => 3
  | .pagedir_activate_null => 3
  | .pagedir_destroy => 3
  | .set_pcb_null => 4
  | .free_pcb => 4
  | .thread_exit => 5

/-- The events come in the order of the places `ph`: no event is followed by
one of an earlier place. -/
def in_order (ph : ExitEvent → Nat) (l : List ExitEvent) : Prop :=
  l.Pairwise (fun a b => ph a ≤ ph b)

/-- A process with the page table `samplePd`, no open file and the record of
one secondary thread. -/
def sampleProcessThread : process :=
  { fresh_process (some samplePd) none with
    process_threads := [{ tid := 4, thread_exited := false, thread_waiter := none,
                          exit_wait := 0 }] }

/-- The state of a fresh process with an empty page table. -/
def sampleKernelEmpty : Kernel := { sampleKernel with pagedir := some (fun _ => none) }

/-- The page table that `setup_stack` leaves when it maps the stack page of
4096 bytes below 3221225472 into an empty table. -/
def sampleStackPd : Nat → Option Bool :=
  pagedir_set_page 12 (fun _ => none) (3221225472 - 4096) true

/-! # Theorems -/

/-! ## C strings without terminator bytes -/

theorem takeWhile_nz (s : List Nat) (h : ∀ c ∈ s, c ≠ 0) :
    s.takeWhile (fun c => c != 0) = s := by
  rw [List.takeWhile_eq_self_iff]
  intro c hc
  simpa using h c hc

theorem strlen_nz (s : List Nat) (h : ∀ c ∈ s, c ≠ 0) : strlen s = s.length := by
  simp [strlen, takeWhile_nz s h]

theorem strlcpy_nz (s : List Nat) (h : ∀ c ∈ s, c ≠ 0) : strlcpy s (strlen s + 1) = s := by
  simp [strlcpy, strlen, takeWhile_nz s h]

theorem joinSp_eq_intercalate (toks : List (List Nat)) :
    joinSp toks = List.intercalate [SPACE] toks := by
  induction toks with
  | nil => rfl
  | cons t ts ih =>
    cases ts with
    | nil => simp [joinSp, List.intercalate]
    | cons u us =>
      simp only [joinSp, ih]
      simp [List.intercalate]

theorem charAt_drop (s : List Nat) (i : Nat) : charAt s i = (s.drop i).headD 0 := by
  induction s generalizing i with
  | nil => simp [charAt]
  | cons a s ih =>
    cases i with
    | zero => simp [charAt]
    | succ i => simp [charAt]

theorem count_args_eq (s : List Nat) :
    ∀ (n i argc : Nat), n + i = s.length →
      count_args s n i argc = argc + transitions (s.drop i) := by
  intro n
  induction n with
  | zero =>
    intro i argc h
    have : s.drop i = [] := by
      apply List.drop_eq_nil_of_le; omega
    simp [count_args, this, transitions]
  | succ n ih =>
    intro i argc h
    have hi : i < s.length := by omega
    have hd : s.drop i = s[i] :: s.drop (i + 1) := List.drop_eq_getElem_cons hi
    have h0 : charAt s i = s[i] := by
      rw [charAt_drop, hd]; rfl
    have h1 : charAt s (i + 1) = (s.drop (i + 1)).headD 0 := charAt_drop s (i + 1)
    rw [count_args]
    rw [hd]
    cases hr : s.drop (i + 1) with
    | nil =>
      rw [hr] at h1
      have h1' : charAt s (i + 1) = 0 := by simpa using h1
      simp only [h1']
      rw [if_neg (by simp)]
      rw [ih (i + 1) argc (by omega), hr]
      simp [transitions]
    | cons b r =>
      rw [hr] at h1
      have h1' : charAt s (i + 1) = b := by simpa using h1
      rw [h0, h1']
      by_cases hc : s[i] = SPACE ∧ b ≠ 0 ∧ b ≠ SPACE
      · rw [if_pos hc, ih (i + 1) (argc + 1) (by omega), hr]
        simp only [transitions, if_pos hc]
        omega
      · rw [if_neg hc, ih (i + 1) argc (by omega), hr]
        simp only [transitions, if_neg hc]
        omega

theorem transitions_no_space (t : List Nat) (h : ∀ c ∈ t, c ≠ SPACE) : transitions t = 0 := by
  induction t with
  | nil => rfl
  | cons a t ih =>
    cases t with
    | nil => rfl
    | cons b r =>
      have ha : a ≠ SPACE := h a (by simp)
      have hr := ih (fun c hc => h c (List.mem_cons_of_mem _ hc))
      simp [transitions, ha, hr]

theorem transitions_append_space (t : List Nat) (h : ∀ c ∈ t, c ≠ SPACE) (b : Nat) (r : List Nat)
    (hb0 : b ≠ 0) (hbs : b ≠ SPACE) :
    transitions (t ++ SPACE :: b :: r) = 1 + transitions (b :: r) := by
  induction t with
  | nil => simp [transitions, hb0, hbs]
  | cons a t ih =>
    have ha : a ≠ SPACE := h a (by simp)
    have hr := ih (fun c hc => h c (List.mem_cons_of_mem _ hc))
    cases t with
    | nil => simpa [transitions, ha] using hr
    | cons c t =>
      simp only [List.cons_append] at hr ⊢
      simp only [transitions]
      rw [hr]
      simp [ha]

theorem joinSp_head (u : List Nat) (ts : List (List Nat)) (hu : IsToken u) :
    ∃ b r, joinSp (u :: ts) = b :: r ∧ b ≠ SPACE ∧ b ≠ 0 := by
  obtain ⟨hne, hc⟩ := hu
  cases u with
  | nil => exact absurd rfl hne
  | cons b u =>
    have hb := hc b (by simp)
    cases ts with
    | nil => exact ⟨b, u, rfl, hb.1, hb.2⟩
    | cons v vs => exact ⟨b, u ++ SPACE :: joinSp (v :: vs), rfl, hb.1, hb.2⟩

theorem transitions_joinSp (toks : List (List Nat)) (h : ∀ t ∈ toks, IsToken t) (hne : toks ≠ []) :
    transitions (joinSp toks) + 1 = toks.length := by
  induction toks with
  | nil => exact absurd rfl hne
  | cons t ts ih =>
    have ht : IsToken t := h t (by simp)
    cases ts with
    | nil =>
      simp [joinSp, transitions_no_space t (fun c hc => (ht.2 c hc).1)]
    | cons u us =>
      have hts : ∀ x ∈ u :: us, IsToken x := fun x hx => h x (List.mem_cons_of_mem _ hx)
      have ih1 := ih hts (by simp)
      obtain ⟨b, r, hbr, hbs, hb0⟩ := joinSp_head u us (hts u (by simp))
      simp only [joinSp] at ih1 ⊢
      rw [hbr] at ih1 ⊢
      rw [transitions_append_space t (fun c hc => (ht.2 c hc).1) b r hb0 hbs]
      simp only [List.length_cons] at ih1 ⊢
      omega

theorem joinSp_nz (toks : List (List Nat)) (h : ∀ t ∈ toks, IsToken t) :
    ∀ c ∈ joinSp toks, c ≠ 0 := by
  induction toks with
  | nil => simp [joinSp]
  | cons t ts ih =>
    have ht : IsToken t := h t (by simp)
    have hts : ∀ x ∈ ts, IsToken x := fun x hx => h x (List.mem_cons_of_mem _ hx)
    cases ts with
    | nil => exact fun c hc => (ht.2 c hc).2
    | cons u us =>
      intro c hc
      simp only [joinSp, List.mem_append, List.mem_cons] at hc
      rcases hc with hc | hc | hc
      · exact (ht.2 c hc).2
      · rw [hc]; decide
      · exact ih hts c hc

theorem length_le_joinSp (toks : List (List Nat)) (h : ∀ t ∈ toks, IsToken t) :
    toks.length ≤ (joinSp toks).length := by
  induction toks with
  | nil => simp
  | cons t ts ih =>
    have ht : IsToken t := h t (by simp)
    have hts : ∀ x ∈ ts, IsToken x := fun x hx => h x (List.mem_cons_of_mem _ hx)
    have hl : 0 < t.length := List.length_pos.mpr ht.1
    cases ts with
    | nil => simpa [joinSp] using hl
    | cons u us =>
      have := ih hts
      simp only [joinSp, List.length_append, List.length_cons] at this ⊢
      omega

theorem takeWhile_append_stop (p : Nat → Bool) (t : List Nat) (x : Nat) (r : List Nat)
    (ht : ∀ c ∈ t, p c = true) (hx : p x = false) : (t ++ x :: r).takeWhile p = t := by
  induction t with
  | nil => simp [List.takeWhile, hx]
  | cons a t ih =>
    have ha : p a = true := ht a (by simp)
    simp [List.takeWhile, ha, ih (fun c hc => ht c (List.mem_cons_of_mem _ hc))]

theorem dropWhile_append_stop (p : Nat → Bool) (t : List Nat) (x : Nat) (r : List Nat)
    (ht : ∀ c ∈ t, p c = true) (hx : p x = false) : (t ++ x :: r).dropWhile p = x :: r := by
  induction t with
  | nil => simp [List.dropWhile, hx]
  | cons a t ih =>
    have ha : p a = true := ht a (by simp)
    simp [List.dropWhile, ha, ih (fun c hc => ht c (List.mem_cons_of_mem _ hc))]

theorem takeWhile_all (p : Nat → Bool) (t : List Nat) (ht : ∀ c ∈ t, p c = true) :
    t.takeWhile p = t := by
  rw [List.takeWhile_eq_self_iff]; exact ht

theorem dropWhile_all (p : Nat → Bool) (t : List Nat) (ht : ∀ c ∈ t, p c = true) :
    t.dropWhile p = [] := by
  rw [List.dropWhile_eq_nil_iff]; exact ht

theorem token_pred (t : List Nat) (ht : IsToken t) :
    ∀ c ∈ t, (fun d => d != SPACE && d != 0) c = true := by
  intro c hc
  have := ht.2 c hc
  simp [this.1, this.2]

theorem strtok_r_nil : strtok_r [] = none := rfl

theorem strtok_r_last (t : List Nat) (ht : IsToken t) : strtok_r t = some (t, []) := by
  have hp := token_pred t ht
  obtain ⟨hne, hc⟩ := ht
  cases t with
  | nil => exact absurd rfl hne
  | cons c t =>
    have hcs := hc c (by simp)
    have hcb : (c == SPACE) = false := by simp [hcs.1]
    have h1 : (c :: t).dropWhile (fun c => c == SPACE) = c :: t := by
      simp [List.dropWhile, hcb]
    unfold strtok_r
    rw [h1]
    simp only [if_neg hcs.2]
    rw [takeWhile_all _ (c :: t) hp, dropWhile_all _ (c :: t) hp]

theorem strtok_r_next (t r : List Nat) (ht : IsToken t) :
    strtok_r (t ++ SPACE :: r) = some (t, r) := by
  have hp := token_pred t ht
  obtain ⟨hne, hc⟩ := ht
  cases t with
  | nil => exact absurd rfl hne
  | cons c t =>
    have hcs := hc c (by simp)
    have hcb : (c == SPACE) = false := by simp [hcs.1]
    have h1 : (c :: t ++ SPACE :: r).dropWhile (fun c => c == SPACE) = c :: (t ++ SPACE :: r) := by
      simp [List.dropWhile, hcb]
    have hx : (fun d => d != SPACE && d != 0) SPACE = false := by decide
    have h2 := takeWhile_append_stop _ (c :: t) SPACE r hp hx
    have h3 := dropWhile_append_stop _ (c :: t) SPACE r hp hx
    simp only [List.cons_append] at h1 h2 h3
    unfold strtok_r
    simp only [List.cons_append]
    rw [h1]
    simp only [if_neg hcs.2]
    rw [h2, h3]
    simp [SPACE]

theorem strtok_r_joinSp (t : List Nat) (ts : List (List Nat)) (ht : IsToken t) :
    strtok_r (joinSp (t :: ts)) = some (t, joinSp ts) := by
  cases ts with
  | nil => simpa [joinSp] using strtok_r_last t ht
  | cons u us => simpa [joinSp] using strtok_r_next t (joinSp (u :: us)) ht

theorem parse_loop_joinSp (heap : Nat → Bool) (toks : List (List Nat)) :
    ∀ (fuel i : Nat) (argv : List Slot) (total k : Nat),
      (∀ t ∈ toks, IsToken t) → toks.length ≤ fuel →
      (∀ j, j < toks.length → heap (k + j) = true) →
      parse_loop heap fuel (strtok_r (joinSp toks)) i argv total k =
        .done (storeTokens argv i toks, total + (toks.map (fun t => t.length + 1)).sum) := by
  induction toks with
  | nil =>
    intro fuel i argv total k _ _ _
    cases fuel <;> simp [joinSp, strtok_r_nil, parse_loop, storeTokens]
  | cons t ts ih =>
    intro fuel i argv total k htok hfuel hheap
    have ht : IsToken t := htok t (by simp)
    have hts : ∀ x ∈ ts, IsToken x := fun x hx => htok x (List.mem_cons_of_mem _ hx)
    have hnz : ∀ c ∈ t, c ≠ 0 := fun c hc => (ht.2 c hc).2
    cases fuel with
    | zero => simp at hfuel
    | succ fuel =>
      rw [strtok_r_joinSp t ts ht]
      have hk : heap k = true := by simpa using hheap 0 (by simp)
      have hcp : strlcpy t (t.length + 1) = t := by
        simpa [strlen_nz t hnz] using strlcpy_nz t hnz
      simp only [parse_loop, hk, strlen_nz t hnz, hcp]
      rw [ih fuel (i + 1) _ _ (k + 1) hts (by simpa using hfuel)
        (fun j hj => by
          have := hheap (j + 1) (by simpa using hj)
          rwa [show k + 1 + j = k + (j + 1) by omega])]
      simp [storeTokens, Nat.add_assoc]

theorem storeTokens_replicate (ts : List (List Nat)) :
    ∀ (pre : List Slot),
      storeTokens (pre ++ List.replicate (ts.length + 1) Slot.uninit) pre.length ts =
        pre ++ ts.map Slot.str ++ [Slot.uninit] := by
  induction ts with
  | nil => intro pre; simp [storeTokens]
  | cons t ts ih =>
    intro pre
    have h := ih (pre ++ [Slot.str t])
    simp only [List.length_append, List.length_singleton, List.append_assoc] at h
    simp only [storeTokens, List.length_cons, List.map_cons]
    rw [List.replicate_succ, List.set_append_right _ _ (le_refl _)]
    simp only [Nat.sub_self, List.set_cons_zero]
    simpa using h

theorem parse_cmd_joinSp (heap : Nat → Bool) (toks : List (List Nat))
    (hne : toks ≠ []) (htok : ∀ t ∈ toks, IsToken t)
    (hheap : ∀ k, k ≤ toks.length → heap k = true) :
    parse_cmd heap (joinSp toks) =
      .done { argv := toks.map Slot.str ++ [Slot.null], num_args := toks.length,
              num_bytes := (toks.map (fun t => t.length + 1)).sum } := by
  have hnz := joinSp_nz toks htok
  have hlen := strlen_nz _ hnz
  have hargc : count_args (joinSp toks) (joinSp toks).length 0 1 = toks.length := by
    rw [count_args_eq (joinSp toks) _ 0 1 (by simp)]
    have := transitions_joinSp toks htok hne
    simp only [List.drop_zero]
    omega
  have hcp : strlcpy (joinSp toks) ((joinSp toks).length + 1) = joinSp toks := by
    simpa [hlen] using strlcpy_nz _ hnz
  have h0 : heap 0 = true := hheap 0 (Nat.zero_le _)
  have hloop := parse_loop_joinSp heap toks ((joinSp toks).length + 1) 0
    (List.replicate (toks.length + 1) Slot.uninit) 0 1 htok
    (Nat.le_succ_of_le (length_le_joinSp toks htok))
    (fun j hj => hheap (1 + j) (by omega))
  have hst := storeTokens_replicate toks []
  simp only [List.nil_append, List.length_nil] at hst
  rw [hst] at hloop
  simp only [parse_cmd, hlen, hargc, hcp, h0, hloop]
  have hset : (List.map Slot.str toks ++ [Slot.uninit]).set toks.length Slot.null =
      List.map Slot.str toks ++ [Slot.null] := by
    rw [List.set_append_right _ _ (by simp)]
    simp
  simp [hset]

/-- C1: for a command line of one or more tokens (non-empty, free of spaces
and terminators) joined by single spaces, and while every `malloc` succeeds,
`parse_cmd` returns a vector whose entry `i` is a copy of token `i` for every
`i < argc` and whose entry `argc` is null, reports `argc` equal to the number
of tokens and reports the sum of `length + 1` over the tokens as the byte
total. -/
theorem parse_cmd_tokens (heap : Nat → Bool) (toks : List (List Nat))
    (hne : toks ≠ []) (htok : ∀ t ∈ toks, IsToken t)
    (hheap : ∀ k, k ≤ toks.length → heap k = true) :
    parse_cmd heap (List.intercalate [SPACE] toks) =
      .done { argv := toks.map Slot.str ++ [Slot.null], num_args := toks.length,
              num_bytes := (toks.map (fun t => t.length + 1)).sum } := by
  rw [← joinSp_eq_intercalate]
  exact parse_cmd_joinSp heap toks hne htok hheap

/-- C1 at the command line `/bin/ls -l foo bar`: four arguments, the four
tokens followed by the null entry, nineteen bytes of strings. -/
theorem parse_cmd_tokens_witness :
    parse_cmd (fun _ => true) (bytes "/bin/ls -l foo bar") =
      .done { argv := [.str (bytes "/bin/ls"), .str (bytes "-l"), .str (bytes "foo"),
                       .str (bytes "bar"), .null],
              num_args := 4, num_bytes := 19 } :=
  parse_cmd_tokens (fun _ => true) [bytes "/bin/ls", bytes "-l", bytes "foo", bytes "bar"]
    (by simp) (by decide) (fun _ _ => rfl)

/-! ## Memory lemmas -/

theorem wrap_of_lt (x : Nat) (h : x < 2 ^ 32) : wrap x = x := by
  unfold wrap
  exact Nat.mod_eq_of_lt h

theorem sub32_of_le (a b : Nat) (hb : b ≤ a) (ha : a < 2 ^ 32) : sub32 a b = a - b := by
  unfold sub32
  split <;> omega

theorem storeBytes_frame (bs : List Nat) :
    ∀ (m : Mem) (a x : Nat), a + bs.length ≤ 2 ^ 32 → (x < a ∨ a + bs.length ≤ x) →
      storeBytes m a bs x = m x := by
  induction bs with
  | nil => intro m a x _ _; rfl
  | cons b bs ih =>
    intro m a x ha hx
    simp only [List.length_cons] at ha hx
    simp only [storeBytes]
    cases bs with
    | nil =>
      simp only [storeBytes, store8]
      rw [if_neg (by simp only [List.length_nil] at hx; omega)]
    | cons c cs =>
      simp only [List.length_cons] at ha hx ih
      have hw : wrap (a + 1) = a + 1 := wrap_of_lt _ (by omega)
      rw [hw, ih _ _ _ (by omega) (by omega)]
      simp only [store8]
      rw [if_neg (by omega)]

theorem loadBytes_storeBytes (bs : List Nat) :
    ∀ (m : Mem) (a : Nat), a + bs.length ≤ 2 ^ 32 →
      loadBytes (storeBytes m a bs) a bs.length = bs := by
  induction bs with
  | nil => intro m a _; rfl
  | cons b bs ih =>
    intro m a ha
    simp only [List.length_cons] at ha
    simp only [storeBytes, loadBytes, List.length_cons]
    cases bs with
    | nil => simp [storeBytes, store8, loadBytes]
    | cons c cs =>
      simp only [List.length_cons] at ha ih
      have hw : wrap (a + 1) = a + 1 := wrap_of_lt _ (by omega)
      rw [hw]
      have h1 := ih (store8 m a b) (a + 1) (by omega)
      simp only [List.length_cons] at h1 ⊢
      rw [h1, storeBytes_frame _ _ _ _ (by simp only [List.length_cons]; omega) (Or.inl (by omega))]
      simp [store8]

theorem loadBytes_congr (n : Nat) :
    ∀ (m m1 : Mem) (a : Nat), a + n ≤ 2 ^ 32 → (∀ x, a ≤ x → x < a + n → m x = m1 x) →
      loadBytes m a n = loadBytes m1 a n := by
  induction n with
  | zero => intro m m1 a _ _; rfl
  | succ n ih =>
    intro m m1 a ha h
    simp only [loadBytes]
    rw [h a (le_refl _) (by omega)]
    cases n with
    | zero => rfl
    | succ k =>
      have hw : wrap (a + 1) = a + 1 := wrap_of_lt _ (by omega)
      rw [hw, ih m m1 (a + 1) (by omega) (fun x h1 h2 => h x (by omega) (by omega))]

theorem loadBytes_append (n k : Nat) :
    ∀ (m : Mem) (a : Nat), a + n + k ≤ 2 ^ 32 → 0 < k →
      loadBytes m a (n + k) = loadBytes m a n ++ loadBytes m (a + n) k := by
  induction n with
  | zero => intro m a _ _; simp [loadBytes]
  | succ n ih =>
    intro m a ha hk
    have hw : wrap (a + 1) = a + 1 := wrap_of_lt _ (by omega)
    rw [show n + 1 + k = (n + k) + 1 by omega]
    simp only [loadBytes, hw, List.cons_append]
    rw [ih m (a + 1) (by omega) hk, show a + 1 + n = a + (n + 1) by omega]

theorem load32_congr (m m1 : Mem) (a : Nat) (ha : a + 4 ≤ 2 ^ 32)
    (h : ∀ x, a ≤ x → x < a + 4 → m x = m1 x) : load32 m a = load32 m1 a := by
  have h1 : wrap (a + 1) = a + 1 := wrap_of_lt _ (by omega)
  have h2 : wrap (a + 2) = a + 2 := wrap_of_lt _ (by omega)
  have h3 : wrap (a + 3) = a + 3 := wrap_of_lt _ (by omega)
  simp only [load32, h1, h2, h3]
  rw [h a (by omega) (by omega), h (a + 1) (by omega) (by omega),
    h (a + 2) (by omega) (by omega), h (a + 3) (by omega) (by omega)]

theorem store32_frame (m : Mem) (a v x : Nat) (ha : a + 4 ≤ 2 ^ 32) (hx : x < a ∨ a + 4 ≤ x) :
    store32 m a v x = m x :=
  storeBytes_frame _ m a x (by simpa using ha) (by simpa using hx)

theorem load32_store32 (m : Mem) (a v : Nat) (ha : a + 4 ≤ 2 ^ 32) (hv : v < 2 ^ 32) :
    load32 (store32 m a v) a = v := by
  have h1 : wrap (a + 1) = a + 1 := wrap_of_lt _ (by omega)
  have h2 : wrap (a + 2) = a + 2 := wrap_of_lt _ (by omega)
  have h3 : wrap (a + 3) = a + 3 := wrap_of_lt _ (by omega)
  have e1 : wrap (a + 1 + 1) = a + 2 := by rw [show a + 1 + 1 = a + 2 by omega]; exact h2
  have e2 : wrap (a + 2 + 1) = a + 3 := by rw [show a + 2 + 1 = a + 3 by omega]; exact h3
  simp only [load32, store32, storeBytes, store8, h1, h2, h3, e1, e2]
  have n1 : ¬ (a = a + 1) := by omega
  have n2 : ¬ (a = a + 2) := by omega
  have n3 : ¬ (a = a + 3) := by omega
  have n4 : ¬ (a + 1 = a + 2) := by omega
  have n5 : ¬ (a + 1 = a + 3) := by omega
  have n6 : ¬ (a + 2 = a + 3) := by omega
  simp only [n1, n2, n3, n4, n5, n6, if_true, if_false]
  omega

/-! ## push_args -/

theorem strlcpy_full (s : List Nat) : strlcpy s (strlen s + 1) = cstr s := by
  simp [strlcpy, strlen, cstr]

theorem length_cstr (s : List Nat) : (cstr s).length = strlen s := rfl

theorem cstr_nz (s : List Nat) (h : ∀ c ∈ s, c ≠ 0) : cstr s = s := takeWhile_nz s h

theorem strBytes_cons (s : List Nat) (ss : List (List Nat)) :
    strBytes (s :: ss) = (strlen s + 1) + strBytes ss := by
  simp [strBytes]

theorem strBytes_take_succ (ss : List (List Nat)) :
    ∀ (j : Nat) (s : List Nat), ss[j]? = some s →
      strBytes (ss.take (j + 1)) = strBytes (ss.take j) + (strlen s + 1) := by
  induction ss with
  | nil => intro j s h; simp at h
  | cons t ss ih =>
    intro j s h
    cases j with
    | zero =>
      have ht : t = s := by simpa using h
      subst ht
      simp [strBytes]
    | succ j =>
      have h1 : ss[j]? = some s := by simpa using h
      simp only [List.take_succ_cons, strBytes_cons, ih j s h1]
      omega

theorem strBytes_take_le (ss : List (List Nat)) : ∀ (j : Nat), strBytes (ss.take j) ≤ strBytes ss := by
  induction ss with
  | nil => intro j; simp [strBytes]
  | cons t ss ih =>
    intro j
    cases j with
    | zero => simp [strBytes]
    | succ j =>
      simp only [List.take_succ_cons, strBytes_cons]
      have := ih j
      omega

theorem pad_loop_eq (e : Nat) (he : e < 2 ^ 32) :
    ∀ (fuel p : Nat), p ≤ e % 16 → e % 16 - p < fuel → pad_loop e fuel p = some (e % 16) := by
  intro fuel
  induction fuel with
  | zero => intro p _ h; omega
  | succ fuel ih =>
    intro p hp hf
    have hs : sub32 e p = e - p := sub32_of_le e p (by omega) he
    simp only [pad_loop, hs]
    by_cases hc : (e - p) % 16 ≠ 0
    · rw [if_pos hc]
      exact ih (p + 1) (by omega) (by omega)
    · rw [if_neg hc]
      congr 1
      omega

theorem mapped_writable_of (PGBITS : Nat) (pd : Nat → Option Bool) (a n : Nat)
    (hn : a + n ≤ 2 ^ 32)
    (h : ∀ x, a ≤ x → x < a + n → pd (x / PGSIZE PGBITS) = some true) :
    mapped_writable PGBITS pd a n = true := by
  unfold mapped_writable
  rw [List.all_eq_true]
  intro i hi
  rw [List.mem_range] at hi
  rw [wrap_of_lt _ (by omega)]
  exact decide_eq_true (h _ (by omega) (by omega))

theorem mapped_writable_first (PGBITS : Nat) (pd : Nat → Option Bool) (a n : Nat)
    (ha : a < 2 ^ 32) (hn : 0 < n) (h : pd (a / PGSIZE PGBITS) ≠ some true) :
    mapped_writable PGBITS pd a n = false := by
  cases hm : mapped_writable PGBITS pd a n with
  | false => rfl
  | true =>
    unfold mapped_writable at hm
    rw [List.all_eq_true] at hm
    have h0 := hm 0 (List.mem_range.2 hn)
    rw [Nat.add_zero, wrap_of_lt _ ha] at h0
    exact absurd (of_decide_eq_true h0) h

theorem push_loop_uninit (PGBITS : Nat) (pd : Nat → Option Bool) (argv : List Slot) :
    ∀ (n i sp sp_2 : Nat) (m : Mem) (j : Nat), j < n → argv[i + j]? = some .uninit →
      push_loop PGBITS pd argv n i sp sp_2 m = .fault := by
  intro n
  induction n with
  | zero => intro i sp sp_2 m j hj; omega
  | succ n ih =>
    intro i sp sp_2 m j hj hu
    rw [push_loop]
    cases j with
    | zero =>
      rw [Nat.add_zero] at hu
      rw [hu]
    | succ j =>
      split
      · split
        · rfl
        · split
          · rfl
          · exact ih _ _ _ _ j (by omega) (by rwa [show i + 1 + j = i + (j + 1) by omega])
      · rfl

theorem push_args_uninit (PGBITS : Nat) (pd : Nat → Option Bool) (PHYS_BASE argc : Nat)
    (argv : List Slot) (total_bytes : Nat) (m : Mem) (p j : Nat)
    (hp : pad_loop (sub32 PHYS_BASE (wrap (total_bytes + (argc + 1) * 4 + 4 + 4))) 16 0 = some p)
    (hj : j < argc) (hu : argv[j]? = some .uninit) :
    push_args PGBITS pd PHYS_BASE argc argv total_bytes m = .fault := by
  unfold push_args
  simp only [hp]
  split
  · rfl
  · split
    · rfl
    · rw [push_loop_uninit PGBITS pd argv argc 0 _ _ _ j hj (by rwa [Nat.zero_add])]

theorem push_loop_spec (PGBITS : Nat) (pd : Nat → Option Bool) (argv : List Slot)
    (ss : List (List Nat)) :
    ∀ (i sp sp_2 : Nat) (m : Mem),
      (∀ (j : Nat) (s : List Nat), ss[j]? = some s → argv[i + j]? = some (.str s)) →
      sp + 4 * ss.length ≤ sp_2 → sp_2 + strBytes ss < 2 ^ 32 →
      (∀ x, ((sp ≤ x ∧ x < sp + 4 * ss.length) ∨ (sp_2 ≤ x ∧ x < sp_2 + strBytes ss)) →
        pd (x / PGSIZE PGBITS) = some true) →
      ∃ m1, push_loop PGBITS pd argv ss.length i sp sp_2 m = .done (m1, sp + 4 * ss.length) ∧
        (∀ x, (x < sp ∨ (sp + 4 * ss.length ≤ x ∧ x < sp_2) ∨ sp_2 + strBytes ss ≤ x) →
          m1 x = m x) ∧
        (∀ (j : Nat) (s : List Nat), ss[j]? = some s →
          load32 m1 (sp + 4 * j) = sp_2 + strBytes (ss.take j) ∧
          loadBytes m1 (sp_2 + strBytes (ss.take j)) (strlen s + 1) = cstr s ++ [0]) := by
  induction ss with
  | nil =>
    intro i sp sp_2 m _ _ _ _
    exact ⟨m, by simp [push_loop], fun _ _ => rfl, fun j s h => by simp at h⟩
  | cons s ss ih =>
    intro i sp sp_2 m hargv hsp hend hmap
    rw [strBytes_cons] at hend hmap
    simp only [List.length_cons] at hsp hmap
    have hmw1 : mapped_writable PGBITS pd sp_2 (strlen s + 1) = true :=
      mapped_writable_of _ _ _ _ (by omega) (fun x h1 h2 => hmap x (by omega))
    have hmw2 : mapped_writable PGBITS pd sp 4 = true :=
      mapped_writable_of _ _ _ _ (by omega) (fun x h1 h2 => hmap x (by omega))
    have h0 : argv[i]? = some (.str s) := by simpa using hargv 0 s (by simp)
    have hb : (strlcpy s (strlen s + 1) ++ [0]).length = strlen s + 1 := by
      rw [strlcpy_full]; simp [length_cstr]
    have hw1 : wrap (sp + 4) = sp + 4 := wrap_of_lt _ (by omega)
    have hw2 : wrap (sp_2 + (strlen s + 1)) = sp_2 + (strlen s + 1) := wrap_of_lt _ (by omega)
    obtain ⟨m1, hrun, hframe, htok⟩ := ih (i + 1) (sp + 4) (sp_2 + (strlen s + 1))
      (store32 (storeBytes m sp_2 (strlcpy s (strlen s + 1) ++ [0])) sp sp_2)
      (fun j t hj => by
        have := hargv (j + 1) t (by simpa using hj)
        rwa [show i + 1 + j = i + (j + 1) by omega])
      (by omega) (by omega) (fun x hx => hmap x (by omega))
    refine ⟨m1, ?_, ?_, ?_⟩
    · simp only [List.length_cons, push_loop, h0, hw1, hw2, hrun, hmw1, hmw2,
        Bool.true_eq_false, if_false]
      congr 2
      omega
    · intro x hx
      rw [strBytes_cons] at hx
      simp only [List.length_cons] at hx
      rw [hframe x (by omega), store32_frame _ _ _ _ (by omega) (by omega),
        storeBytes_frame _ _ _ _ (by rw [hb]; omega) (by rw [hb]; omega)]
    · intro j t hj
      cases j with
      | zero =>
        have ht : t = s := by simpa using hj.symm
        subst ht
        simp only [List.take_zero, strBytes, List.map_nil, List.sum_nil, Nat.add_zero,
          Nat.mul_zero]
        constructor
        · rw [load32_congr m1 _ sp (by omega) (fun x h1 h2 => hframe x (by omega)),
            load32_store32 _ _ _ (by omega) (by omega)]
        · rw [loadBytes_congr _ m1 _ sp_2 (by omega) (fun x h1 h2 => hframe x (by omega)),
            loadBytes_congr _ _ (storeBytes m sp_2 (strlcpy t (strlen t + 1) ++ [0])) sp_2
              (by omega) (fun x h1 h2 => store32_frame _ _ _ _ (by omega) (by omega))]
          have := loadBytes_storeBytes (strlcpy t (strlen t + 1) ++ [0]) m sp_2
            (by rw [hb]; omega)
          rw [hb] at this
          rw [this, strlcpy_full]
      | succ j =>
        have hj1 : ss[j]? = some t := by simpa using hj
        obtain ⟨hl, hbts⟩ := htok j t hj1
        have hoff : sp_2 + strBytes ((s :: ss).take (j + 1)) =
            sp_2 + (strlen s + 1) + strBytes (ss.take j) := by
          simp only [List.take_succ_cons, strBytes_cons]; omega
        rw [hoff, show sp + 4 * (j + 1) = sp + 4 + 4 * j by omega]
        exact ⟨hl, hbts⟩

theorem push_args_run (PGBITS : Nat) (pd : Nat → Option Bool) (PHYS_BASE argc : Nat)
    (argv : List Slot) (total_bytes : Nat) (m : Mem)
    (e p A a4 a8 s2 sp r : Nat) (m1 : Mem)
    (h1 : e = sub32 PHYS_BASE (wrap (total_bytes + (argc + 1) * 4 + 4 + 4)))
    (h2 : pad_loop e 16 0 = some p)
    (h3 : A = sub32 e p) (h4 : a4 = wrap (A + 4)) (h5 : a8 = wrap (a4 + 4))
    (h6 : s2 = wrap (a8 + p + (argc + 1) * 4))
    (h7 : push_loop PGBITS pd argv argc 0 a8 s2 (store32 (store32 m A argc) a4 a8) =
      .done (m1, sp))
    (h8 : r = sub32 A 4)
    (g1 : mapped_writable PGBITS pd A 4 = true) (g2 : mapped_writable PGBITS pd a4 4 = true)
    (g3 : mapped_writable PGBITS pd sp 4 = true) :
    push_args PGBITS pd PHYS_BASE argc argv total_bytes m = .done (store32 m1 sp 0, r) := by
  subst h1 h3 h4 h5 h6 h8
  unfold push_args
  simp only [h2, g1, g2, h7, g3, Bool.true_eq_false, if_false]

theorem push_args_spec (PGBITS : Nat) (pd : Nat → Option Bool) (PHYS_BASE : Nat)
    (argv : List Slot) (ss : List (List Nat)) (T : Nat)
    (m : Mem) (hB : PHYS_BASE < 2 ^ 32)
    (hargv : ∀ (j : Nat) (s : List Nat), ss[j]? = some s → argv[j]? = some (.str s))
    (hT : strBytes ss ≤ T)
    (hfit : T + (ss.length + 1) * 4 + 4 + 4 ≤ PHYS_BASE)
    (hret : 4 ≤ argc_addr PHYS_BASE ss.length T)
    (hmap : ∀ x, ((argc_addr PHYS_BASE ss.length T ≤ x ∧
          x < argc_addr PHYS_BASE ss.length T + 8 + 4 * (ss.length + 1)) ∨
        (PHYS_BASE - T ≤ x ∧ x < PHYS_BASE - T + strBytes ss)) →
      pd (x / PGSIZE PGBITS) = some true) :
    ∃ m1, push_args PGBITS pd PHYS_BASE ss.length argv T m =
        .done (m1, argc_addr PHYS_BASE ss.length T - 4) ∧
      argc_addr PHYS_BASE ss.length T % 16 = 0 ∧
      load32 m1 (argc_addr PHYS_BASE ss.length T) = ss.length ∧
      load32 m1 (argc_addr PHYS_BASE ss.length T + 4) = argc_addr PHYS_BASE ss.length T + 8 ∧
      (∀ (j : Nat) (s : List Nat), ss[j]? = some s →
        load32 m1 (argc_addr PHYS_BASE ss.length T + 8 + 4 * j) =
          PHYS_BASE - T + strBytes (ss.take j) ∧
        loadBytes m1 (PHYS_BASE - T + strBytes (ss.take j)) (strlen s + 1) = cstr s ++ [0]) ∧
      load32 m1 (argc_addr PHYS_BASE ss.length T + 8 + 4 * ss.length) = 0 ∧
      (∀ x, (x < argc_addr PHYS_BASE ss.length T ∨
          (argc_addr PHYS_BASE ss.length T + 8 + 4 * (ss.length + 1) ≤ x ∧ x < PHYS_BASE - T) ∨
          PHYS_BASE - T + strBytes ss ≤ x) → m1 x = m x) ∧
      argc_addr PHYS_BASE ss.length T + 8 + 4 * (ss.length + 1) ≤ PHYS_BASE - T ∧
      PHYS_BASE - T < argc_addr PHYS_BASE ss.length T + 8 + 4 * (ss.length + 1) + 16 := by
  generalize hA : argc_addr PHYS_BASE ss.length T = A at hret hmap ⊢
  generalize hS : strBytes ss = S at hT hmap ⊢
  generalize hn : ss.length = n at hfit hA hmap ⊢
  have hAdef : A = (PHYS_BASE - (T + (n + 1) * 4 + 4 + 4)) -
      (PHYS_BASE - (T + (n + 1) * 4 + 4 + 4)) % 16 := by rw [← hA]; rfl
  generalize he : PHYS_BASE - (T + (n + 1) * 4 + 4 + 4) = e at hAdef
  have hwS : wrap (T + (n + 1) * 4 + 4 + 4) = T + (n + 1) * 4 + 4 + 4 := wrap_of_lt _ (by omega)
  have hs1 : sub32 PHYS_BASE (T + (n + 1) * 4 + 4 + 4) = e := by
    rw [sub32_of_le _ _ hfit hB, he]
  have he32 : e < 2 ^ 32 := by omega
  have hpad : pad_loop e 16 0 = some (e % 16) :=
    pad_loop_eq e he32 16 0 (Nat.zero_le _) (by omega)
  have hs2 : sub32 e (e % 16) = A := by
    rw [sub32_of_le _ _ (Nat.mod_le _ _) he32, hAdef]
  have hs3 : sub32 A 4 = A - 4 := sub32_of_le _ _ hret (by omega)
  have hw4 : wrap (A + 4) = A + 4 := wrap_of_lt _ (by omega)
  have hw8 : wrap (A + 4 + 4) = A + 8 := by
    rw [show A + 4 + 4 = A + 8 by omega]; exact wrap_of_lt _ (by omega)
  have hwsp2 : wrap (A + 8 + e % 16 + (n + 1) * 4) = PHYS_BASE - T := by
    rw [wrap_of_lt _ (by omega)]; omega
  have hgap : A + 8 + 4 * (n + 1) + e % 16 = PHYS_BASE - T := by omega
  have hmod : e % 16 < 16 := Nat.mod_lt _ (by norm_num)
  obtain ⟨m1, hrun, hframe, htok⟩ := push_loop_spec PGBITS pd argv ss 0 (A + 8) (PHYS_BASE - T)
    (store32 (store32 m A n) (A + 4) (A + 8))
    (fun j s hj => by simpa using hargv j s hj)
    (by rw [hn]; omega) (by rw [hS]; omega)
    (fun x hx => hmap x (by rw [hn, hS] at hx; omega))
  rw [hn] at hrun
  rw [hS, hn] at hframe
  have hm0 : ∀ x, (x < A ∨ A + 8 ≤ x) → store32 (store32 m A n) (A + 4) (A + 8) x = m x := by
    intro x hx
    rw [store32_frame _ _ _ _ (by omega) (by omega), store32_frame _ _ _ _ (by omega) (by omega)]
  refine ⟨store32 m1 (A + 8 + 4 * n) 0, ?_, by omega, ?_, ?_, ?_, ?_, ?_, by omega, by omega⟩
  · exact push_args_run PGBITS pd PHYS_BASE n argv T m e (e % 16) A (A + 4) (A + 8)
      (PHYS_BASE - T)
      (A + 8 + 4 * n) (A - 4) m1 (by rw [hwS]; exact hs1.symm) hpad hs2.symm hw4.symm hw8.symm
      hwsp2.symm hrun hs3.symm
      (mapped_writable_of _ _ _ _ (by omega) (fun x h1 h2 => hmap x (by omega)))
      (mapped_writable_of _ _ _ _ (by omega) (fun x h1 h2 => hmap x (by omega)))
      (mapped_writable_of _ _ _ _ (by omega) (fun x h1 h2 => hmap x (by omega)))
  · rw [load32_congr _ m1 A (by omega)
        (fun x h1 h2 => store32_frame _ _ _ _ (by omega) (by omega)),
      load32_congr m1 _ A (by omega) (fun x h1 h2 => hframe x (by omega)),
      load32_congr _ (store32 m A n) A (by omega)
        (fun x h1 h2 => store32_frame _ _ _ _ (by omega) (by omega)),
      load32_store32 _ _ _ (by omega) (by omega)]
  · rw [load32_congr _ m1 (A + 4) (by omega)
        (fun x h1 h2 => store32_frame _ _ _ _ (by omega) (by omega)),
      load32_congr m1 _ (A + 4) (by omega) (fun x h1 h2 => hframe x (by omega)),
      load32_store32 _ _ _ (by omega) (by omega)]
  · intro j s hj
    have hjn : j < n := by
      rw [← hn]; exact (List.getElem?_eq_some.mp hj).1
    obtain ⟨hl, hbts⟩ := htok j s hj
    have hle : strBytes (ss.take j) + (strlen s + 1) ≤ S := by
      have h1 := strBytes_take_succ ss j s hj
      have h2 := strBytes_take_le ss (j + 1)
      omega
    constructor
    · rw [load32_congr _ m1 _ (by omega)
        (fun x h1 h2 => store32_frame _ _ _ _ (by omega) (by omega))]
      exact hl
    · rw [loadBytes_congr _ _ m1 _ (by omega)
        (fun x h1 h2 => store32_frame _ _ _ _ (by omega) (by omega))]
      exact hbts
  · exact load32_store32 _ _ _ (by omega) (by norm_num)
  · intro x hx
    rw [store32_frame _ _ _ _ (by omega) (by omega), hframe x (by omega), hm0 x (by omega)]

theorem getElem?_map_append (toks : List (List Nat)) (rest : List Slot) :
    ∀ (j : Nat) (s : List Nat), toks[j]? = some s → (toks.map Slot.str ++ rest)[j]? = some (.str s) := by
  intro j s h
  have hj : j < toks.length := (List.getElem?_eq_some.mp h).1
  rw [List.getElem?_append_left (by simpa using hj), List.getElem?_map, h]
  rfl

theorem strBytes_nz (toks : List (List Nat)) (h : ∀ t ∈ toks, ∀ c ∈ t, c ≠ 0) :
    strBytes toks = (toks.map (fun t => t.length + 1)).sum := by
  induction toks with
  | nil => rfl
  | cons t ts ih =>
    rw [strBytes_cons, ih (fun x hx => h x (List.mem_cons_of_mem _ hx)),
      strlen_nz t (h t (List.mem_cons_self _ _))]
    simp

theorem loadBytes_add (n k : Nat) (m : Mem) (a : Nat) (h : a + n + k < 2 ^ 32) :
    loadBytes m a (n + k) = loadBytes m a n ++ loadBytes m (a + n) k := by
  cases k with
  | zero => simp [loadBytes]
  | succ k => exact loadBytes_append n (k + 1) m a (by omega) (by omega)

theorem loadBytes_packed (m : Mem) (toks : List (List Nat)) :
    ∀ (base : Nat), base + strBytes toks < 2 ^ 32 →
      (∀ (j : Nat) (t : List Nat), toks[j]? = some t →
        loadBytes m (base + strBytes (toks.take j)) (strlen t + 1) = cstr t ++ [0]) →
      loadBytes m base (strBytes toks) = (toks.map (fun t => cstr t ++ [0])).flatten := by
  induction toks with
  | nil => intro base _ _; rfl
  | cons t ts ih =>
    intro base hb h
    rw [strBytes_cons] at hb ⊢
    rw [loadBytes_add _ _ _ _ (by omega)]
    have h0 := h 0 t (by simp)
    simp only [List.take_zero, strBytes, List.map_nil, List.sum_nil, Nat.add_zero] at h0
    rw [h0, ih (base + (strlen t + 1)) (by omega) (fun j u hj => by
      have := h (j + 1) u (by simpa using hj)
      simp only [List.take_succ_cons, strBytes_cons] at this
      rwa [Nat.add_assoc])]
    simp

theorem argc_addr_le (PHYS_BASE argc total_bytes : Nat)
    (hfit : total_bytes + (argc + 1) * 4 + 4 + 4 ≤ PHYS_BASE) :
    argc_addr PHYS_BASE argc total_bytes + 8 + 4 * (argc + 1) ≤ PHYS_BASE - total_bytes := by
  have hA : argc_addr PHYS_BASE argc total_bytes =
      (PHYS_BASE - (total_bytes + (argc + 1) * 4 + 4 + 4)) -
        (PHYS_BASE - (total_bytes + (argc + 1) * 4 + 4 + 4)) % 16 := rfl
  omega

theorem sampleStackPd_mapped (x : Nat) (h1 : 3221221376 ≤ x) (h2 : x < 3221225472) :
    sampleStackPd (x / PGSIZE 12) = some true := by
  have hP : PGSIZE 12 = 4096 := rfl
  have e : x / PGSIZE 12 = 786431 := by
    rw [hP]
    omega
  rw [e]
  rfl

theorem push_args_aligned_ok (PGBITS : Nat) (pd : Nat → Option Bool) (PHYS_BASE : Nat)
    (toks : List (List Nat)) (rest : List Slot) (total_bytes : Nat) (m : Mem)
    (hB : PHYS_BASE < 2 ^ 32)
    (hT : strBytes toks ≤ total_bytes)
    (hfit : total_bytes + (toks.length + 1) * 4 + 4 + 4 ≤ PHYS_BASE)
    (hret : 4 ≤ argc_addr PHYS_BASE toks.length total_bytes)
    (hmap : ∀ x, argc_addr PHYS_BASE toks.length total_bytes ≤ x → x < PHYS_BASE →
      pd (x / PGSIZE PGBITS) = some true) :
    ∃ m1, push_args PGBITS pd PHYS_BASE toks.length (toks.map Slot.str ++ rest) total_bytes m =
        .done (m1, argc_addr PHYS_BASE toks.length total_bytes - 4) ∧
      argc_addr PHYS_BASE toks.length total_bytes % 16 = 0 ∧
      load32 m1 (argc_addr PHYS_BASE toks.length total_bytes) = toks.length ∧
      load32 m1 (load32 m1 (argc_addr PHYS_BASE toks.length total_bytes + 4) + 4 * toks.length)
        = 0 := by
  have hle := argc_addr_le PHYS_BASE toks.length total_bytes hfit
  obtain ⟨m1, hrun, hal, hargc, hargv, _, hnull, _⟩ :=
    push_args_spec PGBITS pd PHYS_BASE (toks.map Slot.str ++ rest) toks total_bytes m hB
      (getElem?_map_append toks rest) hT hfit hret
      (fun x hx => hmap x (by omega) (by omega))
  exact ⟨m1, hrun, hal, hargc, by rw [hargv]; exact hnull⟩

/-- The vector of `/bin/ls -l foo bar` below `0xc0000000`, under the page table
that `setup_stack` leaves: `argc` is stored at `0xbfffffd0` and the returned
stack pointer is `0xbfffffcc`. -/
theorem push_args_aligned_ok_example :
    ∃ m1, push_args 12 sampleStackPd 3221225472 4
        ([bytes "/bin/ls", bytes "-l", bytes "foo", bytes "bar"].map Slot.str ++ [Slot.null])
        19 (fun _ => 0) = .done (m1, 3221225420) ∧
      3221225424 % 16 = 0 ∧ load32 m1 3221225424 = 4 ∧
      load32 m1 (load32 m1 3221225428 + 16) = 0 :=
  push_args_aligned_ok 12 sampleStackPd 3221225472
    [bytes "/bin/ls", bytes "-l", bytes "foo", bytes "bar"]
    [Slot.null] 19 (fun _ => 0) (by decide) (by decide) (by decide) (by decide)
    (fun x h1 h2 => sampleStackPd_mapped x
      (le_trans (by decide : 3221221376 ≤ argc_addr 3221225472 4 19) h1) h2)

/-- C2: on a vector of 700 arguments with 1400 bytes of strings (700 tokens of
one letter), whose layout below `0xc0000000` does not wrap, `push_args` run
under the page table that `setup_stack` leaves, with the one page below
`PHYS_BASE` mapped, has to store `argc` at `0xbfffef80`, below that page, and
faults there: it stores nothing and returns no stack pointer. For every vector
of `argc` strings and a byte total that covers them, laid out below a 32-bit
`PHYS_BASE` without wrapping in pages that are mapped writable, `push_args`
stores `argc` at the address `argc_addr`, a multiple of 16, returns that
address minus 4, and leaves a null word in entry `argc` of the array the stored
`argv` pointer designates. -/
theorem push_args_aligned :
    (1400 + (700 + 1) * 4 + 4 + 4 ≤ 3221225472 ∧
      argc_addr 3221225472 700 1400 = 3221221248 ∧
      3221221248 + 4 ≤ 3221225472 - PGSIZE 12 ∧
      ∀ (argv : List Slot) (m : Mem),
        push_args 12 sampleStackPd 3221225472 700 argv 1400 m = .fault) ∧
    ∀ (PGBITS : Nat) (pd : Nat → Option Bool) (PHYS_BASE : Nat) (toks : List (List Nat))
      (rest : List Slot) (total_bytes : Nat) (m : Mem),
      PHYS_BASE < 2 ^ 32 → strBytes toks ≤ total_bytes →
      total_bytes + (toks.length + 1) * 4 + 4 + 4 ≤ PHYS_BASE →
      4 ≤ argc_addr PHYS_BASE toks.length total_bytes →
      (∀ x, argc_addr PHYS_BASE toks.length total_bytes ≤ x → x < PHYS_BASE →
        pd (x / PGSIZE PGBITS) = some true) →
      ∃ m1,
        push_args PGBITS pd PHYS_BASE toks.length (toks.map Slot.str ++ rest) total_bytes m =
          .done (m1, argc_addr PHYS_BASE toks.length total_bytes - 4) ∧
        argc_addr PHYS_BASE toks.length total_bytes % 16 = 0 ∧
        load32 m1 (argc_addr PHYS_BASE toks.length total_bytes) = toks.length ∧
        load32 m1
          (load32 m1 (argc_addr PHYS_BASE toks.length total_bytes + 4) + 4 * toks.length) = 0 :=
  ⟨⟨by decide, by decide, by decide, fun _ _ => rfl⟩, push_args_aligned_ok⟩

theorem push_args_layout_ok (PGBITS : Nat) (pd : Nat → Option Bool) (PHYS_BASE : Nat)
    (toks : List (List Nat)) (m : Mem)
    (hB : PHYS_BASE < 2 ^ 32)
    (hnz : ∀ t ∈ toks, ∀ c ∈ t, c ≠ 0)
    (hfit : (toks.map (fun t => t.length + 1)).sum + (toks.length + 1) * 4 + 4 + 4 ≤ PHYS_BASE)
    (hret : 4 ≤ argc_addr PHYS_BASE toks.length (toks.map (fun t => t.length + 1)).sum)
    (hmap : ∀ x, argc_addr PHYS_BASE toks.length (toks.map (fun t => t.length + 1)).sum ≤ x →
      x < PHYS_BASE → pd (x / PGSIZE PGBITS) = some true) :
    ∃ m1 esp total,
      total = (toks.map (fun t => t.length + 1)).sum ∧
      push_args PGBITS pd PHYS_BASE toks.length (toks.map Slot.str ++ [Slot.null]) total m =
        .done (m1, esp) ∧
      loadBytes m1 (PHYS_BASE - total) total = (toks.map (fun t => t ++ [0])).flatten ∧
      (∀ (i : Nat) (t : List Nat), toks[i]? = some t →
        load32 m1 (esp + 12 + 4 * i) =
          PHYS_BASE - total + ((toks.take i).map (fun t => t.length + 1)).sum ∧
        loadBytes m1 (load32 m1 (esp + 12 + 4 * i)) (t.length + 1) = t ++ [0]) ∧
      esp + 12 + 4 * (toks.length + 1) ≤ PHYS_BASE - total ∧
      PHYS_BASE - total < esp + 12 + 4 * (toks.length + 1) + 16 ∧
      (∀ x, esp + 12 + 4 * (toks.length + 1) ≤ x → x < PHYS_BASE - total → m1 x = m x) ∧
      load32 m1 (esp + 12 + 4 * toks.length) = 0 ∧
      load32 m1 (esp + 8) = esp + 12 ∧
      load32 m1 (esp + 4) = toks.length ∧
      (esp + 4) % 16 = 0 ∧
      (∀ x, x < esp + 4 → m1 x = m x) := by
  have hS := strBytes_nz toks hnz
  rw [← hS] at hfit hret hmap ⊢
  have hle := argc_addr_le PHYS_BASE toks.length (strBytes toks) hfit
  obtain ⟨m1, hrun, hal, hargc, hargv, htok, hnull, hframe, hgap1, hgap2⟩ :=
    push_args_spec PGBITS pd PHYS_BASE (toks.map Slot.str ++ [Slot.null]) toks (strBytes toks)
      m hB (getElem?_map_append toks [Slot.null]) (le_refl _) hfit hret
      (fun x hx => hmap x (by omega) (by omega))
  generalize argc_addr PHYS_BASE toks.length (strBytes toks) = A at *
  have hA : A - 4 + 4 = A := by omega
  have e12 : A - 4 + 12 = A + 8 := by omega
  have e8 : A - 4 + 8 = A + 4 := by omega
  refine ⟨m1, A - 4, strBytes toks, rfl, hrun, ?_, ?_, ?_, ?_, ?_, ?_, ?_, ?_, ?_, ?_⟩
  · rw [loadBytes_packed m1 toks (PHYS_BASE - strBytes toks) (by omega)
      (fun j t hj => (htok j t hj).2)]
    congr 1
    apply List.map_congr_left
    intro t ht
    rw [cstr_nz t (hnz t ht)]
  · intro i t hi
    have ht : t ∈ toks := List.getElem?_mem hi
    obtain ⟨h1, h2⟩ := htok i t hi
    rw [strlen_nz t (hnz t ht), cstr_nz t (hnz t ht)] at h2
    rw [e12, h1]
    refine ⟨?_, h2⟩
    rw [strBytes_nz _ (fun u hu => hnz u (List.mem_of_mem_take hu))]
  · rw [e12]; exact hgap1
  · rw [e12]; exact hgap2
  · intro x h1 h2
    rw [e12] at h1
    exact hframe x (Or.inr (Or.inl ⟨h1, h2⟩))
  · rw [e12]; exact hnull
  · rw [e8, e12]; exact hargv
  · rw [hA]; exact hargc
  · rw [hA]; exact hal
  · intro x hx
    exact hframe x (Or.inl (by omega))

/-- The layout at the vector of `/bin/ls -l foo bar` below `0xc0000000`: the
nineteen bytes that end at `PHYS_BASE` are the four tokens, each followed by
its terminator. -/
theorem push_args_layout_ok_example :
    ∃ m1 esp,
      push_args 12 sampleStackPd 3221225472 4
        ([bytes "/bin/ls", bytes "-l", bytes "foo", bytes "bar"].map Slot.str ++ [Slot.null])
        19 (fun _ => 0) = .done (m1, esp) ∧
      loadBytes m1 (3221225472 - 19) 19 =
        bytes "/bin/ls" ++ [0] ++ (bytes "-l" ++ [0]) ++ (bytes "foo" ++ [0]) ++
          (bytes "bar" ++ [0]) := by
  obtain ⟨m1, esp, total, ht, hrun, hbytes, _⟩ :=
    push_args_layout_ok 12 sampleStackPd 3221225472
      [bytes "/bin/ls", bytes "-l", bytes "foo", bytes "bar"]
      (fun _ => 0) (by decide) (by decide) (by decide) (by decide)
      (fun x h1 h2 => sampleStackPd_mapped x
        (le_trans (by decide : 3221221376 ≤ argc_addr 3221225472 4
          ([bytes "/bin/ls", bytes "-l", bytes "foo", bytes "bar"].map
            (fun t => t.length + 1)).sum) h1) h2)
  have h19 : total = 19 := by rw [ht]; decide
  subst h19
  exact ⟨m1, esp, hrun, by rw [hbytes]; decide⟩

/-- C3: on the vector that `parse_cmd` produces for the command line `" a"`
(two arguments reported, entry 1 never assigned) `push_args` dereferences the
unassigned entry and lays nothing out, under every page table; on every vector
of `argc` strings followed by the null entry, with the byte total `parse_cmd`
reports for them, laid out in pages that are mapped writable, the stack holds,
from `PHYS_BASE` downwards: the strings with their terminators packed in order
and ending at `PHYS_BASE`; fewer than 16 untouched bytes of padding; the
`argc + 1` pointers, entry `i` the address of the copy of token `i` and entry
`argc` null; the address of entry 0; `argc`, at a multiple of 16; and the
return-address slot, whose address is returned. -/
theorem push_args_layout :
    (parse_cmd (fun _ => true) (bytes " a") =
        .done { argv := [.str (bytes "a"), .uninit, .null], num_args := 2, num_bytes := 2 } ∧
      ∀ (PGBITS : Nat) (pd : Nat → Option Bool) (m : Mem),
        push_args PGBITS pd 3221225472 2 [.str (bytes "a"), .uninit, .null] 2 m = .fault) ∧
    ∀ (PGBITS : Nat) (pd : Nat → Option Bool) (PHYS_BASE : Nat) (toks : List (List Nat))
      (m : Mem),
      PHYS_BASE < 2 ^ 32 → (∀ t ∈ toks, ∀ c ∈ t, c ≠ 0) →
      (toks.map (fun t => t.length + 1)).sum + (toks.length + 1) * 4 + 4 + 4 ≤ PHYS_BASE →
      4 ≤ argc_addr PHYS_BASE toks.length (toks.map (fun t => t.length + 1)).sum →
      (∀ x, argc_addr PHYS_BASE toks.length (toks.map (fun t => t.length + 1)).sum ≤ x →
        x < PHYS_BASE → pd (x / PGSIZE PGBITS) = some true) →
      ∃ m1 esp total,
        total = (toks.map (fun t => t.length + 1)).sum ∧
        push_args PGBITS pd PHYS_BASE toks.length (toks.map Slot.str ++ [Slot.null]) total m =
          .done (m1, esp) ∧
        loadBytes m1 (PHYS_BASE - total) total = (toks.map (fun t => t ++ [0])).flatten ∧
        (∀ (i : Nat) (t : List Nat), toks[i]? = some t →
          load32 m1 (esp + 12 + 4 * i) =
            PHYS_BASE - total + ((toks.take i).map (fun t => t.length + 1)).sum ∧
          loadBytes m1 (load32 m1 (esp + 12 + 4 * i)) (t.length + 1) = t ++ [0]) ∧
        esp + 12 + 4 * (toks.length + 1) ≤ PHYS_BASE - total ∧
        PHYS_BASE - total < esp + 12 + 4 * (toks.length + 1) + 16 ∧
        (∀ x, esp + 12 + 4 * (toks.length + 1) ≤ x → x < PHYS_BASE - total → m1 x = m x) ∧
        load32 m1 (esp + 12 + 4 * toks.length) = 0 ∧
        load32 m1 (esp + 8) = esp + 12 ∧
        load32 m1 (esp + 4) = toks.length ∧
        (esp + 4) % 16 = 0 ∧
        (∀ x, x < esp + 4 → m1 x = m x) :=
  ⟨⟨by decide, fun PGBITS pd m =>
      push_args_uninit PGBITS pd 3221225472 2 [.str (bytes "a"), .uninit, .null] 2 m 10 1
        (by decide) (by decide) rfl⟩,
    push_args_layout_ok⟩

/-! ## Page arithmetic -/

theorem and_PGMASK (x k : Nat) : x &&& PGMASK k = x % PGSIZE k := by
  unfold PGMASK PGSIZE
  exact Nat.and_pow_two_sub_one_eq_mod x k

theorem and_notPGMASK (x k : Nat) (hx : x < 2 ^ 32) (hk : k ≤ 32) :
    x &&& notPGMASK k = x - x % PGSIZE k := by
  have hM : notPGMASK k = 2 ^ k * (2 ^ (32 - k) - 1) := by
    unfold notPGMASK PGMASK
    have h1 : (2 : Nat) ^ 32 = 2 ^ k * 2 ^ (32 - k) := by
      rw [← Nat.pow_add]; congr 1; omega
    have h2 : 0 < (2 : Nat) ^ k := Nat.two_pow_pos _
    have h3 : 0 < (2 : Nat) ^ (32 - k) := Nat.two_pow_pos _
    rw [Nat.mul_sub, Nat.mul_one, ← h1]
    omega
  have hR : x - x % PGSIZE k = 2 ^ k * (x / 2 ^ k) := by
    unfold PGSIZE
    have := Nat.div_add_mod x (2 ^ k)
    omega
  rw [hM, hR]
  apply Nat.eq_of_testBit_eq
  intro i
  rw [Nat.testBit_and, Nat.testBit_mul_pow_two, Nat.testBit_mul_pow_two,
    Nat.testBit_two_pow_sub_one, ← Nat.shiftRight_eq_div_pow, Nat.testBit_shiftRight]
  by_cases hi : k ≤ i
  · have e : k + (i - k) = i := by omega
    rw [e]
    by_cases h32 : i < 32
    · have : i - k < 32 - k := by omega
      simp [hi, this]
    · have hlt : x < 2 ^ i := lt_of_lt_of_le hx (Nat.pow_le_pow_right (by norm_num) (by omega))
      simp [Nat.testBit_lt_two_pow hlt]
  · simp [hi]

theorem wrap_lt (x : Nat) : wrap x < 2 ^ 32 := by
  unfold wrap
  exact Nat.mod_lt _ (by norm_num)

theorem wrap_add_ge (v m : Nat) (hv : v < 2 ^ 32) (hm : m < 2 ^ 32) :
    ¬ wrap (v + m) < v ↔ v + m < 2 ^ 32 := by
  unfold wrap
  omega

theorem validate_segment_iff (PGBITS PHYS_BASE : Nat) (phdr : Elf32_Phdr) (file : File)
    (hlen : file_length file < 2 ^ 32)
    (hv : phdr.p_vaddr < 2 ^ 32) (hm : phdr.p_memsz < 2 ^ 32) :
    validate_segment PGBITS PHYS_BASE phdr file = true ↔
      (phdr.p_offset % PGSIZE PGBITS = phdr.p_vaddr % PGSIZE PGBITS ∧
       phdr.p_offset ≤ file_length file ∧
       phdr.p_filesz ≤ phdr.p_memsz ∧
       phdr.p_memsz ≠ 0 ∧
       phdr.p_vaddr < PHYS_BASE ∧
       phdr.p_vaddr + phdr.p_memsz < PHYS_BASE ∧
       phdr.p_vaddr + phdr.p_memsz < 2 ^ 32 ∧
       PGSIZE PGBITS ≤ phdr.p_vaddr) := by
  have hwl : wrap (file_length file) = file_length file := wrap_of_lt _ hlen
  have hwa := wrap_add_ge phdr.p_vaddr phdr.p_memsz hv hm
  unfold validate_segment
  simp only [and_PGMASK, hwl, is_user_vaddr]
  constructor
  · intro h
    split at h
    · exact absurd h (by simp)
    split at h
    · exact absurd h (by simp)
    split at h
    · exact absurd h (by simp)
    split at h
    · exact absurd h (by simp)
    split at h
    · exact absurd h (by simp)
    split at h
    · exact absurd h (by simp)
    split at h
    · exact absurd h (by simp)
    split at h
    · exact absurd h (by simp)
    rename_i h1 h2 h3 h4 h5 h6 h7 h8
    have h7' := hwa.mp h7
    have hw : wrap (phdr.p_vaddr + phdr.p_memsz) = phdr.p_vaddr + phdr.p_memsz :=
      wrap_of_lt _ h7'
    rw [hw] at h6
    simp only [decide_eq_false_iff_not, not_not] at h5 h6
    exact ⟨not_not.mp h1, by omega, by omega, h4, h5, h6, h7', by omega⟩
  · rintro ⟨h1, h2, h3, h4, h5, h6, h7, h8⟩
    have hw : wrap (phdr.p_vaddr + phdr.p_memsz) = phdr.p_vaddr + phdr.p_memsz :=
      wrap_of_lt _ h7
    rw [hw]
    rw [if_neg (not_not.mpr h1), if_neg (by omega), if_neg (by omega), if_neg h4,
      if_neg (by simpa using h5), if_neg (by simpa using h6), if_neg (by omega),
      if_neg (by omega)]

theorem round_le (x P : Nat) (hP : 0 < P) : x ≤ (x + P - 1) / P * P := by
  have h := Nat.lt_div_mul_add (a := x + P - 1) hP
  omega

theorem round_lt (x P : Nat) : (x + P - 1) / P * P ≤ x + P - 1 := Nat.div_mul_le_self _ _

theorem round_mod (x P : Nat) : (x + P - 1) / P * P % P = 0 := Nat.mul_mod_left _ _

theorem sub_mod_self_mod (v P : Nat) : (v - v % P) % P = 0 := by
  have h : v - v % P = P * (v / P) := by
    have := Nat.div_add_mod v P
    omega
  rw [h]
  exact Nat.mul_mod_right _ _

theorem PGSIZE_pos (k : Nat) : 0 < PGSIZE k := Nat.two_pow_pos k

theorem ROUND_UP_eq (x P : Nat) (h : x + P - 1 < 2 ^ 32) :
    ROUND_UP x P = (x + P - 1) / P * P := by
  unfold ROUND_UP
  rw [wrap_of_lt _ h, wrap_of_lt _ (lt_of_le_of_lt (round_lt x P) h)]

theorem segment_args_spec (PGBITS PHYS_BASE : Nat) (phdr : Elf32_Phdr) (file : File)
    (hP : PHYS_BASE + PGSIZE PGBITS ≤ 2 ^ 32) (hlen : file_length file < 2 ^ 32)
    (ho : phdr.p_offset < 2 ^ 32) (hv : phdr.p_vaddr < 2 ^ 32) (hm : phdr.p_memsz < 2 ^ 32)
    (hval : validate_segment PGBITS PHYS_BASE phdr file = true) :
    (0 < phdr.p_filesz →
      (segment_args PGBITS phdr).read_bytes = phdr.p_vaddr % PGSIZE PGBITS + phdr.p_filesz ∧
      (segment_args PGBITS phdr).zero_bytes =
        (phdr.p_vaddr % PGSIZE PGBITS + phdr.p_memsz + PGSIZE PGBITS - 1) / PGSIZE PGBITS *
          PGSIZE PGBITS - (phdr.p_vaddr % PGSIZE PGBITS + phdr.p_filesz)) ∧
    (phdr.p_filesz = 0 →
      (segment_args PGBITS phdr).read_bytes = 0 ∧
      (segment_args PGBITS phdr).zero_bytes =
        (phdr.p_vaddr % PGSIZE PGBITS + phdr.p_memsz + PGSIZE PGBITS - 1) / PGSIZE PGBITS *
          PGSIZE PGBITS) ∧
    (segment_args PGBITS phdr).read_bytes ≤
      (phdr.p_vaddr % PGSIZE PGBITS + phdr.p_memsz + PGSIZE PGBITS - 1) / PGSIZE PGBITS *
        PGSIZE PGBITS ∧
    (segment_args PGBITS phdr).read_bytes + (segment_args PGBITS phdr).zero_bytes =
      (phdr.p_vaddr % PGSIZE PGBITS + phdr.p_memsz + PGSIZE PGBITS - 1) / PGSIZE PGBITS *
        PGSIZE PGBITS ∧
    0 < (segment_args PGBITS phdr).read_bytes + (segment_args PGBITS phdr).zero_bytes ∧
    (segment_args PGBITS phdr).read_bytes + (segment_args PGBITS phdr).zero_bytes < 2 ^ 32 ∧
    ((segment_args PGBITS phdr).read_bytes + (segment_args PGBITS phdr).zero_bytes) %
      PGSIZE PGBITS = 0 ∧
    (segment_args PGBITS phdr).file_page = phdr.p_offset - phdr.p_offset % PGSIZE PGBITS ∧
    (segment_args PGBITS phdr).mem_page = phdr.p_vaddr - phdr.p_vaddr % PGSIZE PGBITS ∧
    (segment_args PGBITS phdr).file_page % PGSIZE PGBITS = 0 ∧
    (segment_args PGBITS phdr).mem_page % PGSIZE PGBITS = 0 := by
  have hk : PGBITS ≤ 32 := by
    by_contra hc
    have h1 : (2 : Nat) ^ 33 ≤ 2 ^ PGBITS := Nat.pow_le_pow_right (by norm_num) (by omega)
    unfold PGSIZE at hP
    omega
  obtain ⟨_, _, hfm, hm0, hvB, hend, _, _⟩ :=
    (validate_segment_iff PGBITS PHYS_BASE phdr file hlen hv hm).mp hval
  have hPpos := PGSIZE_pos PGBITS
  generalize hPdef : PGSIZE PGBITS = P at *
  have hpo : phdr.p_vaddr % P ≤ phdr.p_vaddr := Nat.mod_le _ _
  generalize hpodef : phdr.p_vaddr % P = po at *
  have hR1 := round_le (po + phdr.p_memsz) P hPpos
  have hR2 := round_lt (po + phdr.p_memsz) P
  have hR3 := round_mod (po + phdr.p_memsz) P
  have hRU : ROUND_UP (wrap (po + phdr.p_memsz)) P = (po + phdr.p_memsz + P - 1) / P * P := by
    rw [wrap_of_lt _ (by omega), ROUND_UP_eq _ _ (by omega)]
  generalize hRdef : (po + phdr.p_memsz + P - 1) / P * P = R at *
  have hfp : (segment_args PGBITS phdr).file_page = phdr.p_offset - phdr.p_offset % P := by
    rw [← hPdef, ← and_notPGMASK _ _ ho hk]
    unfold segment_args
    split <;> rfl
  have hmp : (segment_args PGBITS phdr).mem_page = phdr.p_vaddr - phdr.p_vaddr % P := by
    rw [← hPdef, ← and_notPGMASK _ _ hv hk]
    unfold segment_args
    split <;> rfl
  have hrd : (segment_args PGBITS phdr).read_bytes =
      if phdr.p_filesz > 0 then po + phdr.p_filesz else 0 := by
    unfold segment_args
    split
    · simp only [and_PGMASK, hPdef, hpodef]
      exact wrap_of_lt _ (by omega)
    · rfl
  have hzr : (segment_args PGBITS phdr).zero_bytes =
      if phdr.p_filesz > 0 then R - (po + phdr.p_filesz) else R := by
    unfold segment_args
    split
    · simp only [and_PGMASK, hPdef, hpodef, hRU]
      rw [wrap_of_lt _ (by omega), sub32_of_le _ _ (by omega) (by omega)]
    · simp only [and_PGMASK, hPdef, hpodef, hRU]
  rw [hpodef] at hmp
  rw [hfp, hmp, hrd, hzr]
  refine ⟨?_, ?_, ?_, ?_, ?_, ?_, ?_, rfl, rfl, sub_mod_self_mod _ _, ?_⟩
  · intro h; simp [h]
  · intro h; simp [h]
  · split <;> omega
  · split <;> omega
  · split <;> omega
  · split <;> omega
  · have e : (if phdr.p_filesz > 0 then po + phdr.p_filesz else 0) +
        (if phdr.p_filesz > 0 then R - (po + phdr.p_filesz) else R) = R := by
      split <;> omega
    rw [e]; exact hR3
  · rw [← hpodef]; exact sub_mod_self_mod _ _

theorem load_segment_asserts (env : Env) (PGBITS : Nat) (file : File)
    (ofs upage read_bytes zero_bytes : Nat) (writable : Bool) (k : Kernel)
    (h1 : read_bytes + zero_bytes < 2 ^ 32)
    (h2 : (read_bytes + zero_bytes) % PGSIZE PGBITS = 0)
    (h3 : upage % PGSIZE PGBITS = 0) (h4 : ofs % PGSIZE PGBITS = 0) :
    load_segment env PGBITS file ofs upage read_bytes zero_bytes writable k =
      load_segment_loop env PGBITS ((read_bytes + zero_bytes) / PGSIZE PGBITS + 1)
        (file_seek file ofs) upage read_bytes zero_bytes writable k := by
  unfold load_segment
  rw [wrap_of_lt _ h1, and_PGMASK, if_neg (by simp [h2]), if_neg (by simp [h3]),
    if_neg (by simp [h4])]

/-! ## The header checks of load -/

theorem ehdr_rejected_iff (nread : Nat) (ehdr : Elf32_Ehdr) :
    ehdr_rejected nread ehdr = false ↔
      (nread = sizeof_Ehdr ∧ ehdr.e_ident.take 7 = [127, 69, 76, 70, 1, 1, 1] ∧
        ehdr.e_type = 2 ∧ ehdr.e_machine = 3 ∧ ehdr.e_version = 1 ∧
        ehdr.e_phentsize = 32 ∧ ehdr.e_phnum ≤ 1024) := by
  simp [ehdr_rejected, ELF_MAGIC, sizeof_Phdr, and_assoc]

theorem file_read_length (data : List Nat) (n : Nat) (d : Bool) :
    (file_read { data := data, pos := 0, deny_write := d } n).1.length = n ↔ n ≤ data.length := by
  simp [file_read]

theorem load_run (env : Env) (PGBITS PHYS_BASE : Nat) (file_name : List Nat) (k : Kernel)
    (p : Parsed) (name data : List Nat)
    (hpd : env.pagedir_create = true)
    (hparse : parse_cmd env.malloc file_name = .done p)
    (hname : p.argv[0]? = some (.str name))
    (hfile : env.filesys (cstr name) = some data) :
    load env PGBITS PHYS_BASE file_name k =
      if ehdr_rejected (file_read { data := data, pos := 0, deny_write := true } sizeof_Ehdr).1.length
          (decode_Ehdr (file_read { data := data, pos := 0, deny_write := true } sizeof_Ehdr).1)
          = true then
        .done (false, { k with pagedir := some (fun _ => none),
                               exec := some { data := data, pos := 0, deny_write := true } })
      else
        match load_phdrs env PGBITS PHYS_BASE
            (decode_Ehdr (file_read { data := data, pos := 0, deny_write := true }
              sizeof_Ehdr).1).e_phnum
            (toOff (decode_Ehdr (file_read { data := data, pos := 0, deny_write := true }
              sizeof_Ehdr).1).e_phoff)
            (file_read { data := data, pos := 0, deny_write := true } sizeof_Ehdr).2
            { k with pagedir := some (fun _ => none),
                     exec := some { data := data, pos := 0, deny_write := true } } with
        | .done (true, _, k1) =>
          match setup_stack env PGBITS PHYS_BASE p.num_args p.argv p.num_bytes k1 with
          | .done (true, k2) =>
            .done (true, { k2 with eip := some (decode_Ehdr (file_read
              { data := data, pos := 0, deny_write := true } sizeof_Ehdr).1).e_entry })
          | .done (false, k2) => .done (false, k2)
          | .null => .null
          | .fault => .fault
          | .fuel => .fuel
        | .done (false, _, k1) => .done (false, k1)
        | .null => .null
        | .fault => .fault
        | .fuel => .fuel := by
  unfold load
  simp only [hpd, hparse, hname, hfile]
  rfl

/-! ## The program-header loop -/

theorem install_page_cases (env : Env) (PGBITS : Nat) (k : Kernel) (upage : Nat)
    (kpage : List Nat) (writable : Bool) :
    install_page env PGBITS k upage kpage writable = .fault ∨
      ∃ b k1, install_page env PGBITS k upage kpage writable = .done (b, k1) := by
  unfold install_page
  split
  · exact Or.inl rfl
  · split
    · split
      · exact Or.inr ⟨_, _, rfl⟩
      · exact Or.inr ⟨_, _, rfl⟩
    · exact Or.inr ⟨_, _, rfl⟩

theorem load_segment_loop_data (env : Env) (PGBITS : Nat) :
    ∀ (fuel : Nat) (file : File) (upage rb zb : Nat) (w : Bool) (k : Kernel) (b : Bool)
      (file1 : File) (k1 : Kernel),
      load_segment_loop env PGBITS fuel file upage rb zb w k = .done (b, file1, k1) →
      file1.data = file.data := by
  intro fuel
  induction fuel with
  | zero =>
    intro file upage rb zb w k b file1 k1 h
    unfold load_segment_loop at h
    split at h
    · exact absurd h (by simp)
    · simp only [Res.done.injEq, Prod.mk.injEq] at h
      rw [← h.2.1]
  | succ fuel ih =>
    intro file upage rb zb w k b file1 k1 h
    simp only [load_segment_loop] at h
    repeat' split at h
    all_goals first
      | exact (ih _ _ _ _ _ _ _ _ _ h).trans rfl
      | (simp only [Res.done.injEq, Prod.mk.injEq] at h
         rw [← h.2.1]
         done)
      | (simp only [Res.done.injEq, Prod.mk.injEq] at h
         rw [← h.2.1]
         rfl)
      | (simp at h)

theorem load_segment_data (env : Env) (PGBITS : Nat) (file : File)
    (ofs upage rb zb : Nat) (w : Bool) (k : Kernel) (b : Bool) (file1 : File) (k1 : Kernel)
    (h : load_segment env PGBITS file ofs upage rb zb w k = .done (b, file1, k1)) :
    file1.data = file.data := by
  unfold load_segment at h
  split at h
  · exact absurd h (by simp)
  split at h
  · exact absurd h (by simp)
  split at h
  · exact absurd h (by simp)
  exact (load_segment_loop_data env PGBITS _ _ _ _ _ _ _ _ _ _ h).trans rfl

theorem validate_segment_length (PGBITS PHYS_BASE : Nat) (phdr : Elf32_Phdr) (f g : File)
    (h : f.data = g.data) :
    validate_segment PGBITS PHYS_BASE phdr f = validate_segment PGBITS PHYS_BASE phdr g := by
  unfold validate_segment file_length
  rw [h]

theorem load_phdrs_data (env : Env) (PGBITS PHYS_BASE : Nat) :
    ∀ (n : Nat) (file_ofs : Int) (file : File) (k : Kernel) (b : Bool) (file1 : File)
      (k1 : Kernel),
      load_phdrs env PGBITS PHYS_BASE n file_ofs file k = .done (b, file1, k1) →
      file1.data = file.data := by
  intro n
  induction n with
  | zero =>
    intro file_ofs file k b file1 k1 h
    simp only [load_phdrs, Res.done.injEq, Prod.mk.injEq] at h
    rw [← h.2.1]
  | succ n ih =>
    intro file_ofs file k b file1 k1 h
    simp only [load_phdrs] at h
    repeat' split at h
    all_goals first
      | exact (ih _ _ _ _ _ _ h).trans rfl
      | (simp only [Res.done.injEq, Prod.mk.injEq] at h
         rw [← h.2.1]
         done)
      | (simp only [Res.done.injEq, Prod.mk.injEq] at h
         rw [← h.2.1]
         rfl)
      | (rename_i hseg
         have h1 := ih _ _ _ _ _ _ h
         have h2 := load_segment_data _ _ _ _ _ _ _ _ _ _ _ _ hseg
         rw [h1, h2]
         rfl)
      | (rename_i hseg
         simp only [Res.done.injEq, Prod.mk.injEq] at h
         have h2 := load_segment_data _ _ _ _ _ _ _ _ _ _ _ _ hseg
         rw [← h.2.1, h2]
         rfl)
      | (simp at h)

theorem load_phdrs_step (env : Env) (PGBITS PHYS_BASE n : Nat) (file_ofs : Int) (file : File)
    (k : Kernel) (h0 : 0 ≤ file_ofs) (h1 : file_ofs ≤ (file_length file : Int))
    (hread : (file_read (file_seek file file_ofs.toNat) sizeof_Phdr).1.length = sizeof_Phdr) :
    load_phdrs env PGBITS PHYS_BASE (n + 1) file_ofs file k =
      if (decode_Phdr (file_read (file_seek file file_ofs.toNat) sizeof_Phdr).1).p_type
            = PT_DYNAMIC ∨
          (decode_Phdr (file_read (file_seek file file_ofs.toNat) sizeof_Phdr).1).p_type
            = PT_INTERP ∨
          (decode_Phdr (file_read (file_seek file file_ofs.toNat) sizeof_Phdr).1).p_type
            = PT_SHLIB then
        .done (false, (file_read (file_seek file file_ofs.toNat) sizeof_Phdr).2, k)
      else if (decode_Phdr (file_read (file_seek file file_ofs.toNat) sizeof_Phdr).1).p_type
            = PT_LOAD then
        if validate_segment PGBITS PHYS_BASE
            (decode_Phdr (file_read (file_seek file file_ofs.toNat) sizeof_Phdr).1)
            (file_read (file_seek file file_ofs.toNat) sizeof_Phdr).2 = true then
          match load_segment env PGBITS (file_read (file_seek file file_ofs.toNat) sizeof_Phdr).2
              (segment_args PGBITS
                (decode_Phdr (file_read (file_seek file file_ofs.toNat) sizeof_Phdr).1)).file_page
              (segment_args PGBITS
                (decode_Phdr (file_read (file_seek file file_ofs.toNat) sizeof_Phdr).1)).mem_page
              (segment_args PGBITS
                (decode_Phdr (file_read (file_seek file file_ofs.toNat) sizeof_Phdr).1)).read_bytes
              (segment_args PGBITS
                (decode_Phdr (file_read (file_seek file file_ofs.toNat) sizeof_Phdr).1)).zero_bytes
              (segment_args PGBITS
                (decode_Phdr (file_read (file_seek file file_ofs.toNat) sizeof_Phdr).1)).writable
              k with
          | .done (true, file1, k1) =>
            load_phdrs env PGBITS PHYS_BASE n (file_ofs + sizeof_Phdr) file1 k1
          | .done (false, file1, k1) => .done (false, file1, k1)
          | .null => .null
          | .fault => .fault
          | .fuel => .fuel
        else .done (false, (file_read (file_seek file file_ofs.toNat) sizeof_Phdr).2, k)
      else
        load_phdrs env PGBITS PHYS_BASE n (file_ofs + sizeof_Phdr)
          (file_read (file_seek file file_ofs.toNat) sizeof_Phdr).2 k := by
  have hofs : ¬ (file_ofs < 0 ∨ file_ofs > (file_length file : Int)) := by omega
  rw [load_phdrs]
  simp only [hofs, hread, if_false, ne_eq, not_true_eq_false]

theorem load_phdrs_unreadable (env : Env) (PGBITS PHYS_BASE n : Nat) (file_ofs : Int)
    (file : File) (k : Kernel)
    (h : file_ofs < 0 ∨ file_ofs > (file_length file : Int) ∨
      (file_read (file_seek file file_ofs.toNat) sizeof_Phdr).1.length ≠ sizeof_Phdr) :
    ∃ file1, load_phdrs env PGBITS PHYS_BASE (n + 1) file_ofs file k = .done (false, file1, k) := by
  rw [load_phdrs]
  by_cases hofs : file_ofs < 0 ∨ file_ofs > (file_length file : Int)
  · exact ⟨file, by rw [if_pos hofs]⟩
  · have hlen : (file_read (file_seek file file_ofs.toNat) sizeof_Phdr).1.length ≠ sizeof_Phdr := by
      rcases h with h | h | h
      · exact absurd (Or.inl h) hofs
      · exact absurd (Or.inr h) hofs
      · exact h
    refine ⟨(file_read (file_seek file file_ofs.toNat) sizeof_Phdr).2, ?_⟩
    rw [if_neg hofs]
    simp only [hlen, ne_eq, not_false_eq_true, if_true]

theorem load_phdrs_success (env : Env) (PGBITS PHYS_BASE : Nat) :
    ∀ (n : Nat) (file_ofs : Int) (file : File) (k : Kernel) (file1 : File) (k1 : Kernel),
      load_phdrs env PGBITS PHYS_BASE n file_ofs file k = .done (true, file1, k1) →
      ∀ i, i < n →
        0 ≤ file_ofs ∧
        (phdr_at file.data file_ofs.toNat i).p_type ≠ PT_DYNAMIC ∧
        (phdr_at file.data file_ofs.toNat i).p_type ≠ PT_INTERP ∧
        (phdr_at file.data file_ofs.toNat i).p_type ≠ PT_SHLIB ∧
        ((phdr_at file.data file_ofs.toNat i).p_type = PT_LOAD →
          validate_segment PGBITS PHYS_BASE (phdr_at file.data file_ofs.toNat i) file = true) := by
  intro n
  induction n with
  | zero => intro _ _ _ _ _ _ i hi; omega
  | succ n ih =>
    intro file_ofs file k file1 k1 h i hi
    by_cases hbad : file_ofs < 0 ∨ file_ofs > (file_length file : Int) ∨
        (file_read (file_seek file file_ofs.toNat) sizeof_Phdr).1.length ≠ sizeof_Phdr
    · obtain ⟨f, hf⟩ := load_phdrs_unreadable env PGBITS PHYS_BASE n file_ofs file k hbad
      rw [hf] at h
      simp at h
    · have h0 : 0 ≤ file_ofs := by omega
      have h1 : file_ofs ≤ (file_length file : Int) := by omega
      have hread : (file_read (file_seek file file_ofs.toNat) sizeof_Phdr).1.length =
          sizeof_Phdr := by
        by_contra hc
        exact hbad (Or.inr (Or.inr hc))
      rw [load_phdrs_step env PGBITS PHYS_BASE n file_ofs file k h0 h1 hread] at h
      have hr1 : (file_read (file_seek file file_ofs.toNat) sizeof_Phdr).1 =
          (file.data.drop file_ofs.toNat).take sizeof_Phdr := rfl
      have hr2 : (file_read (file_seek file file_ofs.toNat) sizeof_Phdr).2.data = file.data := rfl
      have hp0 : phdr_at file.data file_ofs.toNat 0 =
          decode_Phdr (file_read (file_seek file file_ofs.toNat) sizeof_Phdr).1 := by
        rw [hr1]; simp [phdr_at]
      generalize hphdr : decode_Phdr (file_read (file_seek file file_ofs.toNat) sizeof_Phdr).1
        = phdr at h hp0
      generalize hfile2 : (file_read (file_seek file file_ofs.toNat) sizeof_Phdr).2 = file2
        at h hr2
      have hshift : ∀ j, phdr_at file.data (file_ofs + (sizeof_Phdr : Int)).toNat j =
          phdr_at file.data file_ofs.toNat (j + 1) := by
        intro j
        have e : (file_ofs + (sizeof_Phdr : Int)).toNat = file_ofs.toNat + sizeof_Phdr := by
          simp only [sizeof_Phdr]; omega
        simp only [phdr_at, e]
        congr 3
        simp only [sizeof_Phdr]; omega
      by_cases ht : phdr.p_type = PT_DYNAMIC ∨ phdr.p_type = PT_INTERP ∨ phdr.p_type = PT_SHLIB
      · rw [if_pos ht] at h
        simp at h
      rw [if_neg ht] at h
      have hrest : ∃ f2 k2, f2.data = file.data ∧
          load_phdrs env PGBITS PHYS_BASE n (file_ofs + sizeof_Phdr) f2 k2 =
            .done (true, file1, k1) ∧
          (phdr.p_type = PT_LOAD → validate_segment PGBITS PHYS_BASE phdr file = true) := by
        by_cases hl : phdr.p_type = PT_LOAD
        · rw [if_pos hl] at h
          by_cases hv : validate_segment PGBITS PHYS_BASE phdr file2 = true
          · rw [if_pos hv] at h
            have hv' : validate_segment PGBITS PHYS_BASE phdr file = true := by
              rw [← validate_segment_length PGBITS PHYS_BASE phdr file2 file hr2]; exact hv
            split at h
            · rename_i f3 k3 hseg
              have hd := load_segment_data _ _ _ _ _ _ _ _ _ _ _ _ hseg
              exact ⟨f3, k3, by rw [hd, hr2], h, fun _ => hv'⟩
            all_goals simp at h
          · rw [if_neg hv] at h
            simp at h
        · rw [if_neg hl] at h
          exact ⟨file2, k, hr2, h, fun hc => absurd hc hl⟩
      obtain ⟨f2, k2, hd2, hrun, hval⟩ := hrest
      cases i with
      | zero =>
        rw [hp0]
        exact ⟨h0, fun hc => ht (Or.inl hc), fun hc => ht (Or.inr (Or.inl hc)),
          fun hc => ht (Or.inr (Or.inr hc)), hval⟩
      | succ j =>
        obtain ⟨_, a1, a2, a3, a4⟩ := ih _ f2 k2 file1 k1 hrun j (by omega)
        rw [hd2, hshift] at a1 a2 a3 a4
        refine ⟨h0, a1, a2, a3, fun hc => ?_⟩
        rw [← validate_segment_length PGBITS PHYS_BASE _ f2 file hd2]
        exact a4 hc

theorem byteAt_lt (bs : List Nat) (i : Nat) : byteAt bs i < 256 := Nat.mod_lt _ (by norm_num)

theorem le32_lt (bs : List Nat) (o : Nat) : le32 bs o < 2 ^ 32 := by
  have h0 := byteAt_lt bs o
  have h1 := byteAt_lt bs (o + 1)
  have h2 := byteAt_lt bs (o + 2)
  have h3 := byteAt_lt bs (o + 3)
  unfold le32
  omega

theorem toOff_toNat (x : Nat) (hx : x < 2 ^ 32) (h : 0 ≤ toOff x) : (toOff x).toNat = x := by
  unfold toOff at h ⊢
  split
  · simp
  · rename_i hc
    rw [if_neg hc] at h
    omega

theorem load_success_inv (env : Env) (PGBITS PHYS_BASE : Nat) (file_name : List Nat)
    (k k1 : Kernel) (h : load env PGBITS PHYS_BASE file_name k = .done (true, k1)) :
    ∃ p name data file1 k2,
      env.pagedir_create = true ∧ parse_cmd env.malloc file_name = .done p ∧
      p.argv[0]? = some (.str name) ∧ env.filesys (cstr name) = some data ∧
      ehdr_rejected (data.take sizeof_Ehdr).length (decode_Ehdr (data.take sizeof_Ehdr)) = false ∧
      load_phdrs env PGBITS PHYS_BASE (decode_Ehdr (data.take sizeof_Ehdr)).e_phnum
        (toOff (decode_Ehdr (data.take sizeof_Ehdr)).e_phoff)
        { data := data, pos := (data.take sizeof_Ehdr).length, deny_write := true }
        { k with pagedir := some (fun _ => none),
                 exec := some { data := data, pos := 0, deny_write := true } } =
        .done (true, file1, k2) := by
  by_cases hpd : env.pagedir_create = true
  swap
  · simp [load, hpd] at h
  cases hparse : parse_cmd env.malloc file_name with
  | null => simp [load, hpd, hparse] at h
  | fault => simp [load, hpd, hparse] at h
  | fuel => simp [load, hpd, hparse] at h
  | done p =>
    cases hname : (p.argv[0]? : Option Slot) with
    | none => simp [load, hpd, hparse, hname] at h
    | some sl =>
      cases sl with
      | uninit => simp [load, hpd, hparse, hname] at h
      | null => simp [load, hpd, hparse, hname] at h
      | str name =>
        cases hfile : env.filesys (cstr name) with
        | none => simp [load, hpd, hparse, hname, hfile] at h
        | some data =>
          rw [load_run env PGBITS PHYS_BASE file_name k p name data hpd hparse hname hfile] at h
          have hr1 : (file_read { data := data, pos := 0, deny_write := true } sizeof_Ehdr).1 =
              data.take sizeof_Ehdr := by simp [file_read]
          have hr2 : (file_read { data := data, pos := 0, deny_write := true } sizeof_Ehdr).2 =
              { data := data, pos := (data.take sizeof_Ehdr).length, deny_write := true } := by
            simp [file_read]
          rw [hr1, hr2] at h
          split at h
          · simp at h
          · rename_i hrej
            split at h
            · rename_i f1 k2 hloop
              exact ⟨p, name, data, f1, k2, hpd, rfl, hname, hfile, by simpa using hrej, hloop⟩
            all_goals simp at h

/-- C4: once the page table exists, the command line is parsed and the
executable is open, `load` looks at the header read from the start of the
file.  Unless all 52 bytes could be read, the first 7 identification bytes
are `0x7f 'E' 'L' 'F' 1 1 1`, the type is 2, the machine 3, the version 1, the
program-header entry size 32 and the program-header count at most 1024, it
returns failure at once, with an empty page table and with memory and both
out-parameters untouched; when they all hold it goes on to the program
headers. -/
theorem load_header (env : Env) (PGBITS PHYS_BASE : Nat) (file_name : List Nat) (k : Kernel)
    (p : Parsed) (name data : List Nat)
    (hpd : env.pagedir_create = true)
    (hparse : parse_cmd env.malloc file_name = .done p)
    (hname : p.argv[0]? = some (.str name))
    (hfile : env.filesys (cstr name) = some data) :
    (¬ (sizeof_Ehdr ≤ data.length ∧
        (decode_Ehdr (data.take sizeof_Ehdr)).e_ident.take 7 = [127, 69, 76, 70, 1, 1, 1] ∧
        (decode_Ehdr (data.take sizeof_Ehdr)).e_type = 2 ∧
        (decode_Ehdr (data.take sizeof_Ehdr)).e_machine = 3 ∧
        (decode_Ehdr (data.take sizeof_Ehdr)).e_version = 1 ∧
        (decode_Ehdr (data.take sizeof_Ehdr)).e_phentsize = 32 ∧
        (decode_Ehdr (data.take sizeof_Ehdr)).e_phnum ≤ 1024) →
      load env PGBITS PHYS_BASE file_name k =
        .done (false, { k with pagedir := some (fun _ => none),
                               exec := some { data := data, pos := 0, deny_write := true } })) ∧
    ((sizeof_Ehdr ≤ data.length ∧
        (decode_Ehdr (data.take sizeof_Ehdr)).e_ident.take 7 = [127, 69, 76, 70, 1, 1, 1] ∧
        (decode_Ehdr (data.take sizeof_Ehdr)).e_type = 2 ∧
        (decode_Ehdr (data.take sizeof_Ehdr)).e_machine = 3 ∧
        (decode_Ehdr (data.take sizeof_Ehdr)).e_version = 1 ∧
        (decode_Ehdr (data.take sizeof_Ehdr)).e_phentsize = 32 ∧
        (decode_Ehdr (data.take sizeof_Ehdr)).e_phnum ≤ 1024) →
      load env PGBITS PHYS_BASE file_name k =
        match load_phdrs env PGBITS PHYS_BASE (decode_Ehdr (data.take sizeof_Ehdr)).e_phnum
            (toOff (decode_Ehdr (data.take sizeof_Ehdr)).e_phoff)
            { data := data, pos := sizeof_Ehdr, deny_write := true }
            { k with pagedir := some (fun _ => none),
                     exec := some { data := data, pos := 0, deny_write := true } } with
        | .done (true, _, k1) =>
          match setup_stack env PGBITS PHYS_BASE p.num_args p.argv p.num_bytes k1 with
          | .done (true, k2) =>
            .done (true, { k2 with eip := some (decode_Ehdr (data.take sizeof_Ehdr)).e_entry })
          | .done (false, k2) => .done (false, k2)
          | .null => .null
          | .fault => .fault
          | .fuel => .fuel
        | .done (false, _, k1) => .done (false, k1)
        | .null => .null
        | .fault => .fault
        | .fuel => .fuel) := by
  have hrun := load_run env PGBITS PHYS_BASE file_name k p name data hpd hparse hname hfile
  have hr1 : (file_read { data := data, pos := 0, deny_write := true } sizeof_Ehdr).1 =
      data.take sizeof_Ehdr := by simp [file_read]
  have hr2 : (file_read { data := data, pos := 0, deny_write := true } sizeof_Ehdr).2 =
      { data := data, pos := (data.take sizeof_Ehdr).length, deny_write := true } := by
    simp [file_read]
  rw [hr1, hr2] at hrun
  have hiff := ehdr_rejected_iff (data.take sizeof_Ehdr).length (decode_Ehdr (data.take sizeof_Ehdr))
  have hlen : (data.take sizeof_Ehdr).length = sizeof_Ehdr ↔ sizeof_Ehdr ≤ data.length := by
    simp
  rw [hlen] at hiff
  constructor
  · intro hc
    have hrej : ehdr_rejected (data.take sizeof_Ehdr).length (decode_Ehdr (data.take sizeof_Ehdr))
        = true := by
      cases hb : ehdr_rejected (data.take sizeof_Ehdr).length (decode_Ehdr (data.take sizeof_Ehdr))
      · exact absurd (hiff.mp hb) hc
      · rfl
    rw [hrun, if_pos hrej]
  · intro hc
    have hacc := hiff.mpr hc
    have hl : (data.take sizeof_Ehdr).length = sizeof_Ehdr := hlen.mpr hc.1
    rw [hrun, if_neg (by rw [hacc]; simp), hl]

/-- C4 for a file whose header is that of a shared object (type 3): failure,
nothing mapped. -/
theorem load_header_witness :
    load (sampleEnv (sampleEhdr 3 52 0)) 12 3221225472 (bytes "a") sampleKernel =
      .done (false, { sampleKernel with
        pagedir := some (fun _ => none),
        exec := some { data := sampleEhdr 3 52 0, pos := 0, deny_write := true } }) :=
  (load_header (sampleEnv (sampleEhdr 3 52 0)) 12 3221225472 (bytes "a") sampleKernel
    { argv := [.str (bytes "a"), .null], num_args := 1, num_bytes := 2 } (bytes "a")
    (sampleEhdr 3 52 0) rfl (by decide) rfl (by decide)).1 (by decide)

/-- C5: in the program-header loop of `load`, a readable header of type
DYNAMIC, INTERP or SHLIB, or of type LOAD that `validate_segment` rejects,
ends the loop with failure and leaves the state as it was; a header of any
type other than LOAD and those three is passed over with the state unchanged;
and after a successful `load` none of the `e_phnum` headers of the table is
DYNAMIC, INTERP or SHLIB and every LOAD header among them passes
`validate_segment`. -/
theorem load_phdrs_types (env : Env) (PGBITS PHYS_BASE : Nat) :
    (∀ (n : Nat) (file_ofs : Int) (file : File) (k : Kernel),
      0 ≤ file_ofs → file_ofs ≤ (file_length file : Int) →
      (file_read (file_seek file file_ofs.toNat) sizeof_Phdr).1.length = sizeof_Phdr →
      (((decode_Phdr (file_read (file_seek file file_ofs.toNat) sizeof_Phdr).1).p_type
            = PT_DYNAMIC ∨
          (decode_Phdr (file_read (file_seek file file_ofs.toNat) sizeof_Phdr).1).p_type
            = PT_INTERP ∨
          (decode_Phdr (file_read (file_seek file file_ofs.toNat) sizeof_Phdr).1).p_type
            = PT_SHLIB ∨
          ((decode_Phdr (file_read (file_seek file file_ofs.toNat) sizeof_Phdr).1).p_type
              = PT_LOAD ∧
            validate_segment PGBITS PHYS_BASE
              (decode_Phdr (file_read (file_seek file file_ofs.toNat) sizeof_Phdr).1)
              (file_read (file_seek file file_ofs.toNat) sizeof_Phdr).2 = false)) →
        load_phdrs env PGBITS PHYS_BASE (n + 1) file_ofs file k =
          .done (false, (file_read (file_seek file file_ofs.toNat) sizeof_Phdr).2, k)) ∧
      (((decode_Phdr (file_read (file_seek file file_ofs.toNat) sizeof_Phdr).1).p_type
            ≠ PT_LOAD ∧
          (decode_Phdr (file_read (file_seek file file_ofs.toNat) sizeof_Phdr).1).p_type
            ≠ PT_DYNAMIC ∧
          (decode_Phdr (file_read (file_seek file file_ofs.toNat) sizeof_Phdr).1).p_type
            ≠ PT_INTERP ∧
          (decode_Phdr (file_read (file_seek file file_ofs.toNat) sizeof_Phdr).1).p_type
            ≠ PT_SHLIB) →
        load_phdrs env PGBITS PHYS_BASE (n + 1) file_ofs file k =
          load_phdrs env PGBITS PHYS_BASE n (file_ofs + sizeof_Phdr)
            (file_read (file_seek file file_ofs.toNat) sizeof_Phdr).2 k)) ∧
    (∀ (file_name : List Nat) (k k1 : Kernel),
      load env PGBITS PHYS_BASE file_name k = .done (true, k1) →
      ∃ p name data, parse_cmd env.malloc file_name = .done p ∧
        p.argv[0]? = some (.str name) ∧ env.filesys (cstr name) = some data ∧
        ∀ i, i < (decode_Ehdr (data.take sizeof_Ehdr)).e_phnum →
          (phdr_at data (decode_Ehdr (data.take sizeof_Ehdr)).e_phoff i).p_type ≠ PT_DYNAMIC ∧
          (phdr_at data (decode_Ehdr (data.take sizeof_Ehdr)).e_phoff i).p_type ≠ PT_INTERP ∧
          (phdr_at data (decode_Ehdr (data.take sizeof_Ehdr)).e_phoff i).p_type ≠ PT_SHLIB ∧
          ((phdr_at data (decode_Ehdr (data.take sizeof_Ehdr)).e_phoff i).p_type = PT_LOAD →
            validate_segment PGBITS PHYS_BASE
              (phdr_at data (decode_Ehdr (data.take sizeof_Ehdr)).e_phoff i)
              { data := data, pos := 0, deny_write := true } = true)) := by
  constructor
  · intro n file_ofs file k h0 h1 hread
    have hstep := load_phdrs_step env PGBITS PHYS_BASE n file_ofs file k h0 h1 hread
    generalize decode_Phdr (file_read (file_seek file file_ofs.toNat) sizeof_Phdr).1 = phdr
      at hstep ⊢
    constructor
    · intro hc
      rw [hstep]
      by_cases ht : phdr.p_type = PT_DYNAMIC ∨ phdr.p_type = PT_INTERP ∨ phdr.p_type = PT_SHLIB
      · rw [if_pos ht]
      · have hl : phdr.p_type = PT_LOAD ∧ validate_segment PGBITS PHYS_BASE phdr
            (file_read (file_seek file file_ofs.toNat) sizeof_Phdr).2 = false := by
          rcases hc with hc | hc | hc | hc
          · exact absurd (Or.inl hc) ht
          · exact absurd (Or.inr (Or.inl hc)) ht
          · exact absurd (Or.inr (Or.inr hc)) ht
          · exact hc
        rw [if_neg ht, if_pos hl.1, if_neg (by rw [hl.2]; simp)]
    · rintro ⟨a1, a2, a3, a4⟩
      rw [hstep, if_neg (by tauto), if_neg a1]
  · intro file_name k k1 h
    obtain ⟨p, name, data, file1, k2, _, hparse, hname, hfile, _, hloop⟩ :=
      load_success_inv env PGBITS PHYS_BASE file_name k k1 h
    refine ⟨p, name, data, hparse, hname, hfile, fun i hi => ?_⟩
    obtain ⟨h0, a1, a2, a3, a4⟩ := load_phdrs_success env PGBITS PHYS_BASE _ _ _ _ _ _ hloop i hi
    have e := toOff_toNat _ (le32_lt (data.take sizeof_Ehdr) 28) h0
    have e' : (toOff (decode_Ehdr (data.take sizeof_Ehdr)).e_phoff).toNat =
        (decode_Ehdr (data.take sizeof_Ehdr)).e_phoff := e
    rw [e'] at a1 a2 a3 a4
    refine ⟨a1, a2, a3, fun hc => ?_⟩
    rw [validate_segment_length PGBITS PHYS_BASE _ { data := data, pos := 0, deny_write := true }
      { data := data, pos := (data.take sizeof_Ehdr).length, deny_write := true } rfl]
    exact a4 hc

/-- C5 at a header table whose only entry is of type DYNAMIC: the loop ends
with failure and the state it was given. -/
theorem load_phdrs_types_witness :
    load_phdrs (sampleEnv []) 12 3221225472 1 52
        { data := sampleEhdr 2 52 1 ++ samplePhdr 2, pos := 52, deny_write := true }
        sampleKernel =
      .done (false, { data := sampleEhdr 2 52 1 ++ samplePhdr 2, pos := 84, deny_write := true },
        sampleKernel) :=
  ((load_phdrs_types (sampleEnv []) 12 3221225472).1 0 52
    { data := sampleEhdr 2 52 1 ++ samplePhdr 2, pos := 52, deny_write := true } sampleKernel
    (by decide) (by decide) (by decide)).1 (Or.inl (by decide))

/-- C6: for a header whose fields are 32-bit values and a file shorter than
`2^32` bytes, `validate_segment` returns true exactly when the file offset and
the virtual address agree modulo the page size, the file offset is not past
the length of the file, the memory size is at least the file size and is not
zero, the virtual address and the virtual address plus the memory size are
below `PHYS_BASE`, that sum is below `2^32`, and the virtual address is at
least one page size. -/
theorem validate_segment_accepts (PGBITS PHYS_BASE : Nat) (phdr : Elf32_Phdr) (file : File)
    (hlen : file_length file < 2 ^ 32)
    (hv : phdr.p_vaddr < 2 ^ 32) (hm : phdr.p_memsz < 2 ^ 32) :
    validate_segment PGBITS PHYS_BASE phdr file = true ↔
      (phdr.p_offset % PGSIZE PGBITS = phdr.p_vaddr % PGSIZE PGBITS ∧
       phdr.p_offset ≤ file_length file ∧
       phdr.p_filesz ≤ phdr.p_memsz ∧
       phdr.p_memsz ≠ 0 ∧
       phdr.p_vaddr < PHYS_BASE ∧
       phdr.p_vaddr + phdr.p_memsz < PHYS_BASE ∧
       phdr.p_vaddr + phdr.p_memsz < 2 ^ 32 ∧
       PGSIZE PGBITS ≤ phdr.p_vaddr) :=
  validate_segment_iff PGBITS PHYS_BASE phdr file hlen hv hm

/-- C6 at a segment of 512 bytes at `0x08048000` read from offset 0, with
4096-byte pages below `0xc0000000`: accepted. -/
theorem validate_segment_accepts_witness :
    validate_segment 12 3221225472 samplePhdrLoad
      { data := sampleEhdr 2 52 0, pos := 0, deny_write := true } = true :=
  (validate_segment_accepts 12 3221225472 samplePhdrLoad
    { data := sampleEhdr 2 52 0, pos := 0, deny_write := true }
    (by decide) (by decide) (by decide)).mpr (by decide)

theorem validate_segment_bounds (PGBITS PHYS_BASE : Nat) (phdr : Elf32_Phdr) (file : File)
    (hval : validate_segment PGBITS PHYS_BASE phdr file = true) :
    phdr.p_offset ≤ wrap (file_length file) ∧ phdr.p_vaddr < PHYS_BASE := by
  unfold validate_segment at hval
  split at hval
  · simp at hval
  split at hval
  · simp at hval
  split at hval
  · simp at hval
  split at hval
  · simp at hval
  split at hval
  · simp at hval
  rename_i h1 h2 h3 h4 h5
  simp only [is_user_vaddr, decide_eq_false_iff_not, not_not] at h5
  exact ⟨by omega, h5⟩

/-- C7: for a header with a 32-bit memory size that `validate_segment`
accepts, with `PHYS_BASE` at least one page below `2^32`: `load` passes
`load_segment` the in-page offset plus the file size as `read_bytes` and the
page-rounded in-page offset plus memory size, less `read_bytes`, as
`zero_bytes` when the file size is not zero, and 0 and that rounded value
when it is zero; `read_bytes` does not exceed the rounded value; the sum of
the two is that value, positive and a multiple of the page size; the file
page and the memory page are the file offset and the virtual address rounded
down to a page; and `load_segment` passes its three assertions and enters its
page loop. -/
theorem segment_args_rounding (env : Env) (PGBITS PHYS_BASE : Nat) (phdr : Elf32_Phdr)
    (file : File) (k : Kernel)
    (hP : PHYS_BASE + PGSIZE PGBITS ≤ 2 ^ 32) (hlen : file_length file < 2 ^ 32)
    (hm : phdr.p_memsz < 2 ^ 32)
    (hval : validate_segment PGBITS PHYS_BASE phdr file = true) :
    (0 < phdr.p_filesz →
      (segment_args PGBITS phdr).read_bytes = phdr.p_vaddr % PGSIZE PGBITS + phdr.p_filesz ∧
      (segment_args PGBITS phdr).zero_bytes =
        (phdr.p_vaddr % PGSIZE PGBITS + phdr.p_memsz + PGSIZE PGBITS - 1) / PGSIZE PGBITS *
          PGSIZE PGBITS - (phdr.p_vaddr % PGSIZE PGBITS + phdr.p_filesz)) ∧
    (phdr.p_filesz = 0 →
      (segment_args PGBITS phdr).read_bytes = 0 ∧
      (segment_args PGBITS phdr).zero_bytes =
        (phdr.p_vaddr % PGSIZE PGBITS + phdr.p_memsz + PGSIZE PGBITS - 1) / PGSIZE PGBITS *
          PGSIZE PGBITS) ∧
    (segment_args PGBITS phdr).read_bytes ≤
      (phdr.p_vaddr % PGSIZE PGBITS + phdr.p_memsz + PGSIZE PGBITS - 1) / PGSIZE PGBITS *
        PGSIZE PGBITS ∧
    (segment_args PGBITS phdr).read_bytes + (segment_args PGBITS phdr).zero_bytes =
      (phdr.p_vaddr % PGSIZE PGBITS + phdr.p_memsz + PGSIZE PGBITS - 1) / PGSIZE PGBITS *
        PGSIZE PGBITS ∧
    0 < (segment_args PGBITS phdr).read_bytes + (segment_args PGBITS phdr).zero_bytes ∧
    ((segment_args PGBITS phdr).read_bytes + (segment_args PGBITS phdr).zero_bytes) %
      PGSIZE PGBITS = 0 ∧
    (segment_args PGBITS phdr).file_page = phdr.p_offset - phdr.p_offset % PGSIZE PGBITS ∧
    (segment_args PGBITS phdr).mem_page = phdr.p_vaddr - phdr.p_vaddr % PGSIZE PGBITS ∧
    (segment_args PGBITS phdr).file_page % PGSIZE PGBITS = 0 ∧
    (segment_args PGBITS phdr).mem_page % PGSIZE PGBITS = 0 ∧
    load_segment env PGBITS file (segment_args PGBITS phdr).file_page
        (segment_args PGBITS phdr).mem_page (segment_args PGBITS phdr).read_bytes
        (segment_args PGBITS phdr).zero_bytes (segment_args PGBITS phdr).writable k =
      load_segment_loop env PGBITS
        (((segment_args PGBITS phdr).read_bytes + (segment_args PGBITS phdr).zero_bytes) /
          PGSIZE PGBITS + 1)
        (file_seek file (segment_args PGBITS phdr).file_page)
        (segment_args PGBITS phdr).mem_page (segment_args PGBITS phdr).read_bytes
        (segment_args PGBITS phdr).zero_bytes (segment_args PGBITS phdr).writable k := by
  obtain ⟨hb1, hb2⟩ := validate_segment_bounds PGBITS PHYS_BASE phdr file hval
  rw [wrap_of_lt _ hlen] at hb1
  have hPpos := PGSIZE_pos PGBITS
  obtain ⟨c1, c2, c3, c4, c5, c6, c7, c8, c9, c10, c11⟩ :=
    segment_args_spec PGBITS PHYS_BASE phdr file hP hlen (by omega) (by omega) hm hval
  exact ⟨c1, c2, c3, c4, c5, c7, c8, c9, c10, c11,
    load_segment_asserts env PGBITS file _ _ _ _ _ k c6 c7 c11 c10⟩

/-- C7 at the sample segment (16 file bytes, 512 bytes of memory, page-aligned
address): `read_bytes + zero_bytes` is one page. -/
theorem segment_args_rounding_witness :
    (segment_args 12 samplePhdrLoad).read_bytes + (segment_args 12 samplePhdrLoad).zero_bytes =
      (samplePhdrLoad.p_vaddr % PGSIZE 12 + samplePhdrLoad.p_memsz + PGSIZE 12 - 1) / PGSIZE 12 *
        PGSIZE 12 :=
  (segment_args_rounding (sampleEnv []) 12 3221225472 samplePhdrLoad
    { data := sampleEhdr 2 52 0, pos := 0, deny_write := true } sampleKernel
    (by decide) (by decide) (by decide) (by decide)).2.2.2.1

/-! ## process_wait -/

theorem process_wait_from_miss (child_exit : Int → Int) (child_pid : Int) :
    ∀ (l passed : List child_status),
      (∀ c ∈ l, c.tid = child_pid → c.success = true) →
      process_wait_from child_exit child_pid passed l =
        { ret := -1, list := passed ++ l, events := [] } := by
  intro l
  induction l with
  | nil => intro passed _; simp [process_wait_from]
  | cons c rest ih =>
    intro passed h
    have hc := h c (List.mem_cons_self _ _)
    unfold process_wait_from
    by_cases ht : c.tid = child_pid
    · have hs := hc ht
      rw [if_neg (by simp [hs]), if_pos ht]
    · rw [if_neg (by simp [ht]), if_neg ht,
        ih (passed ++ [c]) (fun d hd => h d (List.mem_cons_of_mem _ hd))]
      simp

theorem process_wait_from_hit (child_exit : Int → Int) (child_pid : Int) (c : child_status)
    (rest : List child_status) (hc : c.tid = child_pid) (hs : c.success = false) :
    ∀ (pre passed : List child_status), (∀ d ∈ pre, d.tid ≠ child_pid) →
      process_wait_from child_exit child_pid passed (pre ++ c :: rest) =
        { ret := (sema_down_wait child_exit { c with success := true }).exit,
          list := passed ++ pre ++ rest,
          events := [.sema_down_wait { c with success := true },
            .list_remove (sema_down_wait child_exit { c with success := true }),
            .free (sema_down_wait child_exit { c with success := true })] } := by
  intro pre
  induction pre with
  | nil =>
    intro passed _
    simp only [List.nil_append, process_wait_from]
    rw [if_pos ⟨hc, hs⟩]
    simp
  | cons d pre ih =>
    intro passed h
    have hd := h d (List.mem_cons_self _ _)
    rw [List.cons_append, process_wait_from, if_neg (by simp [hd]), if_neg hd,
      ih (passed ++ [d]) (fun e he => h e (List.mem_cons_of_mem _ he))]
    simp

/-- C8: if every record of the list that carries the id `child_pid` is already
claimed (in particular if no record carries it), `process_wait` returns -1,
lowers no semaphore, removes and frees nothing, and leaves the list and its
records as they were. -/
theorem process_wait_unknown (child_exit : Int → Int) (child_pid : Int) (l : List child_status)
    (h : ∀ c ∈ l, c.tid = child_pid → c.success = true) :
    process_wait child_exit child_pid l = { ret := -1, list := l, events := [] } := by
  simpa [process_wait] using process_wait_from_miss child_exit child_pid l [] h

/-- C8 on a list with a claimed record for child 7 and a record for child 9:
waiting for 7, and for the unknown child 5, returns -1 and changes nothing. -/
theorem process_wait_unknown_witness :
    process_wait (fun _ => 0) 7
        [{ tid := 7, exit := 3, success := true, wait_sema := 1 },
         { tid := 9, exit := 0, success := false, wait_sema := 0 }] =
      { ret := -1,
        list := [{ tid := 7, exit := 3, success := true, wait_sema := 1 },
                 { tid := 9, exit := 0, success := false, wait_sema := 0 }],
        events := [] } :=
  process_wait_unknown (fun _ => 0) 7
    [{ tid := 7, exit := 3, success := true, wait_sema := 1 },
     { tid := 9, exit := 0, success := false, wait_sema := 0 }] (by decide)

/-- C9: when the first record of the list with the id `child_pid` is
unclaimed, `process_wait` marks it claimed, lowers its semaphore, returns the
exit code found in the record after that (the stored one if the child had
already raised the semaphore, the one the child stores before raising it
otherwise), and removes and frees that record and no other; if moreover no
later record carries the same id, a second `process_wait` for that id on the
list left behind returns -1 and changes nothing. -/
theorem process_wait_claims (child_exit : Int → Int) (child_pid : Int)
    (pre rest : List child_status) (c : child_status)
    (hpre : ∀ d ∈ pre, d.tid ≠ child_pid) (hc : c.tid = child_pid) (hs : c.success = false) :
    process_wait child_exit child_pid (pre ++ c :: rest) =
        { ret := if c.wait_sema > 0 then c.exit else child_exit child_pid,
          list := pre ++ rest,
          events := [.sema_down_wait { c with success := true },
            .list_remove (sema_down_wait child_exit { c with success := true }),
            .free (sema_down_wait child_exit { c with success := true })] } ∧
      ((∀ d ∈ rest, d.tid ≠ child_pid) →
        process_wait child_exit child_pid
            (process_wait child_exit child_pid (pre ++ c :: rest)).list =
          { ret := -1, list := pre ++ rest, events := [] }) := by
  have h1 := process_wait_from_hit child_exit child_pid c rest hc hs pre [] hpre
  have hret : (sema_down_wait child_exit { c with success := true }).exit =
      if c.wait_sema > 0 then c.exit else child_exit child_pid := by
    unfold sema_down_wait
    split
    · rfl
    · simp [hc]
  simp only [List.nil_append] at h1
  rw [hret] at h1
  have h2 : process_wait child_exit child_pid (pre ++ c :: rest) = _ := h1
  refine ⟨h2, fun hrest => ?_⟩
  rw [h2]
  unfold process_wait
  have := process_wait_from_miss child_exit child_pid (pre ++ rest) [] (fun d hd ht => by
    rcases List.mem_append.mp hd with hd | hd
    · exact absurd ht (hpre d hd)
    · exact absurd ht (hrest d hd))
  simpa using this

/-- C9 on a list whose record for child 7 is unclaimed and whose child has
exited with code 3: the wait returns 3 and leaves the record of child 9. -/
theorem process_wait_claims_witness :
    process_wait (fun _ => 0) 7
        ([{ tid := 9, exit := 0, success := false, wait_sema := 0 }] ++
          { tid := 7, exit := 3, success := false, wait_sema := 1 } :: []) =
      { ret := if (1 : Nat) > 0 then 3 else 0,
        list := [{ tid := 9, exit := 0, success := false, wait_sema := 0 }] ++ [],
        events := [.sema_down_wait { tid := 7, exit := 3, success := true, wait_sema := 1 },
          .list_remove (sema_down_wait (fun _ => 0)
            { tid := 7, exit := 3, success := true, wait_sema := 1 }),
          .free (sema_down_wait (fun _ => 0)
            { tid := 7, exit := 3, success := true, wait_sema := 1 })] } :=
  (process_wait_claims (fun _ => 0) 7 [{ tid := 9, exit := 0, success := false, wait_sema := 0 }]
    [] { tid := 7, exit := 3, success := false, wait_sema := 1 } (by decide) rfl rfl).1

/-! ## pthread_join -/

theorem find_process_thread_none (tid : Int) (l : List process_thread)
    (h : ∀ r ∈ l, r.tid ≠ tid) : find_process_thread tid l = none := by
  induction l with
  | nil => rfl
  | cons r rest ih =>
    unfold find_process_thread
    rw [if_neg (h r (List.mem_cons_self _ _)), ih (fun d hd => h d (List.mem_cons_of_mem _ hd))]

theorem find_process_thread_first (tid : Int) (r : process_thread) (rest : List process_thread)
    (hr : r.tid = tid) :
    ∀ (pre : List process_thread), (∀ d ∈ pre, d.tid ≠ tid) →
      find_process_thread tid (pre ++ r :: rest) = some r := by
  intro pre
  induction pre with
  | nil => intro _; simp [find_process_thread, hr]
  | cons d pre ih =>
    intro h
    rw [List.cons_append, find_process_thread, if_neg (h d (List.mem_cons_self _ _)),
      ih (fun e he => h e (List.mem_cons_of_mem _ he))]

/-- C10: `pthread_join` returns `TID_ERROR` when no record of the list carries
the id and when the first record that carries it has a registered waiter, and
returns the id when that record has no waiter and is marked exited; in the
three cases it only takes and releases the lock of the thread list (no wait on
the exit semaphore, no release of the syscall lock) and leaves the list as it
was. -/
theorem pthread_join_immediate (curr_thread tid : Int) (l : List process_thread) :
    ((∀ r ∈ l, r.tid ≠ tid) →
      pthread_join curr_thread tid l =
        { ret := TID_ERROR, list := l,
          events := [.lock_acquire_threads, .lock_release_threads] }) ∧
    (∀ (pre rest : List process_thread) (r : process_thread),
      l = pre ++ r :: rest → (∀ d ∈ pre, d.tid ≠ tid) → r.tid = tid →
      (r.thread_waiter ≠ none →
        pthread_join curr_thread tid l =
          { ret := TID_ERROR, list := l,
            events := [.lock_acquire_threads, .lock_release_threads] }) ∧
      (r.thread_waiter = none → r.thread_exited = true →
        pthread_join curr_thread tid l =
          { ret := tid, list := l,
            events := [.lock_acquire_threads, .lock_release_threads] })) := by
  constructor
  · intro h
    unfold pthread_join
    rw [find_process_thread_none tid l h]
  · intro pre rest r hl hpre hr
    have hf := find_process_thread_first tid r rest hr pre hpre
    rw [← hl] at hf
    constructor
    · intro hw
      unfold pthread_join
      rw [hf]
      simp only [if_pos hw]
    · intro hw he
      unfold pthread_join
      rw [hf]
      simp only [hw, he, ne_eq, not_true_eq_false, if_false, if_true]

/-- C10 on a list with an exited thread 4 and a thread 5 that already has the
waiter 1: joining the unknown thread 6 fails, joining 5 fails, joining 4
returns 4. -/
theorem pthread_join_immediate_witness :
    pthread_join 2 6
        [{ tid := 4, thread_exited := true, thread_waiter := none, exit_wait := 1 },
         { tid := 5, thread_exited := false, thread_waiter := some 1, exit_wait := 0 }] =
      { ret := TID_ERROR,
        list := [{ tid := 4, thread_exited := true, thread_waiter := none, exit_wait := 1 },
                 { tid := 5, thread_exited := false, thread_waiter := some 1, exit_wait := 0 }],
        events := [.lock_acquire_threads, .lock_release_threads] } ∧
    pthread_join 2 5
        [{ tid := 4, thread_exited := true, thread_waiter := none, exit_wait := 1 },
         { tid := 5, thread_exited := false, thread_waiter := some 1, exit_wait := 0 }] =
      { ret := TID_ERROR,
        list := [{ tid := 4, thread_exited := true, thread_waiter := none, exit_wait := 1 },
                 { tid := 5, thread_exited := false, thread_waiter := some 1, exit_wait := 0 }],
        events := [.lock_acquire_threads, .lock_release_threads] } ∧
    pthread_join 2 4
        [{ tid := 4, thread_exited := true, thread_waiter := none, exit_wait := 1 },
         { tid := 5, thread_exited := false, thread_waiter := some 1, exit_wait := 0 }] =
      { ret := 4,
        list := [{ tid := 4, thread_exited := true, thread_waiter := none, exit_wait := 1 },
                 { tid := 5, thread_exited := false, thread_waiter := some 1, exit_wait := 0 }],
        events := [.lock_acquire_threads, .lock_release_threads] } :=
  ⟨(pthread_join_immediate 2 6 _).1 (by decide),
   ((pthread_join_immediate 2 5 _).2
      [{ tid := 4, thread_exited := true, thread_waiter := none, exit_wait := 1 }] []
      { tid := 5, thread_exited := false, thread_waiter := some 1, exit_wait := 0 }
      rfl (by decide) rfl).1 (by decide),
   ((pthread_join_immediate 2 4 _).2 []
      [{ tid := 5, thread_exited := false, thread_waiter := some 1, exit_wait := 0 }]
      { tid := 4, thread_exited := true, thread_waiter := none, exit_wait := 1 }
      rfl (by decide) rfl).2 rfl rfl⟩

theorem find_process_thread_tid (tid : Int) (r : process_thread) :
    ∀ (l : List process_thread), find_process_thread tid l = some r → r.tid = tid := by
  intro l
  induction l with
  | nil => intro h; simp [find_process_thread] at h
  | cons d rest ih =>
    intro h
    rw [find_process_thread] at h
    by_cases hd : d.tid = tid
    · rw [if_pos hd] at h
      cases h
      exact hd
    · rw [if_neg hd] at h
      exact ih h

theorem find_set_process_thread (tid : Int) (r r1 : process_thread) (h1 : r1.tid = tid) :
    ∀ (l : List process_thread), find_process_thread tid l = some r →
      find_process_thread tid (set_process_thread tid r1 l) = some r1 := by
  intro l
  induction l with
  | nil => intro h; simp [find_process_thread] at h
  | cons d rest ih =>
    intro h
    rw [find_process_thread] at h
    rw [set_process_thread]
    by_cases hd : d.tid = tid
    · rw [if_pos hd, find_process_thread, if_pos h1]
    · rw [if_neg hd] at h
      rw [if_neg hd, find_process_thread, if_neg hd]
      exact ih h

/-- C11: a second `pthread_join` on the same id does not always fail. On the
list with the one record of thread 4, exited and without waiter, the join of
thread 1 returns 4 and leaves the list as it was, and the later join of thread
2 returns 4 again, not `TID_ERROR`; so it is for every list whose first record
of the id is exited and has no waiter. When the first join had to wait (the
record was not exited), it registers the caller as the waiter and every later
join on the id returns `TID_ERROR` and leaves the list as it was. -/
theorem pthread_join_again :
    ((pthread_join 1 4
        [{ tid := 4, thread_exited := true, thread_waiter := none, exit_wait := 1 }]).ret = 4 ∧
     (pthread_join 2 4 (pthread_join 1 4
        [{ tid := 4, thread_exited := true, thread_waiter := none, exit_wait := 1 }]).list).ret
        = 4 ∧
     (4 : Int) ≠ TID_ERROR) ∧
    (∀ (c c2 tid : Int) (l : List process_thread) (r : process_thread),
      find_process_thread tid l = some r → r.thread_waiter = none → r.thread_exited = true →
      (pthread_join c tid l).ret = tid ∧
      (pthread_join c2 tid (pthread_join c tid l).list).ret = tid) ∧
    (∀ (c c2 tid : Int) (l : List process_thread) (r : process_thread),
      find_process_thread tid l = some r → r.thread_waiter = none → r.thread_exited = false →
      (pthread_join c tid l).ret = tid ∧
      (pthread_join c2 tid (pthread_join c tid l).list).ret = TID_ERROR ∧
      (pthread_join c2 tid (pthread_join c tid l).list).list = (pthread_join c tid l).list) := by
  refine ⟨⟨by decide, by decide, by decide⟩, ?_, ?_⟩
  · intro c c2 tid l r hf hw he
    have h1 : ∀ (c : Int), pthread_join c tid l =
        { ret := tid, list := l, events := [.lock_acquire_threads, .lock_release_threads] } := by
      intro c
      unfold pthread_join
      rw [hf]
      simp only [hw, he, ne_eq, not_true_eq_false, if_false, if_true]
    rw [h1 c, h1 c2]
    exact ⟨rfl, rfl⟩
  · intro c c2 tid l r hf hw he
    have h1 : pthread_join c tid l =
        { ret := tid,
          list := set_process_thread tid
            (sema_down_exit { r with thread_waiter := some c }) l,
          events := [.lock_acquire_threads, .lock_release_threads, .lock_release_syscall,
            .sema_down_exit tid, .lock_acquire_syscall] } := by
      unfold pthread_join
      rw [hf]
      simp only [hw, he, ne_eq, not_true_eq_false, if_false, Bool.false_eq_true]
    have ht : (sema_down_exit { r with thread_waiter := some c }).tid = tid :=
      find_process_thread_tid tid r l hf
    have hf2 := find_set_process_thread tid r _ ht l hf
    rw [h1]
    have h2 : pthread_join c2 tid (set_process_thread tid
        (sema_down_exit { r with thread_waiter := some c }) l) =
        { ret := TID_ERROR,
          list := set_process_thread tid
            (sema_down_exit { r with thread_waiter := some c }) l,
          events := [.lock_acquire_threads, .lock_release_threads] } := by
      unfold pthread_join
      rw [hf2]
      simp [sema_down_exit]
    rw [h2]
    exact ⟨rfl, rfl, rfl⟩

/-! ## Validation of system-call arguments -/

theorem validate_loop_iff (PGBITS PHYS_BASE : Nat) (pd : Nat → Option Bool)
    (hP : PHYS_BASE + 4 ≤ 2 ^ 32) :
    ∀ (n args : Nat), args < 2 ^ 32 →
      (validate_loop PGBITS PHYS_BASE pd n args = 1 ↔
        ∀ i, i < n → args + 4 * i ≠ 0 ∧ args + 4 * i < PHYS_BASE ∧
          pagedir_get_page PGBITS pd (args + 4 * i) = true) := by
  intro n
  induction n with
  | zero => intro args _; simp [validate_loop]
  | succ n ih =>
    intro args ha
    rw [validate_loop]
    by_cases h0 : args = 0
    · rw [if_pos h0]
      constructor
      · intro h; simp at h
      · intro h; exact absurd h0 (by simpa using (h 0 (Nat.succ_pos n)).1)
    rw [if_neg h0]
    by_cases hu : args < PHYS_BASE
    swap
    · rw [if_pos (by simp [is_user_vaddr, hu])]
      constructor
      · intro h; simp at h
      · intro h; exact absurd (by simpa using (h 0 (Nat.succ_pos n)).2.1) hu
    rw [if_neg (by simp [is_user_vaddr, hu])]
    by_cases hm : pagedir_get_page PGBITS pd args = true
    swap
    · rw [if_pos (by simpa using hm)]
      constructor
      · intro h; simp at h
      · intro h; exact absurd (by simpa using (h 0 (Nat.succ_pos n)).2.2) hm
    rw [if_neg (by simp [hm])]
    have hw : wrap (args + 4) = args + 4 := wrap_of_lt _ (by omega)
    rw [hw, ih (args + 4) (by omega)]
    constructor
    · intro h i hi
      cases i with
      | zero => exact ⟨by simpa using h0, by simpa using hu, by simpa using hm⟩
      | succ j =>
        have := h j (by omega)
        have e : args + 4 * (j + 1) = args + 4 + 4 * j := by ring
        rw [e]
        exact this
    · intro h i hi
      have := h (i + 1) (by omega)
      have e : args + 4 * (i + 1) = args + 4 + 4 * i := by ring
      rw [e] at this
      exact this

theorem validate_loop_01 (PGBITS PHYS_BASE : Nat) (pd : Nat → Option Bool) :
    ∀ (n args : Nat), validate_loop PGBITS PHYS_BASE pd n args = 1 ∨
      validate_loop PGBITS PHYS_BASE pd n args = 0 := by
  intro n
  induction n with
  | zero => intro args; left; rfl
  | succ n ih =>
    intro args
    rw [validate_loop]
    split
    · right; rfl
    · split
      · right; rfl
      · split
        · right; rfl
        · exact ih _

/-- C12: `validate_syscall_arg (args, N)` returns 1 exactly when each of the
`N + 1` word addresses `args`, `args + 4`, ..., `args + 4 * N` is not null, lies
below `PHYS_BASE` and is mapped in the page table of the process, and returns 0
otherwise. The pointer is a 32-bit value and user space ends at least one word
below the top of the address space. -/
theorem validate_syscall_arg_slots (PGBITS PHYS_BASE : Nat) (pd : Nat → Option Bool)
    (args N : Nat) (hP : PHYS_BASE + 4 ≤ 2 ^ 32) (ha : args < 2 ^ 32) :
    (validate_syscall_arg PGBITS PHYS_BASE pd args N = 1 ↔
      ∀ i, i ≤ N → args + 4 * i ≠ 0 ∧ is_user_vaddr PHYS_BASE (args + 4 * i) = true ∧
        pagedir_get_page PGBITS pd (args + 4 * i) = true) ∧
    (validate_syscall_arg PGBITS PHYS_BASE pd args N ≠ 1 →
      validate_syscall_arg PGBITS PHYS_BASE pd args N = 0) := by
  constructor
  · unfold validate_syscall_arg
    rw [validate_loop_iff PGBITS PHYS_BASE pd hP (N + 1) args ha]
    simp only [is_user_vaddr, decide_eq_true_eq, Nat.lt_succ_iff]
  · intro h
    rcases validate_loop_01 PGBITS PHYS_BASE pd (N + 1) args with h1 | h1
    · exact absurd h1 h
    · exact h1

/-- C12 on a stack pointer 12 bytes below the top of user space, whose page is
mapped: two arguments are valid, three are not (the fourth word is the first
word of the kernel). -/
theorem validate_syscall_arg_slots_witness :
    validate_syscall_arg 12 3221225472 samplePd 3221225460 2 = 1 ∧
    validate_syscall_arg 12 3221225472 samplePd 3221225460 3 = 0 ∧
    ((validate_syscall_arg 12 3221225472 samplePd 3221225460 2 = 1 ↔
      ∀ i, i ≤ 2 → 3221225460 + 4 * i ≠ 0 ∧
        is_user_vaddr 3221225472 (3221225460 + 4 * i) = true ∧
        pagedir_get_page 12 samplePd (3221225460 + 4 * i) = true) ∧
    (validate_syscall_arg 12 3221225472 samplePd 3221225460 2 ≠ 1 →
      validate_syscall_arg 12 3221225472 samplePd 3221225460 2 = 0)) :=
  ⟨by decide, by decide,
   validate_syscall_arg_slots 12 3221225472 samplePd 3221225460 2 (by decide) (by decide)⟩

/-! ## The file descriptor table -/

theorem find_entry_by_fd_none (fd : Int) :
    ∀ (l : List file_desc_entry), (∀ e ∈ l, e.fd ≠ fd) → find_entry_by_fd fd l = none := by
  intro l
  induction l with
  | nil => intro _; rfl
  | cons f rest ih =>
    intro h
    rw [find_entry_by_fd, if_neg (h f (List.mem_cons_self _ _)),
      ih (fun e he => h e (List.mem_cons_of_mem _ he))]

theorem find_entry_by_fd_split (fd : Int) (entry : file_desc_entry) :
    ∀ (l : List file_desc_entry), find_entry_by_fd fd l = some entry →
      ∃ pre post, l = pre ++ entry :: post ∧ (∀ d ∈ pre, d.fd ≠ fd) ∧ entry.fd = fd ∧
        remove_entry fd l = pre ++ post := by
  intro l
  induction l with
  | nil => intro h; simp [find_entry_by_fd] at h
  | cons f rest ih =>
    intro h
    rw [find_entry_by_fd] at h
    by_cases hf : f.fd = fd
    · rw [if_pos hf] at h
      cases h
      exact ⟨[], rest, rfl, by simp, hf, by simp [remove_entry, hf]⟩
    · rw [if_neg hf] at h
      obtain ⟨pre, post, h1, h2, h3, h4⟩ := ih h
      refine ⟨f :: pre, post, by rw [h1]; rfl, ?_, h3, ?_⟩
      · intro d hd
        rcases List.mem_cons.1 hd with hd | hd
        · rw [hd]; exact hf
        · exact h2 d hd
      · rw [remove_entry, if_neg hf, h4]; rfl

theorem remove_entry_sublist (fd : Int) :
    ∀ (l : List file_desc_entry), (remove_entry fd l).Sublist l := by
  intro l
  induction l with
  | nil => exact List.Sublist.slnil
  | cons f rest ih =>
    rw [remove_entry]
    split
    · exact List.sublist_cons_self _ _
    · exact List.Sublist.cons₂ _ ih

theorem find_entry_by_fd_remove (fd : Int) :
    ∀ (l : List file_desc_entry), (l.map (fun e => e.fd)).Nodup →
      find_entry_by_fd fd (remove_entry fd l) = none := by
  intro l
  induction l with
  | nil => intro _; rfl
  | cons f rest ih =>
    intro h
    rw [List.map_cons, List.nodup_cons] at h
    rw [remove_entry]
    by_cases hf : f.fd = fd
    · rw [if_pos hf]
      apply find_entry_by_fd_none
      intro e he heq
      apply h.1
      rw [hf, ← heq]
      exact List.mem_map_of_mem _ he
    · rw [if_neg hf, find_entry_by_fd, if_neg hf]
      exact ih h.2

/-- What holds of the descriptor table after any sequence of calls that wraps
no counter. -/
theorem run_calls_inv :
    ∀ (calls : List FdCall) (p : process) (k : Nat),
      p.next_available_fd = 2 + (k : Int) →
      (∀ e ∈ p.file_desc_entry_list, 2 ≤ e.fd ∧ e.fd < p.next_available_fd) →
      (p.file_desc_entry_list.map (fun e => e.fd)).Nodup →
      k + successful_opens calls < 2 ^ 31 - 2 →
      (run_calls calls p).next_available_fd = 2 + ((k + successful_opens calls : Nat) : Int) ∧
      (∀ e ∈ (run_calls calls p).file_desc_entry_list,
        2 ≤ e.fd ∧ e.fd < (run_calls calls p).next_available_fd) ∧
      ((run_calls calls p).file_desc_entry_list.map (fun e => e.fd)).Nodup := by
  intro calls
  induction calls with
  | nil => intro p k h1 h2 h3 _; exact ⟨by simpa [run_calls, successful_opens] using h1, h2, h3⟩
  | cons c cs ih =>
    intro p k h1 h2 h3 h4
    cases c with
    | close fd =>
      rw [run_calls]
      simp only [successful_opens] at h4 ⊢
      have hsub : (close fd p).2.1.file_desc_entry_list.Sublist p.file_desc_entry_list := by
        unfold close
        split
        · exact List.Sublist.refl _
        · exact remove_entry_sublist fd _
      have hn : (close fd p).2.1.next_available_fd = p.next_available_fd := by
        unfold close
        split <;> rfl
      apply ih _ k (by rw [hn, h1])
      · intro e he
        rw [hn]
        exact h2 e (hsub.subset he)
      · exact h3.sublist (hsub.map _)
      · exact h4
    | sys_open a f n =>
      rw [run_calls]
      simp only [successful_opens] at h4 ⊢
      cases f with
      | none =>
        have hp : (sys_open a none n p).2 = p := rfl
        rw [hp]
        simp only [Option.isSome_none, Bool.false_eq_true, and_false, if_false, Nat.zero_add]
          at h4 ⊢
        exact ih p k h1 h2 h3 h4
      | some f =>
        cases a with
        | false =>
          have hp : (sys_open false (some f) n p).2 = p := rfl
          rw [hp]
          simp only [Bool.false_eq_true, false_and, if_false, Nat.zero_add] at h4 ⊢
          exact ih p k h1 h2 h3 h4
        | true =>
          simp only [Option.isSome_some, and_self, if_true] at h4 ⊢
          have hs : int_succ p.next_available_fd = 2 + ((k + 1 : Nat) : Int) := by
            unfold int_succ
            rw [h1, if_pos (by omega)]
            push_cast
            ring
          have hl : (sys_open true (some f) n p).2.file_desc_entry_list =
              p.file_desc_entry_list ++
                [{ fd := p.next_available_fd, file_name := n, fptr := f }] := rfl
          have hx : (sys_open true (some f) n p).2.next_available_fd =
              int_succ p.next_available_fd := rfl
          have := ih (sys_open true (some f) n p).2 (k + 1) (by rw [hx, hs])
            (by
              intro e he
              rw [hl] at he
              rw [hx, hs]
              rcases List.mem_append.1 he with he | he
              · have := h2 e he
                rw [h1] at this
                constructor
                · exact this.1
                · push_cast; omega
              · simp only [List.mem_singleton] at he
                rw [he]
                simp only
                rw [h1]
                constructor
                · omega
                · push_cast; omega)
            (by
              rw [hl, List.map_append, List.nodup_append]
              refine ⟨h3, by simp, ?_⟩
              intro x hx1 hx2
              simp only [List.map_cons, List.map_nil, List.mem_singleton] at hx2
              obtain ⟨e, he, hex⟩ := List.mem_map.1 hx1
              have := (h2 e he).2
              rw [hex, hx2] at this
              exact lt_irrefl _ this)
            (by omega)
          have e : k + 1 + successful_opens cs = k + (1 + successful_opens cs) := by ring
          rw [e] at this
          exact this

theorem fresh_process_inv (pd : Option (Nat → Option Bool)) (exec : Option File)
    (calls : List FdCall) (h : successful_opens calls < 2 ^ 31 - 2) :
    (run_calls calls (fresh_process pd exec)).next_available_fd =
        2 + ((successful_opens calls : Nat) : Int) ∧
    (∀ e ∈ (run_calls calls (fresh_process pd exec)).file_desc_entry_list,
      2 ≤ e.fd ∧ e.fd < (run_calls calls (fresh_process pd exec)).next_available_fd) ∧
    ((run_calls calls (fresh_process pd exec)).file_desc_entry_list.map
      (fun e => e.fd)).Nodup := by
  have := run_calls_inv calls (fresh_process pd exec) 0 rfl (by simp [fresh_process])
    (by simp [fresh_process]) (by omega)
  simpa using this

/-- C16: from the table of a fresh process (no entry, counter 2), after every
sequence of calls of `open` and `close` with fewer than `2 ^ 31 - 2` successful
calls of `open`, the descriptors in the table are pairwise distinct, and a
further call of `open` that succeeds returns a descriptor that is at least 2
and differs from every descriptor in the table, and appends the entry with that
descriptor; a call that fails (no memory or no file) returns -1 and leaves the
process block, table and counter, as it was. -/
theorem open_descriptor_fresh (pd : Option (Nat → Option Bool)) (exec : Option File)
    (calls : List FdCall) (new_fde : Bool) (requested_file : Option File) (file : Nat)
    (h : successful_opens calls < 2 ^ 31 - 2) :
    ((run_calls calls (fresh_process pd exec)).file_desc_entry_list.map
      (fun e => e.fd)).Nodup ∧
    (∀ e ∈ (run_calls calls (fresh_process pd exec)).file_desc_entry_list, 2 ≤ e.fd) ∧
    (∀ f, new_fde = true → requested_file = some f →
      2 ≤ (sys_open new_fde requested_file file (run_calls calls (fresh_process pd exec))).1 ∧
      (∀ e ∈ (run_calls calls (fresh_process pd exec)).file_desc_entry_list,
        e.fd ≠ (sys_open new_fde requested_file file
          (run_calls calls (fresh_process pd exec))).1) ∧
      (sys_open new_fde requested_file file
          (run_calls calls (fresh_process pd exec))).2.file_desc_entry_list =
        (run_calls calls (fresh_process pd exec)).file_desc_entry_list ++
          [{ fd := (sys_open new_fde requested_file file
                (run_calls calls (fresh_process pd exec))).1,
             file_name := file, fptr := f }] ∧
      ((sys_open new_fde requested_file file
          (run_calls calls (fresh_process pd exec))).2.file_desc_entry_list.map
        (fun e => e.fd)).Nodup) ∧
    ((new_fde = false ∨ requested_file = none) →
      sys_open new_fde requested_file file (run_calls calls (fresh_process pd exec)) =
        (-1, run_calls calls (fresh_process pd exec))) := by
  obtain ⟨h1, h2, h3⟩ := fresh_process_inv pd exec calls h
  refine ⟨h3, fun e he => (h2 e he).1, ?_, ?_⟩
  · intro f ha hf
    subst ha
    subst hf
    have hr : (sys_open true (some f) file (run_calls calls (fresh_process pd exec))).1 =
        (run_calls calls (fresh_process pd exec)).next_available_fd := rfl
    have hl : (sys_open true (some f) file
          (run_calls calls (fresh_process pd exec))).2.file_desc_entry_list =
        (run_calls calls (fresh_process pd exec)).file_desc_entry_list ++
          [{ fd := (run_calls calls (fresh_process pd exec)).next_available_fd,
             file_name := file, fptr := f }] := rfl
    rw [hr, hl]
    refine ⟨by rw [h1]; omega, ?_, rfl, ?_⟩
    · intro e he heq
      have := (h2 e he).2
      rw [heq] at this
      exact lt_irrefl _ this
    · rw [List.map_append, List.nodup_append]
      refine ⟨h3, by simp, ?_⟩
      intro x hx1 hx2
      simp only [List.map_cons, List.map_nil, List.mem_singleton] at hx2
      obtain ⟨e, he, hex⟩ := List.mem_map.1 hx1
      have := (h2 e he).2
      rw [hex, hx2] at this
      exact lt_irrefl _ this
  · intro hfail
    rcases hfail with ha | hf
    · subst ha
      cases requested_file <;> rfl
    · subst hf
      rfl

/-- C16 after two successful calls of `open`, a call of `close` on descriptor 2
and a failed call of `open`: the table holds descriptor 3 and the next call of
`open` returns 4. -/
theorem open_descriptor_fresh_witness :
    successful_opens sampleCalls < 2 ^ 31 - 2 ∧
    (run_calls sampleCalls (fresh_process none none)).file_desc_entry_list.map
      (fun e => e.fd) = [3] ∧
    (sys_open true (some sampleFile) 112
      (run_calls sampleCalls (fresh_process none none))).1 = 4 ∧
    (sys_open false (some sampleFile) 112
      (run_calls sampleCalls (fresh_process none none))).1 = -1 ∧
    (∀ f, true = true → some sampleFile = some f →
      2 ≤ (sys_open true (some sampleFile) 112
        (run_calls sampleCalls (fresh_process none none))).1 ∧
      (∀ e ∈ (run_calls sampleCalls (fresh_process none none)).file_desc_entry_list,
        e.fd ≠ (sys_open true (some sampleFile) 112
          (run_calls sampleCalls (fresh_process none none))).1) ∧
      (sys_open true (some sampleFile) 112
          (run_calls sampleCalls (fresh_process none none))).2.file_desc_entry_list =
        (run_calls sampleCalls (fresh_process none none)).file_desc_entry_list ++
          [{ fd := (sys_open true (some sampleFile) 112
                (run_calls sampleCalls (fresh_process none none))).1,
             file_name := 112, fptr := f }] ∧
      ((sys_open true (some sampleFile) 112
          (run_calls sampleCalls (fresh_process none none))).2.file_desc_entry_list.map
        (fun e => e.fd)).Nodup) :=
  ⟨by decide, by decide, by decide, by decide,
   (open_descriptor_fresh none none sampleCalls true (some sampleFile) 112 (by decide)).2.2.1⟩

theorem closed_files_append (a b : List (ExitEvent × Option process)) :
    closed_files (a ++ b) = closed_files a ++ closed_files b := by
  unfold closed_files
  rw [List.filterMap_append]

theorem closed_files_map_close_files (p : process) :
    ∀ (l : List file_desc_entry),
      closed_files ((close_files p l).map (fun s => (s.1, some s.2))) = l := by
  intro l
  induction l with
  | nil => rfl
  | cons f rest ih =>
    rw [close_files, List.map_cons, List.map_cons]
    unfold closed_files at ih ⊢
    rw [List.filterMap_cons, List.filterMap_cons]
    simp only
    rw [ih]

theorem closed_files_map_free_user_locks (p : process) :
    ∀ (l : List user_lock_entry),
      closed_files ((free_user_locks p l).map (fun s => (s.1, some s.2))) = [] := by
  intro l
  induction l with
  | nil => rfl
  | cons f rest ih =>
    rw [free_user_locks, List.map_cons]
    unfold closed_files at ih ⊢
    rw [List.filterMap_cons]
    simp only
    rw [ih]

theorem closed_files_map_free_user_semaphores (p : process) :
    ∀ (l : List user_sema_entry),
      closed_files ((free_user_semaphores p l).map (fun s => (s.1, some s.2))) = [] := by
  intro l
  induction l with
  | nil => rfl
  | cons f rest ih =>
    rw [free_user_semaphores, List.map_cons]
    unfold closed_files at ih ⊢
    rw [List.filterMap_cons]
    simp only
    rw [ih]

theorem closed_files_map_free_process_threads (p : process) :
    ∀ (l : List process_thread),
      closed_files ((free_process_threads p l).map (fun s => (s.1, some s.2))) = [] := by
  intro l
  induction l with
  | nil => rfl
  | cons f rest ih =>
    rw [free_process_threads, List.map_cons]
    unfold closed_files at ih ⊢
    rw [List.filterMap_cons]
    simp only
    rw [ih]

theorem closed_files_process_exit (p : process) :
    closed_files (process_exit (some p)) = p.file_desc_entry_list := by
  unfold process_exit process_exit_steps
  simp only [List.map_cons, List.map_append]
  have hc : ∀ (q : Option process) (l : List (ExitEvent × Option process)),
      closed_files ((ExitEvent.file_close_exec, q) :: l) = closed_files l := fun _ _ => rfl
  rw [closed_files_append, hc]
  simp only [closed_files_append]
  rw [closed_files_map_close_files, closed_files_map_free_user_locks,
    closed_files_map_free_user_semaphores, closed_files_map_free_process_threads]
  cases p.pagedir <;> simp [closed_files]

theorem process_exit_table_empty (p : process) :
    ∃ q, (ExitEvent.set_pcb_null, some q) ∈ process_exit (some p) ∧
      q.file_desc_entry_list = [] := by
  refine ⟨{ p with file_desc_entry_list := [], user_locks := [], user_semaphores := [],
                   pagedir := none, process_threads := [] }, ?_, rfl⟩
  unfold process_exit process_exit_steps
  simp

theorem close_miss (p : process) (fd : Int)
    (hf : find_entry_by_fd fd p.file_desc_entry_list = none) :
    close fd p = (-1, p, none) := by
  unfold close
  rw [hf]

theorem close_spec (p : process) (fd : Int) (entry : file_desc_entry)
    (hf : find_entry_by_fd fd p.file_desc_entry_list = some entry) :
    close fd p = (0, { p with file_desc_entry_list := remove_entry fd p.file_desc_entry_list },
      some entry) := by
  unfold close
  rw [hf]

/-- C17: `close (fd)` on a table that holds the descriptor (the descriptors of
a table are pairwise distinct and none is 0) returns 0, removes the entry with
the descriptor and no other and passes that entry's file to `file_close`;
afterwards `filesize`, `read`, `tell` and a second `close` on the descriptor
return -1 (`tell`, whose result is `unsigned`, returns the word that reads -1)
and change nothing. `process_exit` passes the file of every entry of the table
to `file_close` once, in the order of the table, and leaves the table empty. -/
theorem close_then_unresolved (p : process) (fd : Int) (entry : file_desc_entry)
    (hf : find_entry_by_fd fd p.file_desc_entry_list = some entry)
    (hn : (p.file_desc_entry_list.map (fun e => e.fd)).Nodup)
    (h0 : ∀ e ∈ p.file_desc_entry_list, e.fd ≠ 0) :
    (∃ pre post, p.file_desc_entry_list = pre ++ entry :: post ∧ entry.fd = fd ∧
      (∀ d ∈ pre ++ post, d.fd ≠ fd) ∧
      close fd p = (0, { p with file_desc_entry_list := pre ++ post }, some entry)) ∧
    filesize fd (close fd p).2.1 = -1 ∧
    (∀ (input : Nat → Nat) (fuel buffer size n : Nat) (m : Mem),
      read input fuel fd buffer size n m (close fd p).2.1 =
        .done (-1, n, m, (close fd p).2.1)) ∧
    tell fd (close fd p).2.1 = 4294967295 ∧
    to_int (tell fd (close fd p).2.1) = -1 ∧
    close fd (close fd p).2.1 = (-1, (close fd p).2.1, none) ∧
    closed_files (process_exit (some p)) = p.file_desc_entry_list ∧
    (∃ q, (ExitEvent.set_pcb_null, some q) ∈ process_exit (some p) ∧
      q.file_desc_entry_list = []) := by
  obtain ⟨pre, post, h1, h2, h3, h4⟩ := find_entry_by_fd_split fd entry _ hf
  have hc := close_spec p fd entry hf
  have hm : find_entry_by_fd fd (close fd p).2.1.file_desc_entry_list = none := by
    rw [hc]
    exact find_entry_by_fd_remove fd _ hn
  have hfd0 : fd ≠ 0 := by
    rw [← h3]
    apply h0
    rw [h1]
    simp
  refine ⟨⟨pre, post, h1, h3, ?_, by rw [hc, h4]⟩, ?_, ?_, ?_, ?_, ?_,
    closed_files_process_exit p, process_exit_table_empty p⟩
  · intro d hd
    rw [h1, List.map_append, List.map_cons] at hn
    have hn1 := List.nodup_append.1 hn
    rcases List.mem_append.1 hd with hd | hd
    · exact h2 d hd
    · intro hdf
      have hn2 := (List.nodup_cons.1 hn1.2.1).1
      apply hn2
      rw [h3, ← hdf]
      exact List.mem_map_of_mem _ hd
  · unfold filesize
    rw [hm]
  · intro input fuel buffer size n m
    unfold read
    rw [if_neg hfd0, hm]
  · unfold tell
    rw [hm]
  · unfold tell
    rw [hm]
    decide
  · exact close_miss _ fd hm

/-- C17 on the table with the descriptors 2 and 3: `close (2)` leaves the entry
of 3, and descriptor 2 no longer resolves. -/
theorem close_then_unresolved_witness :
    (close 2 (run_calls [.sys_open true (some sampleFile) 100,
        .sys_open true (some sampleFile) 104] (fresh_process none none))).1 = 0 ∧
    (close 2 (run_calls [.sys_open true (some sampleFile) 100,
        .sys_open true (some sampleFile) 104]
        (fresh_process none none))).2.1.file_desc_entry_list =
      [{ fd := 3, file_name := 104, fptr := sampleFile }] ∧
    filesize 2 (close 2 (run_calls [.sys_open true (some sampleFile) 100,
        .sys_open true (some sampleFile) 104] (fresh_process none none))).2.1 = -1 ∧
    (close 2 (close 2 (run_calls [.sys_open true (some sampleFile) 100,
        .sys_open true (some sampleFile) 104] (fresh_process none none))).2.1).1 = -1 ∧
    closed_files (process_exit (some (run_calls [.sys_open true (some sampleFile) 100,
        .sys_open true (some sampleFile) 104] (fresh_process none none)))) =
      [{ fd := 2, file_name := 100, fptr := sampleFile },
       { fd := 3, file_name := 104, fptr := sampleFile }] :=
  ⟨by decide, by decide,
   (close_then_unresolved (run_calls [.sys_open true (some sampleFile) 100,
        .sys_open true (some sampleFile) 104] (fresh_process none none)) 2
      { fd := 2, file_name := 100, fptr := sampleFile } (by decide) (by decide)
      (by decide)).2.1,
   by decide, by decide⟩

/-! ## User locks and semaphores -/

theorem sys_lock_acquire_loop_none (cur : Int) (key : Nat) :
    ∀ (l : List user_lock_entry),
      sys_lock_acquire_loop cur key l = none ↔
        ∀ e ∈ l, e.user_lock_id = key → e.lock.holder = some cur := by
  intro l
  induction l with
  | nil => simp [sys_lock_acquire_loop]
  | cons e rest ih =>
    rw [sys_lock_acquire_loop]
    by_cases h : e.user_lock_id = key ∧ lock_held_by_current_thread cur e.lock = false
    · rw [if_pos h]
      simp only [List.mem_cons, forall_eq_or_imp, false_iff, not_and, reduceCtorEq]
      intro h1
      have := h1 h.1
      simp [lock_held_by_current_thread, this] at h
    · rw [if_neg h]
      have h1 : e.user_lock_id = key → e.lock.holder = some cur := by
        intro hk
        by_contra hh
        exact h ⟨hk, by simp [lock_held_by_current_thread, hh]⟩
      cases hr : sys_lock_acquire_loop cur key rest with
      | none =>
        simp only [List.mem_cons, forall_eq_or_imp, true_iff]
        exact ⟨h1, ih.1 hr⟩
      | some r =>
        simp only [List.mem_cons, forall_eq_or_imp, false_iff, not_and, reduceCtorEq]
        intro _ h2
        rw [ih.2 h2] at hr
        cases hr

theorem sys_lock_acquire_loop_split (cur : Int) (key : Nat) (e : user_lock_entry)
    (post : List user_lock_entry) (hk : e.user_lock_id = key) (hh : e.lock.holder ≠ some cur) :
    ∀ (pre : List user_lock_entry),
      (∀ d ∈ pre, d.user_lock_id = key → d.lock.holder = some cur) →
      sys_lock_acquire_loop cur key (pre ++ e :: post) =
        some (pre ++ { e with lock := { holder := some cur } } :: post) := by
  intro pre
  induction pre with
  | nil =>
    intro _
    rw [List.nil_append, sys_lock_acquire_loop,
      if_pos ⟨hk, by simp [lock_held_by_current_thread, hh]⟩]
    rfl
  | cons d pre ih =>
    intro h
    have hd : ¬ (d.user_lock_id = key ∧ lock_held_by_current_thread cur d.lock = false) := by
      intro hc
      have := h d (List.mem_cons_self _ _) hc.1
      simp [lock_held_by_current_thread, this] at hc
    rw [List.cons_append, sys_lock_acquire_loop, if_neg hd,
      ih (fun x hx => h x (List.mem_cons_of_mem _ hx))]
    rfl

theorem sys_lock_release_loop_none (cur : Int) (key : Nat) :
    ∀ (l : List user_lock_entry),
      sys_lock_release_loop cur key l = none ↔
        ∀ e ∈ l, e.user_lock_id = key → e.lock.holder ≠ some cur := by
  intro l
  induction l with
  | nil => simp [sys_lock_release_loop]
  | cons e rest ih =>
    rw [sys_lock_release_loop]
    by_cases h : e.user_lock_id = key ∧ lock_held_by_current_thread cur e.lock = true
    · rw [if_pos h]
      simp only [List.mem_cons, forall_eq_or_imp, false_iff, not_and, reduceCtorEq]
      intro h1
      have := h1 h.1
      simp [lock_held_by_current_thread, this] at h
    · rw [if_neg h]
      have h1 : e.user_lock_id = key → e.lock.holder ≠ some cur := by
        intro hk hh
        exact h ⟨hk, by simp [lock_held_by_current_thread, hh]⟩
      cases hr : sys_lock_release_loop cur key rest with
      | none =>
        simp only [List.mem_cons, forall_eq_or_imp, true_iff]
        exact ⟨h1, ih.1 hr⟩
      | some r =>
        simp only [List.mem_cons, forall_eq_or_imp, false_iff, not_and, reduceCtorEq]
        intro _ h2
        rw [ih.2 h2] at hr
        cases hr

theorem sys_lock_release_loop_split (cur : Int) (key : Nat) (e : user_lock_entry)
    (post : List user_lock_entry) (hk : e.user_lock_id = key) (hh : e.lock.holder = some cur) :
    ∀ (pre : List user_lock_entry),
      (∀ d ∈ pre, d.user_lock_id = key → d.lock.holder ≠ some cur) →
      sys_lock_release_loop cur key (pre ++ e :: post) =
        some (pre ++ { e with lock := { holder := none } } :: post) := by
  intro pre
  induction pre with
  | nil =>
    intro _
    rw [List.nil_append, sys_lock_release_loop,
      if_pos ⟨hk, by simp [lock_held_by_current_thread, hh]⟩]
    rfl
  | cons d pre ih =>
    intro h
    have hd : ¬ (d.user_lock_id = key ∧ lock_held_by_current_thread cur d.lock = true) := by
      intro hc
      have := h d (List.mem_cons_self _ _) hc.1
      simp [lock_held_by_current_thread] at hc
      exact this hc.2
    rw [List.cons_append, sys_lock_release_loop, if_neg hd,
      ih (fun x hx => h x (List.mem_cons_of_mem _ hx))]
    rfl

theorem sys_sema_loop_none (op : semaphore → semaphore) (key : Nat) :
    ∀ (l : List user_sema_entry),
      sys_sema_loop op key l = none ↔ ∀ e ∈ l, e.user_sema_id ≠ key := by
  intro l
  induction l with
  | nil => simp [sys_sema_loop]
  | cons e rest ih =>
    rw [sys_sema_loop]
    by_cases h : e.user_sema_id = key
    · rw [if_pos h]
      simp only [List.mem_cons, forall_eq_or_imp, false_iff, not_and, reduceCtorEq]
      intro h1
      exact absurd h h1
    · rw [if_neg h]
      cases hr : sys_sema_loop op key rest with
      | none =>
        simp only [List.mem_cons, forall_eq_or_imp, true_iff]
        exact ⟨h, ih.1 hr⟩
      | some r =>
        simp only [List.mem_cons, forall_eq_or_imp, false_iff, not_and, reduceCtorEq]
        intro _ h2
        rw [ih.2 h2] at hr
        cases hr

theorem sys_sema_loop_split (op : semaphore → semaphore) (key : Nat) (e : user_sema_entry)
    (post : List user_sema_entry) (hk : e.user_sema_id = key) :
    ∀ (pre : List user_sema_entry), (∀ d ∈ pre, d.user_sema_id ≠ key) →
      sys_sema_loop op key (pre ++ e :: post) =
        some (pre ++ { e with sema := op e.sema } :: post) := by
  intro pre
  induction pre with
  | nil =>
    intro _
    rw [List.nil_append, sys_sema_loop, if_pos hk]
    rfl
  | cons d pre ih =>
    intro h
    rw [List.cons_append, sys_sema_loop, if_neg (h d (List.mem_cons_self _ _)),
      ih (fun x hx => h x (List.mem_cons_of_mem _ hx))]
    rfl

/-- C18, the registry after two calls of `sys_lock_init` on the address 7 and
a call of `sys_lock_acquire (7)` by thread 1: the address is registered and
thread 1 holds a lock registered under it, yet its next call of
`sys_lock_acquire (7)` returns 1 and acquires the second lock. -/
theorem sys_lock_acquire_twice :
    (∃ e ∈ (sys_lock_acquire 1 7 (sys_lock_init true 7
          (sys_lock_init true 7 (fresh_process none none)).2).2).2.user_locks,
        e.user_lock_id = 7 ∧ e.lock.holder = some 1) ∧
    (sys_lock_acquire 1 7 (sys_lock_acquire 1 7 (sys_lock_init true 7
        (sys_lock_init true 7 (fresh_process none none)).2).2).2).1 = 1 ∧
    (sys_lock_acquire 1 7 (sys_lock_acquire 1 7 (sys_lock_init true 7
        (sys_lock_init true 7 (fresh_process none none)).2).2).2).2.user_locks =
      [{ user_lock_id := 7, lock := { holder := some 1 } },
       { user_lock_id := 7, lock := { holder := some 1 } }] := by
  decide

/-- C18 as the code has it, for every registry, every address `key` and every
calling thread `cur`. `sys_lock_acquire` returns 0 and changes nothing exactly
when every lock registered under the address (there may be none, or several
after repeated calls of `sys_lock_init`) is held by the caller; otherwise it
returns 1 and the caller becomes the holder of the first lock under the address
that it did not hold. `sys_lock_release` returns 0 and changes nothing exactly
when no lock registered under the address is held by the caller; otherwise it
returns 1 and the first lock under the address that the caller held has no
holder. `sys_sema_up` and `sys_sema_down` return 0 and change nothing exactly
when no semaphore is registered under the address; otherwise they return 1 and
have raised, or lowered, the first semaphore under the address. When one lock
is registered under the address, `sys_lock_acquire` returns 0 exactly when the
caller holds it. -/
theorem sys_lock_registry (cur : Int) (key : Nat) (p : process) :
    ((∀ e ∈ p.user_locks, e.user_lock_id = key → e.lock.holder = some cur) →
      sys_lock_acquire cur key p = (0, p)) ∧
    (∀ (pre post : List user_lock_entry) (e : user_lock_entry),
      p.user_locks = pre ++ e :: post →
      (∀ d ∈ pre, d.user_lock_id = key → d.lock.holder = some cur) →
      e.user_lock_id = key → e.lock.holder ≠ some cur →
      sys_lock_acquire cur key p =
        (1, { p with user_locks := pre ++ { e with lock := { holder := some cur } } :: post })) ∧
    ((sys_lock_acquire cur key p).1 = 0 ↔
      ∀ e ∈ p.user_locks, e.user_lock_id = key → e.lock.holder = some cur) ∧
    ((sys_lock_acquire cur key p).1 ≠ 0 → (sys_lock_acquire cur key p).1 = 1) ∧
    ((∀ e ∈ p.user_locks, e.user_lock_id = key → e.lock.holder ≠ some cur) →
      sys_lock_release cur key p = (0, p)) ∧
    (∀ (pre post : List user_lock_entry) (e : user_lock_entry),
      p.user_locks = pre ++ e :: post →
      (∀ d ∈ pre, d.user_lock_id = key → d.lock.holder ≠ some cur) →
      e.user_lock_id = key → e.lock.holder = some cur →
      sys_lock_release cur key p =
        (1, { p with user_locks := pre ++ { e with lock := { holder := none } } :: post })) ∧
    ((sys_lock_release cur key p).1 = 0 ↔
      ∀ e ∈ p.user_locks, e.user_lock_id = key → e.lock.holder ≠ some cur) ∧
    ((sys_lock_release cur key p).1 ≠ 0 → (sys_lock_release cur key p).1 = 1) ∧
    ((∀ e ∈ p.user_semaphores, e.user_sema_id ≠ key) →
      sys_sema_up key p = (0, p) ∧ sys_sema_down key p = (0, p)) ∧
    (∀ (pre post : List user_sema_entry) (e : user_sema_entry),
      p.user_semaphores = pre ++ e :: post →
      (∀ d ∈ pre, d.user_sema_id ≠ key) → e.user_sema_id = key →
      sys_sema_up key p =
        (1, { p with user_semaphores :=
                pre ++ { e with sema := { value := e.sema.value + 1 } } :: post }) ∧
      sys_sema_down key p =
        (1, { p with user_semaphores :=
                pre ++ { e with sema := { value := e.sema.value - 1 } } :: post })) ∧
    ((sys_sema_up key p).1 = 0 ↔ ∀ e ∈ p.user_semaphores, e.user_sema_id ≠ key) ∧
    ((sys_sema_down key p).1 = 0 ↔ ∀ e ∈ p.user_semaphores, e.user_sema_id ≠ key) ∧
    (∀ (pre post : List user_lock_entry) (e : user_lock_entry),
      p.user_locks = pre ++ e :: post → e.user_lock_id = key →
      (∀ d ∈ pre ++ post, d.user_lock_id ≠ key) →
      ((sys_lock_acquire cur key p).1 = 0 ↔ e.lock.holder = some cur) ∧
      ((sys_lock_release cur key p).1 = 0 ↔ e.lock.holder ≠ some cur)) := by
  have hacq : (sys_lock_acquire cur key p).1 = 0 ↔
      ∀ e ∈ p.user_locks, e.user_lock_id = key → e.lock.holder = some cur := by
    rw [← sys_lock_acquire_loop_none]
    unfold sys_lock_acquire
    cases sys_lock_acquire_loop cur key p.user_locks <;> simp
  have hrel : (sys_lock_release cur key p).1 = 0 ↔
      ∀ e ∈ p.user_locks, e.user_lock_id = key → e.lock.holder ≠ some cur := by
    rw [← sys_lock_release_loop_none]
    unfold sys_lock_release
    cases sys_lock_release_loop cur key p.user_locks <;> simp
  have hsem : ∀ (op : semaphore → semaphore),
      ((match sys_sema_loop op key p.user_semaphores with
        | none => ((0 : Int), p)
        | some l => (1, { p with user_semaphores := l })).1 = 0 ↔
      ∀ e ∈ p.user_semaphores, e.user_sema_id ≠ key) := by
    intro op
    rw [← sys_sema_loop_none op]
    cases sys_sema_loop op key p.user_semaphores <;> simp
  refine ⟨?_, ?_, hacq, ?_, ?_, ?_, hrel, ?_, ?_, ?_, hsem sema_up, hsem sema_down, ?_⟩
  · intro h
    unfold sys_lock_acquire
    rw [(sys_lock_acquire_loop_none cur key _).2 h]
  · intro pre post e hl hpre hk hh
    unfold sys_lock_acquire
    rw [hl, sys_lock_acquire_loop_split cur key e post hk hh pre hpre]
  · unfold sys_lock_acquire
    cases sys_lock_acquire_loop cur key p.user_locks <;> simp
  · intro h
    unfold sys_lock_release
    rw [(sys_lock_release_loop_none cur key _).2 h]
  · intro pre post e hl hpre hk hh
    unfold sys_lock_release
    rw [hl, sys_lock_release_loop_split cur key e post hk hh pre hpre]
  · unfold sys_lock_release
    cases sys_lock_release_loop cur key p.user_locks <;> simp
  · intro h
    unfold sys_sema_up sys_sema_down
    rw [(sys_sema_loop_none sema_up key _).2 h, (sys_sema_loop_none sema_down key _).2 h]
    exact ⟨rfl, rfl⟩
  · intro pre post e hl hpre hk
    unfold sys_sema_up sys_sema_down
    rw [hl, sys_sema_loop_split sema_up key e post hk pre hpre,
      sys_sema_loop_split sema_down key e post hk pre hpre]
    exact ⟨rfl, rfl⟩
  · intro pre post e hl hk hother
    rw [hacq, hrel, hl]
    constructor
    · constructor
      · intro h
        exact h e (by simp) hk
      · intro h d hd hdk
        rcases List.mem_append.1 hd with hd | hd
        · exact absurd hdk (hother d (List.mem_append_left _ hd))
        · rcases List.mem_cons.1 hd with hd | hd
          · rw [hd]; exact h
          · exact absurd hdk (hother d (List.mem_append_right _ hd))
    · constructor
      · intro h
        exact h e (by simp) hk
      · intro h d hd hdk
        rcases List.mem_append.1 hd with hd | hd
        · exact absurd hdk (hother d (List.mem_append_left _ hd))
        · rcases List.mem_cons.1 hd with hd | hd
          · rw [hd]; exact h
          · exact absurd hdk (hother d (List.mem_append_right _ hd))

/-! ## read on the console -/

theorem read_stdin_loop_stuck (input : Nat → Nat) (buffer size : Nat) (hs : 0 < size) :
    ∀ (fuel n : Nat) (m : Mem), m (wrap (buffer + 1)) ≠ 10 →
      read_stdin_loop input buffer size 0 fuel n m = .fuel := by
  have hne : wrap (buffer + (0 + 1)) ≠ wrap (buffer + 0) := by
    unfold wrap
    omega
  intro fuel
  induction fuel with
  | zero =>
    intro n m _
    rw [read_stdin_loop, if_pos hs]
  | succ fuel ih =>
    intro n m hm
    have hst : store8 m (wrap (buffer + 0)) (input n % 256) (wrap (buffer + (0 + 1))) =
        m (wrap (buffer + 1)) := by
      unfold store8
      rw [if_neg hne]
    rw [read_stdin_loop, if_pos hs, hst, if_neg hm]
    apply ih
    rw [← hst] at hm
    exact hm

/-- C19: `read (0, buffer, size)` does not fill the buffer with the characters
of the console. The loop never advances its index: with `size > 0` it stores
every character it takes at index 0 and tests the byte at index 1, which it
never writes. When that byte
is not a newline the call does not return, whatever the console delivers (every
bound on the number of iterations is exceeded); when it is a newline the call
returns 0 after it has taken and stored one character, so the returned value is
not the number of characters stored, and with `size = 1` the byte tested lies
outside the buffer. With `size = 0` it returns 0 at once. -/
theorem read_stdin_stuck :
    (∀ (input : Nat → Nat) (fuel buffer size n : Nat) (m : Mem) (p : process),
      0 < size → m (wrap (buffer + 1)) ≠ 10 →
      read input fuel 0 buffer size n m p = .fuel) ∧
    (∀ (input : Nat → Nat) (fuel buffer size n : Nat) (m : Mem) (p : process),
      0 < size → m (wrap (buffer + 1)) = 10 →
      read input (fuel + 1) 0 buffer size n m p =
        .done (0, n + 1, store8 m (wrap buffer) (input n % 256), p)) ∧
    (∀ (input : Nat → Nat) (fuel buffer n : Nat) (m : Mem) (p : process),
      read input fuel 0 buffer 0 n m p = .done (0, n, m, p)) ∧
    (∀ (fuel : Nat) (p : process),
      read (fun k => if k = 0 then 97 else 10) fuel 0 1000 4 0 (fun _ => 0) p = .fuel) := by
  refine ⟨?_, ?_, ?_, ?_⟩
  · intro input fuel buffer size n m p hs hm
    unfold read
    rw [if_pos rfl, read_stdin_loop_stuck input buffer size hs fuel n m hm]
  · intro input fuel buffer size n m p hs hm
    have hne : wrap (buffer + (0 + 1)) ≠ wrap (buffer + 0) := by
      unfold wrap
      omega
    have hst : store8 m (wrap (buffer + 0)) (input n % 256) (wrap (buffer + (0 + 1))) = 10 := by
      unfold store8
      rw [if_neg hne]
      exact hm
    unfold read
    rw [if_pos rfl, read_stdin_loop, if_pos hs, if_pos hst]
    rfl
  · intro input fuel buffer n m p
    unfold read
    rw [if_pos rfl]
    cases fuel <;> rfl
  · intro fuel p
    unfold read
    rw [if_pos rfl, read_stdin_loop_stuck _ 1000 4 (by decide) fuel 0 _ (by decide)]

/-! ## pthread_execute -/

theorem pthread_execute_run (env : Env) (PGBITS PHYS_BASE : Nat) (tid : Int) (record_ok : Bool)
    (sf tf arg : Nat) (threads : List process_thread) (k : Kernel) (s : StartResult)
    (ht : tid ≠ TID_ERROR)
    (hs : start_pthread env PGBITS PHYS_BASE tid record_ok
        { sf := sf, tf := tf, arg := arg, setup_failed := none,
          process_thread_setup_wait := sema_init 0 } threads k = .done s) :
    pthread_execute env PGBITS PHYS_BASE true tid record_ok sf tf arg threads k =
      .done { ret := some tid,
              args := some { s.args with
                process_thread_setup_wait := sema_down s.args.process_thread_setup_wait },
              process_threads := s.process_threads, k := s.k } := by
  unfold pthread_execute
  rw [if_neg (by simp), if_neg ht, hs]

/-- C20: `pthread_execute` does not look at the flag `setup_failed`. When
`malloc` finds no memory for the record of the new thread 5, `start_pthread`
writes `true` into the flag and `pthread_execute` returns 5, not `TID_ERROR`;
so it is when the stack setup fails (here: no page of a user space of four
pages can be mapped). For every input on which `thread_create` returned an id
and `start_pthread` came to its report, `pthread_execute` returns that id,
whatever the flag holds, and a failed allocation of the record always sets the
flag. -/
theorem pthread_execute_ignores_flag :
    (returned_tid (pthread_execute (sampleEnv []) 12 3221225472 true 5 false 100 200 300 []
        sampleKernel) = some 5 ∧
     reported_failure (pthread_execute (sampleEnv []) 12 3221225472 true 5 false 100 200 300 []
        sampleKernel) = some true ∧
     (5 : Int) ≠ TID_ERROR) ∧
    (returned_tid (pthread_execute
        { pagedir_create := true, malloc := fun _ => true, palloc := fun _ => true,
          set_page := fun _ => false, filesys := fun _ => none }
        8 1024 true 5 true 100 200 300 []
        { pagedir := some (fun _ => none), mem := fun _ => 0, exec := none, pallocs := 0,
          set_pages := 0, eip := none, esp := none }) = some 5 ∧
     reported_failure (pthread_execute
        { pagedir_create := true, malloc := fun _ => true, palloc := fun _ => true,
          set_page := fun _ => false, filesys := fun _ => none }
        8 1024 true 5 true 100 200 300 []
        { pagedir := some (fun _ => none), mem := fun _ => 0, exec := none, pallocs := 0,
          set_pages := 0, eip := none, esp := none }) = some true) ∧
    (∀ (env : Env) (PGBITS PHYS_BASE : Nat) (tid : Int) (record_ok : Bool) (sf tf arg : Nat)
        (threads : List process_thread) (k : Kernel) (s : StartResult),
      tid ≠ TID_ERROR →
      start_pthread env PGBITS PHYS_BASE tid record_ok
        { sf := sf, tf := tf, arg := arg, setup_failed := none,
          process_thread_setup_wait := sema_init 0 } threads k = .done s →
      returned_tid (pthread_execute env PGBITS PHYS_BASE true tid record_ok sf tf arg
        threads k) = some tid ∧
      reported_failure (pthread_execute env PGBITS PHYS_BASE true tid record_ok sf tf arg
        threads k) = s.args.setup_failed) ∧
    (∀ (env : Env) (PGBITS PHYS_BASE : Nat) (tid : Int) (sf tf arg : Nat)
        (threads : List process_thread) (k : Kernel),
      tid ≠ TID_ERROR →
      returned_tid (pthread_execute env PGBITS PHYS_BASE true tid false sf tf arg
        threads k) = some tid ∧
      reported_failure (pthread_execute env PGBITS PHYS_BASE true tid false sf tf arg
        threads k) = some true) := by
  refine ⟨⟨by decide, by decide, by decide⟩, ⟨by decide, by decide⟩, ?_, ?_⟩
  · intro env PGBITS PHYS_BASE tid record_ok sf tf arg threads k s ht hs
    rw [pthread_execute_run env PGBITS PHYS_BASE tid record_ok sf tf arg threads k s ht hs]
    exact ⟨rfl, rfl⟩
  · intro env PGBITS PHYS_BASE tid sf tf arg threads k ht
    rw [pthread_execute_run env PGBITS PHYS_BASE tid false sf tf arg threads k _ ht rfl]
    exact ⟨rfl, rfl⟩

/-! ## The system-call handler -/

theorem aligned_div (a n : Nat) (ha : a % 4 = 0) (hn : 2 ≤ n) :
    (a + 3) / 2 ^ n = a / 2 ^ n := by
  obtain ⟨k, rfl⟩ : ∃ k, n = k + 2 := ⟨n - 2, by omega⟩
  have e : 2 ^ (k + 2) = 4 * 2 ^ k := by rw [pow_add]; ring
  rw [e, ← Nat.div_div_eq_div_mul, ← Nat.div_div_eq_div_mul]
  congr 1
  omega

theorem validate_syscall_arg_valid (PGBITS PHYS_BASE : Nat) (pd : Nat → Option Bool)
    (args N : Nat) (hP : PHYS_BASE + 4 ≤ 2 ^ 32) (ha : args < 2 ^ 32)
    (hv : validate_syscall_arg PGBITS PHYS_BASE pd args N = 1) :
    ∀ i, i ≤ N → args + 4 * i ≠ 0 ∧ args + 4 * i < PHYS_BASE ∧
      pagedir_get_page PGBITS pd (args + 4 * i) = true := by
  intro i hi
  unfold validate_syscall_arg at hv
  exact (validate_loop_iff PGBITS PHYS_BASE pd hP (N + 1) args ha).1 hv i (by omega)

theorem validate_syscall_arg_mono (PGBITS PHYS_BASE : Nat) (pd : Nat → Option Bool)
    (args N M : Nat) (hP : PHYS_BASE + 4 ≤ 2 ^ 32) (ha : args < 2 ^ 32) (hM : M ≤ N)
    (hv : validate_syscall_arg PGBITS PHYS_BASE pd args N = 1) :
    validate_syscall_arg PGBITS PHYS_BASE pd args M = 1 := by
  have h := validate_syscall_arg_valid PGBITS PHYS_BASE pd args N hP ha hv
  unfold validate_syscall_arg
  rw [validate_loop_iff PGBITS PHYS_BASE pd hP (M + 1) args ha]
  intro i hi
  exact h i (by omega)

theorem slot_of_valid (PGBITS PHYS_BASE : Nat) (pd : Nat → Option Bool)
    (args N : Nat) (hP : PHYS_BASE + 4 ≤ 2 ^ 32) (ha : args < 2 ^ 32)
    (hv : validate_syscall_arg PGBITS PHYS_BASE pd args N = 1) (i : Nat) (hi : i ≤ N) :
    slot args i = args + 4 * i := by
  have h := validate_syscall_arg_valid PGBITS PHYS_BASE pd args N hP ha hv i hi
  unfold slot
  exact wrap_of_lt _ (by omega)

theorem peek_of_mapped (PGBITS : Nat) (pd : Nat → Option Bool) (m : Mem) (a : Nat)
    (h2 : 2 ≤ PGBITS) (h4 : a % 4 = 0) (ha : a + 4 ≤ 2 ^ 32)
    (hm : pagedir_get_page PGBITS pd a = true) :
    peek PGBITS pd m a = some (load32 m a) := by
  unfold peek
  have hw : wrap (a + 3) = a + 3 := wrap_of_lt _ (by omega)
  have hm3 : pagedir_get_page PGBITS pd (a + 3) = true := by
    unfold pagedir_get_page PGSIZE at hm ⊢
    rw [aligned_div a PGBITS h4 h2]
    exact hm
  rw [hw, if_pos ⟨hm, hm3⟩]

theorem peek_slot (PGBITS PHYS_BASE : Nat) (pd : Nat → Option Bool) (m : Mem)
    (args N : Nat) (h2 : 2 ≤ PGBITS) (h4 : args % 4 = 0)
    (hP : PHYS_BASE + 4 ≤ 2 ^ 32) (ha : args < 2 ^ 32)
    (hv : validate_syscall_arg PGBITS PHYS_BASE pd args N = 1) (i : Nat) (hi : i ≤ N) :
    peek PGBITS pd m (slot args i) = some (load32 m (args + 4 * i)) := by
  have h := validate_syscall_arg_valid PGBITS PHYS_BASE pd args N hP ha hv i hi
  rw [slot_of_valid PGBITS PHYS_BASE pd args N hP ha hv i hi]
  exact peek_of_mapped PGBITS pd m _ h2 (by omega) (by omega) h.2.2

theorem syscall_handler_run (env : Sys) (s : SysState) (esp : Nat) (pd : Nat → Option Bool)
    (num : Nat) (hpd : s.pcb.pagedir = some pd)
    (hu : is_user_vaddr env.PHYS_BASE esp = true)
    (hm : pagedir_get_page env.PGBITS pd esp = true)
    (hb : ¬ (esp / PGSIZE env.PGBITS ≠ slot esp 1 / PGSIZE env.PGBITS
      ∧ env.sc_boundary_3 = true))
    (hn : peek env.PGBITS pd s.mem esp = some num) :
    syscall_handler env s esp =
      if (syscall_switch env pd s esp [.lock_acquire_syscall] (env.number num)).stop
          = .returned then
        { syscall_switch env pd s esp [.lock_acquire_syscall] (env.number num) with
          events := (syscall_switch env pd s esp [.lock_acquire_syscall]
            (env.number num)).events ++ [.lock_release_syscall] }
      else syscall_switch env pd s esp [.lock_acquire_syscall] (env.number num) := by
  unfold syscall_handler
  rw [hpd]
  simp only [hu, hm, Bool.not_true, Bool.or_self, Bool.false_eq_true, if_false]
  rw [if_neg hb, hn]

theorem with_file_lock_returned (h : SysState → List SysEvent → SysResult) (s : SysState)
    (ev : List SysEvent)
    (hr : (h { s with file_global_lock := true } (ev ++ [.lock_acquire_file])).stop
      = .returned) :
    with_file_lock h s ev =
      { h { s with file_global_lock := true } (ev ++ [.lock_acquire_file]) with
        st := { (h { s with file_global_lock := true } (ev ++ [.lock_acquire_file])).st with
                file_global_lock := false },
        events := (h { s with file_global_lock := true } (ev ++ [.lock_acquire_file])).events
          ++ [.lock_release_file] } := by
  unfold with_file_lock
  simp only [hr, if_true]

theorem with_file_lock_other (h : SysState → List SysEvent → SysResult) (s : SysState)
    (ev : List SysEvent)
    (hr : (h { s with file_global_lock := true } (ev ++ [.lock_acquire_file])).stop
      ≠ .returned) :
    with_file_lock h s ev = h { s with file_global_lock := true } (ev ++ [.lock_acquire_file]) := by
  unfold with_file_lock
  simp only [hr, if_false]

theorem syscall_exit_invalid (env : Sys) (pd : Nat → Option Bool) (s : SysState) (args : Nat)
    (ev : List SysEvent)
    (hv : validate_syscall_arg env.PGBITS env.PHYS_BASE pd args 1 = 0) :
    syscall_exit env pd s args ev = fatal s ev := by
  unfold syscall_exit
  rw [if_pos hv]

theorem syscall_exit_valid (env : Sys) (pd : Nat → Option Bool) (s : SysState) (args : Nat)
    (ev : List SysEvent) (v : Nat)
    (hv : validate_syscall_arg env.PGBITS env.PHYS_BASE pd args 1 ≠ 0)
    (hp : peek env.PGBITS pd s.mem (slot args 1) = some v) :
    syscall_exit env pd s args ev =
      { stop := .exited, eax := some v,
        st := { s with exit := to_int v, file_global_lock := false },
        events := ev ++ [.printf_exit (to_int v)] ++
          (if s.file_global_lock = true then [.lock_release_file] else []) ++ [.process_exit] } := by
  unfold syscall_exit
  rw [if_neg hv, hp]

/-- C14: an unrecognised call number does not always end the process with
status -1. With the number 999 and the word 42 above it on a mapped stack, the
handler prints `exit(42)` and ends the process with the status 42. For every
number without a case label the handler runs `syscall_exit` on the stack as it
is: the status is -1 when the slot above the number is not valid, and the word
in that slot when it is. -/
theorem syscall_default_status :
    (sampleSys.number 999 = none ∧
     (syscall_handler sampleSys (sampleState 3221225452 [999, 42]) 3221225452).stop = .exited ∧
     (syscall_handler sampleSys (sampleState 3221225452 [999, 42]) 3221225452).st.exit = 42 ∧
     (syscall_handler sampleSys (sampleState 3221225452 [999, 42]) 3221225452).events =
       [.lock_acquire_syscall, .printf_exit 42, .process_exit]) ∧
    (∀ (env : Sys) (s : SysState) (esp : Nat) (pd : Nat → Option Bool) (num : Nat),
      s.pcb.pagedir = some pd →
      is_user_vaddr env.PHYS_BASE esp = true →
      pagedir_get_page env.PGBITS pd esp = true →
      ¬ (esp / PGSIZE env.PGBITS ≠ slot esp 1 / PGSIZE env.PGBITS
        ∧ env.sc_boundary_3 = true) →
      peek env.PGBITS pd s.mem esp = some num →
      env.number num = none →
      (validate_syscall_arg env.PGBITS env.PHYS_BASE pd esp 1 = 0 →
        syscall_handler env s esp =
          { stop := .exited, eax := none, st := { s with exit := -1 },
            events := [.lock_acquire_syscall, .printf_exit (-1), .process_exit] }) ∧
      (∀ v, validate_syscall_arg env.PGBITS env.PHYS_BASE pd esp 1 ≠ 0 →
        peek env.PGBITS pd s.mem (slot esp 1) = some v →
        syscall_handler env s esp =
          { stop := .exited, eax := some v,
            st := { s with exit := to_int v, file_global_lock := false },
            events := [.lock_acquire_syscall, .printf_exit (to_int v)] ++
              (if s.file_global_lock = true then [.lock_release_file] else []) ++
              [.process_exit] })) := by
  refine ⟨⟨by decide, by decide, by decide, by decide⟩, ?_⟩
  intro env s esp pd num hpd hu hm hb hn hnum
  have hrun := syscall_handler_run env s esp pd num hpd hu hm hb hn
  rw [hnum] at hrun
  have hsw : syscall_switch env pd s esp [.lock_acquire_syscall] none =
      syscall_exit env pd s esp [.lock_acquire_syscall] := rfl
  rw [hsw] at hrun
  constructor
  · intro hv
    rw [hrun, syscall_exit_invalid env pd s esp _ hv]
    rfl
  · intro v hv hp
    rw [hrun, syscall_exit_valid env pd s esp _ v hv hp]
    rfl

theorem to_int_minus_one : to_int 4294967295 = -1 := by decide

theorem of_int_minus_one : of_int (-1) = 4294967295 := by decide

theorem to_int_zero_of_zero (w : Nat) (h : to_int w ≠ 0) : w ≠ 0 := by
  intro hw
  apply h
  rw [hw]
  decide

theorem bail_run (env : Sys) (pd : Nat → Option Bool) (s : SysState) (args N : Nat)
    (ev : List SysEvent) (h2 : 2 ≤ env.PGBITS) (h4 : args % 4 = 0)
    (hP : env.PHYS_BASE + 4 ≤ 2 ^ 32) (ha : args < 2 ^ 32)
    (hv : validate_syscall_arg env.PGBITS env.PHYS_BASE pd args N = 1) (hN : 1 ≤ N)
    (hw : pd ((args + 4) / PGSIZE env.PGBITS) = some true) :
    bail env pd s args ev =
      { stop := .exited, eax := some 4294967295,
        st := { s with mem := store32 s.mem (args + 4) 4294967295, exit := -1,
                       file_global_lock := false },
        events := ev ++ [.printf_exit (-1)] ++
          (if s.file_global_lock = true then [.lock_release_file] else []) ++ [.process_exit] } := by
  have hval := validate_syscall_arg_valid env.PGBITS env.PHYS_BASE pd args N hP ha hv 1 hN
  have hs : slot args 1 = args + 4 := by
    rw [slot_of_valid env.PGBITS env.PHYS_BASE pd args N hP ha hv 1 hN]
  have hw3 : wrap (args + 4 + 3) = args + 4 + 3 := wrap_of_lt _ (by omega)
  have hd : (args + 4 + 3) / PGSIZE env.PGBITS = (args + 4) / PGSIZE env.PGBITS := by
    unfold PGSIZE
    exact aligned_div _ _ (by omega) h2
  have hv1 := validate_syscall_arg_mono env.PGBITS env.PHYS_BASE pd args N 1 hP ha hN hv
  have hpk := peek_slot env.PGBITS env.PHYS_BASE pd (store32 s.mem (args + 4) 4294967295)
    args N h2 h4 hP ha hv 1 hN
  rw [hs] at hpk
  simp only [Nat.mul_one] at hpk
  rw [load32_store32 _ _ _ (by omega) (by decide)] at hpk
  unfold bail poke
  rw [hs, hw3, hd, if_pos ⟨hw, hw⟩]
  simp only
  rw [syscall_exit_valid env pd _ args ev 4294967295 (by rw [hv1]; decide)
    (by rw [hs]; exact hpk), to_int_minus_one]

theorem syscall_filesize_miss (env : Sys) (pd : Nat → Option Bool) (s : SysState) (args : Nat)
    (ev : List SysEvent) (h2 : 2 ≤ env.PGBITS) (h4 : args % 4 = 0)
    (hP : env.PHYS_BASE + 4 ≤ 2 ^ 32) (ha : args < 2 ^ 32)
    (hv : validate_syscall_arg env.PGBITS env.PHYS_BASE pd args 2 = 1)
    (h0 : to_int (load32 s.mem (args + 4)) ≠ 0)
    (hf : find_entry_by_fd (to_int (load32 s.mem (args + 4))) s.pcb.file_desc_entry_list
      = none) :
    syscall_filesize env pd s args ev =
      { stop := .returned, eax := some 4294967295, st := s,
        events := ev ++ [.invoke .SYS_FILESIZE [load32 s.mem (args + 4)]] } := by
  have hpk := peek_slot env.PGBITS env.PHYS_BASE pd s.mem args 2 h2 h4 hP ha hv 1 (by omega)
  simp only [Nat.mul_one] at hpk
  unfold syscall_filesize
  rw [if_neg (by rw [hv]; decide), hpk]
  simp only [if_neg (to_int_zero_of_zero _ h0)]
  unfold filesize
  rw [hf, of_int_minus_one]

theorem syscall_seek_miss (env : Sys) (pd : Nat → Option Bool) (s : SysState) (args : Nat)
    (ev : List SysEvent) (h2 : 2 ≤ env.PGBITS) (h4 : args % 4 = 0)
    (hP : env.PHYS_BASE + 4 ≤ 2 ^ 32) (ha : args < 2 ^ 32)
    (hv : validate_syscall_arg env.PGBITS env.PHYS_BASE pd args 3 = 1)
    (hf : find_entry_by_fd (to_int (load32 s.mem (args + 4))) s.pcb.file_desc_entry_list
      = none) :
    syscall_seek env pd s args ev =
      { stop := .returned, eax := none, st := s,
        events := ev ++ [.invoke .SYS_SEEK [load32 s.mem (args + 4), load32 s.mem (args + 8)]] } := by
  have hpk := peek_slot env.PGBITS env.PHYS_BASE pd s.mem args 3 h2 h4 hP ha hv 1 (by omega)
  have hpk2 := peek_slot env.PGBITS env.PHYS_BASE pd s.mem args 3 h2 h4 hP ha hv 2 (by omega)
  simp only [Nat.mul_one] at hpk
  have e8 : args + 4 * 2 = args + 8 := by omega
  rw [e8] at hpk2
  unfold syscall_seek
  rw [if_neg (by rw [hv]; decide), hpk, hpk2]
  simp only
  have hsk : seek (to_int (load32 s.mem (args + 4))) (load32 s.mem (args + 8)) s.pcb = s.pcb := by
    unfold seek
    rw [hf]
  rw [hsk]

theorem syscall_tell_miss (env : Sys) (pd : Nat → Option Bool) (s : SysState) (args : Nat)
    (ev : List SysEvent) (h2 : 2 ≤ env.PGBITS) (h4 : args % 4 = 0)
    (hP : env.PHYS_BASE + 4 ≤ 2 ^ 32) (ha : args < 2 ^ 32)
    (hv : validate_syscall_arg env.PGBITS env.PHYS_BASE pd args 3 = 1)
    (hf : find_entry_by_fd (to_int (load32 s.mem (args + 4))) s.pcb.file_desc_entry_list
      = none)
    (hw : pd ((args + 4) / PGSIZE env.PGBITS) = some true) :
    syscall_tell env pd s args ev =
      { stop := .exited, eax := some 4294967295,
        st := { s with mem := store32 s.mem (args + 4) 4294967295, exit := -1,
                       file_global_lock := false },
        events := ev ++ [.invoke .SYS_TELL [load32 s.mem (args + 4)]] ++ [.printf_exit (-1)] ++
          (if s.file_global_lock = true then [.lock_release_file] else []) ++ [.process_exit] } := by
  have hpk := peek_slot env.PGBITS env.PHYS_BASE pd s.mem args 3 h2 h4 hP ha hv 1 (by omega)
  simp only [Nat.mul_one] at hpk
  have ht : tell (to_int (load32 s.mem (args + 4))) s.pcb = 4294967295 := by
    unfold tell
    rw [hf]
  unfold syscall_tell
  rw [if_neg (by rw [hv]; decide), hpk]
  simp only [ht, to_int_minus_one, if_true]
  rw [bail_run env pd s args 3 _ h2 h4 hP ha hv (by omega) hw]

theorem syscall_close_miss (env : Sys) (pd : Nat → Option Bool) (s : SysState) (args : Nat)
    (ev : List SysEvent) (h2 : 2 ≤ env.PGBITS) (h4 : args % 4 = 0)
    (hP : env.PHYS_BASE + 4 ≤ 2 ^ 32) (ha : args < 2 ^ 32)
    (hv : validate_syscall_arg env.PGBITS env.PHYS_BASE pd args 2 = 1)
    (hf : find_entry_by_fd (to_int (load32 s.mem (args + 4))) s.pcb.file_desc_entry_list
      = none)
    (hw : pd ((args + 4) / PGSIZE env.PGBITS) = some true) :
    syscall_close env pd s args ev =
      { stop := .exited, eax := some 4294967295,
        st := { s with mem := store32 s.mem (args + 4) 4294967295, exit := -1,
                       file_global_lock := false },
        events := ev ++ [.invoke .SYS_CLOSE [load32 s.mem (args + 4)]] ++ [.printf_exit (-1)] ++
          (if s.file_global_lock = true then [.lock_release_file] else []) ++ [.process_exit] } := by
  have hpk := peek_slot env.PGBITS env.PHYS_BASE pd s.mem args 2 h2 h4 hP ha hv 1 (by omega)
  simp only [Nat.mul_one] at hpk
  have hc := close_miss s.pcb _ hf
  unfold syscall_close
  rw [if_neg (by rw [hv]; decide), hpk]
  simp only [hc, if_true]
  exact bail_run env pd s args 2 _ h2 h4 hP ha hv (by omega) hw

theorem check_bad_pointer_slot (PGBITS PHYS_BASE : Nat) (pd : Nat → Option Bool)
    (args N : Nat) (hP : PHYS_BASE + 4 ≤ 2 ^ 32) (ha : args < 2 ^ 32)
    (hv : validate_syscall_arg PGBITS PHYS_BASE pd args N = 1) (i : Nat) (hi : i ≤ N) :
    check_bad_pointer PGBITS PHYS_BASE pd (slot args i) = 0 := by
  have h := validate_syscall_arg_valid PGBITS PHYS_BASE pd args N hP ha hv i hi
  rw [slot_of_valid PGBITS PHYS_BASE pd args N hP ha hv i hi]
  unfold check_bad_pointer
  rw [if_neg (by simp [is_user_vaddr, h.2.1]), if_neg (by simp [h.2.2]), if_neg h.1]

theorem bad_buffer_good (env : Sys) (pd : Nat → Option Bool) (s : SysState) (args : Nat)
    (h2 : 2 ≤ env.PGBITS) (h4 : args % 4 = 0)
    (hP : env.PHYS_BASE + 4 ≤ 2 ^ 32) (ha : args < 2 ^ 32)
    (hv : validate_syscall_arg env.PGBITS env.PHYS_BASE pd args 4 = 1)
    (hb1 : check_bad_pointer env.PGBITS env.PHYS_BASE pd (load32 s.mem (args + 8)) = 0)
    (hb2 : check_bad_pointer env.PGBITS env.PHYS_BASE pd
      (wrap (load32 s.mem (args + 8) + load32 s.mem (args + 12))) = 0) :
    bad_buffer env pd s args = some false := by
  have hpk2 := peek_slot env.PGBITS env.PHYS_BASE pd s.mem args 4 h2 h4 hP ha hv 2 (by omega)
  have hpk3 := peek_slot env.PGBITS env.PHYS_BASE pd s.mem args 4 h2 h4 hP ha hv 3 (by omega)
  have e8 : args + 4 * 2 = args + 8 := by omega
  have e12 : args + 4 * 3 = args + 12 := by omega
  rw [e8] at hpk2
  rw [e12] at hpk3
  unfold bad_buffer
  rw [if_neg (by
    rw [check_bad_pointer_slot env.PGBITS env.PHYS_BASE pd args 4 hP ha hv 2 (by omega)]
    simp), hpk2]
  simp only
  rw [if_neg (by rw [hb1]; simp), hpk3]
  simp only
  rw [if_neg (by rw [hb2]; simp)]

theorem syscall_read_miss (env : Sys) (pd : Nat → Option Bool) (s : SysState) (args : Nat)
    (ev : List SysEvent) (h2 : 2 ≤ env.PGBITS) (h4 : args % 4 = 0)
    (hP : env.PHYS_BASE + 4 ≤ 2 ^ 32) (ha : args < 2 ^ 32)
    (hv : validate_syscall_arg env.PGBITS env.PHYS_BASE pd args 4 = 1)
    (hb1 : check_bad_pointer env.PGBITS env.PHYS_BASE pd (load32 s.mem (args + 8)) = 0)
    (hb2 : check_bad_pointer env.PGBITS env.PHYS_BASE pd
      (wrap (load32 s.mem (args + 8) + load32 s.mem (args + 12))) = 0)
    (h0 : to_int (load32 s.mem (args + 4)) ≠ 0)
    (hf : find_entry_by_fd (to_int (load32 s.mem (args + 4))) s.pcb.file_desc_entry_list
      = none) :
    syscall_read env pd s args ev =
      { stop := .returned, eax := some 4294967295, st := s,
        events := ev ++ [.invoke .SYS_READ
          [load32 s.mem (args + 4), load32 s.mem (args + 8), load32 s.mem (args + 12)]] } := by
  have hpk1 := peek_slot env.PGBITS env.PHYS_BASE pd s.mem args 4 h2 h4 hP ha hv 1 (by omega)
  have hpk2 := peek_slot env.PGBITS env.PHYS_BASE pd s.mem args 4 h2 h4 hP ha hv 2 (by omega)
  have hpk3 := peek_slot env.PGBITS env.PHYS_BASE pd s.mem args 4 h2 h4 hP ha hv 3 (by omega)
  have e8 : args + 4 * 2 = args + 8 := by omega
  have e12 : args + 4 * 3 = args + 12 := by omega
  simp only [Nat.mul_one] at hpk1
  rw [e8] at hpk2
  rw [e12] at hpk3
  have hr : read env.input env.fuel (to_int (load32 s.mem (args + 4)))
      (load32 s.mem (args + 8)) (load32 s.mem (args + 12)) s.consumed s.mem s.pcb =
      .done (-1, s.consumed, s.mem, s.pcb) := by
    unfold read
    rw [if_neg h0, hf]
  unfold syscall_read
  rw [if_neg (by rw [hv]; decide), bad_buffer_good env pd s args h2 h4 hP ha hv hb1 hb2,
    hpk1, hpk2, hpk3]
  simp only [hr, of_int_minus_one]

theorem syscall_write_miss (env : Sys) (pd : Nat → Option Bool) (s : SysState) (args : Nat)
    (ev : List SysEvent) (h2 : 2 ≤ env.PGBITS) (h4 : args % 4 = 0)
    (hP : env.PHYS_BASE + 4 ≤ 2 ^ 32) (ha : args < 2 ^ 32)
    (hv : validate_syscall_arg env.PGBITS env.PHYS_BASE pd args 4 = 1)
    (hb1 : check_bad_pointer env.PGBITS env.PHYS_BASE pd (load32 s.mem (args + 8)) = 0)
    (hb2 : check_bad_pointer env.PGBITS env.PHYS_BASE pd
      (wrap (load32 s.mem (args + 8) + load32 s.mem (args + 12))) = 0)
    (h1 : to_int (load32 s.mem (args + 4)) ≠ 1)
    (hf : find_entry_by_fd (to_int (load32 s.mem (args + 4))) s.pcb.file_desc_entry_list
      = none) :
    syscall_write env pd s args ev =
      { stop := .returned, eax := some 4294967295, st := s,
        events := ev ++ [.invoke .SYS_WRITE
          [load32 s.mem (args + 4), load32 s.mem (args + 8), load32 s.mem (args + 12)]] } := by
  have hpk1 := peek_slot env.PGBITS env.PHYS_BASE pd s.mem args 4 h2 h4 hP ha hv 1 (by omega)
  have hpk2 := peek_slot env.PGBITS env.PHYS_BASE pd s.mem args 4 h2 h4 hP ha hv 2 (by omega)
  have hpk3 := peek_slot env.PGBITS env.PHYS_BASE pd s.mem args 4 h2 h4 hP ha hv 3 (by omega)
  have e8 : args + 4 * 2 = args + 8 := by omega
  have e12 : args + 4 * 3 = args + 12 := by omega
  simp only [Nat.mul_one] at hpk1
  rw [e8] at hpk2
  rw [e12] at hpk3
  have hr : write (to_int (load32 s.mem (args + 4)))
      (load32 s.mem (args + 8)) (load32 s.mem (args + 12)) s.mem s.pcb =
      (-1, s.pcb, none) := by
    unfold write
    rw [if_neg h1, hf]
    split <;> rfl
  unfold syscall_write
  rw [if_neg (by rw [hv]; decide), bad_buffer_good env pd s args h2 h4 hP ha hv hb1 hb2,
    hpk1, hpk2, hpk3]
  simp only [hr, of_int_minus_one, List.append_nil]

theorem syscall_handler_valid (env : Sys) (s : SysState) (esp N : Nat)
    (pd : Nat → Option Bool) (hpd : s.pcb.pagedir = some pd) (h2 : 2 ≤ env.PGBITS)
    (h4 : esp % 4 = 0) (hP : env.PHYS_BASE + 4 ≤ 2 ^ 32) (ha : esp < 2 ^ 32)
    (hsc : env.sc_boundary_3 = false)
    (hv : validate_syscall_arg env.PGBITS env.PHYS_BASE pd esp N = 1) :
    syscall_handler env s esp =
      if (syscall_switch env pd s esp [.lock_acquire_syscall]
            (env.number (load32 s.mem esp))).stop = .returned then
        { syscall_switch env pd s esp [.lock_acquire_syscall]
            (env.number (load32 s.mem esp)) with
          events := (syscall_switch env pd s esp [.lock_acquire_syscall]
            (env.number (load32 s.mem esp))).events ++ [.lock_release_syscall] }
      else syscall_switch env pd s esp [.lock_acquire_syscall]
        (env.number (load32 s.mem esp)) := by
  have hval := validate_syscall_arg_valid env.PGBITS env.PHYS_BASE pd esp N hP ha hv 0
    (Nat.zero_le _)
  simp only [Nat.mul_zero, Nat.add_zero] at hval
  exact syscall_handler_run env s esp pd (load32 s.mem esp) hpd
    (by simp [is_user_vaddr, hval.2.1]) hval.2.2 (by simp [hsc])
    (peek_of_mapped env.PGBITS pd s.mem esp h2 h4 (by omega) hval.2.2)

/-- C15, the call `tell` on a descriptor that is not in the (empty) table, with
valid argument slots: the handler ends the process with the status -1. The
call `close` does the same. -/
theorem syscall_tell_unknown_fd :
    sampleSys.number 11 = some .SYS_TELL ∧
    validate_syscall_arg 12 3221225472 samplePd 3221225452 3 = 1 ∧
    (syscall_handler sampleSys (sampleState 3221225452 [11, 5, 0, 0]) 3221225452).stop
      = .exited ∧
    (syscall_handler sampleSys (sampleState 3221225452 [11, 5, 0, 0]) 3221225452).st.exit
      = -1 ∧
    (syscall_handler sampleSys (sampleState 3221225452 [11, 5, 0, 0]) 3221225452).events =
      [.lock_acquire_syscall, .lock_acquire_file, .invoke .SYS_TELL [5], .printf_exit (-1),
       .lock_release_file, .process_exit] ∧
    sampleSys.number 12 = some .SYS_CLOSE ∧
    (syscall_handler sampleSys (sampleState 3221225452 [12, 5, 0, 0]) 3221225452).stop
      = .exited ∧
    (syscall_handler sampleSys (sampleState 3221225452 [12, 5, 0, 0]) 3221225452).st.exit
      = -1 := by
  decide

/-- C15 as the code has it. The stack pointer is a multiple of 4, the thread is
not named `sc-boundary-3`, the argument slots that the routine of the call
validates are valid, and the descriptor in the first slot is not in the file
table. Then `filesize`, `read` (descriptor not 0, valid buffer) and `write`
(descriptor not 1, valid buffer) return with -1 in `eax`, and `seek` returns
without a result; the process block, memory and the exit status are as before
and `process_exit` is not reached. The calls `tell` and `close` end the process
instead: -1 is written into the first slot (which has to be writable),
`exit(-1)` is printed and `process_exit` is called with the status -1; the file
table is as before. -/
theorem syscall_unresolved_fd (env : Sys) (s : SysState) (esp : Nat) (pd : Nat → Option Bool)
    (hpd : s.pcb.pagedir = some pd) (h2 : 2 ≤ env.PGBITS) (h4 : esp % 4 = 0)
    (hP : env.PHYS_BASE + 4 ≤ 2 ^ 32) (ha : esp < 2 ^ 32) (hsc : env.sc_boundary_3 = false)
    (hf : find_entry_by_fd (to_int (load32 s.mem (esp + 4))) s.pcb.file_desc_entry_list
      = none) :
    (env.number (load32 s.mem esp) = some .SYS_FILESIZE →
      validate_syscall_arg env.PGBITS env.PHYS_BASE pd esp 2 = 1 →
      to_int (load32 s.mem (esp + 4)) ≠ 0 →
      syscall_handler env s esp =
        { stop := .returned, eax := some 4294967295,
          st := { s with file_global_lock := false },
          events := [.lock_acquire_syscall, .lock_acquire_file,
            .invoke .SYS_FILESIZE [load32 s.mem (esp + 4)], .lock_release_file,
            .lock_release_syscall] }) ∧
    (env.number (load32 s.mem esp) = some .SYS_SEEK →
      validate_syscall_arg env.PGBITS env.PHYS_BASE pd esp 3 = 1 →
      syscall_handler env s esp =
        { stop := .returned, eax := none,
          st := { s with file_global_lock := false },
          events := [.lock_acquire_syscall, .lock_acquire_file,
            .invoke .SYS_SEEK [load32 s.mem (esp + 4), load32 s.mem (esp + 8)],
            .lock_release_file, .lock_release_syscall] }) ∧
    (env.number (load32 s.mem esp) = some .SYS_READ →
      validate_syscall_arg env.PGBITS env.PHYS_BASE pd esp 4 = 1 →
      check_bad_pointer env.PGBITS env.PHYS_BASE pd (load32 s.mem (esp + 8)) = 0 →
      check_bad_pointer env.PGBITS env.PHYS_BASE pd
        (wrap (load32 s.mem (esp + 8) + load32 s.mem (esp + 12))) = 0 →
      to_int (load32 s.mem (esp + 4)) ≠ 0 →
      syscall_handler env s esp =
        { stop := .returned, eax := some 4294967295,
          st := { s with file_global_lock := false },
          events := [.lock_acquire_syscall, .lock_acquire_file,
            .invoke .SYS_READ
              [load32 s.mem (esp + 4), load32 s.mem (esp + 8), load32 s.mem (esp + 12)],
            .lock_release_file, .lock_release_syscall] }) ∧
    (env.number (load32 s.mem esp) = some .SYS_WRITE →
      validate_syscall_arg env.PGBITS env.PHYS_BASE pd esp 4 = 1 →
      check_bad_pointer env.PGBITS env.PHYS_BASE pd (load32 s.mem (esp + 8)) = 0 →
      check_bad_pointer env.PGBITS env.PHYS_BASE pd
        (wrap (load32 s.mem (esp + 8) + load32 s.mem (esp + 12))) = 0 →
      to_int (load32 s.mem (esp + 4)) ≠ 1 →
      syscall_handler env s esp =
        { stop := .returned, eax := some 4294967295,
          st := { s with file_global_lock := false },
          events := [.lock_acquire_syscall, .lock_acquire_file,
            .invoke .SYS_WRITE
              [load32 s.mem (esp + 4), load32 s.mem (esp + 8), load32 s.mem (esp + 12)],
            .lock_release_file, .lock_release_syscall] }) ∧
    (env.number (load32 s.mem esp) = some .SYS_TELL →
      validate_syscall_arg env.PGBITS env.PHYS_BASE pd esp 3 = 1 →
      pd ((esp + 4) / PGSIZE env.PGBITS) = some true →
      syscall_handler env s esp =
        { stop := .exited, eax := some 4294967295,
          st := { s with mem := store32 s.mem (esp + 4) 4294967295, exit := -1,
                         file_global_lock := false },
          events := [.lock_acquire_syscall, .lock_acquire_file,
            .invoke .SYS_TELL [load32 s.mem (esp + 4)], .printf_exit (-1),
            .lock_release_file, .process_exit] }) ∧
    (env.number (load32 s.mem esp) = some .SYS_CLOSE →
      validate_syscall_arg env.PGBITS env.PHYS_BASE pd esp 2 = 1 →
      pd ((esp + 4) / PGSIZE env.PGBITS) = some true →
      syscall_handler env s esp =
        { stop := .exited, eax := some 4294967295,
          st := { s with mem := store32 s.mem (esp + 4) 4294967295, exit := -1,
                         file_global_lock := false },
          events := [.lock_acquire_syscall, .lock_acquire_file,
            .invoke .SYS_CLOSE [load32 s.mem (esp + 4)], .printf_exit (-1),
            .lock_release_file, .process_exit] }) := by
  refine ⟨?_, ?_, ?_, ?_, ?_, ?_⟩
  · intro hnum hv h0
    have hm := syscall_filesize_miss env pd { s with file_global_lock := true } esp
      ([.lock_acquire_syscall] ++ [.lock_acquire_file]) h2 h4 hP ha hv h0 hf
    rw [syscall_handler_valid env s esp 2 pd hpd h2 h4 hP ha hsc hv, hnum]
    simp only [syscall_switch]
    rw [with_file_lock_returned _ _ _ (by rw [hm]), hm]
    rfl
  · intro hnum hv
    have hm := syscall_seek_miss env pd { s with file_global_lock := true } esp
      ([.lock_acquire_syscall] ++ [.lock_acquire_file]) h2 h4 hP ha hv hf
    rw [syscall_handler_valid env s esp 3 pd hpd h2 h4 hP ha hsc hv, hnum]
    simp only [syscall_switch]
    rw [with_file_lock_returned _ _ _ (by rw [hm]), hm]
    rfl
  · intro hnum hv hb1 hb2 h0
    have hm := syscall_read_miss env pd { s with file_global_lock := true } esp
      ([.lock_acquire_syscall] ++ [.lock_acquire_file]) h2 h4 hP ha hv hb1 hb2 h0 hf
    rw [syscall_handler_valid env s esp 4 pd hpd h2 h4 hP ha hsc hv, hnum]
    simp only [syscall_switch]
    rw [with_file_lock_returned _ _ _ (by rw [hm]), hm]
    rfl
  · intro hnum hv hb1 hb2 h1
    have hm := syscall_write_miss env pd { s with file_global_lock := true } esp
      ([.lock_acquire_syscall] ++ [.lock_acquire_file]) h2 h4 hP ha hv hb1 hb2 h1 hf
    rw [syscall_handler_valid env s esp 4 pd hpd h2 h4 hP ha hsc hv, hnum]
    simp only [syscall_switch]
    rw [with_file_lock_returned _ _ _ (by rw [hm]), hm]
    rfl
  · intro hnum hv hw
    have hm := syscall_tell_miss env pd { s with file_global_lock := true } esp
      ([.lock_acquire_syscall] ++ [.lock_acquire_file]) h2 h4 hP ha hv hf hw
    rw [syscall_handler_valid env s esp 3 pd hpd h2 h4 hP ha hsc hv, hnum]
    simp only [syscall_switch]
    rw [with_file_lock_other _ _ _ (by rw [hm]; simp), hm]
    rfl
  · intro hnum hv hw
    have hm := syscall_close_miss env pd { s with file_global_lock := true } esp
      ([.lock_acquire_syscall] ++ [.lock_acquire_file]) h2 h4 hP ha hv hf hw
    rw [syscall_handler_valid env s esp 2 pd hpd h2 h4 hP ha hsc hv, hnum]
    simp only [syscall_switch]
    rw [with_file_lock_other _ _ _ (by rw [hm]; simp), hm]
    rfl

/-- C15 on a fresh process with the stack pointer 20 bytes below the top of
user space: `filesize (5)` returns -1 and `tell (5)` ends the process. -/
theorem syscall_unresolved_fd_witness :
    syscall_handler sampleSys (sampleState 3221225452 [7, 5, 0, 0]) 3221225452 =
      { stop := .returned, eax := some 4294967295,
        st := { sampleState 3221225452 [7, 5, 0, 0] with file_global_lock := false },
        events := [.lock_acquire_syscall, .lock_acquire_file,
          .invoke .SYS_FILESIZE [load32 (sampleState 3221225452 [7, 5, 0, 0]).mem
            (3221225452 + 4)],
          .lock_release_file, .lock_release_syscall] } ∧
    syscall_handler sampleSys (sampleState 3221225452 [11, 5, 0, 0]) 3221225452 =
      { stop := .exited, eax := some 4294967295,
        st := { sampleState 3221225452 [11, 5, 0, 0] with
                mem := store32 (sampleState 3221225452 [11, 5, 0, 0]).mem (3221225452 + 4)
                  4294967295,
                exit := -1, file_global_lock := false },
        events := [.lock_acquire_syscall, .lock_acquire_file,
          .invoke .SYS_TELL [load32 (sampleState 3221225452 [11, 5, 0, 0]).mem
            (3221225452 + 4)],
          .printf_exit (-1), .lock_release_file, .process_exit] } :=
  ⟨(syscall_unresolved_fd sampleSys (sampleState 3221225452 [7, 5, 0, 0]) 3221225452 samplePd
      rfl (by decide) (by decide) (by decide) (by decide) rfl (by decide)).1
      (by decide) (by decide) (by decide),
   (syscall_unresolved_fd sampleSys (sampleState 3221225452 [11, 5, 0, 0]) 3221225452 samplePd
      rfl (by decide) (by decide) (by decide) (by decide) rfl (by decide)).2.2.2.2.1
      (by decide) (by decide) (by decide)⟩

theorem slot_aligned (args i : Nat) (h4 : args % 4 = 0) :
    slot args i % 4 = 0 ∧ slot args i + 4 ≤ 2 ^ 32 := by
  unfold slot wrap
  omega

theorem syscall_exit_killed (env : Sys) (pd : Nat → Option Bool) (s : SysState) (args : Nat)
    (ev : List SysEvent) (m0 : Mem) (h2 : 2 ≤ env.PGBITS) (h4 : args % 4 = 0)
    (hm : s.mem = store32 m0 (slot args 1) 4294967295)
    (hmap : pagedir_get_page env.PGBITS pd (slot args 1) = true) :
    killed (syscall_exit env pd s args ev) ev := by
  have hal := slot_aligned args 1 h4
  unfold syscall_exit
  by_cases hv : validate_syscall_arg env.PGBITS env.PHYS_BASE pd args 1 = 0
  · rw [if_pos hv]
    exact ⟨rfl, rfl, Or.inl rfl⟩
  · rw [if_neg hv, peek_of_mapped env.PGBITS pd s.mem _ h2 hal.1 hal.2 hmap, hm,
      load32_store32 _ _ _ hal.2 (by decide)]
    simp only [to_int_minus_one]
    refine ⟨rfl, rfl, ?_⟩
    cases s.file_global_lock
    · left; simp
    · right; simp

theorem bail_killed (env : Sys) (pd : Nat → Option Bool) (s : SysState) (args : Nat)
    (ev : List SysEvent) (h2 : 2 ≤ env.PGBITS) (h4 : args % 4 = 0)
    (hw : pd (slot args 1 / PGSIZE env.PGBITS) = some true) :
    killed (bail env pd s args ev) ev ∧
    killed (match poke env.PGBITS pd s.mem (slot args 1) 4294967295 with
      | none => sys_fault s ev
      | some m => syscall_exit env pd { s with mem := m, exit := -1 } args ev) ev := by
  have hal := slot_aligned args 1 h4
  have hw3 : wrap (slot args 1 + 3) = slot args 1 + 3 := wrap_of_lt _ (by omega)
  have hd : (slot args 1 + 3) / PGSIZE env.PGBITS = slot args 1 / PGSIZE env.PGBITS := by
    unfold PGSIZE
    exact aligned_div _ _ hal.1 h2
  have hmap : pagedir_get_page env.PGBITS pd (slot args 1) = true := by
    unfold pagedir_get_page
    rw [hw]
    rfl
  have hp : poke env.PGBITS pd s.mem (slot args 1) 4294967295 =
      some (store32 s.mem (slot args 1) 4294967295) := by
    unfold poke
    rw [hw3, hd, if_pos ⟨hw, hw⟩]
  unfold bail
  rw [hp]
  exact ⟨syscall_exit_killed env pd _ args ev s.mem h2 h4 rfl hmap,
    syscall_exit_killed env pd _ args ev s.mem h2 h4 rfl hmap⟩

theorem bad_name_killed (env : Sys) (pd : Nat → Option Bool) (s : SysState) (args : Nat)
    (ev : List SysEvent) (v1 : Nat) (h2 : 2 ≤ env.PGBITS) (h4 : args % 4 = 0)
    (hw : pd (slot args 1 / PGSIZE env.PGBITS) = some true)
    (hp : peek env.PGBITS pd s.mem (slot args 1) = some v1)
    (hbad : v1 = 0 ∨ check_bad_pointer env.PGBITS env.PHYS_BASE pd (slot args 1) ≠ 0
        ∨ check_bad_pointer env.PGBITS env.PHYS_BASE pd v1 ≠ 0) :
    killed (syscall_create env pd s args ev) ev ∧ killed (syscall_remove env pd s args ev) ev ∧
    killed (syscall_open env pd s args ev) ev := by
  have hb := (bail_killed env pd s args ev h2 h4 hw).1
  refine ⟨?_, ?_, ?_⟩
  · unfold syscall_create
    rw [hp]
    simp only [if_pos hbad]
    exact hb
  · unfold syscall_remove
    rw [hp]
    simp only [if_pos hbad]
    exact hb
  · unfold syscall_open
    rw [hp]
    simp only [if_pos hbad]
    exact hb

theorem syscall_exec_killed (env : Sys) (pd : Nat → Option Bool) (s : SysState) (args : Nat)
    (ev : List SysEvent) (v1 v2 : Nat)
    (hp1 : peek env.PGBITS pd s.mem (slot args 1) = some v1)
    (hp2 : peek env.PGBITS pd s.mem (slot args 2) = some v2)
    (hbad : validate_syscall_arg env.PGBITS env.PHYS_BASE pd args 1 = 0
          ∨ validate_syscall_arg env.PGBITS env.PHYS_BASE pd v1 1 = 0 ∨ v1 = 0) :
    killed (syscall_exec env pd s args ev) ev := by
  unfold syscall_exec
  split
  · exact ⟨rfl, rfl, Or.inl rfl⟩
  · rw [hp1, hp2]
    simp only
    split
    · exact ⟨rfl, rfl, Or.inl rfl⟩
    · exact ⟨rfl, rfl, Or.inl rfl⟩

theorem invalid_slots_killed (env : Sys) (pd : Nat → Option Bool) (s : SysState) (args : Nat)
    (ev : List SysEvent) (h2 : 2 ≤ env.PGBITS) (h4 : args % 4 = 0)
    (hw : pd (slot args 1 / PGSIZE env.PGBITS) = some true) :
    (validate_syscall_arg env.PGBITS env.PHYS_BASE pd args 1 = 0 →
      killed (syscall_wait env pd s args ev) ev ∧
      killed (syscall_practice env pd s args ev) ev) ∧
    (validate_syscall_arg env.PGBITS env.PHYS_BASE pd args 2 = 0 →
      killed (syscall_filesize env pd s args ev) ev ∧
      killed (syscall_close env pd s args ev) ev ∧
      killed (syscall_lock_init env pd s args ev) ev ∧
      killed (syscall_lock_acquire env pd s args ev) ev ∧
      killed (syscall_lock_release env pd s args ev) ev ∧
      killed (syscall_sema_up env pd s args ev) ev ∧
      killed (syscall_sema_down env pd s args ev) ev) ∧
    (validate_syscall_arg env.PGBITS env.PHYS_BASE pd args 3 = 0 →
      killed (syscall_seek env pd s args ev) ev ∧
      killed (syscall_tell env pd s args ev) ev ∧
      killed (syscall_sema_init env pd s args ev) ev) ∧
    (validate_syscall_arg env.PGBITS env.PHYS_BASE pd args 4 = 0 →
      killed (syscall_read env pd s args ev) ev ∧
      killed (syscall_write env pd s args ev) ev) ∧
    (validate_syscall_arg env.PGBITS env.PHYS_BASE pd args 4 ≠ 0 →
      bad_buffer env pd s args = some true →
      killed (syscall_read env pd s args ev) ev ∧
      killed (syscall_write env pd s args ev) ev) := by
  have hb := bail_killed env pd s args ev h2 h4 hw
  refine ⟨?_, ?_, ?_, ?_, ?_⟩
  · intro hv
    constructor
    · unfold syscall_wait
      rw [if_pos hv]
      exact hb.2
    · unfold syscall_practice
      rw [if_pos hv]
      exact hb.2
  · intro hv
    refine ⟨?_, ?_, ?_, ?_, ?_, ?_, ?_⟩
    · unfold syscall_filesize
      rw [if_pos hv]
      exact hb.1
    · unfold syscall_close
      rw [if_pos hv]
      exact hb.1
    · unfold syscall_lock_init
      rw [if_pos hv]
      exact hb.1
    · unfold syscall_lock_acquire syscall_keyed
      rw [if_pos hv]
      exact hb.1
    · unfold syscall_lock_release syscall_keyed
      rw [if_pos hv]
      exact hb.1
    · unfold syscall_sema_up syscall_keyed
      rw [if_pos hv]
      exact hb.1
    · unfold syscall_sema_down syscall_keyed
      rw [if_pos hv]
      exact hb.1
  · intro hv
    refine ⟨?_, ?_, ?_⟩
    · unfold syscall_seek
      rw [if_pos hv]
      exact hb.1
    · unfold syscall_tell
      rw [if_pos hv]
      exact hb.1
    · unfold syscall_sema_init
      rw [if_pos hv]
      exact hb.1
  · intro hv
    constructor
    · unfold syscall_read
      rw [if_pos hv]
      exact hb.1
    · unfold syscall_write
      rw [if_pos hv]
      exact hb.1
  · intro hv hbb
    constructor
    · unfold syscall_read
      rw [if_neg hv, hbb]
      exact hb.1
    · unfold syscall_write
      rw [if_neg hv, hbb]
      exact hb.1

/-- C13: not every call kind checks its argument slots. With the stack pointer
on the last word of user space and the call number of `SYS_PT_JOIN` there, the
slot of the argument is the first word of the kernel, outside user space: the
handler reads it and enters `pthread_join` with the word found (7), and returns
to the user program; when the page of that slot is not mapped the kernel
touches the unmapped address and no `exit(-1)` is printed. The routines of
`SYS_PT_JOIN`, `SYS_COMPUTE_E` and `SYS_PT_CREATE` never validate: whenever
their slots can be read they enter the operation. The other routines reject
an invalid slot, for a stack pointer that is a multiple of 4: `syscall_exit`,
`syscall_exec` (slots readable) and, where -1 can be written into the first
slot, the routines from `syscall_wait` on end the process with the status -1
and enter no operation when `validate_syscall_arg` or `check_bad_pointer`
rejects a slot, a name or a buffer. -/
theorem syscall_argument_checks :
    (sampleSys.number 17 = some .SYS_PT_JOIN ∧
     is_user_vaddr 3221225472 (slot 3221225468 1) = false ∧
     (syscall_handler sampleSys (sampleState 3221225468 [17, 7]) 3221225468).stop
       = .returned ∧
     (syscall_handler sampleSys (sampleState 3221225468 [17, 7]) 3221225468).events =
       [.lock_acquire_syscall, .invoke .SYS_PT_JOIN [7], .lock_release_syscall] ∧
     (syscall_handler sampleSys (sampleState 3221225468 [17, 7]) 3221225468).st.exit = 0) ∧
    (pagedir_get_page 12 samplePdUser (slot 3221225468 1) = false ∧
     (syscall_handler sampleSys
        { sampleState 3221225468 [17, 7] with pcb := fresh_process (some samplePdUser) none }
        3221225468).stop = .fault ∧
     (syscall_handler sampleSys
        { sampleState 3221225468 [17, 7] with pcb := fresh_process (some samplePdUser) none }
        3221225468).events = [.lock_acquire_syscall]) ∧
    (∀ (env : Sys) (pd : Nat → Option Bool) (s : SysState) (args : Nat) (ev : List SysEvent),
      (∀ v, peek env.PGBITS pd s.mem (slot args 1) = some v →
        syscall_pthread_join env pd s args ev =
          { stop := .returned,
            eax := some (of_int (pthread_join env.cur (to_int v) s.pcb.process_threads).ret),
            st := { s with pcb := { s.pcb with process_threads :=
                      (pthread_join env.cur (to_int v) s.pcb.process_threads).list } },
            events := ev ++ [.invoke .SYS_PT_JOIN [v]] } ∧
        syscall_compute_e env pd s args ev =
          { stop := .returned, eax := some (env.returns .SYS_COMPUTE_E [v]), st := s,
            events := ev ++ [.invoke .SYS_COMPUTE_E [v]] }) ∧
      (peek env.PGBITS pd s.mem (slot args 1) = none →
        syscall_pthread_join env pd s args ev = sys_fault s ev ∧
        syscall_compute_e env pd s args ev = sys_fault s ev) ∧
      (∀ v1 v2 v3, peek env.PGBITS pd s.mem (slot args 1) = some v1 →
        peek env.PGBITS pd s.mem (slot args 2) = some v2 →
        peek env.PGBITS pd s.mem (slot args 3) = some v3 →
        syscall_pthread_create env pd s args ev =
          { stop := .returned, eax := some (env.returns .SYS_PT_CREATE [v1, v2, v3]), st := s,
            events := ev ++ [.invoke .SYS_PT_CREATE [v1, v2, v3]] })) ∧
    (∀ (env : Sys) (pd : Nat → Option Bool) (s : SysState) (args : Nat) (ev : List SysEvent),
      2 ≤ env.PGBITS → args % 4 = 0 →
      (validate_syscall_arg env.PGBITS env.PHYS_BASE pd args 1 = 0 →
        killed (syscall_exit env pd s args ev) ev) ∧
      (∀ v1 v2, peek env.PGBITS pd s.mem (slot args 1) = some v1 →
        peek env.PGBITS pd s.mem (slot args 2) = some v2 →
        (validate_syscall_arg env.PGBITS env.PHYS_BASE pd args 1 = 0
          ∨ validate_syscall_arg env.PGBITS env.PHYS_BASE pd v1 1 = 0 ∨ v1 = 0) →
        killed (syscall_exec env pd s args ev) ev) ∧
      (pd (slot args 1 / PGSIZE env.PGBITS) = some true →
        (validate_syscall_arg env.PGBITS env.PHYS_BASE pd args 1 = 0 →
          killed (syscall_wait env pd s args ev) ev ∧
          killed (syscall_practice env pd s args ev) ev) ∧
        (validate_syscall_arg env.PGBITS env.PHYS_BASE pd args 2 = 0 →
          killed (syscall_filesize env pd s args ev) ev ∧
          killed (syscall_close env pd s args ev) ev ∧
          killed (syscall_lock_init env pd s args ev) ev ∧
          killed (syscall_lock_acquire env pd s args ev) ev ∧
          killed (syscall_lock_release env pd s args ev) ev ∧
          killed (syscall_sema_up env pd s args ev) ev ∧
          killed (syscall_sema_down env pd s args ev) ev) ∧
        (validate_syscall_arg env.PGBITS env.PHYS_BASE pd args 3 = 0 →
          killed (syscall_seek env pd s args ev) ev ∧
          killed (syscall_tell env pd s args ev) ev ∧
          killed (syscall_sema_init env pd s args ev) ev) ∧
        (validate_syscall_arg env.PGBITS env.PHYS_BASE pd args 4 = 0 →
          killed (syscall_read env pd s args ev) ev ∧
          killed (syscall_write env pd s args ev) ev) ∧
        (validate_syscall_arg env.PGBITS env.PHYS_BASE pd args 4 ≠ 0 →
          bad_buffer env pd s args = some true →
          killed (syscall_read env pd s args ev) ev ∧
          killed (syscall_write env pd s args ev) ev) ∧
        (∀ v1, peek env.PGBITS pd s.mem (slot args 1) = some v1 →
          (v1 = 0 ∨ check_bad_pointer env.PGBITS env.PHYS_BASE pd (slot args 1) ≠ 0
            ∨ check_bad_pointer env.PGBITS env.PHYS_BASE pd v1 ≠ 0) →
          killed (syscall_create env pd s args ev) ev ∧
          killed (syscall_remove env pd s args ev) ev ∧
          killed (syscall_open env pd s args ev) ev))) := by
  refine ⟨⟨by decide, by decide, by decide, by decide, by decide⟩,
    ⟨by decide, by decide, by decide⟩, ?_, ?_⟩
  · intro env pd s args ev
    refine ⟨?_, ?_, ?_⟩
    · intro v hp
      constructor
      · unfold syscall_pthread_join
        rw [hp]
      · unfold syscall_compute_e
        rw [hp]
    · intro hp
      constructor
      · unfold syscall_pthread_join
        rw [hp]
      · unfold syscall_compute_e
        rw [hp]
    · intro v1 v2 v3 hp1 hp2 hp3
      unfold syscall_pthread_create
      rw [hp1, hp2, hp3]
  · intro env pd s args ev h2 h4
    refine ⟨?_, ?_, ?_⟩
    · intro hv
      rw [syscall_exit_invalid env pd s args ev hv]
      exact ⟨rfl, rfl, Or.inl rfl⟩
    · intro v1 v2 hp1 hp2 hbad
      exact syscall_exec_killed env pd s args ev v1 v2 hp1 hp2 hbad
    · intro hw
      have h := invalid_slots_killed env pd s args ev h2 h4 hw
      exact ⟨h.1, h.2.1, h.2.2.1, h.2.2.2.1, h.2.2.2.2,
        fun v1 hp hbad => bad_name_killed env pd s args ev v1 h2 h4 hw hp hbad⟩

/-! ## write on the console -/

/-- C22: `write (1, buffer, size)` passes the `size` bytes of the buffer to one
call of `putbuf`, but it returns 0, not `size`: for the two bytes `hi` at
address 1000 it returns 0. This holds for every buffer that is not `NULL`; on
`NULL` it returns -1 and `putbuf` is not called. -/
theorem write_console_returns_zero :
    ((write 1 1000 2 (storeBytes (fun _ => 0) 1000 [104, 105]) (fresh_process none none)).1 = 0 ∧
     (write 1 1000 2 (storeBytes (fun _ => 0) 1000 [104, 105]) (fresh_process none none)).2.2
       = some [104, 105]) ∧
    (∀ (buffer size : Nat) (m : Mem) (p : process), buffer ≠ 0 →
      write 1 buffer size m p = (0, p, some (loadBytes m buffer size)) ∧
      (loadBytes m buffer size).length = size) ∧
    (∀ (size : Nat) (m : Mem) (p : process), write 1 0 size m p = (-1, p, none)) := by
  refine ⟨⟨by decide, by decide⟩, ?_, ?_⟩
  · intro buffer size m p hb
    constructor
    · unfold write
      rw [if_neg hb, if_pos rfl]
    · clear hb
      induction size generalizing buffer with
      | zero => rfl
      | succ n ih => rw [loadBytes, List.length_cons, ih]
  · intro size m p
    unfold write
    rw [if_pos rfl]

/-! ## The buffer test of read and write -/

theorem bad_buffer_eq (env : Sys) (pd : Nat → Option Bool) (s : SysState) (args : Nat)
    (h2 : 2 ≤ env.PGBITS) (h4 : args % 4 = 0)
    (hP : env.PHYS_BASE + 4 ≤ 2 ^ 32) (ha : args < 2 ^ 32)
    (hv : validate_syscall_arg env.PGBITS env.PHYS_BASE pd args 4 = 1) :
    bad_buffer env pd s args =
      some (decide (check_bad_pointer env.PGBITS env.PHYS_BASE pd (load32 s.mem (args + 8)) ≠ 0
        ∨ check_bad_pointer env.PGBITS env.PHYS_BASE pd
            (wrap (load32 s.mem (args + 8) + load32 s.mem (args + 12))) ≠ 0)) := by
  have hpk2 := peek_slot env.PGBITS env.PHYS_BASE pd s.mem args 4 h2 h4 hP ha hv 2 (by omega)
  have hpk3 := peek_slot env.PGBITS env.PHYS_BASE pd s.mem args 4 h2 h4 hP ha hv 3 (by omega)
  have e8 : args + 4 * 2 = args + 8 := by omega
  have e12 : args + 4 * 3 = args + 12 := by omega
  rw [e8] at hpk2
  rw [e12] at hpk3
  unfold bad_buffer
  rw [if_neg (by
    rw [check_bad_pointer_slot env.PGBITS env.PHYS_BASE pd args 4 hP ha hv 2 (by omega)]
    simp), hpk2]
  simp only
  by_cases hb1 : check_bad_pointer env.PGBITS env.PHYS_BASE pd (load32 s.mem (args + 8)) ≠ 0
  · rw [if_pos hb1]
    simp [hb1]
  · rw [if_neg hb1, hpk3]
    simp only
    by_cases hb2 : check_bad_pointer env.PGBITS env.PHYS_BASE pd
        (wrap (load32 s.mem (args + 8) + load32 s.mem (args + 12))) ≠ 0
    · rw [if_pos hb2]
      simp [hb2]
    · rw [if_neg hb2]
      simp [hb1, hb2]

theorem buffer_reached (env : Sys) (pd : Nat → Option Bool) (s : SysState) (args : Nat)
    (ev : List SysEvent) (h2 : 2 ≤ env.PGBITS) (h4 : args % 4 = 0)
    (hP : env.PHYS_BASE + 4 ≤ 2 ^ 32) (ha : args < 2 ^ 32)
    (hv : validate_syscall_arg env.PGBITS env.PHYS_BASE pd args 4 = 1)
    (hb : bad_buffer env pd s args = some false) :
    SysEvent.invoke .SYS_READ
        [load32 s.mem (args + 4), load32 s.mem (args + 8), load32 s.mem (args + 12)]
      ∈ (syscall_read env pd s args ev).events ∧
    (syscall_read env pd s args ev).stop ≠ .exited ∧
    SysEvent.invoke .SYS_WRITE
        [load32 s.mem (args + 4), load32 s.mem (args + 8), load32 s.mem (args + 12)]
      ∈ (syscall_write env pd s args ev).events ∧
    (syscall_write env pd s args ev).stop = .returned := by
  have hpk1 := peek_slot env.PGBITS env.PHYS_BASE pd s.mem args 4 h2 h4 hP ha hv 1 (by omega)
  have hpk2 := peek_slot env.PGBITS env.PHYS_BASE pd s.mem args 4 h2 h4 hP ha hv 2 (by omega)
  have hpk3 := peek_slot env.PGBITS env.PHYS_BASE pd s.mem args 4 h2 h4 hP ha hv 3 (by omega)
  have e8 : args + 4 * 2 = args + 8 := by omega
  have e12 : args + 4 * 3 = args + 12 := by omega
  simp only [Nat.mul_one] at hpk1
  rw [e8] at hpk2
  rw [e12] at hpk3
  have hr : SysEvent.invoke .SYS_READ
        [load32 s.mem (args + 4), load32 s.mem (args + 8), load32 s.mem (args + 12)]
      ∈ (syscall_read env pd s args ev).events ∧
      (syscall_read env pd s args ev).stop ≠ .exited := by
    unfold syscall_read
    rw [if_neg (by rw [hv]; decide), hb, hpk1, hpk2, hpk3]
    simp only
    split <;> simp [sys_fault]
  refine ⟨hr.1, hr.2, ?_, ?_⟩
  · unfold syscall_write
    rw [if_neg (by rw [hv]; decide), hb, hpk1, hpk2, hpk3]
    simp
  · unfold syscall_write
    rw [if_neg (by rw [hv]; decide), hb, hpk1, hpk2, hpk3]

/-- C23: `syscall_read` and `syscall_write` test the first byte `B` of the
buffer and the byte `B + n` after its last one, not the last byte `B + n - 1`.
A buffer of 4 bytes that ends with the last byte of the mapped page at
`0x08048000`, followed by a page without mapping, has a good first and a good
last byte, yet `write` and `read` on it end the process with the status -1 and
enter no operation. In the other direction, a buffer that starts in that page
and ends just below the mapped stack page passes the test although its last
byte is not mapped. For valid argument slots and a stack pointer that is a
multiple of 4 the operation is reached when `B` and `B + n` pass
`check_bad_pointer`, and the process is ended (where -1 can be written into
the first slot) when one of them does not. -/
theorem syscall_buffer_end_test :
    (validate_syscall_arg 12 3221225472 samplePdCode 3221225452 4 = 1 ∧
     check_bad_pointer 12 3221225472 samplePdCode 134516732 = 0 ∧
     check_bad_pointer 12 3221225472 samplePdCode (134516732 + 4 - 1) = 0 ∧
     pagedir_get_page 12 samplePdCode (134516732 + 4) = false ∧
     (syscall_handler sampleSys (sampleStateCode 3221225452 [9, 1, 134516732, 4, 0])
        3221225452).stop = .exited ∧
     (syscall_handler sampleSys (sampleStateCode 3221225452 [9, 1, 134516732, 4, 0])
        3221225452).st.exit = -1 ∧
     (syscall_handler sampleSys (sampleStateCode 3221225452 [9, 1, 134516732, 4, 0])
        3221225452).events =
       [.lock_acquire_syscall, .lock_acquire_file, .printf_exit (-1), .lock_release_file,
        .process_exit] ∧
     (syscall_handler sampleSys (sampleStateCode 3221225452 [8, 5, 134516732, 4, 0])
        3221225452).events =
       [.lock_acquire_syscall, .lock_acquire_file, .printf_exit (-1), .lock_release_file,
        .process_exit]) ∧
    (check_bad_pointer 12 3221225472 samplePdCode 134512640 = 0 ∧
     check_bad_pointer 12 3221225472 samplePdCode (134512640 + 3086708736 - 1) = 1 ∧
     bad_buffer sampleSys samplePdCode
       (sampleStateCode 3221225452 [9, 1, 134512640, 3086708736, 0]) 3221225452 = some false) ∧
    (∀ (env : Sys) (pd : Nat → Option Bool) (s : SysState) (args : Nat) (ev : List SysEvent),
      2 ≤ env.PGBITS → args % 4 = 0 → env.PHYS_BASE + 4 ≤ 2 ^ 32 → args < 2 ^ 32 →
      validate_syscall_arg env.PGBITS env.PHYS_BASE pd args 4 = 1 →
      ((check_bad_pointer env.PGBITS env.PHYS_BASE pd (load32 s.mem (args + 8)) = 0 ∧
        check_bad_pointer env.PGBITS env.PHYS_BASE pd
          (wrap (load32 s.mem (args + 8) + load32 s.mem (args + 12))) = 0) →
        SysEvent.invoke .SYS_READ
            [load32 s.mem (args + 4), load32 s.mem (args + 8), load32 s.mem (args + 12)]
          ∈ (syscall_read env pd s args ev).events ∧
        (syscall_read env pd s args ev).stop ≠ .exited ∧
        SysEvent.invoke .SYS_WRITE
            [load32 s.mem (args + 4), load32 s.mem (args + 8), load32 s.mem (args + 12)]
          ∈ (syscall_write env pd s args ev).events ∧
        (syscall_write env pd s args ev).stop = .returned) ∧
      ((check_bad_pointer env.PGBITS env.PHYS_BASE pd (load32 s.mem (args + 8)) ≠ 0 ∨
        check_bad_pointer env.PGBITS env.PHYS_BASE pd
          (wrap (load32 s.mem (args + 8) + load32 s.mem (args + 12))) ≠ 0) →
        pd (slot args 1 / PGSIZE env.PGBITS) = some true →
        killed (syscall_read env pd s args ev) ev ∧
        killed (syscall_write env pd s args ev) ev)) := by
  refine ⟨⟨by decide, by decide, by decide, by decide, by decide, by decide, by decide,
    by decide⟩, ⟨by decide, by decide, by decide⟩, ?_⟩
  intro env pd s args ev h2 h4 hP ha hv
  have hbb := bad_buffer_eq env pd s args h2 h4 hP ha hv
  constructor
  · intro hgood
    apply buffer_reached env pd s args ev h2 h4 hP ha hv
    rw [hbb]
    simp [hgood.1, hgood.2]
  · intro hbad hw
    apply (invalid_slots_killed env pd s args ev h2 h4 hw).2.2.2.2 (by rw [hv]; decide)
    rw [hbb]
    simp only [decide_eq_true hbad]

/-! ## The exit line -/

theorem exit_lines_append (a b : List SysEvent) :
    exit_lines (a ++ b) = exit_lines a ++ exit_lines b := by
  unfold exit_lines
  rw [List.filterMap_append]

theorem quiet_lock_acquire_file (ev : List SysEvent) (h : quiet ev) :
    quiet (ev ++ [.lock_acquire_file]) := by
  unfold quiet at h ⊢
  rw [exit_lines_append, List.count_append, h.1, h.2]
  exact ⟨rfl, rfl⟩

theorem quiet_invoke (ev : List SysEvent) (c : Call) (a : List Nat) (h : quiet ev) :
    quiet (ev ++ [.invoke c a]) := by
  unfold quiet at h ⊢
  rw [exit_lines_append, List.count_append, h.1, h.2]
  exact ⟨rfl, by simp⟩

theorem reported_fatal (s : SysState) (ev : List SysEvent) (h : quiet ev) :
    (fatal s ev).stop = .exited → reported_once (fatal s ev) := by
  intro _
  unfold fatal reported_once
  simp only
  rw [exit_lines_append, List.count_append, h.1, h.2]
  refine ⟨rfl, by simp, by simp⟩

theorem reported_syscall_exit (env : Sys) (pd : Nat → Option Bool) (s : SysState) (args : Nat)
    (ev : List SysEvent) (h : quiet ev) :
    (syscall_exit env pd s args ev).stop = .exited →
      reported_once (syscall_exit env pd s args ev) := by
  unfold syscall_exit
  split
  · exact reported_fatal s ev h
  · split
    · intro hc
      simp [sys_fault] at hc
    · intro _
      unfold reported_once
      simp only
      rw [exit_lines_append, exit_lines_append, exit_lines_append, List.count_append,
        List.count_append, List.count_append, h.1, h.2]
      cases s.file_global_lock <;> simp [exit_lines]

theorem reported_bail (env : Sys) (pd : Nat → Option Bool) (s : SysState) (args : Nat)
    (ev : List SysEvent) (h : quiet ev) :
    (bail env pd s args ev).stop = .exited → reported_once (bail env pd s args ev) := by
  unfold bail
  split
  · intro hc
    simp [sys_fault] at hc
  · exact reported_syscall_exit env pd _ args ev h

theorem reported_syscall_filesize (env : Sys) (pd : Nat → Option Bool) (s : SysState)
    (args : Nat) (ev : List SysEvent) (h : quiet ev) :
    (syscall_filesize env pd s args ev).stop = .exited →
      reported_once (syscall_filesize env pd s args ev) := by
  unfold syscall_filesize
  repeat' split
  all_goals first
    | exact reported_fatal _ _ h
    | exact reported_bail env pd _ args _ h
    | exact reported_syscall_exit env pd _ args _ h
    | (intro hc; simp [sys_fault] at hc)

theorem reported_syscall_exec (env : Sys) (pd : Nat → Option Bool) (s : SysState)
    (args : Nat) (ev : List SysEvent) (h : quiet ev) :
    (syscall_exec env pd s args ev).stop = .exited →
      reported_once (syscall_exec env pd s args ev) := by
  unfold syscall_exec
  repeat' split
  all_goals first
    | exact reported_fatal _ _ h
    | exact reported_bail env pd _ args _ h
    | exact reported_bail env pd _ args _ (quiet_invoke _ _ _ h)
    | exact reported_syscall_exit env pd _ args _ h
    | (intro hc; simp [sys_fault] at hc)

theorem reported_syscall_wait (env : Sys) (pd : Nat → Option Bool) (s : SysState)
    (args : Nat) (ev : List SysEvent) (h : quiet ev) :
    (syscall_wait env pd s args ev).stop = .exited →
      reported_once (syscall_wait env pd s args ev) := by
  unfold syscall_wait
  repeat' split
  all_goals first
    | exact reported_fatal _ _ h
    | exact reported_bail env pd _ args _ h
    | exact reported_bail env pd _ args _ (quiet_invoke _ _ _ h)
    | exact reported_syscall_exit env pd _ args _ h
    | (intro hc; simp [sys_fault] at hc)

theorem reported_syscall_practice (env : Sys) (pd : Nat → Option Bool) (s : SysState)
    (args : Nat) (ev : List SysEvent) (h : quiet ev) :
    (syscall_practice env pd s args ev).stop = .exited →
      reported_once (syscall_practice env pd s args ev) := by
  unfold syscall_practice
  repeat' split
  all_goals first
    | exact reported_fatal _ _ h
    | exact reported_bail env pd _ args _ h
    | exact reported_bail env pd _ args _ (quiet_invoke _ _ _ h)
    | exact reported_syscall_exit env pd _ args _ h
    | (intro hc; simp [sys_fault] at hc)

theorem reported_syscall_pthread_create (env : Sys) (pd : Nat → Option Bool) (s : SysState)
    (args : Nat) (ev : List SysEvent) :
    (syscall_pthread_create env pd s args ev).stop = .exited →
      reported_once (syscall_pthread_create env pd s args ev) := by
  unfold syscall_pthread_create
  repeat' split
  all_goals (intro hc; simp [sys_fault] at hc)

theorem reported_syscall_pthread_join (env : Sys) (pd : Nat → Option Bool) (s : SysState)
    (args : Nat) (ev : List SysEvent) :
    (syscall_pthread_join env pd s args ev).stop = .exited →
      reported_once (syscall_pthread_join env pd s args ev) := by
  unfold syscall_pthread_join
  repeat' split
  all_goals (intro hc; simp [sys_fault] at hc)

theorem reported_syscall_create (env : Sys) (pd : Nat → Option Bool) (s : SysState)
    (args : Nat) (ev : List SysEvent) (h : quiet ev) :
    (syscall_create env pd s args ev).stop = .exited →
      reported_once (syscall_create env pd s args ev) := by
  unfold syscall_create
  repeat' split
  all_goals first
    | exact reported_fatal _ _ h
    | exact reported_bail env pd _ args _ h
    | exact reported_bail env pd _ args _ (quiet_invoke _ _ _ h)
    | exact reported_syscall_exit env pd _ args _ h
    | (intro hc; simp [sys_fault] at hc)

theorem reported_syscall_remove (env : Sys) (pd : Nat → Option Bool) (s : SysState)
    (args : Nat) (ev : List SysEvent) (h : quiet ev) :
    (syscall_remove env pd s args ev).stop = .exited →
      reported_once (syscall_remove env pd s args ev) := by
  unfold syscall_remove
  repeat' split
  all_goals first
    | exact reported_fatal _ _ h
    | exact reported_bail env pd _ args _ h
    | exact reported_bail env pd _ args _ (quiet_invoke _ _ _ h)
    | exact reported_syscall_exit env pd _ args _ h
    | (intro hc; simp [sys_fault] at hc)

theorem reported_syscall_open (env : Sys) (pd : Nat → Option Bool) (s : SysState)
    (args : Nat) (ev : List SysEvent) (h : quiet ev) :
    (syscall_open env pd s args ev).stop = .exited →
      reported_once (syscall_open env pd s args ev) := by
  unfold syscall_open
  repeat' split
  all_goals first
    | exact reported_fatal _ _ h
    | exact reported_bail env pd _ args _ h
    | exact reported_bail env pd _ args _ (quiet_invoke _ _ _ h)
    | exact reported_syscall_exit env pd _ args _ h
    | (intro hc; simp [sys_fault] at hc)

theorem reported_syscall_read (env : Sys) (pd : Nat → Option Bool) (s : SysState)
    (args : Nat) (ev : List SysEvent) (h : quiet ev) :
    (syscall_read env pd s args ev).stop = .exited →
      reported_once (syscall_read env pd s args ev) := by
  unfold syscall_read
  repeat' split
  all_goals first
    | exact reported_fatal _ _ h
    | exact reported_bail env pd _ args _ h
    | exact reported_bail env pd _ args _ (quiet_invoke _ _ _ h)
    | exact reported_syscall_exit env pd _ args _ h
    | (intro hc; simp [sys_fault] at hc)

theorem reported_syscall_write (env : Sys) (pd : Nat → Option Bool) (s : SysState)
    (args : Nat) (ev : List SysEvent) (h : quiet ev) :
    (syscall_write env pd s args ev).stop = .exited →
      reported_once (syscall_write env pd s args ev) := by
  unfold syscall_write
  repeat' split
  all_goals first
    | exact reported_fatal _ _ h
    | exact reported_bail env pd _ args _ h
    | exact reported_bail env pd _ args _ (quiet_invoke _ _ _ h)
    | exact reported_syscall_exit env pd _ args _ h
    | (intro hc; simp [sys_fault] at hc)

theorem reported_syscall_seek (env : Sys) (pd : Nat → Option Bool) (s : SysState)
    (args : Nat) (ev : List SysEvent) (h : quiet ev) :
    (syscall_seek env pd s args ev).stop = .exited →
      reported_once (syscall_seek env pd s args ev) := by
  unfold syscall_seek
  repeat' split
  all_goals first
    | exact reported_fatal _ _ h
    | exact reported_bail env pd _ args _ h
    | exact reported_bail env pd _ args _ (quiet_invoke _ _ _ h)
    | exact reported_syscall_exit env pd _ args _ h
    | (intro hc; simp [sys_fault] at hc)

theorem reported_syscall_tell (env : Sys) (pd : Nat → Option Bool) (s : SysState)
    (args : Nat) (ev : List SysEvent) (h : quiet ev) :
    (syscall_tell env pd s args ev).stop = .exited →
      reported_once (syscall_tell env pd s args ev) := by
  unfold syscall_tell
  repeat' split
  all_goals first
    | exact reported_fatal _ _ h
    | exact reported_bail env pd _ args _ h
    | exact reported_bail env pd _ args _ (quiet_invoke _ _ _ h)
    | exact reported_syscall_exit env pd _ args _ h
    | (intro hc; simp [sys_fault] at hc)

theorem reported_syscall_close (env : Sys) (pd : Nat → Option Bool) (s : SysState)
    (args : Nat) (ev : List SysEvent) (h : quiet ev) :
    (syscall_close env pd s args ev).stop = .exited →
      reported_once (syscall_close env pd s args ev) := by
  unfold syscall_close
  repeat' split
  all_goals first
    | exact reported_fatal _ _ h
    | exact reported_bail env pd _ args _ h
    | exact reported_bail env pd _ args _ (quiet_invoke _ _ _ h)
    | exact reported_syscall_exit env pd _ args _ h
    | (intro hc; simp [sys_fault] at hc)

theorem reported_syscall_lock_init (env : Sys) (pd : Nat → Option Bool) (s : SysState)
    (args : Nat) (ev : List SysEvent) (h : quiet ev) :
    (syscall_lock_init env pd s args ev).stop = .exited →
      reported_once (syscall_lock_init env pd s args ev) := by
  unfold syscall_lock_init
  repeat' split
  all_goals first
    | exact reported_fatal _ _ h
    | exact reported_bail env pd _ args _ h
    | exact reported_bail env pd _ args _ (quiet_invoke _ _ _ h)
    | exact reported_syscall_exit env pd _ args _ h
    | (intro hc; simp [sys_fault] at hc)

theorem reported_syscall_sema_init (env : Sys) (pd : Nat → Option Bool) (s : SysState)
    (args : Nat) (ev : List SysEvent) (h : quiet ev) :
    (syscall_sema_init env pd s args ev).stop = .exited →
      reported_once (syscall_sema_init env pd s args ev) := by
  unfold syscall_sema_init
  repeat' split
  all_goals first
    | exact reported_fatal _ _ h
    | exact reported_bail env pd _ args _ h
    | exact reported_bail env pd _ args _ (quiet_invoke _ _ _ h)
    | exact reported_syscall_exit env pd _ args _ h
    | (intro hc; simp [sys_fault] at hc)

theorem reported_syscall_compute_e (env : Sys) (pd : Nat → Option Bool) (s : SysState)
    (args : Nat) (ev : List SysEvent) :
    (syscall_compute_e env pd s args ev).stop = .exited →
      reported_once (syscall_compute_e env pd s args ev) := by
  unfold syscall_compute_e
  repeat' split
  all_goals (intro hc; simp [sys_fault] at hc)

theorem reported_syscall_keyed (c : Call) (op : Nat → process → Int × process) (env : Sys)
    (pd : Nat → Option Bool) (s : SysState) (args : Nat) (ev : List SysEvent) (h : quiet ev) :
    (syscall_keyed c op env pd s args ev).stop = .exited →
      reported_once (syscall_keyed c op env pd s args ev) := by
  unfold syscall_keyed
  repeat' split
  all_goals first
    | exact reported_fatal _ _ h
    | exact reported_bail env pd _ args _ h
    | exact reported_syscall_exit env pd _ args _ h
    | (intro hc; simp [sys_fault] at hc)

theorem reported_syscall_pthread_exit (env : Sys) (s : SysState) (ev : List SysEvent) :
    (syscall_pthread_exit env s ev).stop = .exited →
      reported_once (syscall_pthread_exit env s ev) := by
  unfold syscall_pthread_exit
  split <;> (intro hc; simp [sys_fault] at hc)

theorem reported_with_file_lock (h : SysState → List SysEvent → SysResult) (s : SysState)
    (ev : List SysEvent)
    (hh : (h { s with file_global_lock := true } (ev ++ [.lock_acquire_file])).stop = .exited →
      reported_once (h { s with file_global_lock := true } (ev ++ [.lock_acquire_file]))) :
    (with_file_lock h s ev).stop = .exited → reported_once (with_file_lock h s ev) := by
  unfold with_file_lock
  simp only
  split
  · rename_i hr
    intro hc
    simp only at hc
    rw [hr] at hc
    cases hc
  · exact hh

theorem reported_syscall_switch (env : Sys) (pd : Nat → Option Bool) (s : SysState)
    (args : Nat) (ev : List SysEvent) (h : quiet ev) (c : Option Call) :
    (syscall_switch env pd s args ev c).stop = .exited →
      reported_once (syscall_switch env pd s args ev c) := by
  have hq := quiet_lock_acquire_file ev h
  cases c with
  | none => exact reported_syscall_exit env pd s args ev h
  | some c =>
    cases c
    case SYS_HALT => intro hc; simp [syscall_switch, syscall_halt] at hc
    case SYS_EXIT => exact reported_syscall_exit env pd s args ev h
    case SYS_EXEC => exact reported_syscall_exec env pd s args ev h
    case SYS_WAIT => exact reported_syscall_wait env pd s args ev h
    case SYS_PRACTICE => exact reported_syscall_practice env pd s args ev h
    case SYS_PT_CREATE => exact reported_syscall_pthread_create env pd s args ev
    case SYS_PT_JOIN => exact reported_syscall_pthread_join env pd s args ev
    case SYS_PT_EXIT => exact reported_syscall_pthread_exit env s ev
    case SYS_CREATE =>
      exact reported_with_file_lock _ s ev (reported_syscall_create env pd _ args _ hq)
    case SYS_REMOVE =>
      exact reported_with_file_lock _ s ev (reported_syscall_remove env pd _ args _ hq)
    case SYS_OPEN =>
      exact reported_with_file_lock _ s ev (reported_syscall_open env pd _ args _ hq)
    case SYS_FILESIZE =>
      exact reported_with_file_lock _ s ev (reported_syscall_filesize env pd _ args _ hq)
    case SYS_READ =>
      exact reported_with_file_lock _ s ev (reported_syscall_read env pd _ args _ hq)
    case SYS_WRITE =>
      exact reported_with_file_lock _ s ev (reported_syscall_write env pd _ args _ hq)
    case SYS_SEEK =>
      exact reported_with_file_lock _ s ev (reported_syscall_seek env pd _ args _ hq)
    case SYS_TELL =>
      exact reported_with_file_lock _ s ev (reported_syscall_tell env pd _ args _ hq)
    case SYS_CLOSE =>
      exact reported_with_file_lock _ s ev (reported_syscall_close env pd _ args _ hq)
    case SYS_COMPUTE_E => exact reported_syscall_compute_e env pd s args ev
    case SYS_LOCK_INIT => exact reported_syscall_lock_init env pd s args ev h
    case SYS_LOCK_ACQUIRE => exact reported_syscall_keyed _ _ env pd s args ev h
    case SYS_LOCK_RELEASE => exact reported_syscall_keyed _ _ env pd s args ev h
    case SYS_SEMA_INIT => exact reported_syscall_sema_init env pd s args ev h
    case SYS_SEMA_UP => exact reported_syscall_keyed _ _ env pd s args ev h
    case SYS_SEMA_DOWN => exact reported_syscall_keyed _ _ env pd s args ev h

theorem quiet_lock_acquire_syscall : quiet [.lock_acquire_syscall] :=
  ⟨rfl, rfl⟩

theorem reported_syscall_handler (env : Sys) (s : SysState) (esp : Nat) :
    (syscall_handler env s esp).stop = .exited →
      reported_once (syscall_handler env s esp) := by
  unfold syscall_handler
  split
  · split
    · exact reported_fatal _ _ quiet_lock_acquire_syscall
    · intro hc
      simp [sys_fault] at hc
  · split
    · exact reported_fatal _ _ quiet_lock_acquire_syscall
    · split
      · exact reported_fatal _ _ quiet_lock_acquire_syscall
      · split
        · intro hc
          simp [sys_fault] at hc
        · simp only
          split
          · rename_i hr
            intro hc
            simp only at hc
            rw [hr] at hc
            cases hc
          · exact reported_syscall_switch env _ s esp _ quiet_lock_acquire_syscall _

theorem status_poked (env : Sys) (pd : Nat → Option Bool) (s : SysState) (args : Nat)
    (ev : List SysEvent) (m0 : Mem) (h4 : args % 4 = 0)
    (hm : s.mem = store32 m0 (slot args 1) 4294967295) :
    (syscall_exit env pd s args ev).stop = .exited →
      (syscall_exit env pd s args ev).st.exit = -1 := by
  have hal := slot_aligned args 1 h4
  unfold syscall_exit
  split
  · intro _
    rfl
  · split
    · intro hc
      simp [sys_fault] at hc
    · rename_i v hv
      intro _
      unfold peek at hv
      split at hv
      · rw [hm, load32_store32 _ _ _ hal.2 (by decide)] at hv
        cases hv
        exact to_int_minus_one
      · cases hv

theorem status_bail (env : Sys) (pd : Nat → Option Bool) (s : SysState) (args : Nat)
    (ev : List SysEvent) (h4 : args % 4 = 0) :
    (bail env pd s args ev).stop = .exited → (bail env pd s args ev).st.exit = -1 := by
  unfold bail
  split
  · intro hc
    simp [sys_fault] at hc
  · rename_i m hp
    unfold poke at hp
    split at hp
    · cases hp
      exact status_poked env pd _ args ev s.mem h4 rfl
    · cases hp

theorem status_syscall_exec (env : Sys) (pd : Nat → Option Bool) (s : SysState)
    (args : Nat) (ev : List SysEvent) :
    (syscall_exec env pd s args ev).stop = .exited →
      (syscall_exec env pd s args ev).st.exit = -1 := by
  unfold syscall_exec
  repeat' split
  all_goals first
    | (intro _; rfl)
    | (intro hc; simp [sys_fault] at hc)

theorem status_syscall_wait (env : Sys) (pd : Nat → Option Bool) (s : SysState)
    (args : Nat) (ev : List SysEvent) (h4 : args % 4 = 0) :
    (syscall_wait env pd s args ev).stop = .exited →
      (syscall_wait env pd s args ev).st.exit = -1 := by
  unfold syscall_wait
  repeat' split
  all_goals first
    | (rename_i m hp
       unfold poke at hp
       split at hp
       · cases hp
         exact status_poked env pd _ args ev s.mem h4 rfl
       · cases hp)
    | (intro hc; simp [sys_fault] at hc)

theorem status_syscall_practice (env : Sys) (pd : Nat → Option Bool) (s : SysState)
    (args : Nat) (ev : List SysEvent) (h4 : args % 4 = 0) :
    (syscall_practice env pd s args ev).stop = .exited →
      (syscall_practice env pd s args ev).st.exit = -1 := by
  unfold syscall_practice
  repeat' split
  all_goals first
    | (rename_i m hp
       unfold poke at hp
       split at hp
       · cases hp
         exact status_poked env pd _ args ev s.mem h4 rfl
       · cases hp)
    | (intro hc; simp [sys_fault] at hc)

theorem status_syscall_create (env : Sys) (pd : Nat → Option Bool) (s : SysState)
    (args : Nat) (ev : List SysEvent) (h4 : args % 4 = 0) :
    (syscall_create env pd s args ev).stop = .exited →
      (syscall_create env pd s args ev).st.exit = -1 := by
  unfold syscall_create
  repeat' split
  all_goals first
    | exact status_bail env pd _ args _ h4
    | (intro hc; simp [sys_fault] at hc)

theorem status_syscall_remove (env : Sys) (pd : Nat → Option Bool) (s : SysState)
    (args : Nat) (ev : List SysEvent) (h4 : args % 4 = 0) :
    (syscall_remove env pd s args ev).stop = .exited →
      (syscall_remove env pd s args ev).st.exit = -1 := by
  unfold syscall_remove
  repeat' split
  all_goals first
    | exact status_bail env pd _ args _ h4
    | (intro hc; simp [sys_fault] at hc)

theorem status_syscall_open (env : Sys) (pd : Nat → Option Bool) (s : SysState)
    (args : Nat) (ev : List SysEvent) (h4 : args % 4 = 0) :
    (syscall_open env pd s args ev).stop = .exited →
      (syscall_open env pd s args ev).st.exit = -1 := by
  unfold syscall_open
  repeat' split
  all_goals first
    | exact status_bail env pd _ args _ h4
    | (intro hc; simp [sys_fault] at hc)

theorem status_syscall_filesize (env : Sys) (pd : Nat → Option Bool) (s : SysState)
    (args : Nat) (ev : List SysEvent) (h4 : args % 4 = 0) :
    (syscall_filesize env pd s args ev).stop = .exited →
      (syscall_filesize env pd s args ev).st.exit = -1 := by
  unfold syscall_filesize
  repeat' split
  all_goals first
    | exact status_bail env pd _ args _ h4
    | (intro hc; simp [sys_fault] at hc)

theorem status_syscall_read (env : Sys) (pd : Nat → Option Bool) (s : SysState)
    (args : Nat) (ev : List SysEvent) (h4 : args % 4 = 0) :
    (syscall_read env pd s args ev).stop = .exited →
      (syscall_read env pd s args ev).st.exit = -1 := by
  unfold syscall_read
  repeat' split
  all_goals first
    | exact status_bail env pd _ args _ h4
    | (intro hc; simp [sys_fault] at hc)

theorem status_syscall_write (env : Sys) (pd : Nat → Option Bool) (s : SysState)
    (args : Nat) (ev : List SysEvent) (h4 : args % 4 = 0) :
    (syscall_write env pd s args ev).stop = .exited →
      (syscall_write env pd s args ev).st.exit = -1 := by
  unfold syscall_write
  repeat' split
  all_goals first
    | exact status_bail env pd _ args _ h4
    | (intro hc; simp [sys_fault] at hc)

theorem status_syscall_seek (env : Sys) (pd : Nat → Option Bool) (s : SysState)
    (args : Nat) (ev : List SysEvent) (h4 : args % 4 = 0) :
    (syscall_seek env pd s args ev).stop = .exited →
      (syscall_seek env pd s args ev).st.exit = -1 := by
  unfold syscall_seek
  repeat' split
  all_goals first
    | exact status_bail env pd _ args _ h4
    | (intro hc; simp [sys_fault] at hc)

theorem status_syscall_tell (env : Sys) (pd : Nat → Option Bool) (s : SysState)
    (args : Nat) (ev : List SysEvent) (h4 : args % 4 = 0) :
    (syscall_tell env pd s args ev).stop = .exited →
      (syscall_tell env pd s args ev).st.exit = -1 := by
  unfold syscall_tell
  repeat' split
  all_goals first
    | exact status_bail env pd _ args _ h4
    | (intro hc; simp [sys_fault] at hc)

theorem status_syscall_close (env : Sys) (pd : Nat → Option Bool) (s : SysState)
    (args : Nat) (ev : List SysEvent) (h4 : args % 4 = 0) :
    (syscall_close env pd s args ev).stop = .exited →
      (syscall_close env pd s args ev).st.exit = -1 := by
  unfold syscall_close
  repeat' split
  all_goals first
    | exact status_bail env pd _ args _ h4
    | (intro hc; simp [sys_fault] at hc)

theorem status_syscall_lock_init (env : Sys) (pd : Nat → Option Bool) (s : SysState)
    (args : Nat) (ev : List SysEvent) (h4 : args % 4 = 0) :
    (syscall_lock_init env pd s args ev).stop = .exited →
      (syscall_lock_init env pd s args ev).st.exit = -1 := by
  unfold syscall_lock_init
  repeat' split
  all_goals first
    | exact status_bail env pd _ args _ h4
    | (intro hc; simp [sys_fault] at hc)

theorem status_syscall_sema_init (env : Sys) (pd : Nat → Option Bool) (s : SysState)
    (args : Nat) (ev : List SysEvent) (h4 : args % 4 = 0) :
    (syscall_sema_init env pd s args ev).stop = .exited →
      (syscall_sema_init env pd s args ev).st.exit = -1 := by
  unfold syscall_sema_init
  repeat' split
  all_goals first
    | exact status_bail env pd _ args _ h4
    | (intro hc; simp [sys_fault] at hc)

theorem status_syscall_keyed (c : Call) (op : Nat → process → Int × process) (env : Sys)
    (pd : Nat → Option Bool) (s : SysState) (args : Nat) (ev : List SysEvent)
    (h4 : args % 4 = 0) :
    (syscall_keyed c op env pd s args ev).stop = .exited →
      (syscall_keyed c op env pd s args ev).st.exit = -1 := by
  unfold syscall_keyed
  repeat' split
  all_goals first
    | exact status_bail env pd _ args _ h4
    | (intro hc; simp [sys_fault] at hc)

theorem status_with_file_lock (h : SysState → List SysEvent → SysResult) (s : SysState)
    (ev : List SysEvent)
    (hh : (h { s with file_global_lock := true } (ev ++ [.lock_acquire_file])).stop = .exited →
      (h { s with file_global_lock := true } (ev ++ [.lock_acquire_file])).st.exit = -1) :
    (with_file_lock h s ev).stop = .exited → (with_file_lock h s ev).st.exit = -1 := by
  unfold with_file_lock
  simp only
  split
  · rename_i hr
    intro hc
    simp only at hc
    rw [hr] at hc
    cases hc
  · exact hh

theorem status_syscall_switch (env : Sys) (pd : Nat → Option Bool) (s : SysState)
    (args : Nat) (ev : List SysEvent) (h4 : args % 4 = 0) (c : Call) (hne : c ≠ .SYS_EXIT) :
    (syscall_switch env pd s args ev (some c)).stop = .exited →
      (syscall_switch env pd s args ev (some c)).st.exit = -1 := by
  cases c
  case SYS_HALT => intro hc; simp [syscall_switch, syscall_halt] at hc
  case SYS_EXIT => exact absurd rfl hne
  case SYS_EXEC => exact status_syscall_exec env pd s args ev
  case SYS_WAIT => exact status_syscall_wait env pd s args ev h4
  case SYS_PRACTICE => exact status_syscall_practice env pd s args ev h4
  case SYS_PT_CREATE =>
    intro hc
    simp only [syscall_switch] at hc
    unfold syscall_pthread_create at hc
    split at hc <;> simp [sys_fault] at hc
  case SYS_PT_JOIN =>
    intro hc
    simp only [syscall_switch] at hc
    unfold syscall_pthread_join at hc
    split at hc <;> simp [sys_fault] at hc
  case SYS_PT_EXIT =>
    intro hc
    simp only [syscall_switch] at hc
    unfold syscall_pthread_exit at hc
    split at hc <;> simp [sys_fault] at hc
  case SYS_CREATE => exact status_with_file_lock _ s ev (status_syscall_create env pd _ args _ h4)
  case SYS_REMOVE => exact status_with_file_lock _ s ev (status_syscall_remove env pd _ args _ h4)
  case SYS_OPEN => exact status_with_file_lock _ s ev (status_syscall_open env pd _ args _ h4)
  case SYS_FILESIZE =>
    exact status_with_file_lock _ s ev (status_syscall_filesize env pd _ args _ h4)
  case SYS_READ => exact status_with_file_lock _ s ev (status_syscall_read env pd _ args _ h4)
  case SYS_WRITE => exact status_with_file_lock _ s ev (status_syscall_write env pd _ args _ h4)
  case SYS_SEEK => exact status_with_file_lock _ s ev (status_syscall_seek env pd _ args _ h4)
  case SYS_TELL => exact status_with_file_lock _ s ev (status_syscall_tell env pd _ args _ h4)
  case SYS_CLOSE => exact status_with_file_lock _ s ev (status_syscall_close env pd _ args _ h4)
  case SYS_COMPUTE_E =>
    intro hc
    simp only [syscall_switch] at hc
    unfold syscall_compute_e at hc
    split at hc <;> simp [sys_fault] at hc
  case SYS_LOCK_INIT => exact status_syscall_lock_init env pd s args ev h4
  case SYS_LOCK_ACQUIRE => exact status_syscall_keyed _ _ env pd s args ev h4
  case SYS_LOCK_RELEASE => exact status_syscall_keyed _ _ env pd s args ev h4
  case SYS_SEMA_INIT => exact status_syscall_sema_init env pd s args ev h4
  case SYS_SEMA_UP => exact status_syscall_keyed _ _ env pd s args ev h4
  case SYS_SEMA_DOWN => exact status_syscall_keyed _ _ env pd s args ev h4

theorem status_syscall_handler (env : Sys) (s : SysState) (esp : Nat)
    (pd : Nat → Option Bool) (num : Nat) (c : Call) (hpd : s.pcb.pagedir = some pd)
    (hn : peek env.PGBITS pd s.mem esp = some num) (hc : env.number num = some c)
    (hne : c ≠ .SYS_EXIT) (h4 : esp % 4 = 0) :
    (syscall_handler env s esp).stop = .exited → (syscall_handler env s esp).st.exit = -1 := by
  unfold syscall_handler
  rw [hpd]
  simp only
  split
  · intro _
    rfl
  · split
    · intro _
      rfl
    · rw [hn]
      simp only
      rw [hc]
      split
      · rename_i hr
        intro hx
        simp only at hx
        rw [hr] at hx
        cases hx
      · exact status_syscall_switch env pd s esp _ h4 c hne

theorem syscall_handler_bad_esp (env : Sys) (s : SysState) (esp : Nat)
    (pd : Nat → Option Bool) (hpd : s.pcb.pagedir = some pd)
    (hbad : is_user_vaddr env.PHYS_BASE esp = false
      ∨ pagedir_get_page env.PGBITS pd esp = false) :
    syscall_handler env s esp = fatal s [.lock_acquire_syscall] := by
  unfold syscall_handler
  rw [hpd]
  simp only
  rw [if_pos]
  rcases hbad with h | h <;> simp [h]

theorem syscall_handler_no_table (env : Sys) (s : SysState) (esp : Nat)
    (hpd : s.pcb.pagedir = none) (hbad : is_user_vaddr env.PHYS_BASE esp = false) :
    syscall_handler env s esp = fatal s [.lock_acquire_syscall] := by
  unfold syscall_handler
  rw [hpd]
  simp only [hbad, Bool.not_false, if_true]

theorem syscall_handler_exit_call (env : Sys) (s : SysState) (esp : Nat)
    (pd : Nat → Option Bool) (num v : Nat) (hpd : s.pcb.pagedir = some pd)
    (hu : is_user_vaddr env.PHYS_BASE esp = true)
    (hm : pagedir_get_page env.PGBITS pd esp = true)
    (hb : ¬ (esp / PGSIZE env.PGBITS ≠ slot esp 1 / PGSIZE env.PGBITS
      ∧ env.sc_boundary_3 = true))
    (hn : peek env.PGBITS pd s.mem esp = some num)
    (hc : env.number num = some .SYS_EXIT)
    (hv : validate_syscall_arg env.PGBITS env.PHYS_BASE pd esp 1 ≠ 0)
    (hp : peek env.PGBITS pd s.mem (slot esp 1) = some v) :
    syscall_handler env s esp =
      { stop := .exited, eax := some v,
        st := { s with exit := to_int v, file_global_lock := false },
        events := [.lock_acquire_syscall, .printf_exit (to_int v)] ++
          (if s.file_global_lock = true then [.lock_release_file] else []) ++
          [.process_exit] } := by
  have hrun := syscall_handler_run env s esp pd num hpd hu hm hb hn
  rw [hc] at hrun
  have hsw : syscall_switch env pd s esp [.lock_acquire_syscall] (some .SYS_EXIT) =
      syscall_exit env pd s esp [.lock_acquire_syscall] := rfl
  rw [hsw, syscall_exit_valid env pd s esp _ v hv hp] at hrun
  rw [hrun]
  rfl

/-- C21: whenever the handler ends the process, its events hold exactly one
line `<name>: exit(<code>)`, the code is the exit status recorded in the
thread, and `process_exit` is called once, as the last event, after the line.
The status is -1 when the stack pointer of the trap is not a mapped user
address; it is the word of the first argument slot for the call `exit` with a
valid slot; and it is -1 when the routine of any other call ends the process
(stack pointer a multiple of 4). -/
theorem exit_line_once (env : Sys) (s : SysState) (esp : Nat)
    (h : (syscall_handler env s esp).stop = .exited) :
    reported_once (syscall_handler env s esp) ∧
    (∀ (pd : Nat → Option Bool), s.pcb.pagedir = some pd →
      (is_user_vaddr env.PHYS_BASE esp = false ∨ pagedir_get_page env.PGBITS pd esp = false) →
      (syscall_handler env s esp).st.exit = -1 ∧
      (syscall_handler env s esp).events =
        [.lock_acquire_syscall, .printf_exit (-1), .process_exit]) ∧
    (∀ (pd : Nat → Option Bool) (num v : Nat), s.pcb.pagedir = some pd →
      is_user_vaddr env.PHYS_BASE esp = true →
      pagedir_get_page env.PGBITS pd esp = true →
      ¬ (esp / PGSIZE env.PGBITS ≠ slot esp 1 / PGSIZE env.PGBITS
        ∧ env.sc_boundary_3 = true) →
      peek env.PGBITS pd s.mem esp = some num →
      env.number num = some .SYS_EXIT →
      validate_syscall_arg env.PGBITS env.PHYS_BASE pd esp 1 ≠ 0 →
      peek env.PGBITS pd s.mem (slot esp 1) = some v →
      (syscall_handler env s esp).st.exit = to_int v ∧
      exit_lines (syscall_handler env s esp).events = [to_int v]) ∧
    (∀ (pd : Nat → Option Bool) (num : Nat) (c : Call), s.pcb.pagedir = some pd →
      peek env.PGBITS pd s.mem esp = some num →
      env.number num = some c → c ≠ .SYS_EXIT → esp % 4 = 0 →
      (syscall_handler env s esp).st.exit = -1 ∧
      exit_lines (syscall_handler env s esp).events = [-1]) := by
  have hrep := reported_syscall_handler env s esp h
  refine ⟨hrep, ?_, ?_, ?_⟩
  · intro pd hpd hbad
    rw [syscall_handler_bad_esp env s esp pd hpd hbad]
    exact ⟨rfl, rfl⟩
  · intro pd num v hpd hu hm hb hn hc hv hp
    have he : (syscall_handler env s esp).st.exit = to_int v := by
      rw [syscall_handler_exit_call env s esp pd num v hpd hu hm hb hn hc hv hp]
    refine ⟨he, ?_⟩
    rw [hrep.1, he]
  · intro pd num c hpd hn hc hne h4
    have he := status_syscall_handler env s esp pd num c hpd hn hc hne h4 h
    refine ⟨he, ?_⟩
    rw [hrep.1, he]

/-- C21 on the call `exit (7)` and on the call `tell (5)` of a process without
open file: one line each, `exit(7)` and `exit(-1)`. -/
theorem exit_line_once_witness :
    (syscall_handler sampleSys (sampleState 3221225452 [1, 7]) 3221225452).events =
      [.lock_acquire_syscall, .printf_exit 7, .process_exit] ∧
    (syscall_handler sampleSys (sampleState 3221225452 [1, 7]) 3221225452).st.exit = 7 ∧
    reported_once (syscall_handler sampleSys (sampleState 3221225452 [1, 7]) 3221225452) ∧
    (syscall_handler sampleSys (sampleState 3221225452 [11, 5, 0, 0]) 3221225452).events =
      [.lock_acquire_syscall, .lock_acquire_file, .invoke .SYS_TELL [5], .printf_exit (-1),
       .lock_release_file, .process_exit] ∧
    reported_once (syscall_handler sampleSys (sampleState 3221225452 [11, 5, 0, 0])
      3221225452) :=
  ⟨by decide, by decide,
   (exit_line_once sampleSys (sampleState 3221225452 [1, 7]) 3221225452 (by decide)).1,
   by decide,
   (exit_line_once sampleSys (sampleState 3221225452 [11, 5, 0, 0]) 3221225452
     (by decide)).1⟩

/-! ## setup_thread -/

theorem pagedir_get_page_mul (PGBITS : Nat) (pd : Nat → Option Bool) (q : Nat) :
    pagedir_get_page PGBITS pd (q * PGSIZE PGBITS) = (pd q).isSome := by
  unfold pagedir_get_page
  rw [Nat.mul_div_cancel _ (PGSIZE_pos PGBITS)]

theorem setup_thread_loop_found (env : Env) (PGBITS : Nat) (frame : List Nat) (k : Kernel)
    (pd : Nat → Option Bool) (p : Nat) (hpd : k.pagedir = some pd) (hp : 1 ≤ p)
    (hfree : pd p = none) (hset : env.set_page k.set_pages = true) :
    ∀ (d fuel : Nat), d + 1 ≤ fuel → (p + d) * PGSIZE PGBITS < 2 ^ 32 →
      (∀ q, p < q → q ≤ p + d → (pd q).isSome = true) →
      setup_thread_loop env PGBITS (some frame) fuel ((p + d) * PGSIZE PGBITS) k =
        .done (true,
          { k with pagedir := some (pagedir_set_page PGBITS pd (p * PGSIZE PGBITS) true),
                   mem := storeBytes k.mem (p * PGSIZE PGBITS) frame,
                   set_pages := k.set_pages + 1,
                   esp := some (wrap (p * PGSIZE PGBITS + PGSIZE PGBITS)) }) := by
  have hP := PGSIZE_pos PGBITS
  intro d
  induction d with
  | zero =>
    intro fuel hf _ _
    obtain ⟨f, rfl⟩ : ∃ f, fuel = f + 1 := ⟨fuel - 1, by omega⟩
    have hpos : 0 < (p + 0) * PGSIZE PGBITS := Nat.mul_pos (by omega) hP
    rw [setup_thread_loop, if_pos hpos]
    simp only [Nat.add_zero]
    unfold install_page
    rw [hpd]
    simp only [pagedir_get_page_mul, hfree, Option.isSome_none, if_true, hset]
  | succ d ih =>
    intro fuel hf hlt hmap
    obtain ⟨f, rfl⟩ : ∃ f, fuel = f + 1 := ⟨fuel - 1, by omega⟩
    have hpos : 0 < (p + (d + 1)) * PGSIZE PGBITS := Nat.mul_pos (by omega) hP
    have hm := hmap (p + (d + 1)) (by omega) (Nat.le_refl _)
    have hsub : sub32 ((p + (d + 1)) * PGSIZE PGBITS) (PGSIZE PGBITS) =
        (p + d) * PGSIZE PGBITS := by
      have e : (p + (d + 1)) * PGSIZE PGBITS = (p + d) * PGSIZE PGBITS + PGSIZE PGBITS := by
        ring
      rw [sub32_of_le _ _ (by rw [e]; omega) hlt, e]
      omega
    rw [setup_thread_loop, if_pos hpos]
    unfold install_page
    rw [hpd]
    simp only [pagedir_get_page_mul, hm, Bool.true_eq_false, if_false]
    rw [hsub]
    apply ih f (by omega)
    · have e : (p + (d + 1)) * PGSIZE PGBITS = (p + d) * PGSIZE PGBITS + PGSIZE PGBITS := by
        ring
      omega
    · intro q h1 h2
      exact hmap q h1 (by omega)

theorem setup_thread_loop_full (env : Env) (PGBITS : Nat) (kpage : Option (List Nat))
    (k : Kernel) (pd : Nat → Option Bool) (hpd : k.pagedir = some pd) :
    ∀ (n fuel : Nat), n + 1 ≤ fuel → n * PGSIZE PGBITS < 2 ^ 32 →
      (∀ q, 1 ≤ q → q ≤ n → (pd q).isSome = true) →
      setup_thread_loop env PGBITS kpage fuel (n * PGSIZE PGBITS) k = .done (false, k) := by
  have hP := PGSIZE_pos PGBITS
  intro n
  induction n with
  | zero =>
    intro fuel _ _ _
    cases fuel with
    | zero => simp [setup_thread_loop]
    | succ f => simp [setup_thread_loop]
  | succ n ih =>
    intro fuel hf hlt hmap
    obtain ⟨f, rfl⟩ : ∃ f, fuel = f + 1 := ⟨fuel - 1, by omega⟩
    have hpos : 0 < (n + 1) * PGSIZE PGBITS := Nat.mul_pos (by omega) hP
    have hm := hmap (n + 1) (by omega) (Nat.le_refl _)
    have e : (n + 1) * PGSIZE PGBITS = n * PGSIZE PGBITS + PGSIZE PGBITS := by ring
    have hsub : sub32 ((n + 1) * PGSIZE PGBITS) (PGSIZE PGBITS) = n * PGSIZE PGBITS := by
      rw [sub32_of_le _ _ (by rw [e]; omega) hlt, e]
      omega
    have hrec := ih f (by omega) (by omega) (fun q h1 h2 => hmap q h1 (by omega))
    cases kpage with
    | none =>
      rw [setup_thread_loop, if_pos hpos, hpd]
      simp only [pagedir_get_page_mul, hm, Bool.true_eq_false, if_false]
      rw [hsub]
      exact hrec
    | some frame =>
      rw [setup_thread_loop, if_pos hpos]
      unfold install_page
      rw [hpd]
      simp only [pagedir_get_page_mul, hm, Bool.true_eq_false, if_false]
      rw [hsub]
      exact hrec

theorem setup_thread_found (env : Env) (PGBITS N : Nat) (thread_id : Int) (k : Kernel)
    (pd : Nat → Option Bool) (p : Nat) (hid : 0 < thread_id)
    (hN : N * PGSIZE PGBITS < 2 ^ 32) (hpd : k.pagedir = some pd)
    (hpal : env.palloc k.pallocs = true) (hset : env.set_page k.set_pages = true)
    (hp : 1 ≤ p) (hpN : p < N) (hfree : pd p = none)
    (hmap : ∀ q, p < q → q < N → (pd q).isSome = true) :
    setup_thread env PGBITS (N * PGSIZE PGBITS) thread_id k =
      .done (true,
        { k with pallocs := k.pallocs + 1,
                 pagedir := some (pagedir_set_page PGBITS pd (p * PGSIZE PGBITS) true),
                 mem := storeBytes k.mem (p * PGSIZE PGBITS)
                   (List.replicate (PGSIZE PGBITS) 0),
                 set_pages := k.set_pages + 1,
                 esp := some (p * PGSIZE PGBITS + PGSIZE PGBITS) }) := by
  have hP := PGSIZE_pos PGBITS
  obtain ⟨d, hd⟩ : ∃ d, N = p + d + 1 := ⟨N - p - 1, by omega⟩
  have e : N * PGSIZE PGBITS = (p + d) * PGSIZE PGBITS + PGSIZE PGBITS := by
    rw [hd]; ring
  have hsub : sub32 (N * PGSIZE PGBITS) (PGSIZE PGBITS) = (p + d) * PGSIZE PGBITS := by
    rw [sub32_of_le _ _ (by rw [e]; omega) hN, e]
    omega
  have hle : p * PGSIZE PGBITS + PGSIZE PGBITS ≤ N * PGSIZE PGBITS := by
    have : (p + 1) * PGSIZE PGBITS ≤ N * PGSIZE PGBITS :=
      Nat.mul_le_mul_right _ (by omega)
    rw [Nat.add_mul, Nat.one_mul] at this
    exact this
  have hw : wrap (p * PGSIZE PGBITS + PGSIZE PGBITS) = p * PGSIZE PGBITS + PGSIZE PGBITS :=
    wrap_of_lt _ (by omega)
  unfold setup_thread
  rw [if_neg (by omega), if_pos hpal, hsub, Nat.mul_div_cancel _ hP,
    setup_thread_loop_found env PGBITS _ { k with pallocs := k.pallocs + 1 } pd p hpd hp hfree
      hset d N (by omega) (by omega) (fun q h1 h2 => hmap q h1 (by omega)), hw]

theorem setup_thread_full (env : Env) (PGBITS N : Nat) (thread_id : Int) (k : Kernel)
    (pd : Nat → Option Bool) (hid : 0 < thread_id) (h1 : 1 ≤ N)
    (hN : N * PGSIZE PGBITS < 2 ^ 32) (hpd : k.pagedir = some pd)
    (hmap : ∀ q, 1 ≤ q → q < N → (pd q).isSome = true) :
    setup_thread env PGBITS (N * PGSIZE PGBITS) thread_id k =
      .done (false, { k with pallocs := k.pallocs + 1 }) := by
  have hP := PGSIZE_pos PGBITS
  obtain ⟨n, hn⟩ : ∃ n, N = n + 1 := ⟨N - 1, by omega⟩
  have e : N * PGSIZE PGBITS = n * PGSIZE PGBITS + PGSIZE PGBITS := by
    rw [hn]; ring
  have hsub : sub32 (N * PGSIZE PGBITS) (PGSIZE PGBITS) = n * PGSIZE PGBITS := by
    rw [sub32_of_le _ _ (by rw [e]; omega) hN, e]
    omega
  unfold setup_thread
  rw [if_neg (by omega), hsub, Nat.mul_div_cancel _ hP,
    setup_thread_loop_full env PGBITS _ { k with pallocs := k.pallocs + 1 } pd hpd n N
      (by omega) (by omega) (fun q h1 h2 => hmap q h1 (by omega))]

/-- C24: `setup_thread` on a page table, with `PHYS_BASE` a whole number `N` of
pages below `2 ^ 32`, a frame from `palloc_get_page` and a `pagedir_set_page`
that succeeds. When some page from page 1 up to the last page below `PHYS_BASE`
has no mapping, the routine returns true, the highest such page is mapped
writable and holds zero bytes, every other entry of the page table is as
before, and the stack pointer is the end of that page. When all these pages
are mapped it returns false and the page table is as before. Page 0 is never
mapped. -/
theorem setup_thread_highest_free (env : Env) (PGBITS N : Nat) (thread_id : Int) (k : Kernel)
    (pd : Nat → Option Bool) (hid : 0 < thread_id) (h1 : 1 ≤ N)
    (hN : N * PGSIZE PGBITS < 2 ^ 32) (hpd : k.pagedir = some pd)
    (hpal : env.palloc k.pallocs = true) (hset : env.set_page k.set_pages = true) :
    ((∃ a, 1 ≤ a ∧ a < N ∧ pd a = none) →
      ∃ p, 1 ≤ p ∧ p < N ∧ pd p = none ∧ (∀ q, p < q → q < N → (pd q).isSome = true) ∧
        setup_thread env PGBITS (N * PGSIZE PGBITS) thread_id k =
          .done (true,
            { k with pallocs := k.pallocs + 1,
                     pagedir := some (pagedir_set_page PGBITS pd (p * PGSIZE PGBITS) true),
                     mem := storeBytes k.mem (p * PGSIZE PGBITS)
                       (List.replicate (PGSIZE PGBITS) 0),
                     set_pages := k.set_pages + 1,
                     esp := some (p * PGSIZE PGBITS + PGSIZE PGBITS) }) ∧
        pagedir_set_page PGBITS pd (p * PGSIZE PGBITS) true p = some true ∧
        (∀ q, q ≠ p → pagedir_set_page PGBITS pd (p * PGSIZE PGBITS) true q = pd q) ∧
        loadBytes (storeBytes k.mem (p * PGSIZE PGBITS) (List.replicate (PGSIZE PGBITS) 0))
          (p * PGSIZE PGBITS) (PGSIZE PGBITS) = List.replicate (PGSIZE PGBITS) 0) ∧
    ((∀ q, 1 ≤ q → q < N → (pd q).isSome = true) →
      setup_thread env PGBITS (N * PGSIZE PGBITS) thread_id k =
        .done (false, { k with pallocs := k.pallocs + 1 })) := by
  have hP := PGSIZE_pos PGBITS
  constructor
  · rintro ⟨a, ha1, haN, hfree⟩
    have hspec := Nat.findGreatest_spec (P := fun q => 1 ≤ q ∧ pd q = none)
      (show a ≤ N - 1 by omega) ⟨ha1, hfree⟩
    have hle := Nat.findGreatest_le (P := fun q => 1 ≤ q ∧ pd q = none) (N - 1)
    have hgr : ∀ q, Nat.findGreatest (fun q => 1 ≤ q ∧ pd q = none) (N - 1) < q → q < N →
        (pd q).isSome = true := by
      intro q hq1 hq2
      have := Nat.findGreatest_is_greatest (P := fun q => 1 ≤ q ∧ pd q = none) hq1
        (show q ≤ N - 1 by omega)
      simp only [not_and] at this
      have hne := this (by omega)
      cases hpq : pd q with
      | none => exact absurd hpq hne
      | some b => rfl
    refine ⟨Nat.findGreatest (fun q => 1 ≤ q ∧ pd q = none) (N - 1), hspec.1, by omega,
      hspec.2, hgr, ?_, ?_, ?_, ?_⟩
    · exact setup_thread_found env PGBITS N thread_id k pd _ hid hN hpd hpal hset hspec.1
        (by omega) hspec.2 hgr
    · unfold pagedir_set_page
      rw [Nat.mul_div_cancel _ hP, if_pos rfl]
    · intro q hq
      unfold pagedir_set_page
      rw [Nat.mul_div_cancel _ hP, if_neg hq]
    · have hlen : (List.replicate (PGSIZE PGBITS) 0).length = PGSIZE PGBITS :=
        List.length_replicate _ _
      have := loadBytes_storeBytes (List.replicate (PGSIZE PGBITS) 0) k.mem
        (Nat.findGreatest (fun q => 1 ≤ q ∧ pd q = none) (N - 1) * PGSIZE PGBITS) (by
          rw [hlen]
          have : (Nat.findGreatest (fun q => 1 ≤ q ∧ pd q = none) (N - 1) + 1) * PGSIZE PGBITS
              ≤ N * PGSIZE PGBITS := Nat.mul_le_mul_right _ (by omega)
          rw [Nat.add_mul, Nat.one_mul] at this
          omega)
      rw [hlen] at this
      exact this
  · intro hmap
    exact setup_thread_full env PGBITS N thread_id k pd hid h1 hN hpd hmap

/-- C24 on the page table `samplePd`, where the topmost page of user space is
taken: the page below it is mapped and the stack pointer is its end,
`0xbffff000`. -/
theorem setup_thread_highest_free_witness :
    stack_top (setup_thread (sampleEnv []) 12 (786432 * PGSIZE 12) 1 sampleKernelPd)
      = some 3221221376 ∧
    (∃ p, 1 ≤ p ∧ p < 786432 ∧ samplePd p = none ∧
      (∀ q, p < q → q < 786432 → (samplePd q).isSome = true) ∧
      setup_thread (sampleEnv []) 12 (786432 * PGSIZE 12) 1 sampleKernelPd =
        .done (true,
          { sampleKernelPd with
            pallocs := sampleKernelPd.pallocs + 1,
            pagedir := some (pagedir_set_page 12 samplePd (p * PGSIZE 12) true),
            mem := storeBytes sampleKernelPd.mem (p * PGSIZE 12)
              (List.replicate (PGSIZE 12) 0),
            set_pages := sampleKernelPd.set_pages + 1,
            esp := some (p * PGSIZE 12 + PGSIZE 12) }) ∧
      pagedir_set_page 12 samplePd (p * PGSIZE 12) true p = some true ∧
      (∀ q, q ≠ p → pagedir_set_page 12 samplePd (p * PGSIZE 12) true q = samplePd q) ∧
      loadBytes (storeBytes sampleKernelPd.mem (p * PGSIZE 12) (List.replicate (PGSIZE 12) 0))
        (p * PGSIZE 12) (PGSIZE 12) = List.replicate (PGSIZE 12) 0) :=
  ⟨by
     rw [setup_thread_found (sampleEnv []) 12 786432 1 sampleKernelPd samplePd 786430
       (by decide) (by decide) rfl rfl rfl (by decide) (by decide) (by decide)
       (fun q h1 h2 => by
         have hq : q = 786431 := by omega
         rw [hq]
         decide)]
     decide,
   (setup_thread_highest_free (sampleEnv []) 12 786432 1 sampleKernelPd samplePd (by decide)
      (by decide) (by decide) rfl rfl rfl).1 ⟨786430, by decide, by decide, by decide⟩⟩

/-! ## start_pthread -/

theorem load32_store32_other (m : Mem) (a b v : Nat) (ha : a + 4 ≤ 2 ^ 32) (hb : b + 4 ≤ 2 ^ 32)
    (hd : b + 4 ≤ a ∨ a + 4 ≤ b) : load32 (store32 m a v) b = load32 m b := by
  apply load32_congr _ _ _ hb
  intro x h1 h2
  exact store32_frame m a v x ha (by omega)

theorem install_page_eip (env : Env) (PGBITS : Nat) (k : Kernel) (upage : Nat)
    (kpage : List Nat) (writable b : Bool) (k1 : Kernel)
    (h : install_page env PGBITS k upage kpage writable = .done (b, k1)) : k1.eip = k.eip := by
  unfold install_page at h
  repeat' split at h
  all_goals first
    | (cases h; rfl)
    | cases h

theorem setup_thread_loop_eip (env : Env) (PGBITS : Nat) (kpage : Option (List Nat)) :
    ∀ (fuel vaddr : Nat) (k : Kernel) (b : Bool) (k1 : Kernel),
      setup_thread_loop env PGBITS kpage fuel vaddr k = .done (b, k1) →
        k1.eip = k.eip ∧ ∀ T, k1.esp = some T → b = true → T < 2 ^ 32 := by
  intro fuel
  induction fuel with
  | zero =>
    intro vaddr k b k1 h
    cases kpage <;>
    · rw [setup_thread_loop] at h
      split at h
      · cases h
      · cases h
        exact ⟨rfl, fun _ _ hb => by cases hb⟩
  | succ fuel ih =>
    intro vaddr k b k1 h
    cases kpage with
    | none =>
      rw [setup_thread_loop] at h
      repeat' split at h
      all_goals first
        | exact ih _ _ _ _ h
        | (cases h; exact ⟨rfl, fun _ _ hb => by cases hb⟩)
        | cases h
    | some frame =>
      rw [setup_thread_loop] at h
      split at h
      · split at h
        · rename_i k2 heq
          cases h
          refine ⟨install_page_eip _ _ _ _ _ _ _ k2 heq, ?_⟩
          intro T hT _
          cases hT
          exact wrap_lt _
        · rename_i k2 heq
          have h2 := ih _ _ _ _ h
          rw [install_page_eip _ _ _ _ _ _ _ _ heq] at h2
          exact h2
        · cases h
        · cases h
        · cases h
      · cases h
        exact ⟨rfl, fun _ _ hb => by cases hb⟩

theorem setup_thread_eip (env : Env) (PGBITS PHYS_BASE : Nat) (thread_id : Int) (k : Kernel)
    (b : Bool) (k1 : Kernel) (h : setup_thread env PGBITS PHYS_BASE thread_id k = .done (b, k1)) :
    k1.eip = k.eip ∧ ∀ T, k1.esp = some T → b = true → T < 2 ^ 32 := by
  unfold setup_thread at h
  split at h
  · cases h
  · exact setup_thread_loop_eip _ _ _ _ _ { k with pallocs := k.pallocs + 1 } _ _ h

theorem start_pthread_run (env : Env) (PGBITS PHYS_BASE : Nat) (tid : Int)
    (args : start_pthread_args) (threads : List process_thread) (k k1 : Kernel) (T : Nat)
    (hs : setup_thread env PGBITS PHYS_BASE ((threads.length : Int) + 1)
      { k with eip := some args.sf } = .done (true, k1))
    (hesp : k1.esp = some T) (h20 : 20 ≤ T) :
    start_pthread env PGBITS PHYS_BASE tid true args threads k =
      .done { args := { args with setup_failed := some false,
                                  process_thread_setup_wait :=
                                    sema_up args.process_thread_setup_wait },
              process_threads :=
                threads ++ [{ tid := tid, thread_exited := false, thread_waiter := none,
                              exit_wait := 0 }],
              k := { k1 with
                mem :=
                  store32
                    (store32
                      (store32 (store32 (store32 k1.mem (T - 4) 0) (T - 8) 0) (T - 12) args.arg)
                      (T - 16) args.tf)
                    (T - 20) 0,
                esp := some (T - 20) },
              process_thread_id := some ((threads.length : Int) + 1),
              user_mode := true } := by
  have hT : T < 2 ^ 32 := (setup_thread_eip _ _ _ _ _ _ _ hs).2 T hesp rfl
  have e1 : sub32 T 4 = T - 4 := sub32_of_le _ _ (by omega) hT
  have e2 : sub32 (T - 4) 4 = T - 8 := by
    rw [sub32_of_le _ _ (by omega) (by omega)]; omega
  have e3 : sub32 (T - 8) 4 = T - 12 := by
    rw [sub32_of_le _ _ (by omega) (by omega)]; omega
  have e4 : sub32 (T - 12) 4 = T - 16 := by
    rw [sub32_of_le _ _ (by omega) (by omega)]; omega
  have e5 : sub32 (T - 16) 4 = T - 20 := by
    rw [sub32_of_le _ _ (by omega) (by omega)]; omega
  unfold start_pthread
  rw [if_neg (by simp), hs]
  simp only [hesp, e1, e2, e3, e4, e5]

/-- C25: when `setup_thread` returned true with the page-aligned stack top `T`,
`start_pthread` goes on to user mode and reports success; the instruction
pointer is the stub `sf`, the stack pointer is `T - 20`, the words at `esp`,
`esp + 4`, `esp + 8`, `esp + 12` and `esp + 16` are 0, `tf`, `arg`, 0 and 0, the
five words lie in the page `[T - PGSIZE, T)`, and `esp + 4` is a multiple of
16. -/
theorem start_pthread_stack (env : Env) (PGBITS PHYS_BASE : Nat) (tid : Int)
    (args : start_pthread_args) (threads : List process_thread) (k k1 : Kernel) (T : Nat)
    (hs : setup_thread env PGBITS PHYS_BASE ((threads.length : Int) + 1)
      { k with eip := some args.sf } = .done (true, k1))
    (hesp : k1.esp = some T) (hal : T % PGSIZE PGBITS = 0) (hpos : 0 < T)
    (hpg : 5 ≤ PGBITS) (htf : args.tf < 2 ^ 32) (harg : args.arg < 2 ^ 32) :
    ∃ s esp, start_pthread env PGBITS PHYS_BASE tid true args threads k = .done s ∧
      s.user_mode = true ∧ s.args.setup_failed = some false ∧
      s.k.eip = some args.sf ∧ s.k.esp = some esp ∧ esp + 20 = T ∧
      load32 s.k.mem esp = 0 ∧ load32 s.k.mem (esp + 4) = args.tf ∧
      load32 s.k.mem (esp + 8) = args.arg ∧ load32 s.k.mem (esp + 12) = 0 ∧
      load32 s.k.mem (esp + 16) = 0 ∧
      T - PGSIZE PGBITS ≤ esp ∧ esp + 16 + 4 ≤ T ∧ (esp + 4) % 16 = 0 := by
  have hT : T < 2 ^ 32 := (setup_thread_eip _ _ _ _ _ _ _ hs).2 T hesp rfl
  have heip : k1.eip = some args.sf := (setup_thread_eip _ _ _ _ _ _ _ hs).1
  obtain ⟨c, hc⟩ : ∃ c, PGBITS = c + 5 := ⟨PGBITS - 5, by omega⟩
  have hP : PGSIZE PGBITS = 32 * 2 ^ c := by
    unfold PGSIZE
    rw [hc, pow_add]
    ring
  have hc1 : 0 < 2 ^ c := Nat.two_pow_pos c
  obtain ⟨j, hj⟩ : ∃ j, T = 32 * 2 ^ c * j := by
    rw [hP] at hal
    exact ⟨T / (32 * 2 ^ c), (Nat.mul_div_cancel' (Nat.dvd_of_mod_eq_zero hal)).symm⟩
  have hj1 : 1 ≤ j := by
    rcases Nat.eq_zero_or_pos j with h0 | h0
    · rw [h0] at hj
      omega
    · exact h0
  have hPT : PGSIZE PGBITS ≤ T := by
    rw [hP, hj]
    exact Nat.le_mul_of_pos_right _ hj1
  have h32 : 32 ≤ PGSIZE PGBITS := by
    rw [hP]
    omega
  have h16 : T % 16 = 0 := by
    rw [hj, Nat.mul_assoc]
    omega
  have h20 : 20 ≤ T := by omega
  refine ⟨_, T - 20, start_pthread_run env PGBITS PHYS_BASE tid args threads k k1 T hs hesp h20,
    rfl, rfl, heip, rfl, by omega, ?_, ?_, ?_, ?_, ?_, by omega, by omega, by omega⟩
  · exact load32_store32 _ _ _ (by omega) (by norm_num)
  · have e : T - 20 + 4 = T - 16 := by omega
    rw [e]
    show load32 (store32 (store32 _ (T - 16) args.tf) (T - 20) 0) (T - 16) = args.tf
    rw [load32_store32_other _ _ _ _ (by omega) (by omega) (by omega)]
    exact load32_store32 _ _ _ (by omega) htf
  · have e : T - 20 + 8 = T - 12 := by omega
    rw [e]
    show load32 (store32 (store32 (store32 _ (T - 12) args.arg) (T - 16) args.tf) (T - 20) 0)
      (T - 12) = args.arg
    rw [load32_store32_other _ _ _ _ (by omega) (by omega) (by omega),
      load32_store32_other _ _ _ _ (by omega) (by omega) (by omega)]
    exact load32_store32 _ _ _ (by omega) harg
  · have e : T - 20 + 12 = T - 8 := by omega
    rw [e]
    show load32 (store32 (store32 (store32 (store32 _ (T - 8) 0) (T - 12) args.arg) (T - 16)
      args.tf) (T - 20) 0) (T - 8) = 0
    rw [load32_store32_other _ _ _ _ (by omega) (by omega) (by omega),
      load32_store32_other _ _ _ _ (by omega) (by omega) (by omega),
      load32_store32_other _ _ _ _ (by omega) (by omega) (by omega)]
    exact load32_store32 _ _ _ (by omega) (by norm_num)
  · have e : T - 20 + 16 = T - 4 := by omega
    rw [e]
    show load32 (store32 (store32 (store32 (store32 (store32 k1.mem (T - 4) 0) (T - 8) 0)
      (T - 12) args.arg) (T - 16) args.tf) (T - 20) 0) (T - 4) = 0
    rw [load32_store32_other _ _ _ _ (by omega) (by omega) (by omega),
      load32_store32_other _ _ _ _ (by omega) (by omega) (by omega),
      load32_store32_other _ _ _ _ (by omega) (by omega) (by omega),
      load32_store32_other _ _ _ _ (by omega) (by omega) (by omega)]
    exact load32_store32 _ _ _ (by omega) (by norm_num)

theorem start_pthread_stack_witness :
    ∃ s esp, start_pthread (sampleEnv []) 12 (786432 * PGSIZE 12) 5 true sampleArgs []
        sampleKernelPd = .done s ∧
      s.user_mode = true ∧ s.args.setup_failed = some false ∧
      s.k.eip = some sampleArgs.sf ∧ s.k.esp = some esp ∧
      esp + 20 = 786430 * PGSIZE 12 + PGSIZE 12 ∧
      load32 s.k.mem esp = 0 ∧ load32 s.k.mem (esp + 4) = sampleArgs.tf ∧
      load32 s.k.mem (esp + 8) = sampleArgs.arg ∧ load32 s.k.mem (esp + 12) = 0 ∧
      load32 s.k.mem (esp + 16) = 0 ∧
      786430 * PGSIZE 12 + PGSIZE 12 - PGSIZE 12 ≤ esp ∧
      esp + 16 + 4 ≤ 786430 * PGSIZE 12 + PGSIZE 12 ∧ (esp + 4) % 16 = 0 :=
  start_pthread_stack (sampleEnv []) 12 (786432 * PGSIZE 12) 5 sampleArgs [] sampleKernelPd _
    (786430 * PGSIZE 12 + PGSIZE 12)
    (setup_thread_found (sampleEnv []) 12 786432 _ { sampleKernelPd with eip := some sampleArgs.sf }
      samplePd 786430
      (by decide) (by decide) rfl rfl rfl (by decide) (by decide) (by decide)
      (fun q h1 h2 => by
        have hq : q = 786431 := by omega
        rw [hq]
        decide))
    rfl (by decide) (by decide) (by decide) (by decide) (by decide)

/-! ## The order of process_exit -/

theorem events_close_files (p : process) (l : List file_desc_entry) :
    ((close_files p l).map (fun s => (s.1, some s.2))).map Prod.fst =
      (l.map (fun f => [ExitEvent.file_close f, ExitEvent.free_file_desc_entry f])).flatten := by
  induction l with
  | nil => rfl
  | cons f rest ih =>
    simp only [close_files, List.map_cons, List.flatten_cons, List.cons_append, List.nil_append,
      ih]

theorem events_free_user_locks (p : process) (l : List user_lock_entry) :
    ((free_user_locks p l).map (fun s => (s.1, some s.2))).map Prod.fst =
      l.map ExitEvent.free_user_lock := by
  induction l with
  | nil => rfl
  | cons f rest ih => simp only [free_user_locks, List.map_cons, ih]

theorem events_free_user_semaphores (p : process) (l : List user_sema_entry) :
    ((free_user_semaphores p l).map (fun s => (s.1, some s.2))).map Prod.fst =
      l.map ExitEvent.free_user_sema := by
  induction l with
  | nil => rfl
  | cons f rest ih => simp only [free_user_semaphores, List.map_cons, ih]

theorem events_free_process_threads (p : process) (l : List process_thread) :
    ((free_process_threads p l).map (fun s => (s.1, some s.2))).map Prod.fst =
      l.map ExitEvent.free_process_thread := by
  induction l with
  | nil => rfl
  | cons f rest ih => simp only [free_process_threads, List.map_cons, ih]

theorem process_exit_events (p : process) :
    exit_events (process_exit (some p)) =
      .file_close_exec ::
        ((p.file_desc_entry_list.map
            (fun f => [ExitEvent.file_close f, ExitEvent.free_file_desc_entry f])).flatten ++
         (p.user_locks.map ExitEvent.free_user_lock ++
         (p.user_semaphores.map ExitEvent.free_user_sema ++
         ((if p.pagedir.isSome = true then
             [.set_pagedir_null, .pagedir_activate_null, .pagedir_destroy] else []) ++
         (p.process_threads.map ExitEvent.free_process_thread ++
          [.set_pcb_null, .free_pcb, .thread_exit]))))) := by
  unfold exit_events process_exit process_exit_steps
  simp only [List.map_cons, List.map_append, List.map_nil]
  rw [events_close_files, events_free_user_locks, events_free_user_semaphores,
    events_free_process_threads]
  cases p.pagedir <;> simp

theorem in_order_append (ph : ExitEvent → Nat) (a b c d : Nat) (l1 l2 : List ExitEvent)
    (h1 : in_order ph l1 ∧ ∀ x ∈ l1, a ≤ ph x ∧ ph x ≤ b)
    (h2 : in_order ph l2 ∧ ∀ x ∈ l2, c ≤ ph x ∧ ph x ≤ d)
    (hab : a ≤ b) (hbc : b ≤ c) (hcd : c ≤ d) :
    in_order ph (l1 ++ l2) ∧ ∀ x ∈ l1 ++ l2, a ≤ ph x ∧ ph x ≤ d := by
  constructor
  · unfold in_order
    rw [List.pairwise_append]
    refine ⟨h1.1, h2.1, ?_⟩
    intro x hx y hy
    have := (h1.2 x hx).2
    have := (h2.2 y hy).1
    omega
  · intro x hx
    rcases List.mem_append.1 hx with h | h
    · have := h1.2 x h
      omega
    · have := h2.2 x h
      omega

theorem in_order_const (ph : ExitEvent → Nat) (c : Nat) (l : List ExitEvent)
    (h : ∀ x ∈ l, ph x = c) : in_order ph l ∧ ∀ x ∈ l, c ≤ ph x ∧ ph x ≤ c := by
  constructor
  · unfold in_order
    apply List.pairwise_of_forall_mem_list
    intro x hx y hy
    rw [h x hx, h y hy]
  · intro x hx
    rw [h x hx]
    exact ⟨le_refl _, le_refl _⟩

theorem process_exit_in_order (p : process) :
    in_order exit_phase (exit_events (process_exit (some p))) := by
  rw [process_exit_events]
  have h0 := in_order_const exit_phase 0 [.file_close_exec] (by simp [exit_phase])
  have h1 := in_order_const exit_phase 1
    (p.file_desc_entry_list.map
      (fun f => [ExitEvent.file_close f, ExitEvent.free_file_desc_entry f])).flatten (by
        intro x hx
        simp only [List.mem_flatten, List.mem_map] at hx
        obtain ⟨l, ⟨f, _, hl⟩, hx⟩ := hx
        rw [← hl] at hx
        simp only [List.mem_cons, List.mem_singleton, List.mem_nil_iff, or_false] at hx
        rcases hx with h | h <;> rw [h] <;> rfl)
  have h2 := in_order_const exit_phase 2 (p.user_locks.map ExitEvent.free_user_lock) (by
    intro x hx
    obtain ⟨e, _, he⟩ := List.mem_map.1 hx
    rw [← he]
    rfl)
  have h3 := in_order_const exit_phase 3 (p.user_semaphores.map ExitEvent.free_user_sema) (by
    intro x hx
    obtain ⟨e, _, he⟩ := List.mem_map.1 hx
    rw [← he]
    rfl)
  have h4 : in_order exit_phase (if p.pagedir.isSome = true then
      [.set_pagedir_null, .pagedir_activate_null, .pagedir_destroy] else []) ∧
      ∀ x ∈ (if p.pagedir.isSome = true then
        [ExitEvent.set_pagedir_null, .pagedir_activate_null, .pagedir_destroy] else []),
        4 ≤ exit_phase x ∧ exit_phase x ≤ 6 := by
    split
    · simp [in_order, exit_phase]
    · simp [in_order]
  have h7 := in_order_const exit_phase 7
    (p.process_threads.map ExitEvent.free_process_thread) (by
      intro x hx
      obtain ⟨e, _, he⟩ := List.mem_map.1 hx
      rw [← he]
      rfl)
  have h8 : in_order exit_phase [.set_pcb_null, .free_pcb, .thread_exit] ∧
      ∀ x ∈ [ExitEvent.set_pcb_null, .free_pcb, .thread_exit],
        8 ≤ exit_phase x ∧ exit_phase x ≤ 10 := by
    simp [in_order, exit_phase]
  have a7 := in_order_append _ _ _ _ _ _ _ h7 h8 (by decide) (by decide) (by decide)
  have a4 := in_order_append _ _ _ _ _ _ _ h4 a7 (by decide) (by decide) (by decide)
  have a3 := in_order_append _ _ _ _ _ _ _ h3 a4 (by decide) (by decide) (by decide)
  have a2 := in_order_append _ _ _ _ _ _ _ h2 a3 (by decide) (by decide) (by decide)
  have a1 := in_order_append _ _ _ _ _ _ _ h1 a2 (by decide) (by decide) (by decide)
  exact (in_order_append _ _ _ _ _ _ _ h0 a1 (by decide) (by decide) (by decide)).1

/-- C26: the calls and assignments of `process_exit` on a thread with a process
block are, in this order: the executable is closed; for each entry of the file
descriptor table its file is closed and the entry freed; the records of the
user locks are freed; the records of the user semaphores are freed; if the
process has a page table, its pointer is set to null, the kernel table is
activated and the table is destroyed; the records of the secondary threads are
freed; the pointer of the thread is set to null, the process block is freed and
`thread_exit` is called. -/
theorem process_exit_order (p : process) :
    exit_events (process_exit (some p)) =
      .file_close_exec ::
        ((p.file_desc_entry_list.map
            (fun f => [ExitEvent.file_close f, ExitEvent.free_file_desc_entry f])).flatten ++
         (p.user_locks.map ExitEvent.free_user_lock ++
         (p.user_semaphores.map ExitEvent.free_user_sema ++
         ((if p.pagedir.isSome = true then
             [.set_pagedir_null, .pagedir_activate_null, .pagedir_destroy] else []) ++
         (p.process_threads.map ExitEvent.free_process_thread ++
          [.set_pcb_null, .free_pcb, .thread_exit]))))) ∧
    in_order exit_phase (exit_events (process_exit (some p))) :=
  ⟨process_exit_events p, process_exit_in_order p⟩

theorem process_exit_order_stated_fails :
    exit_events (process_exit (some sampleProcessThread)) =
      [.file_close_exec, .set_pagedir_null, .pagedir_activate_null, .pagedir_destroy,
       .free_process_thread { tid := 4, thread_exited := false, thread_waiter := none,
                              exit_wait := 0 },
       .set_pcb_null, .free_pcb, .thread_exit] ∧
    ¬ in_order stated_phase (exit_events (process_exit (some sampleProcessThread))) := by
  constructor
  · decide
  · unfold in_order
    decide

/-! ## process_activate during process_exit -/

/-- C28: the count that `parse_cmd` reports is not the number of tokens it
stores when the command line is empty, holds only spaces or starts with a
space: for `" a"` it reports two arguments, stores the one token `a` and leaves
entry 1 unassigned; for `""` and `"  "` it reports one argument and stores
none, so entry 0 is unassigned. Spaces at the end and runs of spaces between
tokens are counted right: `"a  "` gives one argument and `"a  b"` two, every
entry below `argc` a token and entry `argc` null. -/
theorem parse_cmd_argc_mismatch :
    parse_cmd (fun _ => true) (bytes " a") =
      .done { argv := [.str (bytes "a"), .uninit, .null], num_args := 2, num_bytes := 2 } ∧
    parse_cmd (fun _ => true) (bytes "") =
      .done { argv := [.uninit, .null], num_args := 1, num_bytes := 0 } ∧
    parse_cmd (fun _ => true) (bytes "  ") =
      .done { argv := [.uninit, .null], num_args := 1, num_bytes := 0 } ∧
    parse_cmd (fun _ => true) (bytes "a  ") =
      .done { argv := [.str (bytes "a"), .null], num_args := 1, num_bytes := 2 } ∧
    parse_cmd (fun _ => true) (bytes "a  b") =
      .done { argv := [.str (bytes "a"), .str (bytes "b"), .null], num_args := 2,
              num_bytes := 4 } := by
  decide

/-! ## The stack image and the stack page -/

theorem stack_page_of (P B x : Nat) (hP : 0 < P) (hal : B % P = 0) (hB : P ≤ B)
    (h1 : B - P ≤ x) (h2 : x < B) : x / P = (B - P) / P := by
  obtain ⟨N, hN⟩ := Nat.dvd_of_mod_eq_zero hal
  have hN1 : 1 ≤ N := by
    rcases Nat.eq_zero_or_pos N with h0 | h0
    · rw [h0, Nat.mul_zero] at hN
      omega
    · exact h0
  obtain ⟨M, hM⟩ : ∃ M, N = M + 1 := ⟨N - 1, by omega⟩
  have e : B = M * P + P := by
    rw [hN, hM]
    ring
  have e1 : B - P = M * P := by omega
  rw [e1, Nat.mul_div_cancel _ hP]
  apply Nat.div_eq_of_lt_le
  · omega
  · have : (M + 1) * P = M * P + P := by ring
    omega

theorem setup_stack_run (env : Env) (PGBITS PHYS_BASE argc : Nat) (argv : List Slot)
    (total_bytes : Nat) (k : Kernel) (pd : Nat → Option Bool)
    (hpal : env.palloc k.pallocs = true) (hset : env.set_page k.set_pages = true)
    (hpd : k.pagedir = some pd)
    (hfree : pd (sub32 PHYS_BASE (PGSIZE PGBITS) / PGSIZE PGBITS) = none) :
    setup_stack env PGBITS PHYS_BASE argc argv total_bytes k =
      match push_args PGBITS
          (pagedir_set_page PGBITS pd (sub32 PHYS_BASE (PGSIZE PGBITS)) true)
          PHYS_BASE argc argv total_bytes
          (storeBytes k.mem (sub32 PHYS_BASE (PGSIZE PGBITS))
            (List.replicate (PGSIZE PGBITS) 0)) with
      | .done (m, init_esp) =>
        .done (true,
          { k with pallocs := k.pallocs + 1,
                   pagedir := some
                     (pagedir_set_page PGBITS pd (sub32 PHYS_BASE (PGSIZE PGBITS)) true),
                   set_pages := k.set_pages + 1, mem := m, esp := some init_esp })
      | .null => .null
      | .fault => .fault
      | .fuel => .fuel := by
  unfold setup_stack install_page
  simp only [hpal, hset, hpd, pagedir_get_page, hfree, Option.isSome_none, Bool.true_eq_false,
    if_false, if_true]

theorem parse_cmd_vector (heap : Nat → Bool) (toks : List (List Nat))
    (hne : toks ≠ []) (htok : ∀ t ∈ toks, IsToken t)
    (hheap : ∀ k, k ≤ toks.length → heap k = true) :
    parse_cmd heap (List.intercalate [SPACE] toks) =
      .done { argv := toks.map Slot.str ++ [Slot.null], num_args := toks.length,
              num_bytes := strBytes toks } := by
  have hnz : ∀ t ∈ toks, ∀ c ∈ t, c ≠ 0 := fun t ht c hc => ((htok t ht).2 c hc).2
  rw [← joinSp_eq_intercalate, strBytes_nz toks hnz]
  exact parse_cmd_joinSp heap toks hne htok hheap

theorem isToken_replicate (k : Nat) (hk : 0 < k) : IsToken (List.replicate k 97) := by
  constructor
  · intro h
    have := congrArg List.length h
    rw [List.length_replicate] at this
    simp only [List.length_nil] at this
    omega
  · intro c hc
    rw [List.mem_replicate] at hc
    rw [hc.2]
    decide

theorem parse_cmd_long_token (k : Nat) (hk : 0 < k) :
    parse_cmd (fun _ => true) (List.replicate k 97) =
      .done { argv := [.str (List.replicate k 97), .null], num_args := 1,
              num_bytes := k + 1 } := by
  have h := parse_cmd_joinSp (fun _ => true) [List.replicate k 97] (List.cons_ne_nil _ _)
    (fun t ht => by
      rw [List.mem_singleton] at ht
      rw [ht]
      exact isToken_replicate k hk)
    (fun _ _ => rfl)
  simp only [joinSp, List.map_cons, List.map_nil, List.cons_append, List.nil_append,
    List.length_cons, List.length_nil, List.length_replicate, List.sum_cons, List.sum_nil,
    Nat.zero_add, Nat.add_zero] at h
  exact h

theorem setup_stack_in_page_ok (env : Env) (PGBITS PHYS_BASE : Nat) (toks : List (List Nat))
    (k : Kernel) (pd : Nat → Option Bool)
    (hne : toks ≠ []) (htok : ∀ t ∈ toks, IsToken t)
    (hheap : ∀ i, i ≤ toks.length → env.malloc i = true)
    (hB : PHYS_BASE < 2 ^ 32) (hal : PHYS_BASE % PGSIZE PGBITS = 0)
    (hpage : PGSIZE PGBITS ≤ PHYS_BASE)
    (hpal : env.palloc k.pallocs = true) (hset : env.set_page k.set_pages = true)
    (hpd : k.pagedir = some pd)
    (hfree : pd ((PHYS_BASE - PGSIZE PGBITS) / PGSIZE PGBITS) = none)
    (hsize : strBytes toks + (toks.length + 1) * 4 + 4 + 4 + 15 + 4 ≤ PGSIZE PGBITS) :
    ∃ p k1 esp, parse_cmd env.malloc (List.intercalate [SPACE] toks) = .done p ∧
      setup_stack env PGBITS PHYS_BASE p.num_args p.argv p.num_bytes k = .done (true, k1) ∧
      k1.esp = some esp ∧
      PHYS_BASE - PGSIZE PGBITS ≤ esp ∧ esp + 4 + 4 ≤ PHYS_BASE ∧
      load32 k1.mem (esp + 4) = toks.length ∧
      (∀ x, (x < PHYS_BASE - PGSIZE PGBITS ∨ PHYS_BASE ≤ x) → k1.mem x = k.mem x) ∧
      k1.pagedir = some (pagedir_set_page PGBITS pd (PHYS_BASE - PGSIZE PGBITS) true) := by
  have hP := PGSIZE_pos PGBITS
  have hs : sub32 PHYS_BASE (PGSIZE PGBITS) = PHYS_BASE - PGSIZE PGBITS :=
    sub32_of_le _ _ hpage hB
  have hA : argc_addr PHYS_BASE toks.length (strBytes toks) =
      (PHYS_BASE - (strBytes toks + (toks.length + 1) * 4 + 4 + 4)) -
        (PHYS_BASE - (strBytes toks + (toks.length + 1) * 4 + 4 + 4)) % 16 := rfl
  have hmapped : ∀ x, PHYS_BASE - PGSIZE PGBITS ≤ x → x < PHYS_BASE →
      pagedir_set_page PGBITS pd (PHYS_BASE - PGSIZE PGBITS) true (x / PGSIZE PGBITS) =
        some true := by
    intro x h1 h2
    unfold pagedir_set_page
    rw [if_pos (stack_page_of _ _ _ hP hal hpage h1 h2)]
  obtain ⟨m1, hrun, _, hargc, _, _, _, hframe, _, _⟩ :=
    push_args_spec PGBITS (pagedir_set_page PGBITS pd (PHYS_BASE - PGSIZE PGBITS) true)
      PHYS_BASE (toks.map Slot.str ++ [Slot.null]) toks (strBytes toks)
      (storeBytes k.mem (PHYS_BASE - PGSIZE PGBITS) (List.replicate (PGSIZE PGBITS) 0)) hB
      (getElem?_map_append toks [Slot.null]) (le_refl _) (by omega) (by omega)
      (fun x hx => hmapped x (by omega) (by omega))
  refine ⟨_,
    { k with pallocs := k.pallocs + 1,
             pagedir := some (pagedir_set_page PGBITS pd (PHYS_BASE - PGSIZE PGBITS) true),
             set_pages := k.set_pages + 1, mem := m1,
             esp := some (argc_addr PHYS_BASE toks.length (strBytes toks) - 4) },
    argc_addr PHYS_BASE toks.length (strBytes toks) - 4,
    parse_cmd_vector env.malloc toks hne htok hheap, ?_, rfl, by omega, by omega, ?_, ?_, rfl⟩
  · rw [setup_stack_run env PGBITS PHYS_BASE _ _ _ k pd hpal hset hpd (by rw [hs]; exact hfree),
      hs]
    simp only [hrun]
  · show load32 m1 (argc_addr PHYS_BASE toks.length (strBytes toks) - 4 + 4) = toks.length
    rw [show argc_addr PHYS_BASE toks.length (strBytes toks) - 4 + 4 =
      argc_addr PHYS_BASE toks.length (strBytes toks) by omega]
    exact hargc
  · intro x hx
    show m1 x = k.mem x
    rw [hframe x (by omega)]
    exact storeBytes_frame _ _ _ _ (by rw [List.length_replicate]; omega)
      (by rw [List.length_replicate]; omega)

/-- The command line `/bin/ls -l foo bar` on an empty page table: `setup_stack`
maps the page below `0xc0000000` and the stack pointer `0xbfffffcc` lies in
it. -/
theorem setup_stack_in_page_ok_example :
    ∃ p k1 esp,
      parse_cmd (sampleEnv []).malloc
        (List.intercalate [SPACE] [bytes "/bin/ls", bytes "-l", bytes "foo", bytes "bar"]) =
          .done p ∧
      setup_stack (sampleEnv []) 12 3221225472 p.num_args p.argv p.num_bytes
        sampleKernelEmpty = .done (true, k1) ∧
      k1.esp = some esp ∧
      3221225472 - PGSIZE 12 ≤ esp ∧ esp + 4 + 4 ≤ 3221225472 ∧
      load32 k1.mem (esp + 4) = [bytes "/bin/ls", bytes "-l", bytes "foo", bytes "bar"].length ∧
      (∀ x, (x < 3221225472 - PGSIZE 12 ∨ 3221225472 ≤ x) →
        k1.mem x = sampleKernelEmpty.mem x) ∧
      k1.pagedir = some (pagedir_set_page 12 (fun _ => none) (3221225472 - PGSIZE 12) true) :=
  setup_stack_in_page_ok (sampleEnv []) 12 3221225472
    [bytes "/bin/ls", bytes "-l", bytes "foo", bytes "bar"] sampleKernelEmpty (fun _ => none)
    (by simp) (by decide) (fun _ _ => rfl) (by decide) (by decide) (by decide) rfl rfl rfl rfl
    (by decide)

/-- C29: the command line of 4090 letters `a`, shorter than a page of 4096
bytes, is one token; `parse_cmd` reports one argument and 4091 bytes, and
`setup_stack`, on an empty page table below `0xc0000000`, maps the one page
from `0xbffff000` and then faults in `push_args`, which has to store `argc` at
`0xbfffeff0`, below that page: no stack pointer is returned. For a command
line of tokens joined by single spaces whose strings with their terminators and
`argc + 1` pointers take at most `PGSIZE - 27` bytes (8 bytes for `argv` and
`argc`, at most 15 of padding, 4 for the return address), while every `malloc`,
the page allocation and the mapping succeed and the stack page is free,
`setup_stack` returns true with the stack pointer in the page
`[PHYS_BASE - PGSIZE, PHYS_BASE)` that it mapped, `argc` stored just above the
stack pointer, and no byte outside that page changed. -/
theorem push_args_in_page :
    ((List.replicate 4090 97).length < PGSIZE 12 ∧
      parse_cmd (fun _ => true) (List.replicate 4090 97) =
        .done { argv := [.str (List.replicate 4090 97), .null], num_args := 1,
                num_bytes := 4091 } ∧
      argc_addr 3221225472 1 4091 = 3221221360 ∧
      3221221360 + 4 ≤ 3221225472 - PGSIZE 12 ∧
      setup_stack (sampleEnv []) 12 3221225472 1 [.str (List.replicate 4090 97), .null] 4091
        sampleKernelEmpty = .fault) ∧
    ∀ (env : Env) (PGBITS PHYS_BASE : Nat) (toks : List (List Nat)) (k : Kernel)
      (pd : Nat → Option Bool),
      toks ≠ [] → (∀ t ∈ toks, IsToken t) →
      (∀ i, i ≤ toks.length → env.malloc i = true) →
      PHYS_BASE < 2 ^ 32 → PHYS_BASE % PGSIZE PGBITS = 0 → PGSIZE PGBITS ≤ PHYS_BASE →
      env.palloc k.pallocs = true → env.set_page k.set_pages = true →
      k.pagedir = some pd → pd ((PHYS_BASE - PGSIZE PGBITS) / PGSIZE PGBITS) = none →
      strBytes toks + (toks.length + 1) * 4 + 4 + 4 + 15 + 4 ≤ PGSIZE PGBITS →
      ∃ p k1 esp, parse_cmd env.malloc (List.intercalate [SPACE] toks) = .done p ∧
        setup_stack env PGBITS PHYS_BASE p.num_args p.argv p.num_bytes k = .done (true, k1) ∧
        k1.esp = some esp ∧
        PHYS_BASE - PGSIZE PGBITS ≤ esp ∧ esp + 4 + 4 ≤ PHYS_BASE ∧
        load32 k1.mem (esp + 4) = toks.length ∧
        (∀ x, (x < PHYS_BASE - PGSIZE PGBITS ∨ PHYS_BASE ≤ x) → k1.mem x = k.mem x) ∧
        k1.pagedir = some (pagedir_set_page PGBITS pd (PHYS_BASE - PGSIZE PGBITS) true) :=
  ⟨⟨by rw [List.length_replicate]; decide, parse_cmd_long_token 4090 (by decide), by decide,
      by decide, rfl⟩,
    setup_stack_in_page_ok⟩

/-! ## The pages of a segment -/

theorem aligned_le (P a b : Nat) (ha : a % P = 0) (hb : b % P = 0) (h : a < b + P) :
    a ≤ b := by
  obtain ⟨c, hc⟩ := Nat.dvd_of_mod_eq_zero ha
  obtain ⟨d, hd⟩ := Nat.dvd_of_mod_eq_zero hb
  rw [hc, hd] at h ⊢
  apply Nat.mul_le_mul_left
  by_contra hcd
  have h1 : P * (d + 1) ≤ P * c := Nat.mul_le_mul_left P (by omega)
  rw [Nat.mul_add, Nat.mul_one] at h1
  omega

theorem install_page_pagedir (env : Env) (PGBITS : Nat) (k : Kernel) (upage : Nat)
    (kpage : List Nat) (writable b : Bool) (k1 : Kernel) (pd : Nat → Option Bool)
    (h : install_page env PGBITS k upage kpage writable = .done (b, k1))
    (hpd : k.pagedir = some pd) :
    ∃ pd1, k1.pagedir = some pd1 ∧ ∀ q, q ≠ upage / PGSIZE PGBITS → pd1 q = pd q := by
  unfold install_page at h
  split at h
  · cases h
  · rename_i pd0 hpd0
    rw [hpd] at hpd0
    cases hpd0
    split at h
    · split at h
      · cases h
        exact ⟨_, rfl, fun q hq => by simp only [pagedir_set_page, if_neg hq]⟩
      · cases h
        exact ⟨pd, hpd, fun _ _ => rfl⟩
    · cases h
      exact ⟨pd, hpd, fun _ _ => rfl⟩

theorem load_segment_loop_frame (env : Env) (PGBITS : Nat) :
    ∀ (fuel : Nat) (file : File) (upage rb zb : Nat) (w : Bool) (k : Kernel)
      (pd : Nat → Option Bool) (b : Bool) (file1 : File) (k1 : Kernel),
      k.pagedir = some pd → (rb + zb) % PGSIZE PGBITS = 0 → upage + rb + zb < 2 ^ 32 →
      load_segment_loop env PGBITS fuel file upage rb zb w k = .done (b, file1, k1) →
      ∃ pd1, k1.pagedir = some pd1 ∧
        ∀ q, (q < upage / PGSIZE PGBITS ∨ (upage + rb + zb) / PGSIZE PGBITS ≤ q) →
          pd1 q = pd q := by
  intro fuel
  induction fuel with
  | zero =>
    intro file upage rb zb w k pd b file1 k1 hpd _ _ h
    unfold load_segment_loop at h
    split at h
    · cases h
    · cases h
      exact ⟨pd, hpd, fun _ _ => rfl⟩
  | succ fuel ih =>
    intro file upage rb zb w k pd b file1 k1 hpd hmod hlt h
    have hP := PGSIZE_pos PGBITS
    simp only [load_segment_loop] at h
    generalize hprb : (if rb < PGSIZE PGBITS then rb else PGSIZE PGBITS) = prb at h
    split at h
    · rename_i hc
      have hge : PGSIZE PGBITS ≤ rb + zb :=
        Nat.le_of_dvd (by omega) (Nat.dvd_of_mod_eq_zero hmod)
      have h1 : prb ≤ rb ∧ prb ≤ PGSIZE PGBITS ∧ PGSIZE PGBITS - prb ≤ zb := by
        rw [← hprb]
        split <;> omega
      have hdiv : (upage + PGSIZE PGBITS) / PGSIZE PGBITS = upage / PGSIZE PGBITS + 1 :=
        Nat.add_div_right _ hP
      have hmono : (upage + PGSIZE PGBITS) / PGSIZE PGBITS ≤
          (upage + rb + zb) / PGSIZE PGBITS :=
        Nat.div_le_div_right (by omega)
      split at h
      · cases h
        exact ⟨pd, hpd, fun _ _ => rfl⟩
      · split at h
        · cases h
          exact ⟨pd, hpd, fun _ _ => rfl⟩
        · split at h
          · rename_i k2 hinst
            obtain ⟨pd2, hpd2, hfr2⟩ := install_page_pagedir _ _ _ _ _ _ _ k2 pd hinst hpd
            rw [wrap_of_lt _ (by omega), sub32_of_le _ _ h1.1 (by omega),
              sub32_of_le _ _ h1.2.2 (by omega)] at h
            have hsum : rb - prb + (zb - (PGSIZE PGBITS - prb)) = rb + zb - PGSIZE PGBITS := by
              omega
            obtain ⟨pd1, hpd1, hfr1⟩ := ih _ _ _ _ _ _ pd2 _ _ _ hpd2
              (by
                rw [hsum]
                exact Nat.sub_mod_eq_zero_of_mod_eq (by rw [hmod, Nat.mod_self]))
              (by omega) h
            refine ⟨pd1, hpd1, fun q hq => ?_⟩
            have e : upage + PGSIZE PGBITS + (rb - prb) + (zb - (PGSIZE PGBITS - prb)) =
                upage + rb + zb := by omega
            rw [e] at hfr1
            rw [hfr1 q (by omega), hfr2 q (by omega)]
          · rename_i k2 hinst
            obtain ⟨pd2, hpd2, hfr2⟩ := install_page_pagedir _ _ _ _ _ _ _ k2 pd hinst hpd
            cases h
            exact ⟨pd2, hpd2, fun q hq => hfr2 q (by omega)⟩
          · cases h
          · cases h
          · cases h
    · cases h
      exact ⟨pd, hpd, fun _ _ => rfl⟩

theorem segment_pages_bounds (PGBITS PHYS_BASE : Nat) (phdr : Elf32_Phdr) (file : File)
    (hP : PHYS_BASE + PGSIZE PGBITS ≤ 2 ^ 32) (hal : PHYS_BASE % PGSIZE PGBITS = 0)
    (hlen : file_length file < 2 ^ 32) (hm : phdr.p_memsz < 2 ^ 32)
    (hval : validate_segment PGBITS PHYS_BASE phdr file = true) :
    (segment_args PGBITS phdr).mem_page = phdr.p_vaddr - phdr.p_vaddr % PGSIZE PGBITS ∧
    (segment_args PGBITS phdr).mem_page % PGSIZE PGBITS = 0 ∧
    (segment_args PGBITS phdr).file_page % PGSIZE PGBITS = 0 ∧
    ((segment_args PGBITS phdr).read_bytes + (segment_args PGBITS phdr).zero_bytes) %
      PGSIZE PGBITS = 0 ∧
    0 < (segment_args PGBITS phdr).read_bytes + (segment_args PGBITS phdr).zero_bytes ∧
    phdr.p_vaddr + phdr.p_memsz ≤
      (segment_args PGBITS phdr).mem_page + (segment_args PGBITS phdr).read_bytes +
        (segment_args PGBITS phdr).zero_bytes ∧
    PGSIZE PGBITS ≤ (segment_args PGBITS phdr).mem_page ∧
    (segment_args PGBITS phdr).mem_page + (segment_args PGBITS phdr).read_bytes +
      (segment_args PGBITS phdr).zero_bytes ≤ PHYS_BASE := by
  obtain ⟨hb1, hb2⟩ := validate_segment_bounds PGBITS PHYS_BASE phdr file hval
  rw [wrap_of_lt _ hlen] at hb1
  have hPpos := PGSIZE_pos PGBITS
  have hv : phdr.p_vaddr < 2 ^ 32 := by omega
  obtain ⟨_, _, _, c4, c5, _, c7, _, c9, c10, c11⟩ :=
    segment_args_spec PGBITS PHYS_BASE phdr file hP hlen (by omega) hv hm hval
  obtain ⟨_, _, _, _, _, hend, _, hpg⟩ :=
    (validate_segment_iff PGBITS PHYS_BASE phdr file hlen hv hm).mp hval
  generalize PGSIZE PGBITS = P at *
  have hR1 := round_le (phdr.p_vaddr % P + phdr.p_memsz) P hPpos
  have hR2 := round_lt (phdr.p_vaddr % P + phdr.p_memsz) P
  have hpo : phdr.p_vaddr % P ≤ phdr.p_vaddr := Nat.mod_le _ _
  have hpoP : phdr.p_vaddr % P < P := Nat.mod_lt _ hPpos
  generalize (segment_args PGBITS phdr).mem_page = mp at *
  generalize (segment_args PGBITS phdr).read_bytes = rb at *
  generalize (segment_args PGBITS phdr).zero_bytes = zb at *
  have hsum : (mp + (rb + zb)) % P = 0 := by
    rw [Nat.add_mod, c11, c7]
    simp
  have hmpP : P ≤ mp := by
    apply aligned_le P P mp (Nat.mod_self P) c11
    omega
  have htop : mp + (rb + zb) ≤ PHYS_BASE := by
    apply aligned_le P _ _ hsum hal
    omega
  exact ⟨c9, c11, c10, c7, c5, by omega, hmpP, by omega⟩

/-- C30: for a header with a 32-bit memory size that `validate_segment`
accepts, with a page-aligned `PHYS_BASE` at least one page below `2^32`: the
pages that `load` asks `load_segment` to map start at the virtual address
rounded down to a page and end at that address plus `read_bytes + zero_bytes`,
a whole number of pages that covers the segment; every page of that range lies
below `PHYS_BASE` with all its bytes and none is page 0; and a run of
`load_segment` with these arguments changes the page table at no page outside
the range. -/
theorem load_segment_pages_user (env : Env) (PGBITS PHYS_BASE : Nat) (phdr : Elf32_Phdr)
    (file : File)
    (hP : PHYS_BASE + PGSIZE PGBITS ≤ 2 ^ 32) (hal : PHYS_BASE % PGSIZE PGBITS = 0)
    (hlen : file_length file < 2 ^ 32) (hm : phdr.p_memsz < 2 ^ 32)
    (hval : validate_segment PGBITS PHYS_BASE phdr file = true) :
    (segment_args PGBITS phdr).mem_page = phdr.p_vaddr - phdr.p_vaddr % PGSIZE PGBITS ∧
    ((segment_args PGBITS phdr).read_bytes + (segment_args PGBITS phdr).zero_bytes) %
      PGSIZE PGBITS = 0 ∧
    phdr.p_vaddr + phdr.p_memsz ≤
      (segment_args PGBITS phdr).mem_page + (segment_args PGBITS phdr).read_bytes +
        (segment_args PGBITS phdr).zero_bytes ∧
    (∀ upage, upage % PGSIZE PGBITS = 0 → (segment_args PGBITS phdr).mem_page ≤ upage →
      upage < (segment_args PGBITS phdr).mem_page + (segment_args PGBITS phdr).read_bytes +
        (segment_args PGBITS phdr).zero_bytes →
      upage / PGSIZE PGBITS ≠ 0 ∧ upage + PGSIZE PGBITS ≤ PHYS_BASE ∧
      ∀ x, upage ≤ x → x < upage + PGSIZE PGBITS → is_user_vaddr PHYS_BASE x = true) ∧
    (∀ (k : Kernel) (pd : Nat → Option Bool) (b : Bool) (file1 : File) (k1 : Kernel),
      k.pagedir = some pd →
      load_segment env PGBITS file (segment_args PGBITS phdr).file_page
        (segment_args PGBITS phdr).mem_page (segment_args PGBITS phdr).read_bytes
        (segment_args PGBITS phdr).zero_bytes (segment_args PGBITS phdr).writable k =
          .done (b, file1, k1) →
      ∃ pd1, k1.pagedir = some pd1 ∧
        ∀ q, (q < (segment_args PGBITS phdr).mem_page / PGSIZE PGBITS ∨
            ((segment_args PGBITS phdr).mem_page + (segment_args PGBITS phdr).read_bytes +
              (segment_args PGBITS phdr).zero_bytes) / PGSIZE PGBITS ≤ q) →
          pd1 q = pd q) := by
  obtain ⟨c1, c2, c3, c4, c5, c6, c7, c8⟩ :=
    segment_pages_bounds PGBITS PHYS_BASE phdr file hP hal hlen hm hval
  have hPpos := PGSIZE_pos PGBITS
  refine ⟨c1, c4, c6, ?_, ?_⟩
  · intro upage hup hlo hhi
    have htop : upage + PGSIZE PGBITS ≤ (segment_args PGBITS phdr).mem_page +
        (segment_args PGBITS phdr).read_bytes + (segment_args PGBITS phdr).zero_bytes := by
      apply aligned_le (PGSIZE PGBITS)
      · rw [Nat.add_mod, hup, Nat.mod_self]
        rfl
      · rw [Nat.add_assoc, Nat.add_mod, c2, c4]
        rfl
      · omega
    refine ⟨?_, by omega, ?_⟩
    · intro h0
      rw [Nat.div_eq_zero_iff hPpos] at h0
      omega
    · intro x _ hx
      unfold is_user_vaddr
      exact decide_eq_true (by omega)
  · intro k pd b file1 k1 hpd hrun
    rw [load_segment_asserts env PGBITS file _ _ _ _ _ k (by omega) c4 c2 c3] at hrun
    exact load_segment_loop_frame env PGBITS _ _ _ _ _ _ _ pd _ _ _ hpd c4 (by omega) hrun

theorem load_segment_pages_user_witness :
    (segment_args 12 samplePhdrLoad).mem_page =
      samplePhdrLoad.p_vaddr - samplePhdrLoad.p_vaddr % PGSIZE 12 ∧
    ((segment_args 12 samplePhdrLoad).read_bytes + (segment_args 12 samplePhdrLoad).zero_bytes) %
      PGSIZE 12 = 0 ∧
    samplePhdrLoad.p_vaddr + samplePhdrLoad.p_memsz ≤
      (segment_args 12 samplePhdrLoad).mem_page + (segment_args 12 samplePhdrLoad).read_bytes +
        (segment_args 12 samplePhdrLoad).zero_bytes ∧
    (∀ upage, upage % PGSIZE 12 = 0 → (segment_args 12 samplePhdrLoad).mem_page ≤ upage →
      upage < (segment_args 12 samplePhdrLoad).mem_page +
        (segment_args 12 samplePhdrLoad).read_bytes +
        (segment_args 12 samplePhdrLoad).zero_bytes →
      upage / PGSIZE 12 ≠ 0 ∧ upage + PGSIZE 12 ≤ 3221225472 ∧
      ∀ x, upage ≤ x → x < upage + PGSIZE 12 → is_user_vaddr 3221225472 x = true) ∧
    (∀ (k : Kernel) (pd : Nat → Option Bool) (b : Bool) (file1 : File) (k1 : Kernel),
      k.pagedir = some pd →
      load_segment (sampleEnv []) 12 { data := sampleEhdr 2 52 0, pos := 0, deny_write := true }
        (segment_args 12 samplePhdrLoad).file_page
        (segment_args 12 samplePhdrLoad).mem_page (segment_args 12 samplePhdrLoad).read_bytes
        (segment_args 12 samplePhdrLoad).zero_bytes (segment_args 12 samplePhdrLoad).writable k =
          .done (b, file1, k1) →
      ∃ pd1, k1.pagedir = some pd1 ∧
        ∀ q, (q < (segment_args 12 samplePhdrLoad).mem_page / PGSIZE 12 ∨
            ((segment_args 12 samplePhdrLoad).mem_page +
              (segment_args 12 samplePhdrLoad).read_bytes +
              (segment_args 12 samplePhdrLoad).zero_bytes) / PGSIZE 12 ≤ q) →
          pd1 q = pd q) :=
  load_segment_pages_user (sampleEnv []) 12 3221225472 samplePhdrLoad
    { data := sampleEhdr 2 52 0, pos := 0, deny_write := true }
    (by decide) (by decide) (by decide) (by decide) (by decide)

end Pintos
